import Mathlib

/-!
# Bowtie phase orchestrator (`ebwt_search.cpp`)

A shallow embedding of the search drivers of `ebwt_search.cpp`: the seed
arithmetic, the revisitability thresholds handed to the backtrackers, and the
per-read bodies of the phases of the four search variants.

Machine integers are natural numbers with explicit wrap-around (`u32`).
-/

namespace Bowtie

/-! ## 32-bit arithmetic and the seed halves -/

/-- Conversion of a value to `uint32_t`. -/
def u32 (n : Nat) : Nat := n % 2 ^ 32

/-- Conversion of an `int` to `uint32_t` (`uint32_t s = seedLen`). -/
def u32OfInt (i : Int) : Nat := (i % 2 ^ 32).toNat

/-- The `uint32_t s3 = s >> 1` of the source ("length of 3' half of seed"). -/
def s3Of (s : Nat) : Nat := u32 (s >>> 1)

/-- The `uint32_t s5 = (s >> 1) + (s & 1)` of the source ("length of 5' half
of seed"). -/
def s5Of (s : Nat) : Nat := u32 ((s >>> 1) + (s &&& 1))

/-- The `min<uint32_t>(plen, s)` of the source: both arguments are converted to
`uint32_t` first. -/
def minU32 (plen s : Nat) : Nat := min (u32 plen) (u32 s)

/-! ## Revisitability thresholds -/

/-- The six arguments of `BacktrackManager::setOffs` (and of the matching
constructor arguments): `5depth`, `3depth`, `unrevOff`, `1revOff`, `2revOff`,
`3revOff`. -/
structure Offs where
  depth5 : Nat
  depth3 : Nat
  unrevOff : Nat
  oneRevOff : Nat
  twoRevOff : Nat
  threeRevOff : Nat
deriving DecidableEq

/-- The thresholds every backtracker of the 2/3-mismatch search is constructed
with: all zero. -/
def zeroOffs : Offs := ⟨0, 0, 0, 0, 0, 0⟩

/-- The quadruple is monotone. -/
def Offs.Monotone (o : Offs) : Prop :=
  o.unrevOff ≤ o.oneRevOff ∧ o.oneRevOff ≤ o.twoRevOff ∧ o.twoRevOff ≤ o.threeRevOff

instance (o : Offs) : Decidable o.Monotone := by
  unfold Offs.Monotone; exact inferInstance

/-! ### 2/3-mismatch search (`twoOrThreeMismatchSearch`) -/

/-- Phase 1, reverse complement on the forward index:
`btr.setOffs(0, 0, s5, s5, two ? s : s5, s)` with `s = plen`. -/
def ttPhase1RcOffs (two : Bool) (plen : Nat) : Offs :=
  let s := u32 plen
  let s5 := s5Of s
  ⟨0, 0, s5, s5, if two then s else s5, s⟩

/-- Phase 2, forward read on the mirror index:
`bt.setOffs(0, 0, s5, s5, two? s : s5, s)`. -/
def ttPhase2FwOffs (two : Bool) (plen : Nat) : Offs :=
  let s := u32 plen
  let s5 := s5Of s
  ⟨0, 0, s5, s5, if two then s else s5, s⟩

/-- Phase 2, reverse complement on the mirror index:
`bt.setOffs(0, 0, s3, s3, two? s : s3, s)`. -/
def ttPhase2RcOffs (two : Bool) (plen : Nat) : Offs :=
  let s := u32 plen
  let s3 := s3Of s
  ⟨0, 0, s3, s3, if two then s else s3, s⟩

/-- Phase 3, forward read on the forward index:
`bt.setOffs(0, 0, s3, s3, two? s : s3, s)`. -/
def ttPhase3FwOffs (two : Bool) (plen : Nat) : Offs :=
  let s := u32 plen
  let s3 := s3Of s
  ⟨0, 0, s3, s3, if two then s else s3, s⟩

/-- Phase 3, half-and-half on the forward read:
`bthh.setOffs(s3, s, 0, two ? s3 : 0, two ? s : s3, s)`. -/
def ttPhase3HhFwOffs (two : Bool) (plen : Nat) : Offs :=
  let s := u32 plen
  let s3 := s3Of s
  ⟨s3, s, 0, if two then s3 else 0, if two then s else s3, s⟩

/-- Phase 3, half-and-half on the reverse complement:
`bthh.setOffs(s5, s, 0, two ? s5 : 0, two ? s : s5, s)`. -/
def ttPhase3HhRcOffs (two : Bool) (plen : Nat) : Offs :=
  let s := u32 plen
  let s5 := s5Of s
  ⟨s5, s, 0, if two then s5 else 0, if two then s else s5, s⟩

/-- The thresholds of the `ASSERT_NO_HITS_FW` / `ASSERT_NO_HITS_RC` macros, as a
function of the `seedMms` and `s` in scope where the macro is expanded. -/
def assertNoHitsOffs (seedMms : Int) (s : Nat) : Offs :=
  let threeRevOff := if seedMms ≤ 3 then s else 0
  let twoRevOff := if seedMms ≤ 2 then s else 0
  let oneRevOff := if seedMms ≤ 1 then s else 0
  let unrevOff := if seedMms = 0 then s else 0
  ⟨0, 0, unrevOff, oneRevOff, twoRevOff, threeRevOff⟩

/-- The dummy `seedMms` of the 2/3-mismatch search: `two ? 2 : 3`. -/
def ttSeedMms (two : Bool) : Int := if two then 2 else 3

/-! ### Seeded search (`seededQualCutoffSearch`) -/

/-- Thresholds of a seeded backtracker whose mismatches go behind the 5' half:
`((seedMms > 0)? s5 : s, (seedMms > 1)? s5 : s, (seedMms > 2)? s5 : s,
(seedMms > 3)? s5 : s)`, evaluated at a seed length `s` (the constructor
arguments) or at `qs` (the override for a short read). -/
def seedOffs5 (seedMms : Int) (s : Nat) : Offs :=
  let s5 := s5Of s
  ⟨0, 0, if seedMms > 0 then s5 else s, if seedMms > 1 then s5 else s,
    if seedMms > 2 then s5 else s, if seedMms > 3 then s5 else s⟩

/-- Thresholds of a seeded backtracker that collects seedlings:
`(s3, (seedMms > 1)? s3 : s, (seedMms > 2)? s3 : s, (seedMms > 3)? s3 : s)`. -/
def seedOffs3 (seedMms : Int) (s : Nat) : Offs :=
  let s3 := s3Of s
  ⟨0, 0, s3, if seedMms > 1 then s3 else s, if seedMms > 2 then s3 else s,
    if seedMms > 3 then s3 else s⟩

/-- Thresholds of a seeded backtracker that extends seedlings, and of the
phase-1 exact search (`setOffs(0, 0, plen, plen, plen, plen)`): `(s, s, s, s)`. -/
def seedOffsFull (s : Nat) : Offs := ⟨0, 0, s, s, s, s⟩

/-- Thresholds of the seeded half-and-half backtrackers:
`(s5, s, 0, (seedMms <= 2)? s5 : 0, (seedMms < 3)? s : s5, s)`. -/
def seedOffsHh (seedMms : Int) (s : Nat) : Offs :=
  let s5 := s5Of s
  ⟨s5, s, 0, if seedMms ≤ 2 then s5 else 0, if seedMms < 3 then s else s5, s⟩

/-- The thresholds in force during a search of a read of length `plen` by a
backtracker constructed with `f s`: the code overrides them with `f qs` when
`qs = min<uint32_t>(plen, s)` is below `s`. -/
def effOffs (f : Nat → Offs) (s plen : Nat) : Offs :=
  let qs := minU32 plen s
  if qs < s then f qs else f s

/-! ## Reads, hits, the hit sink and the index searches -/

/-- A read as the pattern source serves it: id, forward and reverse-complement
bases (`Dna5`: 0..3 are A, C, G, T and 4 is N) and their qualities. -/
structure Read where
  patid : Nat
  patFw : List Nat
  patRc : List Nat
  qualFw : List Nat
  qualRc : List Nat
deriving DecidableEq

/-- What a search finds: reference id, offset and mismatch positions. -/
structure Alignment where
  refId : Nat
  refOff : Nat
  mms : List Nat
deriving DecidableEq

/-- A reported hit: the alignment stamped with the read id and strand held in the
search parameters. -/
structure Hit where
  refId : Nat
  refOff : Nat
  patId : Nat
  fw : Bool
  mms : List Nat
deriving DecidableEq

/-- A partial alignment (seedling) entry. -/
structure PartialAlignment where
  pos0 : Nat
  char0 : Nat
  pos1 : Nat
  char1 : Nat
  pos2 : Nat
  char2 : Nat
deriving DecidableEq

/-- The configuration of one `BacktrackManager`, in constructor order: the
index it searches, the thresholds, `qualThresh`, `maxBts`, `reportSeedlings`,
whether a seedling store is attached, `oneHit`, the seed, `considerQuals`,
`halfAndHalf`; `qlen` is what `setQlen` last set. -/
structure Backtracker where
  ebwtFw : Bool
  offs : Offs
  qualThresh : Int
  maxBts : Int
  reportSeedlings : Int
  hasSeedlings : Bool
  oneHit : Bool
  seed : Int
  considerQuals : Bool
  halfAndHalf : Bool
  qlen : Option Nat
deriving DecidableEq

/-- Set the thresholds: `BacktrackManager::setOffs`. -/
def Backtracker.setOffs (b : Backtracker) (o : Offs) : Backtracker := { b with offs := o }

/-- Restrict the search to the seed: `BacktrackManager::setQlen`. -/
def Backtracker.setQlen (b : Backtracker) (n : Nat) : Backtracker := { b with qlen := some n }

/-- The three kinds of index search the drivers call. -/
inductive SearchKind
  /-- `Ebwt::search`: exact end-to-end search; `oneHit` is the multi-hit policy
  held in the parameters. -/
  | exact (oneHit : Bool)
  /-- `Ebwt::search1MismatchOrBetter(s, params, allowExact, provisional)`. -/
  | oneMismatch (oneHit allowExact provisional : Bool)
  /-- `BacktrackManager::backtrack(iham)` with the manager's configuration and
  the mutations set by `setMuts`. -/
  | backtrack (bt : Backtracker) (muts : Option PartialAlignment)
deriving DecidableEq

/-- One index search as the driver issues it: kind, index searched, read id and
strand flag held in the parameters, and the query (with its qualities) handed to
the search; `queryFw` records whether that query is the forward read. -/
structure SearchCall where
  kind : SearchKind
  ebwtFw : Bool
  patid : Nat
  fw : Bool
  queryFw : Bool
  query : List Nat
  quals : List Nat
deriving DecidableEq

/-- What one search reports: hits, provisional hits, seedlings. -/
structure SearchResult where
  hits : List Alignment
  prov : List Alignment
  seedlings : List PartialAlignment

/-- The index searches (`ebwt.h` and the backtracker are not part of this
file): the driver is parametrised by what each search reports. -/
abbrev Oracle := SearchCall → SearchResult

/-- The per-thread hit sink: reported hits, provisional hits and the hit
counter `numHits()`. -/
structure Sink where
  hits : List Hit
  prov : List Hit
  numHits : Nat

/-- Modelled from the spec: `HitSinkPerThread::rejectProvisionalHits` (hit.h),
which drops the provisional hits. -/
def Sink.rejectProvisionalHits (s : Sink) : Sink := { s with prov := [] }

/-- Modelled from the spec: `HitSinkPerThread::acceptProvisionalHits` (hit.h),
which reports the provisional hits. -/
def Sink.acceptProvisionalHits (s : Sink) : Sink :=
  { hits := s.hits ++ s.prov, prov := [], numHits := s.numHits + s.prov.length }

/-- The process-wide flags the drivers read. -/
structure Config where
  oneHit : Bool
  revcomp : Bool
  qUpto : Nat
  qSameLen : Bool
  nsToNs : Bool
  maxBts : Int
  seed : Int
  verbose : Bool

/-- The state the drivers thread through their read loops. -/
structure St where
  /-- the hit sink -/
  sink : Sink
  /-- `params.patId`, `params.fw`, `params.ebwtFw` -/
  patId : Nat
  fw : Bool
  ebwtFw : Bool
  /-- the completion bitmap -/
  doneMask : List Bool
  /-- the `lastHits` and `lastLen` locals of the workers -/
  lastHits : Nat
  lastLen : Nat
  /-- the backtrackers of the current phase -/
  btf : Backtracker
  btr : Backtracker
  bt : Backtracker
  hh : Backtracker
  /-- the seedling stores, `NULL` when `none` -/
  pamRc : Option (List (Nat × PartialAlignment))
  pamFw : Option (List (Nat × PartialAlignment))
  /-- which indexes are resident, and whether the source reverses reads -/
  fwInMemory : Bool
  bwInMemory : Bool
  reverse : Bool
  /-- every index search issued so far, in order -/
  trace : List SearchCall
  /-- set when the process has exited with an error -/
  exited : Bool

/-- Stamp an alignment with the read id and strand of the parameters. -/
def St.stamp (st : St) (a : Alignment) : Hit := ⟨a.refId, a.refOff, st.patId, st.fw, a.mms⟩

/-- Which seedling store a backtracker writes to. -/
inductive Pam
  | none
  | rc
  | fw
deriving DecidableEq

/-- Append seedlings of read `patid` to a store (`NULL` stores nothing). -/
def pamAdd (pam : Option (List (Nat × PartialAlignment))) (patid : Nat)
    (ps : List PartialAlignment) : Option (List (Nat × PartialAlignment)) :=
  pam.map (fun l => l ++ ps.map (fun p => (patid, p)))

/-- The seedlings of read `patid`: `PartialAlignmentManager::getPartials`. -/
def getPartials (pam : Option (List (Nat × PartialAlignment))) (patid : Nat) :
    List PartialAlignment :=
  match pam with
  | none => []
  | some l => (l.filter (fun e => e.1 = patid)).map Prod.snd

/-- The search call the driver issues in state `st` for a query. -/
def St.call (st : St) (kind : SearchKind) (ebwtFw queryFw : Bool) (query quals : List Nat) :
    SearchCall :=
  ⟨kind, ebwtFw, st.patId, st.fw, queryFw, query, quals⟩

/-- Run one index search: the call is logged, its hits go to the sink stamped
with the parameters' read id and strand, its provisional hits are kept only by a
search whose inexact hits are provisional, and its seedlings go to the store the
backtracker was given. -/
def St.search (orc : Oracle) (c : SearchCall) (provisional : Bool) (pam : Pam) (st : St) : St :=
  let res := orc c
  { st with
    trace := st.trace ++ [c]
    sink :=
      { hits := st.sink.hits ++ res.hits.map st.stamp
        prov := if provisional then st.sink.prov ++ res.prov.map st.stamp else st.sink.prov
        numHits := st.sink.numHits + res.hits.length }
    pamRc := if pam = Pam.rc then pamAdd st.pamRc st.patId res.seedlings else st.pamRc
    pamFw := if pam = Pam.fw then pamAdd st.pamFw st.patId res.seedlings else st.pamFw }

/-- Modelled from the spec: the pattern source (pat.h) serves the read reversed
when `setReverse(true)` was called. -/
def presentRead (reverse : Bool) (r : Read) : Read :=
  if reverse then
    ⟨r.patid, r.patFw.reverse, r.patRc.reverse, r.qualFw.reverse, r.qualRc.reverse⟩
  else r

/-- The sink's counter `numHits()`. -/
def St.numHits (st : St) : Nat := st.sink.numHits

/-- The sink's `numProvisionalHits()`. -/
def St.numProvisionalHits (st : St) : Nat := st.sink.prov.length

/-- The `params.setPatId(patid)` and `lastLen` bookkeeping of `GET_READ`. -/
def St.getRead (st : St) (rd : Read) : St :=
  { st with
    patId := rd.patid
    lastLen := if st.lastLen = 0 then u32 rd.patFw.length else st.lastLen }

/-- The `params.setFw(fw)` of the source. -/
def St.setFw (st : St) (b : Bool) : St := { st with fw := b }

/-- The `params.setEbwtFw(b)` of the source. -/
def St.setEbwtFw (st : St) (b : Bool) : St := { st with ebwtFw := b }

/-- The `lastHits = sink.numHits()` of the workers. -/
def St.syncLastHits (st : St) : St := { st with lastHits := st.sink.numHits }

/-- The `exit(1)` of the source (and the exception of `GET_READ`). -/
def St.exit (st : St) : St := { st with exited := true }

/-- The `sink.rejectProvisionalHits()` of the source. -/
def St.rejectProvisionalHits (st : St) : St := { st with sink := st.sink.rejectProvisionalHits }

/-- The `sink.acceptProvisionalHits()` of the source. -/
def St.acceptProvisionalHits (st : St) : St := { st with sink := st.sink.acceptProvisionalHits }

/-- The `btf.setOffs(...)`, `btr.setOffs(...)`, `bt.setOffs(...)` and
half-and-half `setOffs(...)` calls of the source. -/
def St.setOffsBtf (st : St) (o : Offs) : St := { st with btf := st.btf.setOffs o }

/-- See `St.setOffsBtf`. -/
def St.setOffsBtr (st : St) (o : Offs) : St := { st with btr := st.btr.setOffs o }

/-- See `St.setOffsBtf`. -/
def St.setOffsBt (st : St) (o : Offs) : St := { st with bt := st.bt.setOffs o }

/-- See `St.setOffsBtf`. -/
def St.setOffsHh (st : St) (o : Offs) : St := { st with hh := st.hh.setOffs o }

/-- The `btf.setQlen(n)` and `btr.setQlen(n)` calls of the source. -/
def St.setQlenBtf (st : St) (n : Nat) : St := { st with btf := st.btf.setQlen n }

/-- See `St.setQlenBtf`. -/
def St.setQlenBtr (st : St) (n : Nat) : St := { st with btr := st.btr.setQlen n }

/-- The `GET_READ` macro followed by a loop body, over the reads the source
still has: the loop ends when the source is empty or serves a read with
`patid >= qUpto`; otherwise `params.setPatId(patid)`, the `lastLen`
bookkeeping (a read of another length is an error when `qSameLen` is set), and
the body.  A process that has exited runs nothing more. -/
def readLoop (cfg : Config) (body : St → Read → St) : List Read → St → St
  | [], st => st
  | r :: rs, st =>
    if st.exited then st
    else if r.patid ≥ cfg.qUpto then st
    else
      let rd := presentRead st.reverse r
      let st1 := st.getRead rd
      if cfg.qSameLen ∧ rd.patFw.length ≠ st1.lastLen then st1.exit
      else readLoop cfg body rs (body st1 rd)

/-! ### The completion bitmap -/

/-- Reading `doneMask[patid]` (a bit never set reads as false). -/
def testDone (m : List Bool) (patid : Nat) : Bool := m.getD patid false

/-- The write `doneMask[patid] = true` on the `vector<bool>`. -/
def setDone (m : List Bool) (patid : Nat) : List Bool := m.set patid true

/-- The growth step `doneMask.resize(doneMask.size()*2, false)`. -/
def growDone (m : List Bool) : List Bool := m ++ List.replicate (m.length * 2 - m.length) false

/-- The guarded growth step of phase 1: `if(patid >= doneMask.size())` the mask
is doubled once. -/
def expandDone (m : List Bool) (patid : Nat) : List Bool :=
  if patid ≥ m.length then growDone m else m

/-- Modelled from the spec: `SyncBitset::set` (bitset.h), which first grows the
bit-set by doubling when `patid` is past its end. -/
def syncSet (m : List Bool) (patid : Nat) : List Bool :=
  (if patid < m.length then m
    else m ++ List.replicate (max (m.length * 2) (patid + 1) - m.length) false).set patid true

/-- The `doneMask[patid] = true` of the 2/3-mismatch and seeded searches. -/
def St.markDone (st : St) (patid : Nat) : St :=
  { st with doneMask := setDone st.doneMask patid }

/-- The `doneMask.set(patid)` of the 1-mismatch search. -/
def St.syncMarkDone (st : St) (patid : Nat) : St := { st with doneMask := syncSet st.doneMask patid }

/-- The "expand doneMask if necessary" block of phase 1. -/
def St.expand (st : St) (patid : Nat) : St :=
  { st with doneMask := expandDone st.doneMask patid }

/-- The initial capacity of the completion bitmap:
`(qUpto == 0xffffffff) ? 16 * 1024 * 1024 : qUpto`. -/
def numQs (qUpto : Nat) : Nat := if qUpto = 0xffffffff then 16 * 1024 * 1024 else qUpto

/-- The allocation of the completion bitmap at the start of a driver. -/
def St.allocDone (st : St) (n : Nat) : St := { st with doneMask := List.replicate n false }

/-! ### Backtracker runs -/

/-- One `backtrack()` call of backtracker `b` on a query, with the mutations
`setMuts` set. -/
def St.backtrack (orc : Oracle) (b : Backtracker) (muts : Option PartialAlignment)
    (queryFw : Bool) (query quals : List Nat) (pam : Pam) (st : St) : St :=
  st.search orc (st.call (SearchKind.backtrack b muts) b.ebwtFw queryFw query quals) false pam

/-- The value `hit` a `backtrack()` call returned, and the test
`sink.numHits() > numHits`: the sink's hit counter grew between `st` and `st1`.
For `backtrack()` this is what the assertions after every call in the source
state (`assert(hit || numHits == sink.numHits())`,
`assert(!hit || numHits < sink.numHits())`). -/
def hitSince (st st1 : St) : Bool := decide (st1.sink.numHits > st.sink.numHits)

/-- A backtracker nobody uses (placeholder for the phases that have fewer than
four). -/
def idleBacktracker : Backtracker :=
  ⟨true, zeroOffs, 0, 0, 0, false, true, 0, false, false, none⟩

/-- The state at process start: nothing reported, nothing resident. -/
def initSt : St :=
  { sink := ⟨[], [], 0⟩, patId := 0, fw := true, ebwtFw := true, doneMask := [],
    lastHits := 0, lastLen := 0, btf := idleBacktracker, btr := idleBacktracker,
    bt := idleBacktracker, hh := idleBacktracker, pamRc := none, pamFw := none,
    fwInMemory := false, bwInMemory := false, reverse := false, trace := [],
    exited := false }

/-- A worker starts: a fresh per-thread sink in front of the shared output (its
counter and provisional list start empty) and fresh `lastHits`, `lastLen`. -/
def St.newWorker (st : St) : St :=
  { st with sink := ⟨st.sink.hits, [], 0⟩, lastHits := 0, lastLen := 0 }

/-- The `SWITCH_TO_FW_INDEX()` macro. -/
def St.switchToFwIndex (st : St) : St :=
  { st with bwInMemory := false, fwInMemory := true, reverse := false }

/-- The `SWITCH_TO_BW_INDEX()` macro. -/
def St.switchToBwIndex (st : St) : St :=
  { st with fwInMemory := false, bwInMemory := true, reverse := true }

/-- The `_patsrc.setReverse(b)` of the source. -/
def St.setReverse (st : St) (b : Bool) : St := { st with reverse := b }

/-- Construction of the backtrackers of a phase. -/
def St.setBacktrackers (st : St) (btf btr bt hh : Backtracker) : St :=
  { st with btf := btf, btr := btr, bt := bt, hh := hh }

/-- Allocation (`some []`) or deletion (`none`) of the seedling stores. -/
def St.setPamRc (st : St) (p : Option (List (Nat × PartialAlignment))) : St :=
  { st with pamRc := p }

/-- See `St.setPamRc`. -/
def St.setPamFw (st : St) (p : Option (List (Nat × PartialAlignment))) : St :=
  { st with pamFw := p }

/-- Sequencing of driver steps: a process that has exited runs nothing more. -/
def St.andThen (st : St) (f : St → St) : St := if st.exited then st else f st

/-! ## Exact search (`exactSearchWorker`) -/

/-- The body of the read loop of `exactSearchWorker` (its repeated
`patid >= qUpto` test cannot fire after `GET_READ`). -/
def exactSearchBody (cfg : Config) (orc : Oracle) (st : St) (r : Read) : St :=
  -- Process forward-oriented read
  let st1 := st.search orc (st.call (SearchKind.exact cfg.oneHit) true true r.patFw r.qualFw)
    false Pam.none
  let hitFw := decide (st1.numHits > st1.lastHits)
  let st2 := if hitFw then st1.syncLastHits else st1
  if hitFw ∧ cfg.oneHit then st2
  else if ¬ cfg.revcomp then st2
  else
    -- Process reverse-complement read
    let st3 := st2.setFw false
    let st4 := st3.search orc (st3.call (SearchKind.exact cfg.oneHit) true false r.patRc r.qualRc)
      false Pam.none
    (st4.syncLastHits).setFw true

/-- Entry of the worker of `exactSearch`: a fresh per-thread sink and the
parameters "read is forward, index is forward". -/
def exactSearchInit (st : St) : St := ((st.newWorker).setFw true).setEbwtFw true

/-- The driver `exactSearch` with one worker. -/
def exactSearch (cfg : Config) (orc : Oracle) (reads : List Read) (st : St) : St :=
  readLoop cfg (exactSearchBody cfg orc) reads (exactSearchInit st)

/-! ## 1-mismatch search (`mismatchSearch`) -/

/-- The forward step of the phase-1 body when the reverse complement left a
provisional hit: exact search of the forward read, then the provisional hits
are rejected or accepted. -/
def mismatchSearchPhase1Exact (cfg : Config) (orc : Oracle) (st3 : St) (r : Read) : St :=
  let st4 := st3.search orc
    (st3.call (SearchKind.exact cfg.oneHit) true true r.patFw r.qualFw) false Pam.none
  let st5 :=
    if st4.numHits > st4.lastHits then st4.rejectProvisionalHits
    else st4.acceptProvisionalHits
  if st5.numHits > st5.lastHits then
    if cfg.oneHit then (st5.syncLastHits).syncMarkDone r.patid else st5.syncLastHits
  else st5

/-- The forward step of the phase-1 body when there is no provisional hit:
1-mismatch search of the forward read, nothing provisional. -/
def mismatchSearchPhase1Inexact (cfg : Config) (orc : Oracle) (st3 : St) (r : Read) : St :=
  let st4 := st3.search orc
    (st3.call (SearchKind.oneMismatch cfg.oneHit true false) true true r.patFw r.qualFw)
    false Pam.none
  let hit2 := decide (st4.numHits > st4.lastHits)
  let st5 := if hit2 then st4.syncLastHits else st4
  if cfg.oneHit ∧ hit2 then st5.syncMarkDone r.patid else st5

/-- The body of the read loop of `mismatchSearchWorkerPhase1`. -/
def mismatchSearchPhase1Body (cfg : Config) (orc : Oracle) (st : St) (r : Read) : St :=
  if r.patFw.length < 2 then st.exit
  else
    -- search the reverse complement; inexact hits are provisional
    let st1 := st.search orc
      (st.call (SearchKind.oneMismatch cfg.oneHit true true) true false r.patRc r.qualRc)
      true Pam.none
    let hit := decide (st1.numHits > st1.lastHits)
    let st2 := if hit then st1.syncLastHits else st1
    if cfg.oneHit ∧ hit then st2.syncMarkDone r.patid
    else
      let st3 := st2.setFw true
      if st3.numProvisionalHits > 0 then (mismatchSearchPhase1Exact cfg orc st3 r).setFw false
      else (mismatchSearchPhase1Inexact cfg orc st3 r).setFw false

/-- The body of the read loop of `mismatchSearchWorkerPhase2`. -/
def mismatchSearchPhase2Body (cfg : Config) (orc : Oracle) (st : St) (r : Read) : St :=
  if testDone st.doneMask r.patid then st
  else
    let st1 := st.search orc
      (st.call (SearchKind.oneMismatch cfg.oneHit false false) false true r.patFw r.qualFw)
      false Pam.none
    if cfg.oneHit ∧ cfg.revcomp ∧ st1.numHits > st1.lastHits then st1.syncLastHits
    else if ¬ cfg.revcomp then st1
    else
      let st2 := st1.setFw false
      let st3 := st2.search orc
        (st2.call (SearchKind.oneMismatch cfg.oneHit false false) false false r.patRc r.qualRc)
        false Pam.none
      (st3.setFw true).syncLastHits

/-- Entry of phase 1 of `mismatchSearch` with one worker, from the start of the
driver: the bitmap is allocated with `numQs` bits, the source does not reverse,
and the worker starts with the parameters "read is not forward, index is
forward". -/
def mismatchSearchPhase1Init (cfg : Config) (st : St) : St :=
  ((((st.allocDone (numQs cfg.qUpto)).setReverse false).newWorker).setFw false).setEbwtFw true

/-- Entry of phase 2 of `mismatchSearch` with one worker: the source is rewound
and told to reverse, the mirror index replaces the forward index, and the
worker starts with the parameters "read is forward, index is mirror". -/
def mismatchSearchPhase2Init (st : St) : St :=
  (((st.switchToBwIndex).newWorker).setFw true).setEbwtFw false

/-- Phase 1 of `mismatchSearch`. -/
def mismatchSearchPhase1 (cfg : Config) (orc : Oracle) (reads : List Read) (st : St) : St :=
  readLoop cfg (mismatchSearchPhase1Body cfg orc) reads (mismatchSearchPhase1Init cfg st)

/-- Phase 2 of `mismatchSearch`. -/
def mismatchSearchPhase2 (cfg : Config) (orc : Oracle) (reads : List Read) (st : St) : St :=
  readLoop cfg (mismatchSearchPhase2Body cfg orc) reads (mismatchSearchPhase2Init st)

/-- The driver `mismatchSearch`. -/
def mismatchSearch (cfg : Config) (orc : Oracle) (reads : List Read) (st : St) : St :=
  (mismatchSearchPhase1 cfg orc reads st).andThen (mismatchSearchPhase2 cfg orc reads)

/-! ## 2/3-mismatch search (`twoOrThreeMismatchSearch`) -/

/-- A backtracker of the 2/3-mismatch search: thresholds all zero,
`qualThresh = 0xffffffff`, no seedlings, `oneHit` hard-wired to `true`,
`considerQuals = false`. -/
def ttBacktracker (cfg : Config) (ebwtFw : Bool) (seed : Int) (halfAndHalf : Bool) :
    Backtracker :=
  ⟨ebwtFw, zeroOffs, 0xffffffff, cfg.maxBts, 0, false, true, seed, false, halfAndHalf, none⟩

/-- The body of the phase-1 read loop of `twoOrThreeMismatchSearch`. -/
def twoOrThreePhase1Body (cfg : Config) (two : Bool) (orc : Oracle) (st : St) (r : Read) : St :=
  -- Expand doneMask if necessary
  let st0 := st.expand r.patid
  let plen := r.patFw.length
  if plen < 3 ∧ two then st0.exit
  else if plen < 4 then st0.exit
  else
    -- exact-match search on the forward pattern
    let st1 := st0.search orc (st0.call (SearchKind.exact cfg.oneHit) true true r.patFw r.qualFw)
      false Pam.none
    if hitSince st0 st1 then st1.markDone r.patid
    else
      -- Set up backtracker with reverse complement
      let st3 := (st1.setFw false).setOffsBtr (ttPhase1RcOffs two plen)
      let st4 := st3.backtrack orc st3.btr none false r.patRc r.qualRc Pam.none
      if hitSince st3 st4 then (st4.markDone r.patid).setFw true else st4.setFw true

/-- The body of the phase-2 read loop of `twoOrThreeMismatchSearch`. -/
def twoOrThreePhase2Body (two : Bool) (orc : Oracle) (st : St) (r : Read) : St :=
  if testDone st.doneMask r.patid then st
  else
    let plen := r.patFw.length
    let st1 := st.setOffsBt (ttPhase2FwOffs two plen)
    let st2 := st1.backtrack orc st1.bt none true r.patFw r.qualFw Pam.none
    if hitSince st1 st2 then st2.markDone r.patid
    else
      -- the reverse complement read
      let st4 := (st2.setFw false).setOffsBt (ttPhase2RcOffs two plen)
      let st5 := st4.backtrack orc st4.bt none false r.patRc r.qualRc Pam.none
      if hitSince st4 st5 then (st5.markDone r.patid).setFw true else st5.setFw true

/-- The body of the phase-3 read loop of `twoOrThreeMismatchSearch`. -/
def twoOrThreePhase3Body (two : Bool) (orc : Oracle) (st : St) (r : Read) : St :=
  if testDone st.doneMask r.patid then st
  else
    let plen := u32 r.patFw.length
    let st1 := st.setOffsBt (ttPhase3FwOffs two plen)
    let st2 := st1.backtrack orc st1.bt none true r.patFw r.qualFw Pam.none
    if hitSince st1 st2 then st2
    else
      -- Try a half-and-half on the forward read
      let st3 := st2.setOffsHh (ttPhase3HhFwOffs two plen)
      let st4 := st3.backtrack orc st3.hh none true r.patFw r.qualFw Pam.none
      if hitSince st3 st4 then st4
      else
        -- Try a half-and-half on the reverse complement read
        let st6 := (st4.setFw false).setOffsHh (ttPhase3HhRcOffs two plen)
        (st6.backtrack orc st6.hh none false r.patRc r.qualRc Pam.none).setFw true

/-- Entry of phase 1 of `twoOrThreeMismatchSearch`, from the start of the
function: the bitmap is allocated, the sink and the parameters ("read is
forward, index is forward") are created, and `btr` is constructed over the
forward index. -/
def twoOrThreePhase1Init (cfg : Config) (st : St) : St :=
  let st1 := (((st.allocDone (numQs cfg.qUpto)).newWorker).setFw true).setEbwtFw true
  st1.setBacktrackers st1.btf (ttBacktracker cfg true cfg.seed false) st1.bt st1.hh

/-- Entry of phase 2 of `twoOrThreeMismatchSearch`: switch to the mirror index,
construct `bt` over it, `params.setFw(true)`. -/
def twoOrThreePhase2Init (cfg : Config) (st : St) : St :=
  let st0 := (st.switchToBwIndex).setEbwtFw false
  (st0.setBacktrackers st0.btf st0.btr (ttBacktracker cfg false (cfg.seed + 1) false)
    st0.hh).setFw true

/-- Entry of phase 3 of `twoOrThreeMismatchSearch`: switch to the forward index,
construct `bt` and the half-and-half `bthh` over it, `params.setFw(true)`. -/
def twoOrThreePhase3Init (cfg : Config) (st : St) : St :=
  let st0 := (st.switchToFwIndex).setEbwtFw true
  (st0.setBacktrackers st0.btf st0.btr (ttBacktracker cfg true (cfg.seed + 3) false)
    (ttBacktracker cfg true (cfg.seed + 5) true)).setFw true

/-- Phase 1 of `twoOrThreeMismatchSearch`. -/
def twoOrThreePhase1 (cfg : Config) (two : Bool) (orc : Oracle) (reads : List Read) (st : St) :
    St :=
  readLoop cfg (twoOrThreePhase1Body cfg two orc) reads (twoOrThreePhase1Init cfg st)

/-- Phase 2 of `twoOrThreeMismatchSearch`. -/
def twoOrThreePhase2 (cfg : Config) (two : Bool) (orc : Oracle) (reads : List Read) (st : St) :
    St :=
  readLoop cfg (twoOrThreePhase2Body two orc) reads (twoOrThreePhase2Init cfg st)

/-- Phase 3 of `twoOrThreeMismatchSearch`. -/
def twoOrThreePhase3 (cfg : Config) (two : Bool) (orc : Oracle) (reads : List Read) (st : St) :
    St :=
  readLoop cfg (twoOrThreePhase3Body two orc) reads (twoOrThreePhase3Init cfg st)

/-- The driver `twoOrThreeMismatchSearch` (`two = true` is 2-mismatch mode). -/
def twoOrThreeMismatchSearch (cfg : Config) (two : Bool) (orc : Oracle) (reads : List Read)
    (st : St) : St :=
  ((twoOrThreePhase1 cfg two orc reads st).andThen (twoOrThreePhase2 cfg two orc reads)).andThen
    (twoOrThreePhase3 cfg two orc reads)

/-! ## Seeded search (`seededQualCutoffSearch`) -/

/-- Conversion of an `int` to `size_t` (`min<size_t>(plen, seedLen)`). -/
def sizeOfInt (i : Int) : Nat := (i % 2 ^ 64).toNat

/-- The N-counting loop of phase 1 over the bases still to scan, with `ns` the
count so far: `if((int)(Dna5)patFw[i] == 4) if(++ns > seedMms) done`. -/
def nsDisqualified (seedMms : Int) : List Nat → Int → Bool
  | [], _ => false
  | b :: bs, ns =>
    if b = 4 then
      if ns + 1 > seedMms then true else nsDisqualified seedMms bs (ns + 1)
    else nsDisqualified seedMms bs ns

/-- A backtracker of the seeded search, constructed over an index with given
thresholds, `reportSeedlings`, seedling store, seed, `considerQuals` and
`halfAndHalf`; `oneHit` is hard-wired to `true`. -/
def seededBacktracker (cfg : Config) (qualCutoff : Int) (ebwtFw : Bool) (offs : Offs)
    (reportSeedlings : Int) (hasSeedlings : Bool) (seed : Int)
    (considerQuals halfAndHalf : Bool) : Backtracker :=
  ⟨ebwtFw, offs, qualCutoff, cfg.maxBts, reportSeedlings, hasSeedlings, true, seed,
    considerQuals, halfAndHalf, none⟩

/-- The loop over the partial alignments of a read (phases 3 and 4): each is
extended with backtracker `b`; the first hit marks the read done and leaves the
loop.  Returns the state and the final value of `hit`. -/
def extendPartials (orc : Oracle) (b : Backtracker) (queryFw : Bool) (query quals : List Nat)
    (patid : Nat) : List PartialAlignment → St → St × Bool
  | [], st => (st, false)
  | pal :: pals, st =>
    let st1 := st.backtrack orc b (some pal) queryFw query quals Pam.none
    if hitSince st st1 then (st1.markDone patid, true)
    else extendPartials orc b queryFw query quals patid pals st1

/-- The body of the phase-1 read loop of `seededQualCutoffSearch`. -/
def seededPhase1Body (cfg : Config) (seedLen seedMms : Int) (orc : Oracle) (st : St)
    (r : Read) : St :=
  let s := u32OfInt seedLen
  let st0 := st.expand r.patid
  let plen := r.patFw.length
  if plen < 2 ∧ seedMms ≥ 1 then st0.exit
  else if plen < 3 ∧ seedMms ≥ 2 then st0.exit
  else if plen < 4 ∧ seedMms ≥ 3 then st0.exit
  else if cfg.nsToNs ∧
      nsDisqualified seedMms (r.patFw.take (min plen (sizeOfInt seedLen))) 0 then
    st0.markDone r.patid
  else
    -- exact-match search on the forward pattern
    let st1 := st0.setOffsBtf (seedOffsFull (u32 plen))
    let st2 := st1.backtrack orc st1.btf none true r.patFw r.qualFw Pam.none
    if hitSince st0 st2 then st2.markDone r.patid
    else
      -- Set up backtracker with reverse complement
      let st3 := st2.setFw false
      let qs := minU32 plen s
      let st4 := if qs < s then st3.setOffsBt (seedOffs5 seedMms qs) else st3
      let st5 := st4.backtrack orc st4.bt none false r.patRc r.qualRc Pam.none
      -- Restore default seed bounds
      let st6 := if qs < s then st5.setOffsBt (seedOffs5 seedMms s) else st5
      if hitSince st4 st5 then (st6.markDone r.patid).setFw true else st6.setFw true

/-- The body of the phase-2 read loop of `seededQualCutoffSearch`. -/
def seededPhase2Body (seedLen seedMms : Int) (orc : Oracle) (st : St) (r : Read) : St :=
  let s := u32OfInt seedLen
  if testDone st.doneMask r.patid then st
  else
    let st0 := st.setFw true
    let plen := r.patFw.length
    let qs := minU32 plen s
    let st1 := if qs < s then st0.setOffsBtf (seedOffs5 seedMms qs) else st0
    let st2 := st1.backtrack orc st1.btf none true r.patFw r.qualFw Pam.none
    let st3 := if qs < s then st2.setOffsBtf (seedOffs5 seedMms s) else st2
    if hitSince st1 st2 then st3.markDone r.patid
    else if seedMms = 0 then st3
    else
      -- collect partial alignments of the reverse complement
      let st4 := st3.setFw false
      let st5 := if qs < s then st4.setOffsBtr (seedOffs3 seedMms qs) else st4
      let st6 := st5.setQlenBtr s
      let st7 := st6.backtrack orc st6.btr none false r.patRc r.qualRc Pam.rc
      if qs < s then st7.setOffsBtr (seedOffs3 seedMms s) else st7

/-- Phase 3, first part: the partial alignments of the reverse complement found
in phase 2 are extended with `btr` (thresholds overridden for a short read and
restored afterwards, also when a hit leaves the loop).  Returns the state and
`hit`. -/
def seededPhase3Extend (seedLen : Int) (orc : Oracle) (st0 : St) (r : Read) : St × Bool :=
  let s := u32OfInt seedLen
  let qs := minU32 (u32 r.patRc.length) s
  let pals := getPartials st0.pamRc r.patid
  if pals.length > 0 then
    let st1 := if qs < s then st0.setOffsBtr (seedOffsFull qs) else st0
    let res := extendPartials orc st1.btr false r.patRc r.qualRc r.patid pals st1
    (if qs < s then res.1.setOffsBtr (seedOffsFull s) else res.1, res.2)
  else (st0, false)

/-- Phase 3, second part: with `seedMms >= 2`, the half-and-half search of the
reverse complement with `btr2`.  Returns the state and `hit`. -/
def seededPhase3Hh (seedLen seedMms : Int) (orc : Oracle) (st4 : St) (r : Read) : St × Bool :=
  let s := u32OfInt seedLen
  let qs := minU32 (u32 r.patRc.length) s
  if seedMms ≥ 2 then
    let st5 := if qs < s then st4.setOffsHh (seedOffsHh seedMms qs) else st4
    let st6 := st5.backtrack orc st5.hh none false r.patRc r.qualRc Pam.none
    (if qs < s then st6.setOffsHh (seedOffsHh seedMms s) else st6, hitSince st5 st6)
  else (st4, false)

/-- Phase 3, third part: seedlings of the forward read are collected with
`btf`. -/
def seededPhase3Seedlings (seedLen seedMms : Int) (orc : Oracle) (st8 : St) (r : Read) : St :=
  let s := u32OfInt seedLen
  let qs := minU32 (u32 r.patRc.length) s
  let st10 := (st8.setFw true).setQlenBtf (u32OfInt seedLen)
  let st11 := if qs < s then st10.setOffsBtf (seedOffs3 seedMms qs) else st10
  let st12 := st11.backtrack orc st11.btf none true r.patFw r.qualFw Pam.fw
  if qs < s then st12.setOffsBtf (seedOffs3 seedMms s) else st12

/-- The body of the phase-3 read loop of `seededQualCutoffSearch`. -/
def seededPhase3Body (seedLen seedMms : Int) (orc : Oracle) (st : St) (r : Read) : St :=
  if testDone st.doneMask r.patid then st
  else
    let ext := seededPhase3Extend seedLen orc (st.setFw false) r
    if ext.2 then ext.1
    else
      let hh := seededPhase3Hh seedLen seedMms orc ext.1 r
      if hh.2 then hh.1.markDone r.patid
      else seededPhase3Seedlings seedLen seedMms orc hh.1 r

/-- Phase 4, first part: the seedlings of the forward read found in phase 3 are
extended with `btf`.  Returns the state and `hit`. -/
def seededPhase4Extend (seedLen : Int) (orc : Oracle) (st0 : St) (r : Read) : St × Bool :=
  let s := u32OfInt seedLen
  let qs := minU32 (u32 r.patFw.length) s
  let pals := getPartials st0.pamFw r.patid
  if pals.length > 0 then
    let st1 := if qs < s then st0.setOffsBtf (seedOffsFull qs) else st0
    let res := extendPartials orc st1.btf true r.patFw r.qualFw r.patid pals st1
    (if qs < s then res.1.setOffsBtf (seedOffsFull s) else res.1, res.2)
  else (st0, false)

/-- Phase 4, second part: with `seedMms >= 2`, the half-and-half search of the
forward read with `btf2`; a hit marks the read done. -/
def seededPhase4Hh (seedLen seedMms : Int) (orc : Oracle) (st4 : St) (r : Read) : St :=
  let s := u32OfInt seedLen
  let qs := minU32 (u32 r.patFw.length) s
  if seedMms ≥ 2 then
    let st5 := if qs < s then st4.setOffsHh (seedOffsHh seedMms qs) else st4
    let st6 := st5.backtrack orc st5.hh none true r.patFw r.qualFw Pam.none
    let st7 := if qs < s then st6.setOffsHh (seedOffsHh seedMms s) else st6
    if hitSince st5 st6 then st7.markDone r.patid else st7
  else st4

/-- The body of the phase-4 read loop of `seededQualCutoffSearch`. -/
def seededPhase4Body (seedLen seedMms : Int) (orc : Oracle) (st : St) (r : Read) : St :=
  if testDone st.doneMask r.patid then st
  else
    let ext := seededPhase4Extend seedLen orc (st.setFw true) r
    if ext.2 then ext.1
    else seededPhase4Hh seedLen seedMms orc ext.1 r

/-- Entry of phase 1 of `seededQualCutoffSearch`, from the start of the
function: the bitmap is allocated, the forward index made resident, and `btf`
(exact) and `bt` are constructed over it. -/
def seededPhase1Init (cfg : Config) (seedLen qualCutoff seedMms : Int) (st : St) : St :=
  let st1 := (((((st.allocDone (numQs cfg.qUpto)).newWorker).setFw true).setEbwtFw
    true).switchToFwIndex).setEbwtFw true
  st1.setBacktrackers
    (seededBacktracker cfg qualCutoff true zeroOffs 0 false cfg.seed false false)
    st1.btr
    (seededBacktracker cfg qualCutoff true (seedOffs5 seedMms (u32OfInt seedLen)) 0 false
      cfg.seed true false)
    st1.hh

/-- Entry of phase 2 of `seededQualCutoffSearch`: switch to the mirror index,
allocate the reverse-complement seedling store when `seedMms > 0`, construct
`btf` and the seedling-collecting `btr`. -/
def seededPhase2Init (cfg : Config) (seedLen qualCutoff seedMms : Int) (st : St) : St :=
  let st1 := (((st.switchToBwIndex).setEbwtFw false).setPamRc
    (if seedMms > 0 then some [] else none))
  st1.setBacktrackers
    (seededBacktracker cfg qualCutoff false (seedOffs5 seedMms (u32OfInt seedLen)) 0 false
      (cfg.seed + 1) true false)
    (seededBacktracker cfg qualCutoff false (seedOffs3 seedMms (u32OfInt seedLen)) seedMms
      (decide (seedMms > 0)) (cfg.seed + 2) true false)
    st1.bt st1.hh

/-- Entry of phase 3 of `seededQualCutoffSearch`: switch to the forward index,
allocate the forward seedling store, construct the seedling-collecting `btf`,
the extending `btr` and the half-and-half `btr2`. -/
def seededPhase3Init (cfg : Config) (seedLen qualCutoff seedMms : Int) (st : St) : St :=
  let st1 := (((st.switchToFwIndex).setEbwtFw true).setPamFw
    (if seedMms > 0 then some [] else none))
  st1.setBacktrackers
    (seededBacktracker cfg qualCutoff true (seedOffs3 seedMms (u32OfInt seedLen)) seedMms
      (decide (seedMms > 0)) (cfg.seed + 3) true false)
    (seededBacktracker cfg qualCutoff true (seedOffsFull (u32OfInt seedLen)) 0 false
      (cfg.seed + 4) true false)
    st1.bt
    (seededBacktracker cfg qualCutoff true (seedOffsHh seedMms (u32OfInt seedLen)) 0 false
      (cfg.seed + 5) true true)

/-- Entry of phase 4 of `seededQualCutoffSearch`: switch to the mirror index,
construct the extending `btf` and the half-and-half `btf2`,
`params.setFw(true)`. -/
def seededPhase4Init (cfg : Config) (seedLen qualCutoff seedMms : Int) (st : St) : St :=
  let st1 := (st.switchToBwIndex).setEbwtFw false
  (st1.setBacktrackers
    (seededBacktracker cfg qualCutoff false (seedOffsFull (u32OfInt seedLen)) 0 false
      (cfg.seed + 6) true false)
    st1.btr st1.bt
    (seededBacktracker cfg qualCutoff false (seedOffsHh seedMms (u32OfInt seedLen)) 0 false
      (cfg.seed + 7) true true)).setFw true

/-- Phase 1 of `seededQualCutoffSearch`. -/
def seededPhase1 (cfg : Config) (seedLen qualCutoff seedMms : Int) (orc : Oracle)
    (reads : List Read) (st : St) : St :=
  readLoop cfg (seededPhase1Body cfg seedLen seedMms orc) reads
    (seededPhase1Init cfg seedLen qualCutoff seedMms st)

/-- Phase 2 of `seededQualCutoffSearch`. -/
def seededPhase2 (cfg : Config) (seedLen qualCutoff seedMms : Int) (orc : Oracle)
    (reads : List Read) (st : St) : St :=
  readLoop cfg (seededPhase2Body seedLen seedMms orc) reads
    (seededPhase2Init cfg seedLen qualCutoff seedMms st)

/-- Phase 3 of `seededQualCutoffSearch`; afterwards the reverse-complement
seedling store is deleted. -/
def seededPhase3 (cfg : Config) (seedLen qualCutoff seedMms : Int) (orc : Oracle)
    (reads : List Read) (st : St) : St :=
  (readLoop cfg (seededPhase3Body seedLen seedMms orc) reads
    (seededPhase3Init cfg seedLen qualCutoff seedMms st)).setPamRc none

/-- Phase 4 of `seededQualCutoffSearch`; afterwards the forward seedling store
is deleted. -/
def seededPhase4 (cfg : Config) (seedLen qualCutoff seedMms : Int) (orc : Oracle)
    (reads : List Read) (st : St) : St :=
  (readLoop cfg (seededPhase4Body seedLen seedMms orc) reads
    (seededPhase4Init cfg seedLen qualCutoff seedMms st)).setPamFw none

/-- The driver `seededQualCutoffSearch`: with `seedMms == 0` it returns after
phase 2. -/
def seededQualCutoffSearch (cfg : Config) (seedLen qualCutoff seedMms : Int) (orc : Oracle)
    (reads : List Read) (st : St) : St :=
  let st2 := (seededPhase1 cfg seedLen qualCutoff seedMms orc reads st).andThen
    (seededPhase2 cfg seedLen qualCutoff seedMms orc reads)
  if seedMms = 0 then st2
  else (st2.andThen (seededPhase3 cfg seedLen qualCutoff seedMms orc reads)).andThen
    (seededPhase4 cfg seedLen qualCutoff seedMms orc reads)

/-! ## Reading the thresholds -/

/-- Modelled from the spec: the encoding of the four thresholds (the backtracker
is not part of this file).  Positions `[0, unrevOff)` allow 0 mismatches,
`[unrevOff, 1revOff)` up to 1, `[1revOff, 2revOff)` up to 2,
`[2revOff, 3revOff)` up to 3, and positions from `3revOff` on are
unrestricted (`none`). -/
def Offs.allowance (o : Offs) (pos : Nat) : Option Nat :=
  if pos < o.unrevOff then some 0
  else if pos < o.oneRevOff then some 1
  else if pos < o.twoRevOff then some 2
  else if pos < o.threeRevOff then some 3
  else none

/-- A depth is revisitable under thresholds `o` when it is not inside the
unrevisitable prefix `[0, unrevOff)`. -/
def Offs.revisitable (o : Offs) (depth : Nat) : Prop := o.unrevOff ≤ depth

instance (o : Offs) (d : Nat) : Decidable (o.revisitable d) := by
  unfold Offs.revisitable; exact inferInstance

/-- The depth at which a search on the mirror index meets the seed position
that a search on the forward index meets at `depth`: the source reverses the
read for the mirror index (`_patsrc.setReverse(true)`). -/
def mirrorDepth (s depth : Nat) : Nat := s - 1 - depth

/-- The `unrevOff` a search call runs with (`none` for a search that is not a
backtracker run). -/
def SearchCall.unrevOff (c : SearchCall) : Option Nat :=
  match c.kind with
  | SearchKind.backtrack b _ => some b.offs.unrevOff
  | _ => none

/-- An oracle whose searches report nothing. -/
def silentOracle : Oracle := fun _ => ⟨[], [], []⟩

/-- A read of the given id with forward bases `fw` and reverse-complement bases
`rc`, all qualities 40. -/
def mkRead (patid : Nat) (fw rc : List Nat) : Read :=
  ⟨patid, fw, rc, List.replicate fw.length 40, List.replicate rc.length 40⟩

/-- The searches a loop body issued: the part of the trace added to `st`'s. -/
def newCalls (st st1 : St) : List SearchCall := st1.trace.drop st.trace.length

/-- Every bit set in `m` is set in `m1`. -/
def MaskLe (m m1 : List Bool) : Prop := ∀ j, testDone m j = true → testDone m1 j = true

/-- A state in which the reads with the given ids are done (bitmap of the given
size) and nothing else has happened. -/
def doneSt (size : Nat) (ids : List Nat) : St :=
  { initSt with doneMask := ids.foldl setDone (List.replicate size false) }

/-- The reverse-complement search that opens the phase-1 body of the 1-mismatch
search: exact hits allowed, inexact hits provisional. -/
def mismatchPhase1RcCall (cfg : Config) (st : St) (r : Read) : SearchCall :=
  st.call (SearchKind.oneMismatch cfg.oneHit true true) true false r.patRc r.qualRc

/-- The exact search of the forward read in the phase-1 body of the 1-mismatch
search. -/
def mismatchPhase1FwExactCall (cfg : Config) (st : St) (r : Read) : SearchCall :=
  (st.setFw true).call (SearchKind.exact cfg.oneHit) true true r.patFw r.qualFw

/-- An oracle for a read whose reverse complement aligns only inexactly: a
1-mismatch search of the reverse complement reports one provisional hit
(reference 0, offset 4, mismatch at position 11); every other search reports
nothing. -/
def provisionalOracle : Oracle := fun c =>
  match c.kind, c.queryFw with
  | SearchKind.oneMismatch _ _ true, false => ⟨[], [⟨0, 4, [11]⟩], []⟩
  | _, _ => ⟨[], [], []⟩

/-- A configuration in all-hits mode, and one in `oneHit` mode (reverse
complement searched, at most 8 reads, N matches nothing). -/
def allHitsCfg : Config := ⟨false, true, 8, false, true, 999999, 0, false⟩

/-- See `allHitsCfg`. -/
def oneHitCfg : Config := ⟨true, true, 8, false, true, 999999, 0, false⟩


/-- A configuration without a read bound (`qUpto` at its default `0xffffffff`),
in `oneHit` mode. -/
def unboundedCfg : Config := ⟨true, true, 0xffffffff, false, true, 999999, 0, false⟩

/-- The reads with the ids `0, 1, ..., n - 1`, each the read `ACGT`. -/
def firstReads (n : Nat) : List Read :=
  (List.range n).map fun i => mkRead i [0, 1, 2, 3] [0, 1, 2, 3]
/-! ## Occurrences of a read in the reference, and ideal index searches -/

/-- Complement of a `Dna5` base: A and T, C and G swap; N stays N. -/
def compDna5 (b : Nat) : Nat := if b < 4 then 3 - b else b

/-- Reverse complement of a read. -/
def revComp (q : List Nat) : List Nat := (q.map compDna5).reverse

/-- A reference base matches a query base when they are equal and not N (N
matches nothing). -/
def baseMatches (t q : Nat) : Bool := t == q && t < 4

/-- The query positions at which query `q`, laid on text `t` at offset `off`,
mismatches the text. -/
def mismatchPositions (t q : List Nat) (off : Nat) : List Nat :=
  (List.range q.length).filter (fun i => !(baseMatches (t.getD (off + i) 4) (q.getD i 4)))

/-- Every `(refId, off)` at which a query of length `len` lies inside a
reference text. -/
def placements (os : List (List Nat)) (len : Nat) : List (Nat × Nat) :=
  (List.range os.length).flatMap (fun i =>
    (List.range ((os.getD i []).length + 1 - len)).map (fun off => (i, off)))

/-- The occurrences of query `q` with at most `k` mismatches. -/
def occurrences (os : List (List Nat)) (q : List Nat) (k : Nat) : List (Nat × Nat) :=
  (placements os q.length).filter
    (fun p => (mismatchPositions (os.getD p.1 []) q p.2).length ≤ k)

/-- The set `H(R, k)` of the spec, as a list of `(refId, off, strand)`: the
occurrences of the read (strand `true`) and of its reverse complement (strand
`false`) with at most `k` mismatches. -/
def refHits (os : List (List Nat)) (fw : List Nat) (k : Nat) : List (Nat × Nat × Bool) :=
  (occurrences os fw k).map (fun p => (p.1, p.2, true)) ++
    (occurrences os (revComp fw) k).map (fun p => (p.1, p.2, false))

/-- What a hit says about where the read lies: `(refId, off, strand)`. -/
def Hit.place (h : Hit) : Nat × Nat × Bool := (h.refId, h.refOff, h.fw)

/-- Modelled from the spec: the depth at which a backtracker meets query
position `i` of a query of length `len`.  The search descends the query from
its right end; for the mirror index the source serves the query reversed, so
the descent starts at position 0. -/
def depthOf (ebwtFw : Bool) (len i : Nat) : Nat := if ebwtFw then len - 1 - i else i

/-- Modelled from the spec: a set of mismatch depths respects the thresholds when
no mismatch lies in `[0, unrevOff)`, at most 1 in `[0, 1revOff)`, at most 2 in
`[0, 2revOff)` and at most 3 in `[0, 3revOff)`; depths from `3revOff` on are
unrestricted. -/
def Offs.admits (o : Offs) (depths : List Nat) : Bool :=
  (depths.filter (fun d => d < o.unrevOff)).length == 0 &&
    decide ((depths.filter (fun d => d < o.oneRevOff)).length ≤ 1) &&
    decide ((depths.filter (fun d => d < o.twoRevOff)).length ≤ 2) &&
    decide ((depths.filter (fun d => d < o.threeRevOff)).length ≤ 3)

/-- Modelled from the spec: half-and-half mode requires at least one mismatch in
each half of the seed, depths `[0, 5depth)` and `[5depth, 3depth)`. -/
def Offs.bothHalves (o : Offs) (depths : List Nat) : Bool :=
  depths.any (fun d => d < o.depth5) && depths.any (fun d => o.depth5 ≤ d && d < o.depth3)

/-- The query of a search call in read orientation: the source reverses the
query it serves for the mirror index. -/
def SearchCall.orientedQuery (c : SearchCall) : List Nat :=
  if c.ebwtFw then c.query else c.query.reverse

/-- The mismatch position as the hit records it, counted from the 5' end of
the original read: position `i` of the forward read, `len - 1 - i` of the
reverse complement. -/
def fivePrimePos (queryFw : Bool) (len i : Nat) : Nat := if queryFw then i else len - 1 - i

/-- The alignments of the query of call `c` whose mismatch depths pass `ok`, in
reference order. -/
def alignmentsWhere (os : List (List Nat)) (c : SearchCall) (ok : List Nat → Bool) :
    List Alignment :=
  (placements os c.orientedQuery.length).filterMap (fun p =>
    let ms := mismatchPositions (os.getD p.1 []) c.orientedQuery p.2
    if ok (ms.map (depthOf c.ebwtFw c.orientedQuery.length)) then
      some ⟨p.1, p.2, ms.map (fivePrimePos c.queryFw c.orientedQuery.length)⟩
    else none)

/-- Modelled from the spec: the multi-hit policy.  Chase-all reports every
alignment; pick-one reports one of them (here the first). -/
def pickHits (oneHit : Bool) (l : List Alignment) : List Alignment :=
  if oneHit then l.take 1 else l

/-- Modelled from the spec: the index searches the 2/3-mismatch driver issues
(`Ebwt::search` and `BacktrackManager::backtrack`, neither part of this file),
each reporting exactly the alignments its thresholds and hit policy allow over
reference texts `os`.  An exact search allows no mismatch; a backtracker run
allows the mismatch depths its thresholds admit, in half-and-half mode only with
a mismatch in both halves.  The driver issues no 1-mismatch search and sets no
mutations; such calls report nothing here. -/
def idealOracle (os : List (List Nat)) : Oracle := fun c =>
  match c.kind with
  | SearchKind.exact oneHit =>
    ⟨pickHits oneHit (alignmentsWhere os c (fun ds => ds.isEmpty)), [], []⟩
  | SearchKind.backtrack b none =>
    ⟨pickHits b.oneHit (alignmentsWhere os c
      (fun ds => b.offs.admits ds && (!b.halfAndHalf || b.offs.bothHalves ds))), [], []⟩
  | _ => ⟨[], [], []⟩

/-- A search call of the 2-mismatch driver on behalf of a read with forward bases
`fw`: an exact search or a backtracker run (no mutations) whose `2revOff` covers
the query, on the strand the parameters name. -/
def GoodCall (fw : List Nat) (c : SearchCall) : Prop :=
  ((∃ oneHit, c.kind = SearchKind.exact oneHit) ∨
    (∃ b, c.kind = SearchKind.backtrack b none ∧ c.orientedQuery.length ≤ b.offs.twoRevOff)) ∧
  ((c.fw = true ∧ c.orientedQuery = fw) ∨ (c.fw = false ∧ c.orientedQuery = revComp fw))

/-- The hits of `st1` are hits of `st` or occurrences of the read. -/
def SoundFrom (os : List (List Nat)) (fw : List Nat) (st st1 : St) : Prop :=
  ∀ h ∈ st1.sink.hits, h ∈ st.sink.hits ∨ h.place ∈ refHits os fw 2

/-- No placement of query `q` has mismatch depths (as the search on the given
index meets them) that pass `ok`. -/
def NoneAdmitted (os : List (List Nat)) (q : List Nat) (ebwtFw : Bool) (ok : List Nat → Bool) :
    Prop :=
  ∀ p ∈ placements os q.length,
    ok ((mismatchPositions (os.getD p.1 []) q p.2).map (depthOf ebwtFw q.length)) = false

/-- The places of the hits the 2/3-mismatch search emits for the read with id
`patid`, when it runs from process start over the reads `reads` and reference
texts `os`, with ideal index searches. -/
def ttEmitted (cfg : Config) (two : Bool) (os : List (List Nat)) (reads : List Read)
    (patid : Nat) : List (Nat × Nat × Bool) :=
  ((twoOrThreeMismatchSearch cfg two (idealOracle os) reads initSt).sink.hits.filter
    (fun h => decide (h.patId = patid))).map Hit.place

/-- Read `p` has a reported hit. -/
def St.Found (st : St) (p : Nat) : Prop := ∃ h ∈ st.sink.hits, h.patId = p

/-- The phase-1 backtracker run of the 2-mismatch search on the reverse
complement of read `r` admits no placement. -/
def TtMiss1 (os : List (List Nat)) (r : Read) : Prop :=
  NoneAdmitted os r.patRc true (fun ds => (ttPhase1RcOffs true r.patFw.length).admits ds)

/-- The two phase-2 backtracker runs of the 2-mismatch search on read `r` (mirror
index) admit no placement. -/
def TtMiss2 (os : List (List Nat)) (r : Read) : Prop :=
  NoneAdmitted os r.patFw false (fun ds => (ttPhase2FwOffs true r.patFw.length).admits ds) ∧
    NoneAdmitted os r.patRc false (fun ds => (ttPhase2RcOffs true r.patFw.length).admits ds)

/-- The three phase-3 backtracker runs of the 2-mismatch search on read `r` admit
no placement. -/
def TtMiss3 (os : List (List Nat)) (r : Read) : Prop :=
  NoneAdmitted os r.patFw true
      (fun ds => (ttPhase3FwOffs true (u32 r.patFw.length)).admits ds) ∧
    NoneAdmitted os r.patFw true
      (fun ds => (ttPhase3HhFwOffs true (u32 r.patFw.length)).admits ds &&
        (ttPhase3HhFwOffs true (u32 r.patFw.length)).bothHalves ds) ∧
    NoneAdmitted os r.patRc true
      (fun ds => (ttPhase3HhRcOffs true (u32 r.patFw.length)).admits ds &&
        (ttPhase3HhRcOffs true (u32 r.patFw.length)).bothHalves ds)

/-- The state between two reads of a 2-mismatch run over `reads` against ideal
searches: the process has not exited, no provisional hit is pending, the
parameters name the forward strand, `lastLen` is unset or the length of a read,
every reported hit is an occurrence (at most two mismatches) of the read whose id
it carries, every bit of the bitmap that is set comes with a hit of that read,
and every read has a hit or satisfies `C`. -/
def TtInv (os : List (List Nat)) (reads : List Read) (C : Read → Prop) (st : St) : Prop :=
  st.exited = false ∧ st.sink.prov = [] ∧ st.fw = true ∧
    (st.lastLen = 0 ∨ ∃ r ∈ reads, st.lastLen = r.patFw.length) ∧
    (∀ h ∈ st.sink.hits, ∃ r ∈ reads, h.patId = r.patid ∧ h.place ∈ refHits os r.patFw 2) ∧
    (∀ p, testDone st.doneMask p = true → st.Found p) ∧
    ∀ r ∈ reads, st.Found r.patid ∨ C r

/-- Three reads: `AAAA` (id 0), `AACC` (id 1) and `CCCC` (id 2). -/
def threeReads : List Read :=
  [mkRead 0 [0, 0, 0, 0] [3, 3, 3, 3], mkRead 1 [0, 0, 1, 1] [2, 2, 3, 3],
    mkRead 2 [1, 1, 1, 1] [2, 2, 2, 2]]
/-! ## Command line (`parseInt`, `parseOptions`) and `driver` -/

/-- Conversion of a `long` to `int32_t`: reduction modulo `2^32` into
`[-2^31, 2^31)`. -/
def toInt32 (l : Int) : Int := (l + 2 ^ 31) % 2 ^ 32 - 2 ^ 31

/-- The function `parseInt(lower, errmsg)`, as a function of the `long` that
`strtol(optarg, &endPtr, 10)` returned (`endPtr` is never `NULL` afterwards):
`none` is the `exit(1)` taken when that value is below `lower`, otherwise the
value is returned as `(int32_t)l`. -/
def parseInt (lower : Int) (l : Int) : Option Int :=
  if l < lower then none else some (toInt32 l)

/-- The read file formats. -/
inductive Format
  | fasta
  | fastq
  | raw
  | cmdline
  | random
deriving DecidableEq

/-- The hit output formats. -/
inductive OutType
  | full
  | concise
  | none
deriving DecidableEq

/-- The long options that only store a value through their flag pointer
(`getopt_long` returns 0 for them). -/
inductive FlagOpt
  | pause
  | skipsearch
  | qsamelen
  | stats
  | reportopps
  | version
  | maq
  | ntoa
deriving DecidableEq

/-- One option as `getopt_long` hands it to the switch of `parseOptions`; an
option with a numeric argument carries the `long` that `strtol` reads from
`optarg`. -/
inductive Opt
  /-- `-f`, `-q`, `-r`, `-c`, `--randread` -/
  | format (f : Format)
  | randomReadsNoSync
  | arrow
  | concise
  | noout
  | solexaQuals
  | seed (l : Int)
  /-- `-u`, `--qupto` -/
  | qupto (l : Int)
  /-- `-p`, `--threads` -/
  | threads (l : Int)
  /-- `-v` -/
  | v (l : Int)
  | trim3 (l : Int)
  | trim5 (l : Int)
  /-- `-o`, `--offrate` -/
  | offrate (l : Int)
  /-- `-e`, `--maqerr` -/
  | maqerr (l : Int)
  /-- `-n`, `--seedmms` -/
  | seedmms (l : Int)
  /-- `-l`, `--seedlen` -/
  | seedlen (l : Int)
  /-- `-h`, `-?` -/
  | help
  | maxns (l : Int)
  /-- `-a`, `--allhits` -/
  | allhits
  | verbose
  /-- `-s`, `--sanity` -/
  | sanity
  /-- `-t`, `--time` -/
  | timing
  /-- `--maxbts`; `none` when `optarg` is `NULL` -/
  | maxbts (l : Option Int)
  | dumpPats
  /-- `--orig`; `empty` when its argument is missing or empty -/
  | orig (empty : Bool)
  | flag (f : FlagOpt)
  /-- anything else, the `default` case -/
  | unknown
deriving DecidableEq

/-- The static option variables `parseOptions` writes. -/
structure Options where
  format : Format
  randReadsNoSync : Bool
  arrowMode : Bool
  outType : OutType
  solexaQuals : Bool
  seed : Int
  qUpto : Nat
  nthreads : Int
  maqLike : Bool
  mismatches : Int
  trim3 : Int
  trim5 : Int
  offRate : Int
  qualThresh : Int
  seedMms : Int
  seedLen : Int
  maxNs : Int
  oneHit : Bool
  verbose : Bool
  sanityCheck : Bool
  timing : Bool
  maxBts : Int
  dumpPats : Bool
  origGiven : Bool
  revcomp : Bool
  ipause : Bool
  skipSearch : Bool
  qSameLen : Bool
  printStats : Bool
  reportOpps : Bool
  showVersion : Bool
  nsToNs : Bool
deriving DecidableEq

/-- The initial values of the static option variables. -/
def defaultOptions : Options :=
  { format := Format.fastq, randReadsNoSync := false, arrowMode := false,
    outType := OutType.full, solexaQuals := false, seed := 0, qUpto := 0xffffffff,
    nthreads := 1, maqLike := true, mismatches := 0, trim3 := 0, trim5 := 0, offRate := -1,
    qualThresh := 7, seedMms := 2, seedLen := 28, maxNs := 999999, oneHit := true,
    verbose := false, sanityCheck := false, timing := false, maxBts := 100,
    dumpPats := false, origGiven := false, revcomp := true, ipause := false,
    skipSearch := false, qSameLen := false, printStats := false, reportOpps := false,
    showVersion := false, nsToNs := true }

/-- What `getopt_long` stores for a long option with a flag pointer. -/
def Options.setFlag (o : Options) : FlagOpt → Options
  | FlagOpt.pause => { o with ipause := true }
  | FlagOpt.skipsearch => { o with skipSearch := true }
  | FlagOpt.qsamelen => { o with qSameLen := true }
  | FlagOpt.stats => { o with printStats := true }
  | FlagOpt.reportopps => { o with reportOpps := true }
  | FlagOpt.version => { o with showVersion := true }
  | FlagOpt.maq => { o with maqLike := true }
  | FlagOpt.ntoa => { o with nsToNs := false }

/-- One round of the `switch` of `parseOptions`; `none` is an `exit`.  The
`double` expression `parseInt(...) / 10.0 + 0.5` converted to `int` is its
exact value truncated toward zero. -/
def parseOption (o : Options) : Opt → Option Options
  | Opt.format f => some { o with format := f }
  | Opt.randomReadsNoSync => some { o with format := Format.random, randReadsNoSync := true }
  | Opt.arrow => some { o with arrowMode := true }
  | Opt.concise => some { o with outType := OutType.concise }
  | Opt.noout => some { o with outType := OutType.none }
  | Opt.solexaQuals => some { o with solexaQuals := true }
  | Opt.seed l => (parseInt 0 l).map fun x => { o with seed := x }
  | Opt.qupto l => (parseInt 1 l).map fun x => { o with qUpto := u32OfInt x }
  | Opt.threads l => (parseInt 1 l).map fun x => { o with nthreads := x }
  | Opt.v l =>
    match parseInt 0 l with
    | none => none
    | some x => if x > 3 then none else some { o with maqLike := false, mismatches := x }
  | Opt.trim3 l => (parseInt 0 l).map fun x => { o with trim3 := x }
  | Opt.trim5 l => (parseInt 0 l).map fun x => { o with trim5 := x }
  | Opt.offrate l => (parseInt 1 l).map fun x => { o with offRate := x }
  | Opt.maqerr l => (parseInt 1 l).map fun x => { o with qualThresh := Int.tdiv (x + 5) 10 }
  | Opt.seedmms l => (parseInt 0 l).map fun x => { o with seedMms := x }
  | Opt.seedlen l => (parseInt 20 l).map fun x => { o with seedLen := x }
  | Opt.help => none
  | Opt.maxns l => (parseInt 0 l).map fun x => { o with maxNs := x }
  | Opt.allhits => some { o with oneHit := false }
  | Opt.verbose => some { o with verbose := true }
  | Opt.sanity => some { o with sanityCheck := true }
  | Opt.timing => some { o with timing := true }
  | Opt.maxbts none => some o
  | Opt.maxbts (some l) => (parseInt 1 l).map fun x => { o with maxBts := x }
  | Opt.dumpPats => some { o with dumpPats := true }
  | Opt.orig empty => if empty then none else some { o with origGiven := true }
  | Opt.flag f => some (o.setFlag f)
  | Opt.unknown => none

/-- The `do ... while` loop of `parseOptions` over the options of the command
line. -/
def parseOptionLoop : List Opt → Options → Option Options
  | [], o => some o
  | x :: xs, o =>
    match parseOption o x with
    | none => none
    | some o1 => parseOptionLoop xs o1

/-- The function `parseOptions`: the option loop, then `revcomp` is forced in
Maq-like mode, all-hits is refused in Maq-like mode, and `maxBts` is overwritten
outside of it.  `none` is an `exit`. -/
def parseOptions (opts : List Opt) : Option Options :=
  match parseOptionLoop opts defaultOptions with
  | none => none
  | some o =>
    let o1 := if o.maqLike then { o with revcomp := true } else o
    if o1.maqLike ∧ ¬ o1.oneHit then none
    else some (if ¬ o1.maqLike then { o1 with maxBts := 999999 } else o1)

/-- The `ebwt.loadIntoMemory()` of `driver` on the forward index. -/
def St.loadFw (st : St) : St := { st with fwInMemory := true }

/-- The `ebwt.evictFromMemory()` of `driver` on the forward index. -/
def St.evictFw (st : St) : St := { st with fwInMemory := false }

/-- The index handling of `driver` between the construction of the two `Ebwt`
objects (which read the headers only) and the call of a search variant: the
forward index is loaded unless the mode is Maq-like; with sanity checking and
reference texts at hand, a Maq-like run loads it for `checkOrigs` and evicts it
again.  `haveOs` is `!os.empty()`. -/
def driverLoad (o : Options) (haveOs : Bool) (st : St) : St :=
  let st1 := if ¬ o.maqLike then st.loadFw else st
  if o.sanityCheck ∧ haveOs then
    let st2 := if o.maqLike then st1.loadFw else st1
    if o.maqLike then st2.evictFw else st2
  else st1

/-- The state in which `driver` calls a search variant: nothing is resident
after the construction of the `Ebwt` objects, then `driverLoad`. -/
def driverEntry (o : Options) (haveOs : Bool) : St := driverLoad o haveOs initSt

/-- The process-wide flags the search variants read, taken from the options. -/
def Options.config (o : Options) : Config :=
  ⟨o.oneHit, o.revcomp, o.qUpto, o.qSameLen, o.nsToNs, o.maxBts, o.seed, o.verbose⟩

/-- The function `driver` from the creation of the pattern source on: with
`--skipsearch` it returns at once, before an index is constructed or a search
called; otherwise Maq-like mode runs the seeded search, and outside of it
`mismatches` selects the 1-mismatch, the 2/3-mismatch or the exact search (any
other positive number is an error). -/
def driver (o : Options) (haveOs : Bool) (orc : Oracle) (reads : List Read) : St :=
  if o.skipSearch then initSt
  else
    let st := driverEntry o haveOs
    if o.maqLike then
      seededQualCutoffSearch o.config o.seedLen o.qualThresh o.seedMms orc reads st
    else if o.mismatches > 0 then
      if o.mismatches = 1 then mismatchSearch o.config orc reads st
      else if o.mismatches = 2 ∨ o.mismatches = 3 then
        twoOrThreeMismatchSearch o.config (decide (o.mismatches = 2)) orc reads st
      else st.exit
    else exactSearch o.config orc reads st

/-! ## Calls and oracles used in the statements -/

/-- The search of the forward read in the body of `exactSearchWorker`. -/
def exactFwCall (cfg : Config) (st : St) (r : Read) : SearchCall :=
  st.call (SearchKind.exact cfg.oneHit) true true r.patFw r.qualFw

/-- The search of the reverse complement in the body of `exactSearchWorker`. -/
def exactRcCall (cfg : Config) (st : St) (r : Read) : SearchCall :=
  (st.setFw false).call (SearchKind.exact cfg.oneHit) true false r.patRc r.qualRc

/-- An oracle for a read that occurs exactly at offset 0 of reference 0 on both
strands (such as `ACGT` against the reference `ACGT`): every search reports that
one alignment. -/
def hitOracle : Oracle := fun _ => ⟨[⟨0, 0, []⟩], [], []⟩

/-- The predicate "`st1` continues `st` with searches that all satisfy `P`": the
trace of `st1` is that of `st` followed by calls satisfying `P`. -/
def CallsFrom (P : SearchCall → Prop) (st st1 : St) : Prop :=
  ∃ l, st1.trace = st.trace ++ l ∧ ∀ c ∈ l, P c

/-- The residency of the two indexes in a state: the forward index is resident
exactly when `x`, the mirror index exactly when not `x`. -/
def Resident (x : Bool) (st : St) : Prop := st.fwInMemory = x ∧ st.bwInMemory = !x

/-- Read ids are dense, start at 0 and come in increasing order. -/
def DenseIds (reads : List Read) : Prop := reads.map Read.patid = List.range reads.length

/-- The relation "`st1` continues `st` with searches that all satisfy `P`, on
the same indexes": residency and the index each backtracker was constructed over
are those of `st`, and the trace of `st1` is that of `st` followed by calls
satisfying `P`. -/
def Continues (P : SearchCall → Prop) (st st1 : St) : Prop :=
  st1.fwInMemory = st.fwInMemory ∧ st1.bwInMemory = st.bwInMemory ∧
    st1.btf.ebwtFw = st.btf.ebwtFw ∧ st1.btr.ebwtFw = st.btr.ebwtFw ∧
    st1.bt.ebwtFw = st.bt.ebwtFw ∧ st1.hh.ebwtFw = st.hh.ebwtFw ∧ CallsFrom P st st1

/-- A search call on the forward index (`x = true`) or the mirror index. -/
def SearchCall.onIndex (x : Bool) (c : SearchCall) : Prop := c.ebwtFw = x

/-- During a phase that started in state `init`, in state `st`: index `x` and
only index `x` is resident, and every search issued since the start of the phase
is on index `x`. -/
def PhaseOn (x : Bool) (init st : St) : Prop :=
  Resident x st ∧ CallsFrom (SearchCall.onIndex x) init st

/-- The `ebwtBw.loadIntoMemory()` of the source. -/
def St.loadBw (st : St) : St := { st with bwInMemory := true }

/-- The `ebwtBw.evictFromMemory()` of the source. -/
def St.evictBw (st : St) : St := { st with bwInMemory := false }
/-! ## The naive oracle (`findSanityHits`) -/

/-- The positions `find(finder, pattern)` yields for the Horspool pattern `half`
in the text `o` (the finder is SeqAn's, a library): taken to enumerate every
occurrence from left to right, overlapping ones included. -/
def horspoolFind (o half : List Nat) : List Nat :=
  (List.range (o.length + 1 - half.length)).filter fun pos =>
    decide ((o.drop pos).take half.length = half)

/-- The right half of the pattern, which `findSanityHits` uses as its seed:
`pat[i]` for `i` from `(plen + bump) >> 1` up to `plen`, with `bump = 1` unless
`transpose` is set. -/
def sanityHalf (pat : List Nat) (transpose : Bool) : List Nat :=
  let plen := u32 pat.length
  let bump := if transpose then 0 else 1
  (pat.take plen).drop (u32 (plen + bump) >>> 1)

/-- The operation `FixedBitset::set` on the list of bits that are set. -/
def bitSet (diffs : List Nat) (b : Nat) : List Nat := if b ∈ diffs then diffs else diffs ++ [b]

/-- The loop of `findSanityHits` that extends toward the left end of the
pattern, with `k` rounds to go (`j = ohlen - k`) and the bits set so far; it
stops once more than one bit is set.  `none` is a rejection (an `N` in the
reference). -/
def extendLeft (o pat : List Nat) (pos ohlen plen : Nat) (fivePrimeOnLeft : Bool) :
    Nat → List Nat → Option (List Nat)
  | 0, diffs => some diffs
  | k + 1, diffs =>
    let j := ohlen - (k + 1)
    if diffs.length ≤ 1 then
      if o.getD (pos - j - 1) 0 = 4 then none
      else if o.getD (pos - j - 1) 0 ≠ pat.getD (ohlen - j - 1) 0 then
        extendLeft o pat pos ohlen plen fivePrimeOnLeft k
          (bitSet diffs
            (if fivePrimeOnLeft then ohlen - j - 1 else plen - (ohlen - j - 1) - 1))
      else extendLeft o pat pos ohlen plen fivePrimeOnLeft k diffs
    else some diffs

/-- What `findSanityHits` does with one occurrence of the seed half at `pos` in
the (possibly transposed) reference `o` of index `i`: the hit it records, if
any.  Offsets are `uint32_t`; the final guard compares in `size_t`. -/
def sanityHitAt (pat : List Nat) (patid : Nat) (fw allowExact transpose : Bool) (i : Nat)
    (o : List Nat) (pos : Nat) : Option Hit :=
  let fivePrimeOnLeft := ((!transpose) == fw)
  let plen := u32 pat.length
  let half := sanityHalf pat transpose
  let hlen := u32 half.length
  let ohlen := u32OfInt ((plen : Int) - hlen)
  if (List.range half.length).any (fun j => o.getD (j + pos) 0 == 4) then none
  else
    match (if pos ≥ ohlen then extendLeft o pat pos ohlen plen fivePrimeOnLeft ohlen []
      else some []) with
    | none => none
    | some diffs =>
      if (diffs.length = 0 ∧ allowExact) ∨ diffs.length = 1 then
        let off0 := u32OfInt ((pos : Int) - ohlen)
        let off :=
          if transpose then u32OfInt ((u32OfInt ((o.length : Int) - off0) : Int) - pat.length)
          else off0
        if (off : Int) < (0xffffffff - (pat.length : Int)) % 2 ^ 64 then
          some ⟨i, off, patid, fw, diffs⟩
        else none
      else none

/-- The function `findSanityHits`: the hits it appends to `sanityHits`, for the
pattern `pat` of read `patid` against the reference texts `os`. -/
def findSanityHits (pat : List Nat) (patid : Nat) (fw : Bool) (os : List (List Nat))
    (allowExact transpose : Bool) : List Hit :=
  (List.range os.length).flatMap fun i =>
    (horspoolFind (if transpose then (os.getD i []).reverse else os.getD i [])
      (sanityHalf pat transpose)).filterMap fun pos =>
        sanityHitAt pat patid fw allowExact transpose i
          (if transpose then (os.getD i []).reverse else os.getD i []) (u32 pos)

/-- The reference base a hit of `findSanityHits` aligns with pattern position
`p`: with `transpose` the pattern runs right to left over the reference. -/
def alignedBase (os : List (List Nat)) (h : Hit) (plen : Nat) (transpose : Bool) (p : Nat) :
    Nat :=
  (os.getD h.refId []).getD (if transpose then h.refOff + (plen - 1 - p) else h.refOff + p) 0

/-- The bases of a read given as text over `ACGTN`. -/
def dna5 (s : String) : List Nat :=
  s.toList.map fun c =>
    if c = 'A' then 0 else if c = 'C' then 1 else if c = 'G' then 2 else if c = 'T' then 3 else 4
/-! ## Hits per read -/

/-- The number of reported hits of read `p`. -/
def hitsOf (st : St) (p : Nat) : Nat :=
  (st.sink.hits.filter fun h => decide (h.patId = p)).length

/-- The assumption on the index searches under which the `oneHit` policy is
stated: every search reports at most one hit or one provisional hit, and a
backtracker run that collects seedlings (`reportSeedlings > 0`) reports no
hit. -/
def OneHitOracle (orc : Oracle) : Prop :=
  ∀ c, (orc c).hits.length + (orc c).prov.length ≤ 1 ∧
    ∀ b muts, c.kind = SearchKind.backtrack b muts → b.reportSeedlings > 0 →
      (orc c).hits = []

/-- The relation "`st1` continues `st` within the iteration of one read": the
read id in the parameters is the same, the reported hits of `st1` are those of
`st` followed by new ones that the hit counter counts, and, when the provisional
hits of `st` all carry that read id, so do the new hits and the provisional hits
of `st1`. -/
def Grows (st st1 : St) : Prop :=
  st1.patId = st.patId ∧ ∃ new, st1.sink.hits = st.sink.hits ++ new ∧
    st1.sink.numHits = st.sink.numHits + new.length ∧
    ((∀ h ∈ st.sink.prov, h.patId = st.patId) →
      (∀ h ∈ new, h.patId = st.patId) ∧ ∀ h ∈ st1.sink.prov, h.patId = st.patId)

/-- The invariant of the `oneHit` policy between reads: no read has more than
one reported hit, and every read with a reported hit has its done bit set. -/
def OneHitDone (st : St) : Prop :=
  ∀ p, hitsOf st p ≤ 1 ∧ (1 ≤ hitsOf st p → testDone st.doneMask p = true)

/-- Every read of `reads` that passes the `patid >= qUpto` test of `GET_READ`
has its bit inside the completion bitmap. -/
def InRange (cfg : Config) (reads : List Read) (st : St) : Prop :=
  ∀ r ∈ reads, r.patid < cfg.qUpto → r.patid < st.doneMask.length

/-- The state between two phases of a multi-phase search in `oneHit` mode: no
provisional hit is pending, `OneHitDone` holds, and the bitmap covers the
reads. -/
def BetweenPhases (cfg : Config) (reads : List Read) (st : St) : Prop :=
  st.sink.prov = [] ∧ OneHitDone st ∧ InRange cfg reads st

/-- An oracle for reads that occur once in the reference: every search reports
the alignment at offset 0 of reference 0 as a hit, except a seedling-collecting
backtracker run, which reports nothing. -/
def singleHitOracle : Oracle := fun c =>
  match c.kind with
  | SearchKind.backtrack b _ =>
    if b.reportSeedlings > 0 then ⟨[], [], []⟩ else ⟨[⟨0, 0, []⟩], [], []⟩
  | _ => ⟨[⟨0, 0, []⟩], [], []⟩

/-- Two reads `ACGT` and `ACGTA` with the ids 0 and 1. -/
def twoReads : List Read :=
  [mkRead 0 [0, 1, 2, 3] [0, 1, 2, 3], mkRead 1 [0, 1, 2, 3, 0] [3, 0, 1, 2, 3]]

/-- The value of `maxNs` after the adjustment at the start of `driver`:
`if(nsPolicy == NS_TO_NS && !maqLike) maxNs = min<int>(maxNs, mismatches)`. -/
def driverMaxNs (o : Options) : Int :=
  if o.nsToNs ∧ ¬ o.maqLike then min o.maxNs o.mismatches else o.maxNs

/-- The N limit `driver` passes to the constructor of the pattern source: the
FASTA, raw, FASTQ and command-line sources take `maxNs`, the random source takes
none. -/
def patsrcMaxNs (o : Options) : Option Int :=
  match o.format with
  | Format.random => none
  | _ => some (driverMaxNs o)

/-- The argument of the last `--maxbts` option of a command line that has one
(the `long` that `strtol` reads). -/
def lastMaxBts : List Opt → Option Int
  | [] => none
  | Opt.maxbts (some l) :: xs => (lastMaxBts xs).orElse fun _ => some l
  | _ :: xs => lastMaxBts xs

/-- The number of `N` bases (code 4) among the first `n` bases of a read. -/
def countNs (bases : List Nat) (n : Nat) : Nat := ((bases.take n).filter fun b => b = 4).length
/-! ## Reading search calls -/

/-- Whether a search call is a half-and-half backtracker run (`none` for a
search that is not a backtracker run). -/
def SearchCall.halfAndHalf (c : SearchCall) : Option Bool :=
  match c.kind with
  | SearchKind.backtrack b _ => some b.halfAndHalf
  | _ => none

/-- The thresholds a search call runs with (`none` for a search that is not a
backtracker run). -/
def SearchCall.offs (c : SearchCall) : Option Offs :=
  match c.kind with
  | SearchKind.backtrack b _ => some b.offs
  | _ => none

/-- Whether a search call extends a partial alignment (`setMuts` was called
with the mutations of a seedling). -/
def SearchCall.extending (c : SearchCall) : Bool :=
  match c.kind with
  | SearchKind.backtrack _ (some _) => true
  | _ => false

/-- The strand flag of the parameters agrees with the query of a search call:
`params.fw` is true exactly when the query is the forward read. -/
def SearchCall.strandAgrees (c : SearchCall) : Prop := c.fw = c.queryFw

instance (c : SearchCall) : Decidable c.strandAgrees := by
  unfold SearchCall.strandAgrees; exact inferInstance

/-- The thresholds with which the phases of `seededQualCutoffSearch` construct
the backtracker that runs a search, as a function of the seed length: the
search is identified by the phase, by whether its query is the forward read and
by whether it extends a partial alignment.  Phase 1: `btf` (forward, set per
read) and `bt`; phase 2: `btf` and `btr`; phase 3: `btf` (forward), `btr`
(extending) and `btr2`; phase 4: `btf` (extending) and `btf2`. -/
def seededFormula (phase : Nat) (seedMms : Int) (queryFw extending : Bool) : Nat → Offs :=
  if phase = 1 then (if queryFw then seedOffsFull else seedOffs5 seedMms)
  else if phase = 2 then (if queryFw then seedOffs5 seedMms else seedOffs3 seedMms)
  else if phase = 3 then
    (if queryFw then seedOffs3 seedMms
      else if extending then seedOffsFull else seedOffsHh seedMms)
  else (if extending then seedOffsFull else seedOffsHh seedMms)

/-- The seed length at which the thresholds of a search call of phase `phase`
are taken: `qs = min(length of the query, seedLen)` in 32 bits, except for the
exact search of the forward read in phase 1, which takes the length of the
read. -/
def thresholdArg (phase : Nat) (seedLen : Int) (c : SearchCall) : Nat :=
  if phase = 1 ∧ c.queryFw = true then u32 c.query.length
  else minU32 c.query.length (u32OfInt seedLen)

/-- A search call of phase `phase` of the seeded search runs with the
thresholds of its backtracker taken at `thresholdArg`. -/
def SeededThresholds (phase : Nat) (seedLen seedMms : Int) (c : SearchCall) : Prop :=
  c.offs = some (seededFormula phase seedMms c.queryFw c.extending (thresholdArg phase seedLen c))

/-- Between two reads of phase `phase` of the seeded search, the backtrackers
of the phase hold their thresholds at the full seed length. -/
def AtRest (phase : Nat) (seedLen seedMms : Int) (st : St) : Prop :=
  if phase = 1 then st.bt.offs = seedOffs5 seedMms (u32OfInt seedLen)
  else if phase = 2 then
    st.btf.offs = seedOffs5 seedMms (u32OfInt seedLen) ∧
      st.btr.offs = seedOffs3 seedMms (u32OfInt seedLen)
  else if phase = 3 then
    st.btf.offs = seedOffs3 seedMms (u32OfInt seedLen) ∧
      st.btr.offs = seedOffsFull (u32OfInt seedLen) ∧
      st.hh.offs = seedOffsHh seedMms (u32OfInt seedLen)
  else
    st.btf.offs = seedOffsFull (u32OfInt seedLen) ∧
      st.hh.offs = seedOffsHh seedMms (u32OfInt seedLen)

/-- A read whose two strands have the same length. -/
def Read.WellFormed (r : Read) : Prop := r.patRc.length = r.patFw.length

instance (r : Read) : Decidable r.WellFormed := by
  unfold Read.WellFormed; exact inferInstance

/-- The thresholds a search call runs with are monotone (a search that is not a
backtracker run has none). -/
def SearchCall.MonotoneOffs (c : SearchCall) : Prop := ∀ o, c.offs = some o → o.Monotone

/-- The positions below `k` at which the pattern differs from the reference
window that starts at `off`, in ascending order. -/
def leftDiffs (pat o : List Nat) (off k : Nat) : List Nat :=
  (List.range k).filter fun p => decide (pat.getD p 0 ≠ o.getD (off + p) 0)

/-- The positions of the left `ceil(plen/2)` pattern bases at which the pattern
differs from the reference window that starts at `off`. -/
def leftMismatches (pat o : List Nat) (off : Nat) : List Nat :=
  leftDiffs pat o off ((pat.length + 1) / 2)

/-- The bit that stands for pattern position `p` in a bitmap that counts from
the 5' end: `p` itself for a forward read, `plen - 1 - p` for a reverse
complement. -/
def fivePrimeBit (fw : Bool) (plen p : Nat) : Nat := if fw then p else plen - p - 1

/-- The pattern matches the reference text `o` at offset `off` in the way
`findSanityHits` looks for: it fits, the window holds no `N`, the right
`floor(plen/2)` bases agree, and the left `ceil(plen/2)` bases differ in exactly
one position, or in none when `allowExact` is set. -/
def SanityMatch (pat o : List Nat) (allowExact : Bool) (off : Nat) : Prop :=
  off + pat.length ≤ o.length ∧
    (∀ p, p < pat.length → o.getD (off + p) 0 ≠ 4) ∧
    (∀ p, (pat.length + 1) / 2 ≤ p → p < pat.length → pat.getD p 0 = o.getD (off + p) 0) ∧
    ((leftMismatches pat o off).length = 1 ∨
      ((leftMismatches pat o off).length = 0 ∧ allowExact = true))
/-! ## Worker threads -/

/-- What a search function does to get the reads of a phase processed, as far
as threads go. -/
inductive ThreadCall where
  /-- A `pthread_create(&threads[i], ..., worker, (i + 1))` for the worker
  function of `phase`, with `arg = i + 1`. -/
  | create (phase arg : Nat)
  /-- The worker function of `phase` called by the calling thread itself. -/
  | call (phase arg : Nat)
  /-- The read loop of `phase` run in the body of the search function, by the
  calling thread. -/
  | loop (phase : Nat)
  /-- A `pthread_join(threads[i], NULL)`, for the thread created with
  `arg = i + 1`. -/
  | join (phase arg : Nat)
deriving DecidableEq

/-- The phase a call belongs to. -/
def ThreadCall.phase : ThreadCall → Nat
  | .create p _ => p
  | .call p _ => p
  | .loop p => p
  | .join p _ => p

/-- The block that makes up a phase of `exactSearch` and of `mismatchSearch`,
once the array of threads has been allocated: when built with
`BOWTIE_PTHREADS` the loop `for(i = 0; i < nthreads-1; i++)` that creates the
threads, then the call of the worker with argument 0, then (again under
`BOWTIE_PTHREADS`) the loop that joins them. -/
def phaseThreads (pthreads : Bool) (nthreads : Int) (phase : Nat) : List ThreadCall :=
  (if pthreads then
      (List.range (nthreads - 1).toNat).map fun i => ThreadCall.create phase (i + 1)
    else []) ++
    [ThreadCall.call phase 0] ++
    (if pthreads then
      (List.range (nthreads - 1).toNat).map fun i => ThreadCall.join phase (i + 1)
    else [])

/-- The allocation `new pthread_t[nthreads-1]` at the entry of `exactSearch`
and `mismatchSearch` (under `BOWTIE_PTHREADS`): a negative length makes it
throw, and the process ends before any worker runs. -/
def threadArrayAllocated (pthreads : Bool) (nthreads : Int) : Bool :=
  !pthreads || decide (0 ≤ nthreads - 1)

/-- The thread calls of `exactSearch`; `none` when the allocation of the array
of threads ends the process. -/
def exactSearchThreads (pthreads : Bool) (nthreads : Int) : Option (List ThreadCall) :=
  if threadArrayAllocated pthreads nthreads then some (phaseThreads pthreads nthreads 1)
  else none

/-- The thread calls of `mismatchSearch`: a block for each of its two phases;
`none` when the allocation of the array of threads ends the process. -/
def mismatchSearchThreads (pthreads : Bool) (nthreads : Int) : Option (List ThreadCall) :=
  if threadArrayAllocated pthreads nthreads then
    some (phaseThreads pthreads nthreads 1 ++ phaseThreads pthreads nthreads 2)
  else none

/-- The thread calls of `twoOrThreeMismatchSearch`: it has no worker function
and creates no thread; the read loops of its three phases stand in its body. -/
def twoOrThreeMismatchSearchThreads (_pthreads : Bool) (_nthreads : Int) : List ThreadCall :=
  [ThreadCall.loop 1, ThreadCall.loop 2, ThreadCall.loop 3]

/-- The thread calls of `seededQualCutoffSearch`: it has no worker function and
creates no thread; the read loops of its phases stand in its body (with
`seedMms == 0` it returns after phase 2). -/
def seededQualCutoffSearchThreads (_pthreads : Bool) (_nthreads : Int) (seedMms : Int) :
    List ThreadCall :=
  if seedMms = 0 then [ThreadCall.loop 1, ThreadCall.loop 2]
  else [ThreadCall.loop 1, ThreadCall.loop 2, ThreadCall.loop 3, ThreadCall.loop 4]

/-- The arguments of the threads created for `phase`, in order of creation. -/
def spawnedWorkers (cs : List ThreadCall) (phase : Nat) : List Nat :=
  cs.filterMap fun c =>
    match c with
    | .create p a => if p = phase then some a else none
    | _ => none

/-- The workers that process the reads of `phase`: the threads created for it
and the calling thread, which is worker 0 when it runs the loop itself. -/
def phaseWorkers (cs : List ThreadCall) (phase : Nat) : List Nat :=
  cs.filterMap fun c =>
    match c with
    | .create p a => if p = phase then some a else none
    | .call p a => if p = phase then some a else none
    | .loop p => if p = phase then some 0 else none
    | .join _ _ => none

/-- The threads created and not yet joined after the calls `cs`, from the
threads `live` before them. -/
def liveThreads : List ThreadCall → List Nat → List Nat
  | [], live => live
  | .create _ a :: cs, live => liveThreads cs (live ++ [a])
  | .join _ a :: cs, live => liveThreads cs (live.erase a)
  | .call _ _ :: cs, live => liveThreads cs live
  | .loop _ :: cs, live => liveThreads cs live

/-- The calls made before the first call of a phase later than `phase`. -/
def callsThrough (cs : List ThreadCall) (phase : Nat) : List ThreadCall :=
  cs.takeWhile fun c => decide (c.phase ≤ phase)

/-- The reads of `phase` are processed by `nthreads` workers: `nthreads - 1`
created threads numbered from 1 and the calling thread as worker 0, and every
created thread has been joined before a later phase starts. -/
def WorkerPool (cs : List ThreadCall) (nthreads phase : Nat) : Prop :=
  spawnedWorkers cs phase = (List.range (nthreads - 1)).map (fun i => i + 1) ∧
    phaseWorkers cs phase = spawnedWorkers cs phase ++ [0] ∧
    (phaseWorkers cs phase).length = nthreads ∧
    liveThreads (callsThrough cs phase) [] = []

instance (cs : List ThreadCall) (nthreads phase : Nat) :
    Decidable (WorkerPool cs nthreads phase) := by
  unfold WorkerPool
  exact inferInstance
/-! # Theorems -/

/-! ## Frame lemmas: what each state operation leaves alone -/

@[simp] theorem St.getRead_sink (st : St) (rd : Read) : (st.getRead rd).sink = st.sink := rfl
@[simp] theorem St.getRead_fw (st : St) (rd : Read) : (st.getRead rd).fw = st.fw := rfl
@[simp] theorem St.getRead_ebwtFw (st : St) (rd : Read) : (st.getRead rd).ebwtFw = st.ebwtFw := rfl
@[simp] theorem St.getRead_doneMask (st : St) (rd : Read) : (st.getRead rd).doneMask = st.doneMask := rfl
@[simp] theorem St.getRead_lastHits (st : St) (rd : Read) : (st.getRead rd).lastHits = st.lastHits := rfl
@[simp] theorem St.getRead_btf (st : St) (rd : Read) : (st.getRead rd).btf = st.btf := rfl
@[simp] theorem St.getRead_btr (st : St) (rd : Read) : (st.getRead rd).btr = st.btr := rfl
@[simp] theorem St.getRead_bt (st : St) (rd : Read) : (st.getRead rd).bt = st.bt := rfl
@[simp] theorem St.getRead_hh (st : St) (rd : Read) : (st.getRead rd).hh = st.hh := rfl
@[simp] theorem St.getRead_pamRc (st : St) (rd : Read) : (st.getRead rd).pamRc = st.pamRc := rfl
@[simp] theorem St.getRead_pamFw (st : St) (rd : Read) : (st.getRead rd).pamFw = st.pamFw := rfl
@[simp] theorem St.getRead_fwInMemory (st : St) (rd : Read) : (st.getRead rd).fwInMemory = st.fwInMemory := rfl
@[simp] theorem St.getRead_bwInMemory (st : St) (rd : Read) : (st.getRead rd).bwInMemory = st.bwInMemory := rfl
@[simp] theorem St.getRead_reverse (st : St) (rd : Read) : (st.getRead rd).reverse = st.reverse := rfl
@[simp] theorem St.getRead_trace (st : St) (rd : Read) : (st.getRead rd).trace = st.trace := rfl
@[simp] theorem St.getRead_exited (st : St) (rd : Read) : (st.getRead rd).exited = st.exited := rfl

@[simp] theorem St.setFw_sink (st : St) (b : Bool) : (st.setFw b).sink = st.sink := rfl
@[simp] theorem St.setFw_patId (st : St) (b : Bool) : (st.setFw b).patId = st.patId := rfl
@[simp] theorem St.setFw_ebwtFw (st : St) (b : Bool) : (st.setFw b).ebwtFw = st.ebwtFw := rfl
@[simp] theorem St.setFw_doneMask (st : St) (b : Bool) : (st.setFw b).doneMask = st.doneMask := rfl
@[simp] theorem St.setFw_lastHits (st : St) (b : Bool) : (st.setFw b).lastHits = st.lastHits := rfl
@[simp] theorem St.setFw_lastLen (st : St) (b : Bool) : (st.setFw b).lastLen = st.lastLen := rfl
@[simp] theorem St.setFw_btf (st : St) (b : Bool) : (st.setFw b).btf = st.btf := rfl
@[simp] theorem St.setFw_btr (st : St) (b : Bool) : (st.setFw b).btr = st.btr := rfl
@[simp] theorem St.setFw_bt (st : St) (b : Bool) : (st.setFw b).bt = st.bt := rfl
@[simp] theorem St.setFw_hh (st : St) (b : Bool) : (st.setFw b).hh = st.hh := rfl
@[simp] theorem St.setFw_pamRc (st : St) (b : Bool) : (st.setFw b).pamRc = st.pamRc := rfl
@[simp] theorem St.setFw_pamFw (st : St) (b : Bool) : (st.setFw b).pamFw = st.pamFw := rfl
@[simp] theorem St.setFw_fwInMemory (st : St) (b : Bool) : (st.setFw b).fwInMemory = st.fwInMemory := rfl
@[simp] theorem St.setFw_bwInMemory (st : St) (b : Bool) : (st.setFw b).bwInMemory = st.bwInMemory := rfl
@[simp] theorem St.setFw_reverse (st : St) (b : Bool) : (st.setFw b).reverse = st.reverse := rfl
@[simp] theorem St.setFw_trace (st : St) (b : Bool) : (st.setFw b).trace = st.trace := rfl
@[simp] theorem St.setFw_exited (st : St) (b : Bool) : (st.setFw b).exited = st.exited := rfl

@[simp] theorem St.setEbwtFw_sink (st : St) (b : Bool) : (st.setEbwtFw b).sink = st.sink := rfl
@[simp] theorem St.setEbwtFw_patId (st : St) (b : Bool) : (st.setEbwtFw b).patId = st.patId := rfl
@[simp] theorem St.setEbwtFw_fw (st : St) (b : Bool) : (st.setEbwtFw b).fw = st.fw := rfl
@[simp] theorem St.setEbwtFw_doneMask (st : St) (b : Bool) : (st.setEbwtFw b).doneMask = st.doneMask := rfl
@[simp] theorem St.setEbwtFw_lastHits (st : St) (b : Bool) : (st.setEbwtFw b).lastHits = st.lastHits := rfl
@[simp] theorem St.setEbwtFw_lastLen (st : St) (b : Bool) : (st.setEbwtFw b).lastLen = st.lastLen := rfl
@[simp] theorem St.setEbwtFw_btf (st : St) (b : Bool) : (st.setEbwtFw b).btf = st.btf := rfl
@[simp] theorem St.setEbwtFw_btr (st : St) (b : Bool) : (st.setEbwtFw b).btr = st.btr := rfl
@[simp] theorem St.setEbwtFw_bt (st : St) (b : Bool) : (st.setEbwtFw b).bt = st.bt := rfl
@[simp] theorem St.setEbwtFw_hh (st : St) (b : Bool) : (st.setEbwtFw b).hh = st.hh := rfl
@[simp] theorem St.setEbwtFw_pamRc (st : St) (b : Bool) : (st.setEbwtFw b).pamRc = st.pamRc := rfl
@[simp] theorem St.setEbwtFw_pamFw (st : St) (b : Bool) : (st.setEbwtFw b).pamFw = st.pamFw := rfl
@[simp] theorem St.setEbwtFw_fwInMemory (st : St) (b : Bool) : (st.setEbwtFw b).fwInMemory = st.fwInMemory := rfl
@[simp] theorem St.setEbwtFw_bwInMemory (st : St) (b : Bool) : (st.setEbwtFw b).bwInMemory = st.bwInMemory := rfl
@[simp] theorem St.setEbwtFw_reverse (st : St) (b : Bool) : (st.setEbwtFw b).reverse = st.reverse := rfl
@[simp] theorem St.setEbwtFw_trace (st : St) (b : Bool) : (st.setEbwtFw b).trace = st.trace := rfl
@[simp] theorem St.setEbwtFw_exited (st : St) (b : Bool) : (st.setEbwtFw b).exited = st.exited := rfl

@[simp] theorem St.syncLastHits_sink (st : St) : (st.syncLastHits).sink = st.sink := rfl
@[simp] theorem St.syncLastHits_patId (st : St) : (st.syncLastHits).patId = st.patId := rfl
@[simp] theorem St.syncLastHits_fw (st : St) : (st.syncLastHits).fw = st.fw := rfl
@[simp] theorem St.syncLastHits_ebwtFw (st : St) : (st.syncLastHits).ebwtFw = st.ebwtFw := rfl
@[simp] theorem St.syncLastHits_doneMask (st : St) : (st.syncLastHits).doneMask = st.doneMask := rfl
@[simp] theorem St.syncLastHits_lastLen (st : St) : (st.syncLastHits).lastLen = st.lastLen := rfl
@[simp] theorem St.syncLastHits_btf (st : St) : (st.syncLastHits).btf = st.btf := rfl
@[simp] theorem St.syncLastHits_btr (st : St) : (st.syncLastHits).btr = st.btr := rfl
@[simp] theorem St.syncLastHits_bt (st : St) : (st.syncLastHits).bt = st.bt := rfl
@[simp] theorem St.syncLastHits_hh (st : St) : (st.syncLastHits).hh = st.hh := rfl
@[simp] theorem St.syncLastHits_pamRc (st : St) : (st.syncLastHits).pamRc = st.pamRc := rfl
@[simp] theorem St.syncLastHits_pamFw (st : St) : (st.syncLastHits).pamFw = st.pamFw := rfl
@[simp] theorem St.syncLastHits_fwInMemory (st : St) : (st.syncLastHits).fwInMemory = st.fwInMemory := rfl
@[simp] theorem St.syncLastHits_bwInMemory (st : St) : (st.syncLastHits).bwInMemory = st.bwInMemory := rfl
@[simp] theorem St.syncLastHits_reverse (st : St) : (st.syncLastHits).reverse = st.reverse := rfl
@[simp] theorem St.syncLastHits_trace (st : St) : (st.syncLastHits).trace = st.trace := rfl
@[simp] theorem St.syncLastHits_exited (st : St) : (st.syncLastHits).exited = st.exited := rfl

@[simp] theorem St.exit_sink (st : St) : (st.exit).sink = st.sink := rfl
@[simp] theorem St.exit_patId (st : St) : (st.exit).patId = st.patId := rfl
@[simp] theorem St.exit_fw (st : St) : (st.exit).fw = st.fw := rfl
@[simp] theorem St.exit_ebwtFw (st : St) : (st.exit).ebwtFw = st.ebwtFw := rfl
@[simp] theorem St.exit_doneMask (st : St) : (st.exit).doneMask = st.doneMask := rfl
@[simp] theorem St.exit_lastHits (st : St) : (st.exit).lastHits = st.lastHits := rfl
@[simp] theorem St.exit_lastLen (st : St) : (st.exit).lastLen = st.lastLen := rfl
@[simp] theorem St.exit_btf (st : St) : (st.exit).btf = st.btf := rfl
@[simp] theorem St.exit_btr (st : St) : (st.exit).btr = st.btr := rfl
@[simp] theorem St.exit_bt (st : St) : (st.exit).bt = st.bt := rfl
@[simp] theorem St.exit_hh (st : St) : (st.exit).hh = st.hh := rfl
@[simp] theorem St.exit_pamRc (st : St) : (st.exit).pamRc = st.pamRc := rfl
@[simp] theorem St.exit_pamFw (st : St) : (st.exit).pamFw = st.pamFw := rfl
@[simp] theorem St.exit_fwInMemory (st : St) : (st.exit).fwInMemory = st.fwInMemory := rfl
@[simp] theorem St.exit_bwInMemory (st : St) : (st.exit).bwInMemory = st.bwInMemory := rfl
@[simp] theorem St.exit_reverse (st : St) : (st.exit).reverse = st.reverse := rfl
@[simp] theorem St.exit_trace (st : St) : (st.exit).trace = st.trace := rfl

@[simp] theorem St.rejectProvisionalHits_patId (st : St) : (st.rejectProvisionalHits).patId = st.patId := rfl
@[simp] theorem St.rejectProvisionalHits_fw (st : St) : (st.rejectProvisionalHits).fw = st.fw := rfl
@[simp] theorem St.rejectProvisionalHits_ebwtFw (st : St) : (st.rejectProvisionalHits).ebwtFw = st.ebwtFw := rfl
@[simp] theorem St.rejectProvisionalHits_doneMask (st : St) : (st.rejectProvisionalHits).doneMask = st.doneMask := rfl
@[simp] theorem St.rejectProvisionalHits_lastHits (st : St) : (st.rejectProvisionalHits).lastHits = st.lastHits := rfl
@[simp] theorem St.rejectProvisionalHits_lastLen (st : St) : (st.rejectProvisionalHits).lastLen = st.lastLen := rfl
@[simp] theorem St.rejectProvisionalHits_btf (st : St) : (st.rejectProvisionalHits).btf = st.btf := rfl
@[simp] theorem St.rejectProvisionalHits_btr (st : St) : (st.rejectProvisionalHits).btr = st.btr := rfl
@[simp] theorem St.rejectProvisionalHits_bt (st : St) : (st.rejectProvisionalHits).bt = st.bt := rfl
@[simp] theorem St.rejectProvisionalHits_hh (st : St) : (st.rejectProvisionalHits).hh = st.hh := rfl
@[simp] theorem St.rejectProvisionalHits_pamRc (st : St) : (st.rejectProvisionalHits).pamRc = st.pamRc := rfl
@[simp] theorem St.rejectProvisionalHits_pamFw (st : St) : (st.rejectProvisionalHits).pamFw = st.pamFw := rfl
@[simp] theorem St.rejectProvisionalHits_fwInMemory (st : St) : (st.rejectProvisionalHits).fwInMemory = st.fwInMemory := rfl
@[simp] theorem St.rejectProvisionalHits_bwInMemory (st : St) : (st.rejectProvisionalHits).bwInMemory = st.bwInMemory := rfl
@[simp] theorem St.rejectProvisionalHits_reverse (st : St) : (st.rejectProvisionalHits).reverse = st.reverse := rfl
@[simp] theorem St.rejectProvisionalHits_trace (st : St) : (st.rejectProvisionalHits).trace = st.trace := rfl
@[simp] theorem St.rejectProvisionalHits_exited (st : St) : (st.rejectProvisionalHits).exited = st.exited := rfl

@[simp] theorem St.acceptProvisionalHits_patId (st : St) : (st.acceptProvisionalHits).patId = st.patId := rfl
@[simp] theorem St.acceptProvisionalHits_fw (st : St) : (st.acceptProvisionalHits).fw = st.fw := rfl
@[simp] theorem St.acceptProvisionalHits_ebwtFw (st : St) : (st.acceptProvisionalHits).ebwtFw = st.ebwtFw := rfl
@[simp] theorem St.acceptProvisionalHits_doneMask (st : St) : (st.acceptProvisionalHits).doneMask = st.doneMask := rfl
@[simp] theorem St.acceptProvisionalHits_lastHits (st : St) : (st.acceptProvisionalHits).lastHits = st.lastHits := rfl
@[simp] theorem St.acceptProvisionalHits_lastLen (st : St) : (st.acceptProvisionalHits).lastLen = st.lastLen := rfl
@[simp] theorem St.acceptProvisionalHits_btf (st : St) : (st.acceptProvisionalHits).btf = st.btf := rfl
@[simp] theorem St.acceptProvisionalHits_btr (st : St) : (st.acceptProvisionalHits).btr = st.btr := rfl
@[simp] theorem St.acceptProvisionalHits_bt (st : St) : (st.acceptProvisionalHits).bt = st.bt := rfl
@[simp] theorem St.acceptProvisionalHits_hh (st : St) : (st.acceptProvisionalHits).hh = st.hh := rfl
@[simp] theorem St.acceptProvisionalHits_pamRc (st : St) : (st.acceptProvisionalHits).pamRc = st.pamRc := rfl
@[simp] theorem St.acceptProvisionalHits_pamFw (st : St) : (st.acceptProvisionalHits).pamFw = st.pamFw := rfl
@[simp] theorem St.acceptProvisionalHits_fwInMemory (st : St) : (st.acceptProvisionalHits).fwInMemory = st.fwInMemory := rfl
@[simp] theorem St.acceptProvisionalHits_bwInMemory (st : St) : (st.acceptProvisionalHits).bwInMemory = st.bwInMemory := rfl
@[simp] theorem St.acceptProvisionalHits_reverse (st : St) : (st.acceptProvisionalHits).reverse = st.reverse := rfl
@[simp] theorem St.acceptProvisionalHits_trace (st : St) : (st.acceptProvisionalHits).trace = st.trace := rfl
@[simp] theorem St.acceptProvisionalHits_exited (st : St) : (st.acceptProvisionalHits).exited = st.exited := rfl

@[simp] theorem St.setOffsBtf_sink (st : St) (o : Offs) : (st.setOffsBtf o).sink = st.sink := rfl
@[simp] theorem St.setOffsBtf_patId (st : St) (o : Offs) : (st.setOffsBtf o).patId = st.patId := rfl
@[simp] theorem St.setOffsBtf_fw (st : St) (o : Offs) : (st.setOffsBtf o).fw = st.fw := rfl
@[simp] theorem St.setOffsBtf_ebwtFw (st : St) (o : Offs) : (st.setOffsBtf o).ebwtFw = st.ebwtFw := rfl
@[simp] theorem St.setOffsBtf_doneMask (st : St) (o : Offs) : (st.setOffsBtf o).doneMask = st.doneMask := rfl
@[simp] theorem St.setOffsBtf_lastHits (st : St) (o : Offs) : (st.setOffsBtf o).lastHits = st.lastHits := rfl
@[simp] theorem St.setOffsBtf_lastLen (st : St) (o : Offs) : (st.setOffsBtf o).lastLen = st.lastLen := rfl
@[simp] theorem St.setOffsBtf_btr (st : St) (o : Offs) : (st.setOffsBtf o).btr = st.btr := rfl
@[simp] theorem St.setOffsBtf_bt (st : St) (o : Offs) : (st.setOffsBtf o).bt = st.bt := rfl
@[simp] theorem St.setOffsBtf_hh (st : St) (o : Offs) : (st.setOffsBtf o).hh = st.hh := rfl
@[simp] theorem St.setOffsBtf_pamRc (st : St) (o : Offs) : (st.setOffsBtf o).pamRc = st.pamRc := rfl
@[simp] theorem St.setOffsBtf_pamFw (st : St) (o : Offs) : (st.setOffsBtf o).pamFw = st.pamFw := rfl
@[simp] theorem St.setOffsBtf_fwInMemory (st : St) (o : Offs) : (st.setOffsBtf o).fwInMemory = st.fwInMemory := rfl
@[simp] theorem St.setOffsBtf_bwInMemory (st : St) (o : Offs) : (st.setOffsBtf o).bwInMemory = st.bwInMemory := rfl
@[simp] theorem St.setOffsBtf_reverse (st : St) (o : Offs) : (st.setOffsBtf o).reverse = st.reverse := rfl
@[simp] theorem St.setOffsBtf_trace (st : St) (o : Offs) : (st.setOffsBtf o).trace = st.trace := rfl
@[simp] theorem St.setOffsBtf_exited (st : St) (o : Offs) : (st.setOffsBtf o).exited = st.exited := rfl

@[simp] theorem St.setOffsBtr_sink (st : St) (o : Offs) : (st.setOffsBtr o).sink = st.sink := rfl
@[simp] theorem St.setOffsBtr_patId (st : St) (o : Offs) : (st.setOffsBtr o).patId = st.patId := rfl
@[simp] theorem St.setOffsBtr_fw (st : St) (o : Offs) : (st.setOffsBtr o).fw = st.fw := rfl
@[simp] theorem St.setOffsBtr_ebwtFw (st : St) (o : Offs) : (st.setOffsBtr o).ebwtFw = st.ebwtFw := rfl
@[simp] theorem St.setOffsBtr_doneMask (st : St) (o : Offs) : (st.setOffsBtr o).doneMask = st.doneMask := rfl
@[simp] theorem St.setOffsBtr_lastHits (st : St) (o : Offs) : (st.setOffsBtr o).lastHits = st.lastHits := rfl
@[simp] theorem St.setOffsBtr_lastLen (st : St) (o : Offs) : (st.setOffsBtr o).lastLen = st.lastLen := rfl
@[simp] theorem St.setOffsBtr_btf (st : St) (o : Offs) : (st.setOffsBtr o).btf = st.btf := rfl
@[simp] theorem St.setOffsBtr_bt (st : St) (o : Offs) : (st.setOffsBtr o).bt = st.bt := rfl
@[simp] theorem St.setOffsBtr_hh (st : St) (o : Offs) : (st.setOffsBtr o).hh = st.hh := rfl
@[simp] theorem St.setOffsBtr_pamRc (st : St) (o : Offs) : (st.setOffsBtr o).pamRc = st.pamRc := rfl
@[simp] theorem St.setOffsBtr_pamFw (st : St) (o : Offs) : (st.setOffsBtr o).pamFw = st.pamFw := rfl
@[simp] theorem St.setOffsBtr_fwInMemory (st : St) (o : Offs) : (st.setOffsBtr o).fwInMemory = st.fwInMemory := rfl
@[simp] theorem St.setOffsBtr_bwInMemory (st : St) (o : Offs) : (st.setOffsBtr o).bwInMemory = st.bwInMemory := rfl
@[simp] theorem St.setOffsBtr_reverse (st : St) (o : Offs) : (st.setOffsBtr o).reverse = st.reverse := rfl
@[simp] theorem St.setOffsBtr_trace (st : St) (o : Offs) : (st.setOffsBtr o).trace = st.trace := rfl
@[simp] theorem St.setOffsBtr_exited (st : St) (o : Offs) : (st.setOffsBtr o).exited = st.exited := rfl

@[simp] theorem St.setOffsBt_sink (st : St) (o : Offs) : (st.setOffsBt o).sink = st.sink := rfl
@[simp] theorem St.setOffsBt_patId (st : St) (o : Offs) : (st.setOffsBt o).patId = st.patId := rfl
@[simp] theorem St.setOffsBt_fw (st : St) (o : Offs) : (st.setOffsBt o).fw = st.fw := rfl
@[simp] theorem St.setOffsBt_ebwtFw (st : St) (o : Offs) : (st.setOffsBt o).ebwtFw = st.ebwtFw := rfl
@[simp] theorem St.setOffsBt_doneMask (st : St) (o : Offs) : (st.setOffsBt o).doneMask = st.doneMask := rfl
@[simp] theorem St.setOffsBt_lastHits (st : St) (o : Offs) : (st.setOffsBt o).lastHits = st.lastHits := rfl
@[simp] theorem St.setOffsBt_lastLen (st : St) (o : Offs) : (st.setOffsBt o).lastLen = st.lastLen := rfl
@[simp] theorem St.setOffsBt_btf (st : St) (o : Offs) : (st.setOffsBt o).btf = st.btf := rfl
@[simp] theorem St.setOffsBt_btr (st : St) (o : Offs) : (st.setOffsBt o).btr = st.btr := rfl
@[simp] theorem St.setOffsBt_hh (st : St) (o : Offs) : (st.setOffsBt o).hh = st.hh := rfl
@[simp] theorem St.setOffsBt_pamRc (st : St) (o : Offs) : (st.setOffsBt o).pamRc = st.pamRc := rfl
@[simp] theorem St.setOffsBt_pamFw (st : St) (o : Offs) : (st.setOffsBt o).pamFw = st.pamFw := rfl
@[simp] theorem St.setOffsBt_fwInMemory (st : St) (o : Offs) : (st.setOffsBt o).fwInMemory = st.fwInMemory := rfl
@[simp] theorem St.setOffsBt_bwInMemory (st : St) (o : Offs) : (st.setOffsBt o).bwInMemory = st.bwInMemory := rfl
@[simp] theorem St.setOffsBt_reverse (st : St) (o : Offs) : (st.setOffsBt o).reverse = st.reverse := rfl
@[simp] theorem St.setOffsBt_trace (st : St) (o : Offs) : (st.setOffsBt o).trace = st.trace := rfl
@[simp] theorem St.setOffsBt_exited (st : St) (o : Offs) : (st.setOffsBt o).exited = st.exited := rfl

@[simp] theorem St.setOffsHh_sink (st : St) (o : Offs) : (st.setOffsHh o).sink = st.sink := rfl
@[simp] theorem St.setOffsHh_patId (st : St) (o : Offs) : (st.setOffsHh o).patId = st.patId := rfl
@[simp] theorem St.setOffsHh_fw (st : St) (o : Offs) : (st.setOffsHh o).fw = st.fw := rfl
@[simp] theorem St.setOffsHh_ebwtFw (st : St) (o : Offs) : (st.setOffsHh o).ebwtFw = st.ebwtFw := rfl
@[simp] theorem St.setOffsHh_doneMask (st : St) (o : Offs) : (st.setOffsHh o).doneMask = st.doneMask := rfl
@[simp] theorem St.setOffsHh_lastHits (st : St) (o : Offs) : (st.setOffsHh o).lastHits = st.lastHits := rfl
@[simp] theorem St.setOffsHh_lastLen (st : St) (o : Offs) : (st.setOffsHh o).lastLen = st.lastLen := rfl
@[simp] theorem St.setOffsHh_btf (st : St) (o : Offs) : (st.setOffsHh o).btf = st.btf := rfl
@[simp] theorem St.setOffsHh_btr (st : St) (o : Offs) : (st.setOffsHh o).btr = st.btr := rfl
@[simp] theorem St.setOffsHh_bt (st : St) (o : Offs) : (st.setOffsHh o).bt = st.bt := rfl
@[simp] theorem St.setOffsHh_pamRc (st : St) (o : Offs) : (st.setOffsHh o).pamRc = st.pamRc := rfl
@[simp] theorem St.setOffsHh_pamFw (st : St) (o : Offs) : (st.setOffsHh o).pamFw = st.pamFw := rfl
@[simp] theorem St.setOffsHh_fwInMemory (st : St) (o : Offs) : (st.setOffsHh o).fwInMemory = st.fwInMemory := rfl
@[simp] theorem St.setOffsHh_bwInMemory (st : St) (o : Offs) : (st.setOffsHh o).bwInMemory = st.bwInMemory := rfl
@[simp] theorem St.setOffsHh_reverse (st : St) (o : Offs) : (st.setOffsHh o).reverse = st.reverse := rfl
@[simp] theorem St.setOffsHh_trace (st : St) (o : Offs) : (st.setOffsHh o).trace = st.trace := rfl
@[simp] theorem St.setOffsHh_exited (st : St) (o : Offs) : (st.setOffsHh o).exited = st.exited := rfl

@[simp] theorem St.setQlenBtf_sink (st : St) (n : Nat) : (st.setQlenBtf n).sink = st.sink := rfl
@[simp] theorem St.setQlenBtf_patId (st : St) (n : Nat) : (st.setQlenBtf n).patId = st.patId := rfl
@[simp] theorem St.setQlenBtf_fw (st : St) (n : Nat) : (st.setQlenBtf n).fw = st.fw := rfl
@[simp] theorem St.setQlenBtf_ebwtFw (st : St) (n : Nat) : (st.setQlenBtf n).ebwtFw = st.ebwtFw := rfl
@[simp] theorem St.setQlenBtf_doneMask (st : St) (n : Nat) : (st.setQlenBtf n).doneMask = st.doneMask := rfl
@[simp] theorem St.setQlenBtf_lastHits (st : St) (n : Nat) : (st.setQlenBtf n).lastHits = st.lastHits := rfl
@[simp] theorem St.setQlenBtf_lastLen (st : St) (n : Nat) : (st.setQlenBtf n).lastLen = st.lastLen := rfl
@[simp] theorem St.setQlenBtf_btr (st : St) (n : Nat) : (st.setQlenBtf n).btr = st.btr := rfl
@[simp] theorem St.setQlenBtf_bt (st : St) (n : Nat) : (st.setQlenBtf n).bt = st.bt := rfl
@[simp] theorem St.setQlenBtf_hh (st : St) (n : Nat) : (st.setQlenBtf n).hh = st.hh := rfl
@[simp] theorem St.setQlenBtf_pamRc (st : St) (n : Nat) : (st.setQlenBtf n).pamRc = st.pamRc := rfl
@[simp] theorem St.setQlenBtf_pamFw (st : St) (n : Nat) : (st.setQlenBtf n).pamFw = st.pamFw := rfl
@[simp] theorem St.setQlenBtf_fwInMemory (st : St) (n : Nat) : (st.setQlenBtf n).fwInMemory = st.fwInMemory := rfl
@[simp] theorem St.setQlenBtf_bwInMemory (st : St) (n : Nat) : (st.setQlenBtf n).bwInMemory = st.bwInMemory := rfl
@[simp] theorem St.setQlenBtf_reverse (st : St) (n : Nat) : (st.setQlenBtf n).reverse = st.reverse := rfl
@[simp] theorem St.setQlenBtf_trace (st : St) (n : Nat) : (st.setQlenBtf n).trace = st.trace := rfl
@[simp] theorem St.setQlenBtf_exited (st : St) (n : Nat) : (st.setQlenBtf n).exited = st.exited := rfl

@[simp] theorem St.setQlenBtr_sink (st : St) (n : Nat) : (st.setQlenBtr n).sink = st.sink := rfl
@[simp] theorem St.setQlenBtr_patId (st : St) (n : Nat) : (st.setQlenBtr n).patId = st.patId := rfl
@[simp] theorem St.setQlenBtr_fw (st : St) (n : Nat) : (st.setQlenBtr n).fw = st.fw := rfl
@[simp] theorem St.setQlenBtr_ebwtFw (st : St) (n : Nat) : (st.setQlenBtr n).ebwtFw = st.ebwtFw := rfl
@[simp] theorem St.setQlenBtr_doneMask (st : St) (n : Nat) : (st.setQlenBtr n).doneMask = st.doneMask := rfl
@[simp] theorem St.setQlenBtr_lastHits (st : St) (n : Nat) : (st.setQlenBtr n).lastHits = st.lastHits := rfl
@[simp] theorem St.setQlenBtr_lastLen (st : St) (n : Nat) : (st.setQlenBtr n).lastLen = st.lastLen := rfl
@[simp] theorem St.setQlenBtr_btf (st : St) (n : Nat) : (st.setQlenBtr n).btf = st.btf := rfl
@[simp] theorem St.setQlenBtr_bt (st : St) (n : Nat) : (st.setQlenBtr n).bt = st.bt := rfl
@[simp] theorem St.setQlenBtr_hh (st : St) (n : Nat) : (st.setQlenBtr n).hh = st.hh := rfl
@[simp] theorem St.setQlenBtr_pamRc (st : St) (n : Nat) : (st.setQlenBtr n).pamRc = st.pamRc := rfl
@[simp] theorem St.setQlenBtr_pamFw (st : St) (n : Nat) : (st.setQlenBtr n).pamFw = st.pamFw := rfl
@[simp] theorem St.setQlenBtr_fwInMemory (st : St) (n : Nat) : (st.setQlenBtr n).fwInMemory = st.fwInMemory := rfl
@[simp] theorem St.setQlenBtr_bwInMemory (st : St) (n : Nat) : (st.setQlenBtr n).bwInMemory = st.bwInMemory := rfl
@[simp] theorem St.setQlenBtr_reverse (st : St) (n : Nat) : (st.setQlenBtr n).reverse = st.reverse := rfl
@[simp] theorem St.setQlenBtr_trace (st : St) (n : Nat) : (st.setQlenBtr n).trace = st.trace := rfl
@[simp] theorem St.setQlenBtr_exited (st : St) (n : Nat) : (st.setQlenBtr n).exited = st.exited := rfl

@[simp] theorem St.markDone_sink (st : St) (p : Nat) : (st.markDone p).sink = st.sink := rfl
@[simp] theorem St.markDone_patId (st : St) (p : Nat) : (st.markDone p).patId = st.patId := rfl
@[simp] theorem St.markDone_fw (st : St) (p : Nat) : (st.markDone p).fw = st.fw := rfl
@[simp] theorem St.markDone_ebwtFw (st : St) (p : Nat) : (st.markDone p).ebwtFw = st.ebwtFw := rfl
@[simp] theorem St.markDone_lastHits (st : St) (p : Nat) : (st.markDone p).lastHits = st.lastHits := rfl
@[simp] theorem St.markDone_lastLen (st : St) (p : Nat) : (st.markDone p).lastLen = st.lastLen := rfl
@[simp] theorem St.markDone_btf (st : St) (p : Nat) : (st.markDone p).btf = st.btf := rfl
@[simp] theorem St.markDone_btr (st : St) (p : Nat) : (st.markDone p).btr = st.btr := rfl
@[simp] theorem St.markDone_bt (st : St) (p : Nat) : (st.markDone p).bt = st.bt := rfl
@[simp] theorem St.markDone_hh (st : St) (p : Nat) : (st.markDone p).hh = st.hh := rfl
@[simp] theorem St.markDone_pamRc (st : St) (p : Nat) : (st.markDone p).pamRc = st.pamRc := rfl
@[simp] theorem St.markDone_pamFw (st : St) (p : Nat) : (st.markDone p).pamFw = st.pamFw := rfl
@[simp] theorem St.markDone_fwInMemory (st : St) (p : Nat) : (st.markDone p).fwInMemory = st.fwInMemory := rfl
@[simp] theorem St.markDone_bwInMemory (st : St) (p : Nat) : (st.markDone p).bwInMemory = st.bwInMemory := rfl
@[simp] theorem St.markDone_reverse (st : St) (p : Nat) : (st.markDone p).reverse = st.reverse := rfl
@[simp] theorem St.markDone_trace (st : St) (p : Nat) : (st.markDone p).trace = st.trace := rfl
@[simp] theorem St.markDone_exited (st : St) (p : Nat) : (st.markDone p).exited = st.exited := rfl

@[simp] theorem St.syncMarkDone_sink (st : St) (p : Nat) : (st.syncMarkDone p).sink = st.sink := rfl
@[simp] theorem St.syncMarkDone_patId (st : St) (p : Nat) : (st.syncMarkDone p).patId = st.patId := rfl
@[simp] theorem St.syncMarkDone_fw (st : St) (p : Nat) : (st.syncMarkDone p).fw = st.fw := rfl
@[simp] theorem St.syncMarkDone_ebwtFw (st : St) (p : Nat) : (st.syncMarkDone p).ebwtFw = st.ebwtFw := rfl
@[simp] theorem St.syncMarkDone_lastHits (st : St) (p : Nat) : (st.syncMarkDone p).lastHits = st.lastHits := rfl
@[simp] theorem St.syncMarkDone_lastLen (st : St) (p : Nat) : (st.syncMarkDone p).lastLen = st.lastLen := rfl
@[simp] theorem St.syncMarkDone_btf (st : St) (p : Nat) : (st.syncMarkDone p).btf = st.btf := rfl
@[simp] theorem St.syncMarkDone_btr (st : St) (p : Nat) : (st.syncMarkDone p).btr = st.btr := rfl
@[simp] theorem St.syncMarkDone_bt (st : St) (p : Nat) : (st.syncMarkDone p).bt = st.bt := rfl
@[simp] theorem St.syncMarkDone_hh (st : St) (p : Nat) : (st.syncMarkDone p).hh = st.hh := rfl
@[simp] theorem St.syncMarkDone_pamRc (st : St) (p : Nat) : (st.syncMarkDone p).pamRc = st.pamRc := rfl
@[simp] theorem St.syncMarkDone_pamFw (st : St) (p : Nat) : (st.syncMarkDone p).pamFw = st.pamFw := rfl
@[simp] theorem St.syncMarkDone_fwInMemory (st : St) (p : Nat) : (st.syncMarkDone p).fwInMemory = st.fwInMemory := rfl
@[simp] theorem St.syncMarkDone_bwInMemory (st : St) (p : Nat) : (st.syncMarkDone p).bwInMemory = st.bwInMemory := rfl
@[simp] theorem St.syncMarkDone_reverse (st : St) (p : Nat) : (st.syncMarkDone p).reverse = st.reverse := rfl
@[simp] theorem St.syncMarkDone_trace (st : St) (p : Nat) : (st.syncMarkDone p).trace = st.trace := rfl
@[simp] theorem St.syncMarkDone_exited (st : St) (p : Nat) : (st.syncMarkDone p).exited = st.exited := rfl

@[simp] theorem St.expand_sink (st : St) (p : Nat) : (st.expand p).sink = st.sink := rfl
@[simp] theorem St.expand_patId (st : St) (p : Nat) : (st.expand p).patId = st.patId := rfl
@[simp] theorem St.expand_fw (st : St) (p : Nat) : (st.expand p).fw = st.fw := rfl
@[simp] theorem St.expand_ebwtFw (st : St) (p : Nat) : (st.expand p).ebwtFw = st.ebwtFw := rfl
@[simp] theorem St.expand_lastHits (st : St) (p : Nat) : (st.expand p).lastHits = st.lastHits := rfl
@[simp] theorem St.expand_lastLen (st : St) (p : Nat) : (st.expand p).lastLen = st.lastLen := rfl
@[simp] theorem St.expand_btf (st : St) (p : Nat) : (st.expand p).btf = st.btf := rfl
@[simp] theorem St.expand_btr (st : St) (p : Nat) : (st.expand p).btr = st.btr := rfl
@[simp] theorem St.expand_bt (st : St) (p : Nat) : (st.expand p).bt = st.bt := rfl
@[simp] theorem St.expand_hh (st : St) (p : Nat) : (st.expand p).hh = st.hh := rfl
@[simp] theorem St.expand_pamRc (st : St) (p : Nat) : (st.expand p).pamRc = st.pamRc := rfl
@[simp] theorem St.expand_pamFw (st : St) (p : Nat) : (st.expand p).pamFw = st.pamFw := rfl
@[simp] theorem St.expand_fwInMemory (st : St) (p : Nat) : (st.expand p).fwInMemory = st.fwInMemory := rfl
@[simp] theorem St.expand_bwInMemory (st : St) (p : Nat) : (st.expand p).bwInMemory = st.bwInMemory := rfl
@[simp] theorem St.expand_reverse (st : St) (p : Nat) : (st.expand p).reverse = st.reverse := rfl
@[simp] theorem St.expand_trace (st : St) (p : Nat) : (st.expand p).trace = st.trace := rfl
@[simp] theorem St.expand_exited (st : St) (p : Nat) : (st.expand p).exited = st.exited := rfl

@[simp] theorem St.allocDone_sink (st : St) (n : Nat) : (st.allocDone n).sink = st.sink := rfl
@[simp] theorem St.allocDone_patId (st : St) (n : Nat) : (st.allocDone n).patId = st.patId := rfl
@[simp] theorem St.allocDone_fw (st : St) (n : Nat) : (st.allocDone n).fw = st.fw := rfl
@[simp] theorem St.allocDone_ebwtFw (st : St) (n : Nat) : (st.allocDone n).ebwtFw = st.ebwtFw := rfl
@[simp] theorem St.allocDone_lastHits (st : St) (n : Nat) : (st.allocDone n).lastHits = st.lastHits := rfl
@[simp] theorem St.allocDone_lastLen (st : St) (n : Nat) : (st.allocDone n).lastLen = st.lastLen := rfl
@[simp] theorem St.allocDone_btf (st : St) (n : Nat) : (st.allocDone n).btf = st.btf := rfl
@[simp] theorem St.allocDone_btr (st : St) (n : Nat) : (st.allocDone n).btr = st.btr := rfl
@[simp] theorem St.allocDone_bt (st : St) (n : Nat) : (st.allocDone n).bt = st.bt := rfl
@[simp] theorem St.allocDone_hh (st : St) (n : Nat) : (st.allocDone n).hh = st.hh := rfl
@[simp] theorem St.allocDone_pamRc (st : St) (n : Nat) : (st.allocDone n).pamRc = st.pamRc := rfl
@[simp] theorem St.allocDone_pamFw (st : St) (n : Nat) : (st.allocDone n).pamFw = st.pamFw := rfl
@[simp] theorem St.allocDone_fwInMemory (st : St) (n : Nat) : (st.allocDone n).fwInMemory = st.fwInMemory := rfl
@[simp] theorem St.allocDone_bwInMemory (st : St) (n : Nat) : (st.allocDone n).bwInMemory = st.bwInMemory := rfl
@[simp] theorem St.allocDone_reverse (st : St) (n : Nat) : (st.allocDone n).reverse = st.reverse := rfl
@[simp] theorem St.allocDone_trace (st : St) (n : Nat) : (st.allocDone n).trace = st.trace := rfl
@[simp] theorem St.allocDone_exited (st : St) (n : Nat) : (st.allocDone n).exited = st.exited := rfl

@[simp] theorem St.newWorker_patId (st : St) : (st.newWorker).patId = st.patId := rfl
@[simp] theorem St.newWorker_fw (st : St) : (st.newWorker).fw = st.fw := rfl
@[simp] theorem St.newWorker_ebwtFw (st : St) : (st.newWorker).ebwtFw = st.ebwtFw := rfl
@[simp] theorem St.newWorker_doneMask (st : St) : (st.newWorker).doneMask = st.doneMask := rfl
@[simp] theorem St.newWorker_btf (st : St) : (st.newWorker).btf = st.btf := rfl
@[simp] theorem St.newWorker_btr (st : St) : (st.newWorker).btr = st.btr := rfl
@[simp] theorem St.newWorker_bt (st : St) : (st.newWorker).bt = st.bt := rfl
@[simp] theorem St.newWorker_hh (st : St) : (st.newWorker).hh = st.hh := rfl
@[simp] theorem St.newWorker_pamRc (st : St) : (st.newWorker).pamRc = st.pamRc := rfl
@[simp] theorem St.newWorker_pamFw (st : St) : (st.newWorker).pamFw = st.pamFw := rfl
@[simp] theorem St.newWorker_fwInMemory (st : St) : (st.newWorker).fwInMemory = st.fwInMemory := rfl
@[simp] theorem St.newWorker_bwInMemory (st : St) : (st.newWorker).bwInMemory = st.bwInMemory := rfl
@[simp] theorem St.newWorker_reverse (st : St) : (st.newWorker).reverse = st.reverse := rfl
@[simp] theorem St.newWorker_trace (st : St) : (st.newWorker).trace = st.trace := rfl
@[simp] theorem St.newWorker_exited (st : St) : (st.newWorker).exited = st.exited := rfl

@[simp] theorem St.switchToFwIndex_sink (st : St) : (st.switchToFwIndex).sink = st.sink := rfl
@[simp] theorem St.switchToFwIndex_patId (st : St) : (st.switchToFwIndex).patId = st.patId := rfl
@[simp] theorem St.switchToFwIndex_fw (st : St) : (st.switchToFwIndex).fw = st.fw := rfl
@[simp] theorem St.switchToFwIndex_ebwtFw (st : St) : (st.switchToFwIndex).ebwtFw = st.ebwtFw := rfl
@[simp] theorem St.switchToFwIndex_doneMask (st : St) : (st.switchToFwIndex).doneMask = st.doneMask := rfl
@[simp] theorem St.switchToFwIndex_lastHits (st : St) : (st.switchToFwIndex).lastHits = st.lastHits := rfl
@[simp] theorem St.switchToFwIndex_lastLen (st : St) : (st.switchToFwIndex).lastLen = st.lastLen := rfl
@[simp] theorem St.switchToFwIndex_btf (st : St) : (st.switchToFwIndex).btf = st.btf := rfl
@[simp] theorem St.switchToFwIndex_btr (st : St) : (st.switchToFwIndex).btr = st.btr := rfl
@[simp] theorem St.switchToFwIndex_bt (st : St) : (st.switchToFwIndex).bt = st.bt := rfl
@[simp] theorem St.switchToFwIndex_hh (st : St) : (st.switchToFwIndex).hh = st.hh := rfl
@[simp] theorem St.switchToFwIndex_pamRc (st : St) : (st.switchToFwIndex).pamRc = st.pamRc := rfl
@[simp] theorem St.switchToFwIndex_pamFw (st : St) : (st.switchToFwIndex).pamFw = st.pamFw := rfl
@[simp] theorem St.switchToFwIndex_trace (st : St) : (st.switchToFwIndex).trace = st.trace := rfl
@[simp] theorem St.switchToFwIndex_exited (st : St) : (st.switchToFwIndex).exited = st.exited := rfl

@[simp] theorem St.switchToBwIndex_sink (st : St) : (st.switchToBwIndex).sink = st.sink := rfl
@[simp] theorem St.switchToBwIndex_patId (st : St) : (st.switchToBwIndex).patId = st.patId := rfl
@[simp] theorem St.switchToBwIndex_fw (st : St) : (st.switchToBwIndex).fw = st.fw := rfl
@[simp] theorem St.switchToBwIndex_ebwtFw (st : St) : (st.switchToBwIndex).ebwtFw = st.ebwtFw := rfl
@[simp] theorem St.switchToBwIndex_doneMask (st : St) : (st.switchToBwIndex).doneMask = st.doneMask := rfl
@[simp] theorem St.switchToBwIndex_lastHits (st : St) : (st.switchToBwIndex).lastHits = st.lastHits := rfl
@[simp] theorem St.switchToBwIndex_lastLen (st : St) : (st.switchToBwIndex).lastLen = st.lastLen := rfl
@[simp] theorem St.switchToBwIndex_btf (st : St) : (st.switchToBwIndex).btf = st.btf := rfl
@[simp] theorem St.switchToBwIndex_btr (st : St) : (st.switchToBwIndex).btr = st.btr := rfl
@[simp] theorem St.switchToBwIndex_bt (st : St) : (st.switchToBwIndex).bt = st.bt := rfl
@[simp] theorem St.switchToBwIndex_hh (st : St) : (st.switchToBwIndex).hh = st.hh := rfl
@[simp] theorem St.switchToBwIndex_pamRc (st : St) : (st.switchToBwIndex).pamRc = st.pamRc := rfl
@[simp] theorem St.switchToBwIndex_pamFw (st : St) : (st.switchToBwIndex).pamFw = st.pamFw := rfl
@[simp] theorem St.switchToBwIndex_trace (st : St) : (st.switchToBwIndex).trace = st.trace := rfl
@[simp] theorem St.switchToBwIndex_exited (st : St) : (st.switchToBwIndex).exited = st.exited := rfl

@[simp] theorem St.setReverse_sink (st : St) (b : Bool) : (st.setReverse b).sink = st.sink := rfl
@[simp] theorem St.setReverse_patId (st : St) (b : Bool) : (st.setReverse b).patId = st.patId := rfl
@[simp] theorem St.setReverse_fw (st : St) (b : Bool) : (st.setReverse b).fw = st.fw := rfl
@[simp] theorem St.setReverse_ebwtFw (st : St) (b : Bool) : (st.setReverse b).ebwtFw = st.ebwtFw := rfl
@[simp] theorem St.setReverse_doneMask (st : St) (b : Bool) : (st.setReverse b).doneMask = st.doneMask := rfl
@[simp] theorem St.setReverse_lastHits (st : St) (b : Bool) : (st.setReverse b).lastHits = st.lastHits := rfl
@[simp] theorem St.setReverse_lastLen (st : St) (b : Bool) : (st.setReverse b).lastLen = st.lastLen := rfl
@[simp] theorem St.setReverse_btf (st : St) (b : Bool) : (st.setReverse b).btf = st.btf := rfl
@[simp] theorem St.setReverse_btr (st : St) (b : Bool) : (st.setReverse b).btr = st.btr := rfl
@[simp] theorem St.setReverse_bt (st : St) (b : Bool) : (st.setReverse b).bt = st.bt := rfl
@[simp] theorem St.setReverse_hh (st : St) (b : Bool) : (st.setReverse b).hh = st.hh := rfl
@[simp] theorem St.setReverse_pamRc (st : St) (b : Bool) : (st.setReverse b).pamRc = st.pamRc := rfl
@[simp] theorem St.setReverse_pamFw (st : St) (b : Bool) : (st.setReverse b).pamFw = st.pamFw := rfl
@[simp] theorem St.setReverse_fwInMemory (st : St) (b : Bool) : (st.setReverse b).fwInMemory = st.fwInMemory := rfl
@[simp] theorem St.setReverse_bwInMemory (st : St) (b : Bool) : (st.setReverse b).bwInMemory = st.bwInMemory := rfl
@[simp] theorem St.setReverse_trace (st : St) (b : Bool) : (st.setReverse b).trace = st.trace := rfl
@[simp] theorem St.setReverse_exited (st : St) (b : Bool) : (st.setReverse b).exited = st.exited := rfl

@[simp] theorem St.setBacktrackers_sink (st : St) (b1 b2 b3 b4 : Backtracker) : (st.setBacktrackers b1 b2 b3 b4).sink = st.sink := rfl
@[simp] theorem St.setBacktrackers_patId (st : St) (b1 b2 b3 b4 : Backtracker) : (st.setBacktrackers b1 b2 b3 b4).patId = st.patId := rfl
@[simp] theorem St.setBacktrackers_fw (st : St) (b1 b2 b3 b4 : Backtracker) : (st.setBacktrackers b1 b2 b3 b4).fw = st.fw := rfl
@[simp] theorem St.setBacktrackers_ebwtFw (st : St) (b1 b2 b3 b4 : Backtracker) : (st.setBacktrackers b1 b2 b3 b4).ebwtFw = st.ebwtFw := rfl
@[simp] theorem St.setBacktrackers_doneMask (st : St) (b1 b2 b3 b4 : Backtracker) : (st.setBacktrackers b1 b2 b3 b4).doneMask = st.doneMask := rfl
@[simp] theorem St.setBacktrackers_lastHits (st : St) (b1 b2 b3 b4 : Backtracker) : (st.setBacktrackers b1 b2 b3 b4).lastHits = st.lastHits := rfl
@[simp] theorem St.setBacktrackers_lastLen (st : St) (b1 b2 b3 b4 : Backtracker) : (st.setBacktrackers b1 b2 b3 b4).lastLen = st.lastLen := rfl
@[simp] theorem St.setBacktrackers_pamRc (st : St) (b1 b2 b3 b4 : Backtracker) : (st.setBacktrackers b1 b2 b3 b4).pamRc = st.pamRc := rfl
@[simp] theorem St.setBacktrackers_pamFw (st : St) (b1 b2 b3 b4 : Backtracker) : (st.setBacktrackers b1 b2 b3 b4).pamFw = st.pamFw := rfl
@[simp] theorem St.setBacktrackers_fwInMemory (st : St) (b1 b2 b3 b4 : Backtracker) : (st.setBacktrackers b1 b2 b3 b4).fwInMemory = st.fwInMemory := rfl
@[simp] theorem St.setBacktrackers_bwInMemory (st : St) (b1 b2 b3 b4 : Backtracker) : (st.setBacktrackers b1 b2 b3 b4).bwInMemory = st.bwInMemory := rfl
@[simp] theorem St.setBacktrackers_reverse (st : St) (b1 b2 b3 b4 : Backtracker) : (st.setBacktrackers b1 b2 b3 b4).reverse = st.reverse := rfl
@[simp] theorem St.setBacktrackers_trace (st : St) (b1 b2 b3 b4 : Backtracker) : (st.setBacktrackers b1 b2 b3 b4).trace = st.trace := rfl
@[simp] theorem St.setBacktrackers_exited (st : St) (b1 b2 b3 b4 : Backtracker) : (st.setBacktrackers b1 b2 b3 b4).exited = st.exited := rfl

@[simp] theorem St.setPamRc_sink (st : St) (p : Option (List (Nat × PartialAlignment))) : (st.setPamRc p).sink = st.sink := rfl
@[simp] theorem St.setPamRc_patId (st : St) (p : Option (List (Nat × PartialAlignment))) : (st.setPamRc p).patId = st.patId := rfl
@[simp] theorem St.setPamRc_fw (st : St) (p : Option (List (Nat × PartialAlignment))) : (st.setPamRc p).fw = st.fw := rfl
@[simp] theorem St.setPamRc_ebwtFw (st : St) (p : Option (List (Nat × PartialAlignment))) : (st.setPamRc p).ebwtFw = st.ebwtFw := rfl
@[simp] theorem St.setPamRc_doneMask (st : St) (p : Option (List (Nat × PartialAlignment))) : (st.setPamRc p).doneMask = st.doneMask := rfl
@[simp] theorem St.setPamRc_lastHits (st : St) (p : Option (List (Nat × PartialAlignment))) : (st.setPamRc p).lastHits = st.lastHits := rfl
@[simp] theorem St.setPamRc_lastLen (st : St) (p : Option (List (Nat × PartialAlignment))) : (st.setPamRc p).lastLen = st.lastLen := rfl
@[simp] theorem St.setPamRc_btf (st : St) (p : Option (List (Nat × PartialAlignment))) : (st.setPamRc p).btf = st.btf := rfl
@[simp] theorem St.setPamRc_btr (st : St) (p : Option (List (Nat × PartialAlignment))) : (st.setPamRc p).btr = st.btr := rfl
@[simp] theorem St.setPamRc_bt (st : St) (p : Option (List (Nat × PartialAlignment))) : (st.setPamRc p).bt = st.bt := rfl
@[simp] theorem St.setPamRc_hh (st : St) (p : Option (List (Nat × PartialAlignment))) : (st.setPamRc p).hh = st.hh := rfl
@[simp] theorem St.setPamRc_pamFw (st : St) (p : Option (List (Nat × PartialAlignment))) : (st.setPamRc p).pamFw = st.pamFw := rfl
@[simp] theorem St.setPamRc_fwInMemory (st : St) (p : Option (List (Nat × PartialAlignment))) : (st.setPamRc p).fwInMemory = st.fwInMemory := rfl
@[simp] theorem St.setPamRc_bwInMemory (st : St) (p : Option (List (Nat × PartialAlignment))) : (st.setPamRc p).bwInMemory = st.bwInMemory := rfl
@[simp] theorem St.setPamRc_reverse (st : St) (p : Option (List (Nat × PartialAlignment))) : (st.setPamRc p).reverse = st.reverse := rfl
@[simp] theorem St.setPamRc_trace (st : St) (p : Option (List (Nat × PartialAlignment))) : (st.setPamRc p).trace = st.trace := rfl
@[simp] theorem St.setPamRc_exited (st : St) (p : Option (List (Nat × PartialAlignment))) : (st.setPamRc p).exited = st.exited := rfl

@[simp] theorem St.setPamFw_sink (st : St) (p : Option (List (Nat × PartialAlignment))) : (st.setPamFw p).sink = st.sink := rfl
@[simp] theorem St.setPamFw_patId (st : St) (p : Option (List (Nat × PartialAlignment))) : (st.setPamFw p).patId = st.patId := rfl
@[simp] theorem St.setPamFw_fw (st : St) (p : Option (List (Nat × PartialAlignment))) : (st.setPamFw p).fw = st.fw := rfl
@[simp] theorem St.setPamFw_ebwtFw (st : St) (p : Option (List (Nat × PartialAlignment))) : (st.setPamFw p).ebwtFw = st.ebwtFw := rfl
@[simp] theorem St.setPamFw_doneMask (st : St) (p : Option (List (Nat × PartialAlignment))) : (st.setPamFw p).doneMask = st.doneMask := rfl
@[simp] theorem St.setPamFw_lastHits (st : St) (p : Option (List (Nat × PartialAlignment))) : (st.setPamFw p).lastHits = st.lastHits := rfl
@[simp] theorem St.setPamFw_lastLen (st : St) (p : Option (List (Nat × PartialAlignment))) : (st.setPamFw p).lastLen = st.lastLen := rfl
@[simp] theorem St.setPamFw_btf (st : St) (p : Option (List (Nat × PartialAlignment))) : (st.setPamFw p).btf = st.btf := rfl
@[simp] theorem St.setPamFw_btr (st : St) (p : Option (List (Nat × PartialAlignment))) : (st.setPamFw p).btr = st.btr := rfl
@[simp] theorem St.setPamFw_bt (st : St) (p : Option (List (Nat × PartialAlignment))) : (st.setPamFw p).bt = st.bt := rfl
@[simp] theorem St.setPamFw_hh (st : St) (p : Option (List (Nat × PartialAlignment))) : (st.setPamFw p).hh = st.hh := rfl
@[simp] theorem St.setPamFw_pamRc (st : St) (p : Option (List (Nat × PartialAlignment))) : (st.setPamFw p).pamRc = st.pamRc := rfl
@[simp] theorem St.setPamFw_fwInMemory (st : St) (p : Option (List (Nat × PartialAlignment))) : (st.setPamFw p).fwInMemory = st.fwInMemory := rfl
@[simp] theorem St.setPamFw_bwInMemory (st : St) (p : Option (List (Nat × PartialAlignment))) : (st.setPamFw p).bwInMemory = st.bwInMemory := rfl
@[simp] theorem St.setPamFw_reverse (st : St) (p : Option (List (Nat × PartialAlignment))) : (st.setPamFw p).reverse = st.reverse := rfl
@[simp] theorem St.setPamFw_trace (st : St) (p : Option (List (Nat × PartialAlignment))) : (st.setPamFw p).trace = st.trace := rfl
@[simp] theorem St.setPamFw_exited (st : St) (p : Option (List (Nat × PartialAlignment))) : (st.setPamFw p).exited = st.exited := rfl

@[simp] theorem St.search_patId (orc : Oracle) (c : SearchCall) (p : Bool) (pam : Pam) (st : St) :
    (st.search orc c p pam).patId = st.patId := rfl
@[simp] theorem St.search_fw (orc : Oracle) (c : SearchCall) (p : Bool) (pam : Pam) (st : St) :
    (st.search orc c p pam).fw = st.fw := rfl
@[simp] theorem St.search_ebwtFw (orc : Oracle) (c : SearchCall) (p : Bool) (pam : Pam) (st : St) :
    (st.search orc c p pam).ebwtFw = st.ebwtFw := rfl
@[simp] theorem St.search_doneMask (orc : Oracle) (c : SearchCall) (p : Bool) (pam : Pam) (st : St) :
    (st.search orc c p pam).doneMask = st.doneMask := rfl
@[simp] theorem St.search_lastHits (orc : Oracle) (c : SearchCall) (p : Bool) (pam : Pam) (st : St) :
    (st.search orc c p pam).lastHits = st.lastHits := rfl
@[simp] theorem St.search_lastLen (orc : Oracle) (c : SearchCall) (p : Bool) (pam : Pam) (st : St) :
    (st.search orc c p pam).lastLen = st.lastLen := rfl
@[simp] theorem St.search_btf (orc : Oracle) (c : SearchCall) (p : Bool) (pam : Pam) (st : St) :
    (st.search orc c p pam).btf = st.btf := rfl
@[simp] theorem St.search_btr (orc : Oracle) (c : SearchCall) (p : Bool) (pam : Pam) (st : St) :
    (st.search orc c p pam).btr = st.btr := rfl
@[simp] theorem St.search_bt (orc : Oracle) (c : SearchCall) (p : Bool) (pam : Pam) (st : St) :
    (st.search orc c p pam).bt = st.bt := rfl
@[simp] theorem St.search_hh (orc : Oracle) (c : SearchCall) (p : Bool) (pam : Pam) (st : St) :
    (st.search orc c p pam).hh = st.hh := rfl
@[simp] theorem St.search_fwInMemory (orc : Oracle) (c : SearchCall) (p : Bool) (pam : Pam) (st : St) :
    (st.search orc c p pam).fwInMemory = st.fwInMemory := rfl
@[simp] theorem St.search_bwInMemory (orc : Oracle) (c : SearchCall) (p : Bool) (pam : Pam) (st : St) :
    (st.search orc c p pam).bwInMemory = st.bwInMemory := rfl
@[simp] theorem St.search_reverse (orc : Oracle) (c : SearchCall) (p : Bool) (pam : Pam) (st : St) :
    (st.search orc c p pam).reverse = st.reverse := rfl
@[simp] theorem St.search_exited (orc : Oracle) (c : SearchCall) (p : Bool) (pam : Pam) (st : St) :
    (st.search orc c p pam).exited = st.exited := rfl

/-! ## What each state operation changes -/

@[simp] theorem St.numHits_eq (st : St) : st.numHits = st.sink.numHits := rfl

@[simp] theorem St.numProvisionalHits_eq (st : St) :
    st.numProvisionalHits = st.sink.prov.length := rfl

@[simp] theorem St.getRead_patId (st : St) (rd : Read) : (st.getRead rd).patId = rd.patid := rfl

@[simp] theorem St.setFw_fw (st : St) (b : Bool) : (st.setFw b).fw = b := rfl

@[simp] theorem St.syncLastHits_lastHits (st : St) :
    st.syncLastHits.lastHits = st.sink.numHits := rfl

@[simp] theorem St.exit_exited (st : St) : st.exit.exited = true := rfl

@[simp] theorem St.markDone_doneMask (st : St) (p : Nat) :
    (st.markDone p).doneMask = setDone st.doneMask p := rfl

@[simp] theorem St.syncMarkDone_doneMask (st : St) (p : Nat) :
    (st.syncMarkDone p).doneMask = syncSet st.doneMask p := rfl

@[simp] theorem St.expand_doneMask (st : St) (p : Nat) :
    (st.expand p).doneMask = expandDone st.doneMask p := rfl

@[simp] theorem St.allocDone_doneMask (st : St) (n : Nat) :
    (st.allocDone n).doneMask = List.replicate n false := rfl

@[simp] theorem St.setOffsBtf_btf (st : St) (o : Offs) :
    (st.setOffsBtf o).btf = st.btf.setOffs o := rfl

@[simp] theorem St.setOffsBtr_btr (st : St) (o : Offs) :
    (st.setOffsBtr o).btr = st.btr.setOffs o := rfl

@[simp] theorem St.setOffsBt_bt (st : St) (o : Offs) :
    (st.setOffsBt o).bt = st.bt.setOffs o := rfl

@[simp] theorem St.setOffsHh_hh (st : St) (o : Offs) :
    (st.setOffsHh o).hh = st.hh.setOffs o := rfl

@[simp] theorem St.setQlenBtf_btf (st : St) (n : Nat) :
    (st.setQlenBtf n).btf = st.btf.setQlen n := rfl

@[simp] theorem St.setQlenBtr_btr (st : St) (n : Nat) :
    (st.setQlenBtr n).btr = st.btr.setQlen n := rfl

@[simp] theorem St.setBacktrackers_btf (st : St) (b1 b2 b3 b4 : Backtracker) :
    (st.setBacktrackers b1 b2 b3 b4).btf = b1 := rfl

@[simp] theorem St.setBacktrackers_btr (st : St) (b1 b2 b3 b4 : Backtracker) :
    (st.setBacktrackers b1 b2 b3 b4).btr = b2 := rfl

@[simp] theorem St.setBacktrackers_bt (st : St) (b1 b2 b3 b4 : Backtracker) :
    (st.setBacktrackers b1 b2 b3 b4).bt = b3 := rfl

@[simp] theorem St.setBacktrackers_hh (st : St) (b1 b2 b3 b4 : Backtracker) :
    (st.setBacktrackers b1 b2 b3 b4).hh = b4 := rfl

@[simp] theorem St.setPamRc_pamRc (st : St) (p : Option (List (Nat × PartialAlignment))) :
    (st.setPamRc p).pamRc = p := rfl

@[simp] theorem St.setPamFw_pamFw (st : St) (p : Option (List (Nat × PartialAlignment))) :
    (st.setPamFw p).pamFw = p := rfl

@[simp] theorem St.newWorker_hits (st : St) : st.newWorker.sink.hits = st.sink.hits := rfl

@[simp] theorem St.newWorker_prov (st : St) : st.newWorker.sink.prov = [] := rfl

@[simp] theorem St.newWorker_numHits (st : St) : st.newWorker.sink.numHits = 0 := rfl

@[simp] theorem St.newWorker_lastHits (st : St) : st.newWorker.lastHits = 0 := rfl

@[simp] theorem St.rejectProvisionalHits_hits (st : St) :
    st.rejectProvisionalHits.sink.hits = st.sink.hits := rfl

@[simp] theorem St.rejectProvisionalHits_prov (st : St) :
    st.rejectProvisionalHits.sink.prov = [] := rfl

@[simp] theorem St.rejectProvisionalHits_numHits (st : St) :
    st.rejectProvisionalHits.sink.numHits = st.sink.numHits := rfl

@[simp] theorem St.acceptProvisionalHits_hits (st : St) :
    st.acceptProvisionalHits.sink.hits = st.sink.hits ++ st.sink.prov := rfl

@[simp] theorem St.acceptProvisionalHits_prov (st : St) :
    st.acceptProvisionalHits.sink.prov = [] := rfl

@[simp] theorem St.acceptProvisionalHits_numHits (st : St) :
    st.acceptProvisionalHits.sink.numHits = st.sink.numHits + st.sink.prov.length := rfl

@[simp] theorem St.search_trace (orc : Oracle) (c : SearchCall) (p : Bool) (pam : Pam) (st : St) :
    (st.search orc c p pam).trace = st.trace ++ [c] := rfl

@[simp] theorem St.search_hits (orc : Oracle) (c : SearchCall) (p : Bool) (pam : Pam) (st : St) :
    (st.search orc c p pam).sink.hits = st.sink.hits ++ (orc c).hits.map st.stamp := rfl

@[simp] theorem St.search_numHits (orc : Oracle) (c : SearchCall) (p : Bool) (pam : Pam)
    (st : St) : (st.search orc c p pam).sink.numHits = st.sink.numHits + (orc c).hits.length :=
  rfl

@[simp] theorem St.search_prov (orc : Oracle) (c : SearchCall) (p : Bool) (pam : Pam) (st : St) :
    (st.search orc c p pam).sink.prov =
      if p then st.sink.prov ++ (orc c).prov.map st.stamp else st.sink.prov := rfl

@[simp] theorem St.search_pamRc (orc : Oracle) (c : SearchCall) (p : Bool) (pam : Pam) (st : St) :
    (st.search orc c p pam).pamRc =
      if pam = Pam.rc then pamAdd st.pamRc st.patId (orc c).seedlings else st.pamRc := rfl

@[simp] theorem St.search_pamFw (orc : Oracle) (c : SearchCall) (p : Bool) (pam : Pam) (st : St) :
    (st.search orc c p pam).pamFw =
      if pam = Pam.fw then pamAdd st.pamFw st.patId (orc c).seedlings else st.pamFw := rfl

@[simp] theorem St.backtrack_eq (orc : Oracle) (b : Backtracker) (m : Option PartialAlignment)
    (qf : Bool) (q ql : List Nat) (pam : Pam) (st : St) :
    st.backtrack orc b m qf q ql pam =
      st.search orc (st.call (SearchKind.backtrack b m) b.ebwtFw qf q ql) false pam := rfl

@[simp] theorem hitSince_iff (st st1 : St) :
    hitSince st st1 = true ↔ st.sink.numHits < st1.sink.numHits := by
  simp [hitSince]

@[simp] theorem St.stamp_patId (st : St) (a : Alignment) : (st.stamp a).patId = st.patId := rfl

@[simp] theorem St.stamp_fw (st : St) (a : Alignment) : (st.stamp a).fw = st.fw := rfl

/-! ## The seed halves -/

theorem u32_of_lt {n : Nat} (h : n < 2 ^ 32) : u32 n = n := Nat.mod_eq_of_lt h

theorem u32_lt (n : Nat) : u32 n < 2 ^ 32 := Nat.mod_lt _ (by norm_num)

theorem u32_le (n : Nat) : u32 n ≤ n := Nat.mod_le _ _

theorem u32_idem (n : Nat) : u32 (u32 n) = u32 n := u32_of_lt (u32_lt n)

theorem u32OfInt_lt (i : Int) : u32OfInt i < 2 ^ 32 := by
  unfold u32OfInt
  have h : i % 2 ^ 32 < 2 ^ 32 := Int.emod_lt_of_pos _ (by norm_num)
  have h0 : 0 ≤ i % 2 ^ 32 := Int.emod_nonneg _ (by norm_num)
  omega

theorem minU32_lt (plen s : Nat) : minU32 plen s < 2 ^ 32 :=
  lt_of_le_of_lt (min_le_left _ _) (u32_lt plen)

theorem s3Of_eq {s : Nat} (h : s < 2 ^ 32) : s3Of s = s / 2 := by
  unfold s3Of
  rw [Nat.shiftRight_eq_div_pow, pow_one]
  exact u32_of_lt (by omega)

theorem s5Of_eq {s : Nat} (h : s < 2 ^ 32) : s5Of s = (s + 1) / 2 := by
  unfold s5Of
  rw [Nat.shiftRight_eq_div_pow, pow_one, Nat.and_one_is_mod]
  rw [u32_of_lt (by omega)]
  omega

/-- C8: for a 32-bit seed length `s`, the code's `s3 = s >> 1` and
`s5 = (s >> 1) + (s & 1)` are `floor(s/2)` and `ceil(s/2)`, they sum to `s`,
`s3 <= s5 <= s3 + 1`, and the sum `(s >> 1) + (s & 1)` does not wrap. -/
theorem seed_halves (s : Nat) (hs : s < 2 ^ 32) :
    s3Of s = s / 2 ∧ s5Of s = (s + 1) / 2 ∧ 2 * s3Of s ≤ s ∧ s < 2 * s3Of s + 2 ∧
      s ≤ 2 * s5Of s ∧ 2 * s5Of s < s + 2 ∧
      s5Of s + s3Of s = s ∧ s3Of s ≤ s5Of s ∧ s5Of s ≤ s3Of s + 1 ∧
      (s >>> 1) + (s &&& 1) < 2 ^ 32 ∧ s5Of s + s3Of s < 2 ^ 32 := by
  have h3 := s3Of_eq hs
  have h5 := s5Of_eq hs
  have hw : (s >>> 1) + (s &&& 1) < 2 ^ 32 := by
    rw [Nat.shiftRight_eq_div_pow, pow_one, Nat.and_one_is_mod]; omega
  refine ⟨h3, h5, ?_, ?_, ?_, ?_, ?_, ?_, ?_, hw, ?_⟩ <;> omega

/-- Witness for C8 at the odd seed length 29: `s3 = 14`, `s5 = 15`. -/
theorem seed_halves_witness :
    29 < 2 ^ 32 ∧
      (s3Of 29 = 29 / 2 ∧ s5Of 29 = (29 + 1) / 2 ∧ 2 * s3Of 29 ≤ 29 ∧ 29 < 2 * s3Of 29 + 2 ∧
        29 ≤ 2 * s5Of 29 ∧ 2 * s5Of 29 < 29 + 2 ∧
        s5Of 29 + s3Of 29 = 29 ∧ s3Of 29 ≤ s5Of 29 ∧ s5Of 29 ≤ s3Of 29 + 1 ∧
        (29 >>> 1) + (29 &&& 1) < 2 ^ 32 ∧ s5Of 29 + s3Of 29 < 2 ^ 32) :=
  ⟨by norm_num, seed_halves 29 (by norm_num)⟩

/-! ## Thresholds: allowance, monotonicity, partition -/

theorem s5Of_le {s : Nat} (h : s < 2 ^ 32) : s5Of s ≤ s := by
  rw [s5Of_eq h]; omega

theorem s3Of_le {s : Nat} (h : s < 2 ^ 32) : s3Of s ≤ s := by
  rw [s3Of_eq h]; omega

/-- C6: for `seedMms` in `{0,1,2,3}` and a 32-bit seed length `s`, the
thresholds of the seeded phase-1 rc backtracker,
`((seedMms>0)? s5 : s, (seedMms>1)? s5 : s, (seedMms>2)? s5 : s, (seedMms>3)? s5 : s)`,
read under the spec's encoding allow 0 mismatches at every position of
`[0, s5)` and exactly `seedMms` at every position of `[s5, s)`, with
`s5 = ceil(s/2)`; the same holds at `qs = min(plen, s)` for the thresholds in
force while a read of length `plen` is searched. -/
theorem seeded_phase1_allowance (seedMms : Int) (s : Nat) (hm : 0 ≤ seedMms ∧ seedMms ≤ 3)
    (hs : s < 2 ^ 32) :
    (∀ pos, pos < (s + 1) / 2 → (seedOffs5 seedMms s).allowance pos = some 0) ∧
      (∀ pos, (s + 1) / 2 ≤ pos → pos < s →
        (seedOffs5 seedMms s).allowance pos = some seedMms.toNat) ∧
      ∀ plen pos,
        (pos < (minU32 plen s + 1) / 2 →
          (effOffs (seedOffs5 seedMms) s plen).allowance pos = some 0) ∧
        ((minU32 plen s + 1) / 2 ≤ pos → pos < minU32 plen s →
          (effOffs (seedOffs5 seedMms) s plen).allowance pos = some seedMms.toNat) := by
  have key : ∀ t, t < 2 ^ 32 →
      (∀ pos, pos < (t + 1) / 2 → (seedOffs5 seedMms t).allowance pos = some 0) ∧
      (∀ pos, (t + 1) / 2 ≤ pos → pos < t →
        (seedOffs5 seedMms t).allowance pos = some seedMms.toNat) := by
    intro t ht
    have h5 := s5Of_eq ht
    obtain ⟨h0, h3⟩ := hm
    have hcases : seedMms = 0 ∨ seedMms = 1 ∨ seedMms = 2 ∨ seedMms = 3 := by omega
    constructor
    · intro pos hp
      have hp' : pos < t := by omega
      rcases hcases with h | h | h | h <;> subst h <;>
        simp [seedOffs5, Offs.allowance, h5, hp, hp']
    · intro pos hp1 hp2
      have hn : ¬ pos < (t + 1) / 2 := by omega
      rcases hcases with h | h | h | h <;> subst h <;>
        simp [seedOffs5, Offs.allowance, h5, hn, hp2]
  refine ⟨(key s hs).1, (key s hs).2, ?_⟩
  intro plen pos
  have hq := minU32_lt plen s
  unfold effOffs
  by_cases hlt : minU32 plen s < s
  · simp only [hlt, if_true]
    exact ⟨(key _ hq).1 pos, (key _ hq).2 pos⟩
  · have heq : minU32 plen s = s := by
      have : minU32 plen s ≤ u32 s := min_le_right _ _
      have := u32_le s
      omega
    simp only [hlt, if_false]
    rw [heq]
    exact ⟨(key s hs).1 pos, (key s hs).2 pos⟩

/-- Witness for C6 at `seedMms = 2`, `s = 28`. -/
theorem seeded_phase1_allowance_witness :
    ((0 : Int) ≤ 2 ∧ (2 : Int) ≤ 3) ∧ 28 < 2 ^ 32 ∧
      (seedOffs5 2 28).allowance 13 = some 0 ∧ (seedOffs5 2 28).allowance 14 = some 2 :=
  ⟨by decide, by norm_num,
    (seeded_phase1_allowance 2 28 (by decide) (by norm_num)).1 13 (by norm_num),
    (seeded_phase1_allowance 2 28 (by decide) (by norm_num)).2.1 14 (by norm_num) (by norm_num)⟩

theorem zeroOffs_monotone : zeroOffs.Monotone := by decide

theorem assertNoHitsOffs_monotone (seedMms : Int) (s : Nat) :
    (assertNoHitsOffs seedMms s).Monotone := by
  unfold assertNoHitsOffs Offs.Monotone
  dsimp only
  refine ⟨?_, ?_, ?_⟩ <;> split_ifs <;> omega

theorem seedOffs5_monotone (seedMms : Int) {s : Nat} (hs : s < 2 ^ 32) :
    (seedOffs5 seedMms s).Monotone := by
  have h := s5Of_le hs
  unfold seedOffs5 Offs.Monotone
  dsimp only
  refine ⟨?_, ?_, ?_⟩ <;> split_ifs <;> omega

theorem seedOffs3_monotone (seedMms : Int) {s : Nat} (hs : s < 2 ^ 32) :
    (seedOffs3 seedMms s).Monotone := by
  have h := s3Of_le hs
  unfold seedOffs3 Offs.Monotone
  dsimp only
  refine ⟨?_, ?_, ?_⟩ <;> split_ifs <;> omega

theorem seedOffsFull_monotone (s : Nat) : (seedOffsFull s).Monotone := by
  simp [seedOffsFull, Offs.Monotone]

theorem seedOffsHh_monotone (seedMms : Int) {s : Nat} (hs : s < 2 ^ 32) :
    (seedOffsHh seedMms s).Monotone := by
  have h := s5Of_le hs
  unfold seedOffsHh Offs.Monotone
  dsimp only
  refine ⟨?_, ?_, ?_⟩ <;> split_ifs <;> omega

/-- Two unrevisitable-prefix lengths that sum to the seed length split the seed:
every seed depth is revisitable in exactly one of the forward-index search and
the mirror-index search (which meets the depth mirrored). -/
theorem revisitable_split (oF oB : Offs) (s : Nat) (hsum : oF.unrevOff + oB.unrevOff = s) :
    ∀ d, d < s → Xor' (oF.revisitable d) (oB.revisitable (mirrorDepth s d)) := by
  intro d hd
  unfold Xor' Offs.revisitable mirrorDepth
  by_cases h : oF.unrevOff ≤ d
  · left; exact ⟨h, by omega⟩
  · right; exact ⟨by omega, h⟩

theorem effOffs_eq (f : Nat → Offs) (s plen : Nat) :
    effOffs f s plen = f (minU32 plen s) := by
  unfold effOffs
  by_cases hlt : minU32 plen s < s
  · simp [hlt]
  · have heq : minU32 plen s = s := by
      have h1 : minU32 plen s ≤ u32 s := min_le_right _ _
      have h2 := u32_le s
      omega
    simp [heq]
/-! ## Phase 2 of the 2/3-mismatch search -/

theorem newCalls_append (st st1 : St) (l : List SearchCall) (h : st1.trace = st.trace ++ l) :
    newCalls st st1 = l := by
  unfold newCalls
  rw [h, List.drop_left]

/-- C3: in every phase after the first of the 1-mismatch, 2/3-mismatch and
seeded searches, the loop body leaves the state of a read whose done bit is set
exactly as it found it: no index search is issued, no hit or provisional hit is
added, no seedling is stored and the completion bitmap is unchanged. -/
theorem done_read_skipped (cfg : Config) (two : Bool) (seedLen seedMms : Int) (orc : Oracle)
    (st : St) (r : Read) (hd : testDone st.doneMask r.patid = true) :
    ∀ st1 ∈ [mismatchSearchPhase2Body cfg orc st r, twoOrThreePhase2Body two orc st r,
        twoOrThreePhase3Body two orc st r, seededPhase2Body seedLen seedMms orc st r,
        seededPhase3Body seedLen seedMms orc st r, seededPhase4Body seedLen seedMms orc st r],
      newCalls st st1 = [] ∧ st1.trace = st.trace ∧ st1.sink.hits = st.sink.hits ∧
        st1.sink.prov = st.sink.prov ∧ st1.sink.numHits = st.sink.numHits ∧
        st1.pamRc = st.pamRc ∧ st1.pamFw = st.pamFw ∧ st1.doneMask = st.doneMask := by
  have e1 : mismatchSearchPhase2Body cfg orc st r = st := by
    simp [mismatchSearchPhase2Body, hd]
  have e2 : twoOrThreePhase2Body two orc st r = st := by
    simp [twoOrThreePhase2Body, hd]
  have e3 : twoOrThreePhase3Body two orc st r = st := by
    simp [twoOrThreePhase3Body, hd]
  have e4 : seededPhase2Body seedLen seedMms orc st r = st := by
    simp [seededPhase2Body, hd]
  have e5 : seededPhase3Body seedLen seedMms orc st r = st := by
    simp [seededPhase3Body, hd]
  have e6 : seededPhase4Body seedLen seedMms orc st r = st := by
    simp [seededPhase4Body, hd]
  intro st1 h1
  simp only [e1, e2, e3, e4, e5, e6, List.mem_cons, List.mem_singleton, List.not_mem_nil,
    or_false, or_self] at h1
  subst h1
  simp [newCalls]

/-- Witness for C3: read 1 is done in a bitmap of four reads; an oracle that
would report a hit for every search is never asked. -/
theorem done_read_skipped_witness :
    testDone (doneSt 4 [1]).doneMask (mkRead 1 [0, 1, 2, 3] [0, 1, 2, 3]).patid = true ∧
      ∀ st1 ∈ [mismatchSearchPhase2Body ⟨true, true, 4, false, true, 100, 0, false⟩
            (fun _ => ⟨[⟨0, 0, []⟩], [], []⟩) (doneSt 4 [1]) (mkRead 1 [0, 1, 2, 3] [0, 1, 2, 3]),
          twoOrThreePhase2Body true (fun _ => ⟨[⟨0, 0, []⟩], [], []⟩) (doneSt 4 [1])
            (mkRead 1 [0, 1, 2, 3] [0, 1, 2, 3]),
          twoOrThreePhase3Body true (fun _ => ⟨[⟨0, 0, []⟩], [], []⟩) (doneSt 4 [1])
            (mkRead 1 [0, 1, 2, 3] [0, 1, 2, 3]),
          seededPhase2Body 28 2 (fun _ => ⟨[⟨0, 0, []⟩], [], []⟩) (doneSt 4 [1])
            (mkRead 1 [0, 1, 2, 3] [0, 1, 2, 3]),
          seededPhase3Body 28 2 (fun _ => ⟨[⟨0, 0, []⟩], [], []⟩) (doneSt 4 [1])
            (mkRead 1 [0, 1, 2, 3] [0, 1, 2, 3]),
          seededPhase4Body 28 2 (fun _ => ⟨[⟨0, 0, []⟩], [], []⟩) (doneSt 4 [1])
            (mkRead 1 [0, 1, 2, 3] [0, 1, 2, 3])],
        newCalls (doneSt 4 [1]) st1 = [] ∧ st1.trace = (doneSt 4 [1]).trace ∧
          st1.sink.hits = (doneSt 4 [1]).sink.hits ∧
          st1.sink.prov = (doneSt 4 [1]).sink.prov ∧
          st1.sink.numHits = (doneSt 4 [1]).sink.numHits ∧
          st1.pamRc = (doneSt 4 [1]).pamRc ∧ st1.pamFw = (doneSt 4 [1]).pamFw ∧
          st1.doneMask = (doneSt 4 [1]).doneMask :=
  ⟨by decide, done_read_skipped _ _ _ _ _ _ _ (by decide)⟩
/-! ## Completion monotonicity -/

theorem MaskLe.same (m : List Bool) : MaskLe m m := fun _ h => h

theorem MaskLe.chain {a b c : List Bool} (h1 : MaskLe a b) (h2 : MaskLe b c) : MaskLe a c :=
  fun j h => h2 j (h1 j h)

theorem testDone_setDone (m : List Bool) (i j : Nat) :
    testDone (setDone m i) j = if i = j ∧ i < m.length then true else testDone m j := by
  unfold testDone setDone
  simp only [List.getD_eq_getElem?_getD, List.getElem?_set]
  by_cases hij : i = j
  · subst hij
    by_cases hlt : i < m.length
    · simp [hlt]
    · simp [hlt, List.getElem?_eq_none_iff.mpr (Nat.le_of_not_lt hlt)]
  · simp [hij]

theorem setDone_le (m : List Bool) (i : Nat) : MaskLe m (setDone m i) := by
  intro j h
  rw [testDone_setDone]
  split_ifs <;> simp [h]

theorem testDone_growDone (m : List Bool) (j : Nat) :
    testDone (growDone m) j = testDone m j := by
  unfold testDone growDone
  simp only [List.getD_eq_getElem?_getD]
  by_cases hj : j < m.length
  · rw [List.getElem?_append_left hj]
  · have hj' : m.length ≤ j := Nat.le_of_not_lt hj
    rw [List.getElem?_append_right hj', List.getElem?_eq_none_iff.mpr hj']
    by_cases h2 : j - m.length < m.length * 2 - m.length
    · rw [List.getElem?_replicate]
      simp [h2]
    · rw [List.getElem?_eq_none_iff.mpr (by simpa using h2)]

theorem length_growDone (m : List Bool) : (growDone m).length = m.length * 2 := by
  unfold growDone
  simp only [List.length_append, List.length_replicate]
  omega

theorem testDone_expandDone (m : List Bool) (i j : Nat) :
    testDone (expandDone m i) j = testDone m j := by
  unfold expandDone
  split_ifs
  · exact testDone_growDone m j
  · rfl

theorem expandDone_le (m : List Bool) (i : Nat) : MaskLe m (expandDone m i) := by
  intro j h
  rw [testDone_expandDone]; exact h

theorem extendPartials_le (orc : Oracle) (b : Backtracker) (qf : Bool) (q ql : List Nat)
    (patid : Nat) (pals : List PartialAlignment) :
    ∀ st, MaskLe st.doneMask (extendPartials orc b qf q ql patid pals st).1.doneMask := by
  induction pals with
  | nil => intro st; exact MaskLe.same _
  | cons pal pals ih =>
    intro st
    unfold extendPartials
    dsimp only
    split_ifs
    · simpa using setDone_le st.doneMask patid
    · simpa using ih (st.backtrack orc b (some pal) qf q ql Pam.none)

theorem twoOrThreePhase1Body_le (cfg : Config) (two : Bool) (orc : Oracle) (st : St) (r : Read) :
    MaskLe st.doneMask (twoOrThreePhase1Body cfg two orc st r).doneMask := by
  have h0 := expandDone_le st.doneMask r.patid
  have h1 := MaskLe.chain h0 (setDone_le (expandDone st.doneMask r.patid) r.patid)
  unfold twoOrThreePhase1Body
  dsimp only
  split_ifs <;> first | simpa using h0 | simpa using h1

theorem twoOrThreePhase2Body_le (two : Bool) (orc : Oracle) (st : St) (r : Read) :
    MaskLe st.doneMask (twoOrThreePhase2Body two orc st r).doneMask := by
  have h0 := MaskLe.same st.doneMask
  have h1 := setDone_le st.doneMask r.patid
  unfold twoOrThreePhase2Body
  dsimp only
  split_ifs <;> first | simpa using h0 | simpa using h1

theorem twoOrThreePhase3Body_le (two : Bool) (orc : Oracle) (st : St) (r : Read) :
    MaskLe st.doneMask (twoOrThreePhase3Body two orc st r).doneMask := by
  have h0 := MaskLe.same st.doneMask
  unfold twoOrThreePhase3Body
  dsimp only
  split_ifs <;> simpa using h0

theorem seededPhase1Body_le (cfg : Config) (seedLen seedMms : Int) (orc : Oracle) (st : St)
    (r : Read) : MaskLe st.doneMask (seededPhase1Body cfg seedLen seedMms orc st r).doneMask := by
  have h0 := expandDone_le st.doneMask r.patid
  have h1 := MaskLe.chain h0 (setDone_le (expandDone st.doneMask r.patid) r.patid)
  unfold seededPhase1Body
  dsimp only
  split_ifs <;> first | simpa using h0 | simpa using h1

theorem seededPhase2Body_le (seedLen seedMms : Int) (orc : Oracle) (st : St) (r : Read) :
    MaskLe st.doneMask (seededPhase2Body seedLen seedMms orc st r).doneMask := by
  have h0 := MaskLe.same st.doneMask
  have h1 := setDone_le st.doneMask r.patid
  unfold seededPhase2Body
  dsimp only
  split_ifs <;> first | simpa using h0 | simpa using h1

theorem seededPhase3Extend_le (seedLen : Int) (orc : Oracle) (st : St) (r : Read) :
    MaskLe st.doneMask (seededPhase3Extend seedLen orc st r).1.doneMask := by
  unfold seededPhase3Extend
  dsimp only
  split_ifs
  · simpa using extendPartials_le orc _ false r.patRc r.qualRc r.patid _
      (st.setOffsBtr (seedOffsFull (minU32 (u32 r.patRc.length) (u32OfInt seedLen))))
  · simpa using extendPartials_le orc _ false r.patRc r.qualRc r.patid _ st
  · exact MaskLe.same _

theorem seededPhase3Hh_doneMask (seedLen seedMms : Int) (orc : Oracle) (st : St) (r : Read) :
    (seededPhase3Hh seedLen seedMms orc st r).1.doneMask = st.doneMask := by
  unfold seededPhase3Hh
  dsimp only
  split_ifs <;> simp

theorem seededPhase3Seedlings_doneMask (seedLen seedMms : Int) (orc : Oracle) (st : St)
    (r : Read) : (seededPhase3Seedlings seedLen seedMms orc st r).doneMask = st.doneMask := by
  unfold seededPhase3Seedlings
  dsimp only
  split_ifs <;> simp

theorem seededPhase3Body_le (seedLen seedMms : Int) (orc : Oracle) (st : St) (r : Read) :
    MaskLe st.doneMask (seededPhase3Body seedLen seedMms orc st r).doneMask := by
  have h0 : MaskLe st.doneMask (seededPhase3Extend seedLen orc (st.setFw false) r).1.doneMask :=
    seededPhase3Extend_le seedLen orc (st.setFw false) r
  unfold seededPhase3Body
  dsimp only
  split_ifs
  · exact MaskLe.same _
  · exact h0
  · rw [St.markDone_doneMask, seededPhase3Hh_doneMask]
    exact MaskLe.chain h0 (setDone_le _ _)
  · rw [seededPhase3Seedlings_doneMask, seededPhase3Hh_doneMask]
    exact h0

theorem seededPhase4Extend_le (seedLen : Int) (orc : Oracle) (st : St) (r : Read) :
    MaskLe st.doneMask (seededPhase4Extend seedLen orc st r).1.doneMask := by
  unfold seededPhase4Extend
  dsimp only
  split_ifs
  · simpa using extendPartials_le orc _ true r.patFw r.qualFw r.patid _
      (st.setOffsBtf (seedOffsFull (minU32 (u32 r.patFw.length) (u32OfInt seedLen))))
  · simpa using extendPartials_le orc _ true r.patFw r.qualFw r.patid _ st
  · exact MaskLe.same _

theorem seededPhase4Hh_le (seedLen seedMms : Int) (orc : Oracle) (st : St) (r : Read) :
    MaskLe st.doneMask (seededPhase4Hh seedLen seedMms orc st r).doneMask := by
  have h0 := MaskLe.same st.doneMask
  have h1 := setDone_le st.doneMask r.patid
  unfold seededPhase4Hh
  dsimp only
  split_ifs <;> first | simpa using h0 | simpa using h1

theorem seededPhase4Body_le (seedLen seedMms : Int) (orc : Oracle) (st : St) (r : Read) :
    MaskLe st.doneMask (seededPhase4Body seedLen seedMms orc st r).doneMask := by
  have h0 : MaskLe st.doneMask (seededPhase4Extend seedLen orc (st.setFw true) r).1.doneMask :=
    seededPhase4Extend_le seedLen orc (st.setFw true) r
  unfold seededPhase4Body
  dsimp only
  split_ifs
  · exact MaskLe.same _
  · exact h0
  · exact MaskLe.chain h0 (seededPhase4Hh_le _ _ _ _ _)

/-- A read loop whose body never clears a bit never clears a bit. -/
theorem readLoop_le (cfg : Config) (body : St → Read → St)
    (hbody : ∀ st r, MaskLe st.doneMask (body st r).doneMask) (reads : List Read) :
    ∀ st, MaskLe st.doneMask (readLoop cfg body reads st).doneMask := by
  induction reads with
  | nil => intro st; exact MaskLe.same _
  | cons r rs ih =>
    intro st
    unfold readLoop
    dsimp only
    split_ifs
    · exact MaskLe.same _
    · exact MaskLe.same _
    · exact MaskLe.same _
    · exact MaskLe.chain (hbody (st.getRead (presentRead st.reverse r)) _) (ih _)

theorem readLoop_le_of_eq (cfg : Config) (body : St → Read → St)
    (hbody : ∀ st r, MaskLe st.doneMask (body st r).doneMask) (reads : List Read) (st st1 : St)
    (h : st1.doneMask = st.doneMask) :
    MaskLe st.doneMask (readLoop cfg body reads st1).doneMask := by
  rw [← h]; exact readLoop_le cfg body hbody reads st1

/-- C4: in the 2/3-mismatch and seeded searches every operation on the
completion bitmap preserves every bit already set.  Setting a bit clears none;
the growth step doubles the size, keeps every old entry and adds only false
entries; hence every loop body, every read loop continued from any point of the
run over any further reads, and every later phase leaves each set bit set. -/
theorem completion_monotone (cfg : Config) (two : Bool) (seedLen qualCutoff seedMms : Int)
    (orc : Oracle) (reads : List Read) (st : St) (r : Read) (m : List Bool) (i j : Nat) :
    (MaskLe m (setDone m i) ∧ testDone (growDone m) j = testDone m j ∧
      (growDone m).length = m.length * 2 ∧
      (growDone m).take m.length = m ∧ (growDone m).drop m.length = List.replicate m.length false ∧
      MaskLe m (expandDone m i)) ∧
    (MaskLe st.doneMask (twoOrThreePhase1Body cfg two orc st r).doneMask ∧
      MaskLe st.doneMask (twoOrThreePhase2Body two orc st r).doneMask ∧
      MaskLe st.doneMask (twoOrThreePhase3Body two orc st r).doneMask ∧
      MaskLe st.doneMask (seededPhase1Body cfg seedLen seedMms orc st r).doneMask ∧
      MaskLe st.doneMask (seededPhase2Body seedLen seedMms orc st r).doneMask ∧
      MaskLe st.doneMask (seededPhase3Body seedLen seedMms orc st r).doneMask ∧
      MaskLe st.doneMask (seededPhase4Body seedLen seedMms orc st r).doneMask) ∧
    (MaskLe st.doneMask (readLoop cfg (twoOrThreePhase1Body cfg two orc) reads st).doneMask ∧
      MaskLe st.doneMask (readLoop cfg (twoOrThreePhase2Body two orc) reads st).doneMask ∧
      MaskLe st.doneMask (readLoop cfg (twoOrThreePhase3Body two orc) reads st).doneMask ∧
      MaskLe st.doneMask
        (readLoop cfg (seededPhase1Body cfg seedLen seedMms orc) reads st).doneMask ∧
      MaskLe st.doneMask (readLoop cfg (seededPhase2Body seedLen seedMms orc) reads st).doneMask ∧
      MaskLe st.doneMask (readLoop cfg (seededPhase3Body seedLen seedMms orc) reads st).doneMask ∧
      MaskLe st.doneMask
        (readLoop cfg (seededPhase4Body seedLen seedMms orc) reads st).doneMask) ∧
    (MaskLe st.doneMask (twoOrThreePhase2 cfg two orc reads st).doneMask ∧
      MaskLe st.doneMask (twoOrThreePhase3 cfg two orc reads st).doneMask ∧
      MaskLe st.doneMask (seededPhase2 cfg seedLen qualCutoff seedMms orc reads st).doneMask ∧
      MaskLe st.doneMask (seededPhase3 cfg seedLen qualCutoff seedMms orc reads st).doneMask ∧
      MaskLe st.doneMask (seededPhase4 cfg seedLen qualCutoff seedMms orc reads st).doneMask) := by
  have b1 := twoOrThreePhase1Body_le cfg two orc
  have b2 := twoOrThreePhase2Body_le two orc
  have b3 := twoOrThreePhase3Body_le two orc
  have b4 := seededPhase1Body_le cfg seedLen seedMms orc
  have b5 := seededPhase2Body_le seedLen seedMms orc
  have b6 := seededPhase3Body_le seedLen seedMms orc
  have b7 := seededPhase4Body_le seedLen seedMms orc
  refine ⟨⟨setDone_le m i, testDone_growDone m j, length_growDone m, ?_, ?_, expandDone_le m i⟩,
    ⟨b1 st r, b2 st r, b3 st r, b4 st r, b5 st r, b6 st r, b7 st r⟩,
    ⟨readLoop_le cfg _ b1 reads st, readLoop_le cfg _ b2 reads st, readLoop_le cfg _ b3 reads st,
      readLoop_le cfg _ b4 reads st, readLoop_le cfg _ b5 reads st, readLoop_le cfg _ b6 reads st,
      readLoop_le cfg _ b7 reads st⟩, ⟨?_, ?_, ?_, ?_, ?_⟩⟩
  · simp [growDone]
  · have h : m.length * 2 - m.length = m.length := by omega
    simp [growDone, h]
  · unfold twoOrThreePhase2
    exact readLoop_le_of_eq cfg _ b2 reads _ _ rfl
  · unfold twoOrThreePhase3
    exact readLoop_le_of_eq cfg _ b3 reads _ _ rfl
  · unfold seededPhase2
    exact readLoop_le_of_eq cfg _ b5 reads _ _ rfl
  · unfold seededPhase3
    rw [St.setPamRc_doneMask]
    exact readLoop_le_of_eq cfg _ b6 reads _ _ rfl
  · unfold seededPhase4
    rw [St.setPamFw_doneMask]
    exact readLoop_le_of_eq cfg _ b7 reads _ _ rfl

/-- C4 at a concrete run: read 1 is done before phase 2 of the 2-mismatch
search and is still done after phases 2 and 3 over three reads, whatever the
searches report. -/
theorem completion_monotone_witness :
    testDone (doneSt 4 [1]).doneMask 1 = true ∧
      testDone (twoOrThreePhase3 ⟨false, true, 4, false, true, 999999, 0, false⟩ true
        (fun _ => ⟨[⟨0, 0, []⟩], [], []⟩)
        [mkRead 0 [0, 1, 2, 3] [0, 1, 2, 3], mkRead 1 [0, 1, 2, 3] [0, 1, 2, 3],
          mkRead 2 [0, 1, 2, 3] [0, 1, 2, 3]]
        (twoOrThreePhase2 ⟨false, true, 4, false, true, 999999, 0, false⟩ true
          (fun _ => ⟨[⟨0, 0, []⟩], [], []⟩)
          [mkRead 0 [0, 1, 2, 3] [0, 1, 2, 3], mkRead 1 [0, 1, 2, 3] [0, 1, 2, 3],
            mkRead 2 [0, 1, 2, 3] [0, 1, 2, 3]] (doneSt 4 [1]))).doneMask 1 = true :=
  ⟨by decide,
    (completion_monotone ⟨false, true, 4, false, true, 999999, 0, false⟩ true 28 70 2
      (fun _ => ⟨[⟨0, 0, []⟩], [], []⟩)
      [mkRead 0 [0, 1, 2, 3] [0, 1, 2, 3], mkRead 1 [0, 1, 2, 3] [0, 1, 2, 3],
        mkRead 2 [0, 1, 2, 3] [0, 1, 2, 3]] _ (mkRead 0 [] []) [] 0 0).2.2.2.2.1 1
      ((completion_monotone ⟨false, true, 4, false, true, 999999, 0, false⟩ true 28 70 2
        (fun _ => ⟨[⟨0, 0, []⟩], [], []⟩)
        [mkRead 0 [0, 1, 2, 3] [0, 1, 2, 3], mkRead 1 [0, 1, 2, 3] [0, 1, 2, 3],
          mkRead 2 [0, 1, 2, 3] [0, 1, 2, 3]] (doneSt 4 [1]) (mkRead 0 [] []) [] 0 0).2.2.2.1 1
        (by decide))⟩
/-! ## 1-mismatch phase 1: provisional hits -/

/-- The loop invariant `lastHits == sink.numHits()` (asserted at the top of the
phase-1 loop) is kept by the phase-1 body. -/
theorem mismatchSearchPhase1Body_sync (cfg : Config) (orc : Oracle) (st : St) (r : Read)
    (hsync : st.lastHits = st.sink.numHits) :
    (mismatchSearchPhase1Body cfg orc st r).lastHits =
      (mismatchSearchPhase1Body cfg orc st r).sink.numHits := by
  unfold mismatchSearchPhase1Body mismatchSearchPhase1Exact mismatchSearchPhase1Inexact
  dsimp only
  split_ifs <;> simp_all

/-- The exact forward step of phase 1, from a state in which `lastHits` equals
the sink's counter: one exact search is issued; its hits are reported and the
provisional hits dropped when it reports one, the provisional hits are reported
otherwise. -/
theorem mismatchSearchPhase1Exact_spec (cfg : Config) (orc : Oracle) (x : St) (r : Read)
    (hsync : x.lastHits = x.sink.numHits) :
    (mismatchSearchPhase1Exact cfg orc x r).trace =
        x.trace ++ [x.call (SearchKind.exact cfg.oneHit) true true r.patFw r.qualFw] ∧
      (mismatchSearchPhase1Exact cfg orc x r).sink.hits =
        x.sink.hits ++
          (if (orc (x.call (SearchKind.exact cfg.oneHit) true true r.patFw r.qualFw)).hits = []
            then x.sink.prov
            else (orc (x.call (SearchKind.exact cfg.oneHit) true true r.patFw r.qualFw)).hits.map
              x.stamp) ∧
      (mismatchSearchPhase1Exact cfg orc x r).sink.prov = [] := by
  unfold mismatchSearchPhase1Exact
  dsimp only
  by_cases hE : (orc (x.call (SearchKind.exact cfg.oneHit) true true r.patFw r.qualFw)).hits = []
  · simp only [hE, St.numHits_eq, St.search_numHits, St.search_lastHits, hsync, List.length_nil,
      Nat.add_zero, gt_iff_lt, Nat.lt_irrefl, if_false, if_true, List.map_nil, List.append_nil]
    split_ifs <;> simp [hE]
  · have hpos := List.length_pos.mpr hE
    simp only [hE, St.numHits_eq, St.search_numHits, St.search_lastHits, hsync, gt_iff_lt,
      Nat.lt_add_right_iff_pos, hpos, if_true, if_false, St.rejectProvisionalHits_numHits]
    split_ifs <;> simp

theorem readLoop_sync (cfg : Config) (body : St → Read → St)
    (hbody : ∀ st r, st.lastHits = st.sink.numHits → (body st r).lastHits = (body st r).sink.numHits)
    (reads : List Read) :
    ∀ st, st.lastHits = st.sink.numHits →
      (readLoop cfg body reads st).lastHits = (readLoop cfg body reads st).sink.numHits := by
  induction reads with
  | nil => intro st h; exact h
  | cons r rs ih =>
    intro st h
    unfold readLoop
    dsimp only
    split_ifs
    · exact h
    · exact h
    · simpa using h
    · exact ih _ (hbody _ _ (by simpa using h))

theorem mismatchSearchPhase1_sync (cfg : Config) (orc : Oracle) (reads : List Read) (st : St) :
    (mismatchSearchPhase1 cfg orc reads st).lastHits =
      (mismatchSearchPhase1 cfg orc reads st).sink.numHits := by
  unfold mismatchSearchPhase1
  exact readLoop_sync cfg _ (mismatchSearchPhase1Body_sync cfg orc) reads _
    (by simp [mismatchSearchPhase1Init])

/-- C10: in 1-mismatch phase 1 (with the loop invariant
`lastHits == sink.numHits()` the source asserts at the top of the loop, and a
read of at least 2 bases), whenever the rc search leaves at least one
provisional hit in the sink and the fw step is reached (not both `oneHit` and
an rc hit), the body issues exactly two searches, the rc search and then an
exact search of the fw read; the provisional hits are dropped when that exact
search reported a hit and are reported otherwise; no provisional hit remains in
either case, and the loop invariant holds again (as it does after any number of
reads from the start of phase 1). -/
theorem provisional_resolved (cfg : Config) (orc : Oracle) (st : St) (r : Read)
    (hsync : st.lastHits = st.sink.numHits) (hlen : 2 ≤ r.patFw.length)
    (hprov : (st.search orc (mismatchPhase1RcCall cfg st r) true Pam.none).sink.prov ≠ [])
    (hreach : ¬ (cfg.oneHit = true ∧ (orc (mismatchPhase1RcCall cfg st r)).hits ≠ [])) :
    newCalls st (mismatchSearchPhase1Body cfg orc st r) =
        [mismatchPhase1RcCall cfg st r, mismatchPhase1FwExactCall cfg st r] ∧
      (mismatchSearchPhase1Body cfg orc st r).sink.hits =
        (st.search orc (mismatchPhase1RcCall cfg st r) true Pam.none).sink.hits ++
          (if (orc (mismatchPhase1FwExactCall cfg st r)).hits = [] then
            (st.search orc (mismatchPhase1RcCall cfg st r) true Pam.none).sink.prov
          else (orc (mismatchPhase1FwExactCall cfg st r)).hits.map (st.setFw true).stamp) ∧
      (mismatchSearchPhase1Body cfg orc st r).sink.prov = [] ∧
      (mismatchSearchPhase1Body cfg orc st r).lastHits =
        (mismatchSearchPhase1Body cfg orc st r).sink.numHits ∧
      ∀ (pre : List Read) (st0 : St),
        (mismatchSearchPhase1 cfg orc pre st0).lastHits =
          (mismatchSearchPhase1 cfg orc pre st0).sink.numHits := by
  have hlen' : ¬ r.patFw.length < 2 := by omega
  have hpos : 0 < (st.search orc (mismatchPhase1RcCall cfg st r) true Pam.none).sink.prov.length :=
    List.length_pos.mpr hprov
  have hB : (mismatchSearchPhase1Body cfg orc st r) =
      ((mismatchSearchPhase1Exact cfg orc
        (((if 0 < (orc (mismatchPhase1RcCall cfg st r)).hits.length then
            (st.search orc (mismatchPhase1RcCall cfg st r) true Pam.none).syncLastHits
          else st.search orc (mismatchPhase1RcCall cfg st r) true Pam.none)).setFw true) r).setFw
        false) := by
    have hA : ¬ (cfg.oneHit = true ∧ 0 < (orc (mismatchPhase1RcCall cfg st r)).hits.length) := by
      intro h
      exact hreach ⟨h.1, List.length_pos.mp h.2⟩
    unfold mismatchSearchPhase1Body
    unfold mismatchPhase1RcCall at *
    simp only [hlen', if_false, St.numHits_eq, St.search_numHits, St.search_lastHits, hsync,
      gt_iff_lt, Nat.lt_add_right_iff_pos, decide_eq_true_eq, hA, St.numProvisionalHits_eq]
    by_cases hH : 0 < (orc (st.call (SearchKind.oneMismatch cfg.oneHit true true) true false
        r.patRc r.qualRc)).hits.length
    · simp only [hH, if_true]
      rw [if_pos (by simpa using hpos)]
    · simp only [hH, if_false]
      rw [if_pos (by simpa using hpos)]
  by_cases hH : 0 < (orc (mismatchPhase1RcCall cfg st r)).hits.length
  · rw [if_pos hH] at hB
    have hs : (((st.search orc (mismatchPhase1RcCall cfg st r) true Pam.none).syncLastHits).setFw
        true).lastHits = (((st.search orc (mismatchPhase1RcCall cfg st r) true
          Pam.none).syncLastHits).setFw true).sink.numHits := by simp
    obtain ⟨h1, h2, h3⟩ := mismatchSearchPhase1Exact_spec cfg orc _ r hs
    rw [hB]
    refine ⟨?_, ?_, ?_, mismatchSearchPhase1Body_sync cfg orc st r hsync |> (hB ▸ ·),
      mismatchSearchPhase1_sync cfg orc⟩
    · simp [newCalls, h1, mismatchPhase1FwExactCall, St.call]
    · have hst : (((st.search orc (mismatchPhase1RcCall cfg st r) true Pam.none).syncLastHits).setFw
          true).stamp = (st.setFw true).stamp := rfl
      rw [St.setFw_sink, h2, hst]
      simp [mismatchPhase1FwExactCall, St.call]
    · rw [St.setFw_sink, h3]
  · rw [if_neg hH] at hB
    have hz : (orc (mismatchPhase1RcCall cfg st r)).hits.length = 0 := by omega
    have hs : ((st.search orc (mismatchPhase1RcCall cfg st r) true Pam.none).setFw
        true).lastHits = ((st.search orc (mismatchPhase1RcCall cfg st r) true
          Pam.none).setFw true).sink.numHits := by simp [hsync, hz]
    obtain ⟨h1, h2, h3⟩ := mismatchSearchPhase1Exact_spec cfg orc _ r hs
    rw [hB]
    refine ⟨?_, ?_, ?_, mismatchSearchPhase1Body_sync cfg orc st r hsync |> (hB ▸ ·),
      mismatchSearchPhase1_sync cfg orc⟩
    · simp [newCalls, h1, mismatchPhase1FwExactCall, St.call]
    · have hst : ((st.search orc (mismatchPhase1RcCall cfg st r) true Pam.none).setFw
          true).stamp = (st.setFw true).stamp := rfl
      rw [St.setFw_sink, h2, hst]
      simp [mismatchPhase1FwExactCall, St.call]
    · rw [St.setFw_sink, h3]

/-- Witness for C10: in all-hits mode the reverse complement of read 0 leaves
one provisional hit and the exact forward search finds nothing, so the
provisional hit is reported (on the minus strand). -/
theorem provisional_resolved_witness :
    ((initSt.setFw false).lastHits = (initSt.setFw false).sink.numHits ∧ 2 ≤ (mkRead 0 [0, 1, 2, 3] [0, 1, 2, 3]).patFw.length ∧
      ((initSt.setFw false).search provisionalOracle
        (mismatchPhase1RcCall allHitsCfg (initSt.setFw false) (mkRead 0 [0, 1, 2, 3] [0, 1, 2, 3])) true
        Pam.none).sink.prov ≠ []) ∧
      (mismatchSearchPhase1Body allHitsCfg provisionalOracle (initSt.setFw false)
        (mkRead 0 [0, 1, 2, 3] [0, 1, 2, 3])).sink.hits = [⟨0, 4, 0, false, [11]⟩] ∧
      (mismatchSearchPhase1Body allHitsCfg provisionalOracle (initSt.setFw false)
        (mkRead 0 [0, 1, 2, 3] [0, 1, 2, 3])).sink.prov = [] :=
  ⟨⟨rfl, by decide, by decide⟩,
    (provisional_resolved allHitsCfg provisionalOracle (initSt.setFw false) (mkRead 0 [0, 1, 2, 3] [0, 1, 2, 3])
      rfl (by decide) (by decide) (by decide)).2.1,
    (provisional_resolved allHitsCfg provisionalOracle (initSt.setFw false) (mkRead 0 [0, 1, 2, 3] [0, 1, 2, 3])
      rfl (by decide) (by decide) (by decide)).2.2.1⟩
/-! ## 2-mismatch search against ideal index searches -/

theorem pickHits_eq_nil (oneHit : Bool) (l : List Alignment) :
    pickHits oneHit l = [] ↔ l = [] := by
  unfold pickHits
  cases oneHit <;> cases l <;> simp

theorem mem_pickHits (oneHit : Bool) (l : List Alignment) (a : Alignment)
    (h : a ∈ pickHits oneHit l) : a ∈ l := by
  unfold pickHits at h
  cases oneHit
  · simpa using h
  · exact List.mem_of_mem_take (by simpa using h)

theorem mem_alignmentsWhere (os : List (List Nat)) (c : SearchCall) (ok : List Nat → Bool)
    (a : Alignment) (h : a ∈ alignmentsWhere os c ok) :
    (a.refId, a.refOff) ∈ placements os c.orientedQuery.length ∧
      ok ((mismatchPositions (os.getD a.refId []) c.orientedQuery a.refOff).map
        (depthOf c.ebwtFw c.orientedQuery.length)) = true := by
  unfold alignmentsWhere at h
  rw [List.mem_filterMap] at h
  obtain ⟨p, hp, hf⟩ := h
  dsimp only at hf
  split_ifs at hf with hok
  simp only [Option.some.injEq] at hf
  subst hf
  exact ⟨hp, hok⟩

theorem alignmentsWhere_eq_nil (os : List (List Nat)) (c : SearchCall) (ok : List Nat → Bool)
    (h : alignmentsWhere os c ok = []) (p : Nat × Nat)
    (hp : p ∈ placements os c.orientedQuery.length) :
    ok ((mismatchPositions (os.getD p.1 []) c.orientedQuery p.2).map
      (depthOf c.ebwtFw c.orientedQuery.length)) = false := by
  unfold alignmentsWhere at h
  rw [List.filterMap_eq_nil_iff] at h
  have := h p hp
  dsimp only at this
  split_ifs at this with hok
  simpa using hok

theorem mismatchPositions_lt (t q : List Nat) (off i : Nat)
    (h : i ∈ mismatchPositions t q off) : i < q.length := by
  unfold mismatchPositions at h
  exact List.mem_range.mp (List.mem_filter.mp h).1

theorem depthOf_lt (ebwtFw : Bool) (len i : Nat) (h : i < len) : depthOf ebwtFw len i < len := by
  unfold depthOf
  split_ifs <;> omega

/-- Thresholds whose `2revOff` covers the whole query admit at most two
mismatches. -/
theorem admits_le_two (o : Offs) (ebwtFw : Bool) (t q : List Nat) (off : Nat)
    (h2 : q.length ≤ o.twoRevOff)
    (h : o.admits ((mismatchPositions t q off).map (depthOf ebwtFw q.length)) = true) :
    (mismatchPositions t q off).length ≤ 2 := by
  unfold Offs.admits at h
  simp only [Bool.and_eq_true, decide_eq_true_eq] at h
  have hall : ((mismatchPositions t q off).map (depthOf ebwtFw q.length)).filter
      (fun d => decide (d < o.twoRevOff)) = (mismatchPositions t q off).map (depthOf ebwtFw q.length) := by
    rw [List.filter_eq_self]
    intro d hd
    rw [List.mem_map] at hd
    obtain ⟨i, hi, rfl⟩ := hd
    have := depthOf_lt ebwtFw q.length i (mismatchPositions_lt t q off i hi)
    simp only [decide_eq_true_eq]
    omega
  have := h.1.2
  rw [hall, List.length_map] at this
  exact this
theorem filter_lt_length_le (ds : List Nat) (T : Nat) :
    (ds.filter (fun d => decide (d < T))).length ≤ ds.length := List.length_filter_le _ _

/-- Depths that all lie at or behind `unrevOff = 1revOff` are admitted when there
are at most two of them. -/
theorem admits_of_behind (o : Offs) (ds : List Nat) (h1 : o.oneRevOff = o.unrevOff)
    (hall : ∀ d ∈ ds, o.unrevOff ≤ d) (hlen : ds.length ≤ 2) : o.admits ds = true := by
  have h0 : ds.filter (fun d => decide (d < o.unrevOff)) = [] := by
    rw [List.filter_eq_nil_iff]
    intro d hd
    have := hall d hd
    simp only [decide_eq_true_eq]
    omega
  have h2 := filter_lt_length_le ds o.twoRevOff
  have h3 := filter_lt_length_le ds o.threeRevOff
  unfold Offs.admits
  simp only [h1, h0, List.length_nil, Bool.and_eq_true, decide_eq_true_eq, beq_self_eq_true,
    true_and]
  omega

/-- Half-and-half: two depths, one in each half, are admitted by thresholds
`(0, 5depth, ≥ 2 allowed ...)`. -/
theorem admits_of_straddle (o : Offs) (ds : List Nat) (h0 : o.unrevOff = 0)
    (h1 : o.oneRevOff = o.depth5) (hlen : ds.length ≤ 2)
    (hlo : ∃ d ∈ ds, d < o.depth5) (hhi : ∃ d ∈ ds, o.depth5 ≤ d ∧ d < o.depth3) :
    o.admits ds = true ∧ o.bothHalves ds = true := by
  constructor
  · have hz : ds.filter (fun d => decide (d < o.unrevOff)) = [] := by
      rw [List.filter_eq_nil_iff]
      intro d _
      simp [h0]
    have hone : (ds.filter (fun d => decide (d < o.oneRevOff))).length < ds.length := by
      rw [List.length_filter_lt_length_iff_exists]
      obtain ⟨d, hd, hd5, _⟩ := hhi
      exact ⟨d, hd, by simp only [h1, decide_eq_true_eq]; omega⟩
    have h2 := filter_lt_length_le ds o.twoRevOff
    have h3 := filter_lt_length_le ds o.threeRevOff
    unfold Offs.admits
    simp only [hz, List.length_nil, Bool.and_eq_true, decide_eq_true_eq, beq_self_eq_true,
      true_and]
    omega
  · unfold Offs.bothHalves
    simp only [Bool.and_eq_true, List.any_eq_true, decide_eq_true_eq]
    obtain ⟨d, hd, hd5⟩ := hlo
    obtain ⟨e, he, he5, he3⟩ := hhi
    exact ⟨⟨d, hd, hd5⟩, ⟨e, he, he5, he3⟩⟩

/-- Coverage of one strand.  For a query of length `len` split at position `p`,
any set of at most two mismatch positions is found by the exact search (no
mismatch), by the mirror-index search with `unrevOff = p` (all at or behind
`p`), by the forward-index search with `unrevOff = len - p` (all before `p`), or
by the half-and-half search with `5depth = len - p` (one on each side). -/
theorem strand_coverage (len p : Nat) (hp : p ≤ len) (ms : List Nat)
    (hms : ∀ i ∈ ms, i < len) (hlen : ms.length ≤ 2)
    (oM oF oH : Offs)
    (hM : oM.unrevOff = p ∧ oM.oneRevOff = p)
    (hF : oF.unrevOff = len - p ∧ oF.oneRevOff = len - p)
    (hH : oH.unrevOff = 0 ∧ oH.oneRevOff = len - p ∧ oH.depth5 = len - p ∧ oH.depth3 = len) :
    oM.admits (ms.map (depthOf false len)) = true ∨
      oF.admits (ms.map (depthOf true len)) = true ∨
      (oH.admits (ms.map (depthOf true len)) = true ∧
        oH.bothHalves (ms.map (depthOf true len)) = true) := by
  by_cases hA : ∀ i ∈ ms, p ≤ i
  · left
    apply admits_of_behind oM _ (by rw [hM.1, hM.2]) _ (by simpa using hlen)
    intro d hd
    rw [List.mem_map] at hd
    obtain ⟨i, hi, rfl⟩ := hd
    simp only [depthOf, Bool.false_eq_true, if_false, hM.1]
    exact hA i hi
  · by_cases hB : ∀ i ∈ ms, i < p
    · right; left
      apply admits_of_behind oF _ (by rw [hF.1, hF.2]) _ (by simpa using hlen)
      intro d hd
      rw [List.mem_map] at hd
      obtain ⟨i, hi, rfl⟩ := hd
      have h1 := hB i hi
      have h2 := hms i hi
      simp only [depthOf, if_true, hF.1]
      omega
    · right; right
      push_neg at hA hB
      obtain ⟨i, hi, hip⟩ := hA
      obtain ⟨j, hj, hjp⟩ := hB
      apply admits_of_straddle oH _ hH.1 (by rw [hH.2.1, hH.2.2.1]) (by simpa using hlen)
      · refine ⟨depthOf true len j, List.mem_map.mpr ⟨j, hj, rfl⟩, ?_⟩
        have := hms j hj
        simp only [depthOf, if_true, hH.2.2.1]
        omega
      · refine ⟨depthOf true len i, List.mem_map.mpr ⟨i, hi, rfl⟩, ?_⟩
        have := hms i hi
        simp only [depthOf, if_true, hH.2.2.1, hH.2.2.2]
        omega
@[simp] theorem presentRead_patid (rev : Bool) (r : Read) : (presentRead rev r).patid = r.patid := by
  unfold presentRead; split_ifs <;> rfl

theorem presentRead_length (rev : Bool) (r : Read) :
    (presentRead rev r).patFw.length = r.patFw.length := by
  unfold presentRead; split_ifs <;> simp

theorem presentRead_false (r : Read) : presentRead false r = r := by
  simp [presentRead]

theorem presentRead_true_patFw (r : Read) : (presentRead true r).patFw = r.patFw.reverse := by
  simp [presentRead]

theorem presentRead_true_patRc (r : Read) : (presentRead true r).patRc = r.patRc.reverse := by
  simp [presentRead]

@[simp] theorem St.getRead_lastLen (st : St) (rd : Read) :
    (st.getRead rd).lastLen = if st.lastLen = 0 then u32 rd.patFw.length else st.lastLen := rfl
theorem mem_occurrences (os : List (List Nat)) (q : List Nat) (k : Nat) (p : Nat × Nat) :
    p ∈ occurrences os q k ↔
      p ∈ placements os q.length ∧ (mismatchPositions (os.getD p.1 []) q p.2).length ≤ k := by
  unfold occurrences
  simp [List.mem_filter]

theorem mem_refHits (os : List (List Nat)) (fw : List Nat) (k : Nat) (x : Nat × Nat × Bool) :
    x ∈ refHits os fw k ↔
      (x.2.2 = true ∧ (x.1, x.2.1) ∈ occurrences os fw k) ∨
        (x.2.2 = false ∧ (x.1, x.2.1) ∈ occurrences os (revComp fw) k) := by
  obtain ⟨a, b, s⟩ := x
  unfold refHits
  simp only [List.mem_append, List.mem_map, Prod.mk.injEq, Prod.exists]
  constructor
  · rintro (⟨i, o, h, rfl, rfl, rfl⟩ | ⟨i, o, h, rfl, rfl, rfl⟩)
    · exact Or.inl ⟨rfl, h⟩
    · exact Or.inr ⟨rfl, h⟩
  · rintro (⟨hs, h⟩ | ⟨hs, h⟩)
    · exact Or.inl ⟨a, b, h, rfl, rfl, hs.symm⟩
    · exact Or.inr ⟨a, b, h, rfl, rfl, hs.symm⟩

/-- Every alignment an ideal search reports for a good call is an occurrence of
the read, on the strand of the call, with at most two mismatches. -/
theorem idealOracle_sound (os : List (List Nat)) (fw : List Nat) (c : SearchCall)
    (hc : GoodCall fw c) (a : Alignment) (ha : a ∈ (idealOracle os c).hits) :
    (a.refId, a.refOff, c.fw) ∈ refHits os fw 2 := by
  obtain ⟨hk, hs⟩ := hc
  have hocc : (a.refId, a.refOff) ∈ occurrences os c.orientedQuery 2 := by
    rw [mem_occurrences]
    rcases hk with ⟨oneHit, hk⟩ | ⟨b, hk, hlen⟩
    · unfold idealOracle at ha
      rw [hk] at ha
      have h1 := mem_alignmentsWhere os c _ a (mem_pickHits _ _ a ha)
      refine ⟨h1.1, ?_⟩
      have h2 := h1.2
      simp only [List.isEmpty_eq_true, List.map_eq_nil_iff] at h2
      rw [h2]
      exact Nat.zero_le _
    · unfold idealOracle at ha
      rw [hk] at ha
      have h1 := mem_alignmentsWhere os c _ a (mem_pickHits _ _ a ha)
      refine ⟨h1.1, ?_⟩
      have h2 := h1.2
      simp only [Bool.and_eq_true] at h2
      exact admits_le_two b.offs c.ebwtFw _ _ _ hlen h2.1
  rw [mem_refHits]
  rcases hs with ⟨hf, hq⟩ | ⟨hf, hq⟩
  · left; exact ⟨hf, hq ▸ hocc⟩
  · right; exact ⟨hf, hq ▸ hocc⟩

theorem search_soundFrom (os : List (List Nat)) (fw : List Nat) (st : St) (c : SearchCall)
    (p : Bool) (pam : Pam) (hfw : c.fw = st.fw) (hc : GoodCall fw c) :
    SoundFrom os fw st (st.search (idealOracle os) c p pam) := by
  intro h hh
  rw [St.search_hits, List.mem_append, List.mem_map] at hh
  rcases hh with hh | ⟨a, ha, rfl⟩
  · exact Or.inl hh
  · right
    have := idealOracle_sound os fw c hc a ha
    simpa [Hit.place, St.stamp, hfw] using this
theorem length_revComp (q : List Nat) : (revComp q).length = q.length := by
  simp [revComp]

theorem SoundFrom.refl (os : List (List Nat)) (fw : List Nat) (st : St) : SoundFrom os fw st st :=
  fun _ hh => Or.inl hh

theorem SoundFrom.trans {os : List (List Nat)} {fw : List Nat} {a b c : St}
    (h1 : SoundFrom os fw a b) (h2 : SoundFrom os fw b c) : SoundFrom os fw a c := by
  intro h hh
  rcases h2 h hh with h3 | h3
  · exact h1 h h3
  · exact Or.inr h3

theorem SoundFrom.congr {os : List (List Nat)} {fw : List Nat} {a a1 b b1 : St}
    (h : SoundFrom os fw a b) (ha : a1.sink.hits = a.sink.hits) (hb : b1.sink.hits = b.sink.hits) :
    SoundFrom os fw a1 b1 := by
  intro x hx
  rw [hb] at hx
  rw [ha]
  exact h x hx

theorem SoundFrom.hits {os : List (List Nat)} {fw : List Nat} {a b b1 : St}
    (h : SoundFrom os fw a b) (hb : b1.sink.hits = b.sink.hits) : SoundFrom os fw a b1 :=
  SoundFrom.congr h rfl hb

theorem SoundFrom.setFw {os : List (List Nat)} {fw : List Nat} {a b : St} (x : Bool)
    (h : SoundFrom os fw a b) : SoundFrom os fw a (b.setFw x) := h.hits (by simp)

theorem SoundFrom.markDone {os : List (List Nat)} {fw : List Nat} {a b : St} (p : Nat)
    (h : SoundFrom os fw a b) : SoundFrom os fw a (b.markDone p) := h.hits (by simp)

theorem SoundFrom.expand {os : List (List Nat)} {fw : List Nat} {a b : St} (p : Nat)
    (h : SoundFrom os fw a b) : SoundFrom os fw a (b.expand p) := h.hits (by simp)

theorem SoundFrom.exit {os : List (List Nat)} {fw : List Nat} {a b : St}
    (h : SoundFrom os fw a b) : SoundFrom os fw a b.exit := h.hits (by simp)

theorem SoundFrom.setOffsBtr {os : List (List Nat)} {fw : List Nat} {a b : St} (o : Offs)
    (h : SoundFrom os fw a b) : SoundFrom os fw a (b.setOffsBtr o) := h.hits (by simp)

theorem SoundFrom.setOffsBt {os : List (List Nat)} {fw : List Nat} {a b : St} (o : Offs)
    (h : SoundFrom os fw a b) : SoundFrom os fw a (b.setOffsBt o) := h.hits (by simp)

theorem SoundFrom.setOffsHh {os : List (List Nat)} {fw : List Nat} {a b : St} (o : Offs)
    (h : SoundFrom os fw a b) : SoundFrom os fw a (b.setOffsHh o) := h.hits (by simp)

/-- An exact search on the strand the parameters name keeps the hits sound. -/
theorem SoundFrom.exact {os : List (List Nat)} {fw : List Nat} {a b : St}
    (oneHit ebwtFw qf : Bool) (q ql : List Nat) (p : Bool) (pam : Pam)
    (hs : (b.fw = true ∧ (if ebwtFw then q else q.reverse) = fw) ∨
      (b.fw = false ∧ (if ebwtFw then q else q.reverse) = revComp fw))
    (h : SoundFrom os fw a b) :
    SoundFrom os fw a
      (b.search (idealOracle os) (b.call (SearchKind.exact oneHit) ebwtFw qf q ql) p pam) :=
  SoundFrom.trans h (search_soundFrom os fw b _ p pam rfl
    ⟨Or.inl ⟨_, rfl⟩, by simpa [St.call, SearchCall.orientedQuery] using hs⟩)

/-- A backtracker run whose `2revOff` covers the query, on the strand the
parameters name, keeps the hits sound. -/
theorem SoundFrom.backtrack {os : List (List Nat)} {fw : List Nat} {a b : St}
    (bt : Backtracker) (qf : Bool) (q ql : List Nat) (pam : Pam)
    (hlen : q.length ≤ bt.offs.twoRevOff)
    (hs : (b.fw = true ∧ (if bt.ebwtFw then q else q.reverse) = fw) ∨
      (b.fw = false ∧ (if bt.ebwtFw then q else q.reverse) = revComp fw))
    (h : SoundFrom os fw a b) :
    SoundFrom os fw a (b.backtrack (idealOracle os) bt none qf q ql pam) :=
  SoundFrom.trans h (search_soundFrom os fw b _ false pam rfl
    ⟨Or.inr ⟨bt, rfl, by
      simp only [St.call, SearchCall.orientedQuery]
      split_ifs <;> simpa using hlen⟩,
      by simpa [St.call, SearchCall.orientedQuery] using hs⟩)

theorem u32_length (r : Read) (hL : r.patFw.length < 2 ^ 32) : u32 r.patFw.length = r.patFw.length :=
  u32_of_lt hL

/-- Soundness of the phase-1 body in 2-mismatch mode. -/
theorem twoOrThreePhase1Body_sound (cfg : Config) (os : List (List Nat)) (st : St) (r : Read)
    (hfw : st.fw = true) (hidx : st.btr.ebwtFw = true) (hrc : r.patRc = revComp r.patFw)
    (hL : r.patFw.length < 2 ^ 32) :
    SoundFrom os r.patFw st (twoOrThreePhase1Body cfg true (idealOracle os) st r) := by
  have hu := u32_length r hL
  have hlrc : r.patRc.length = r.patFw.length := by rw [hrc, length_revComp]
  have s0 : SoundFrom os r.patFw st (st.expand r.patid) := (SoundFrom.refl os r.patFw st).expand _
  have s1 := SoundFrom.exact cfg.oneHit true true r.patFw r.qualFw false Pam.none
    (Or.inl ⟨by simpa using hfw, by simp⟩) s0
  unfold twoOrThreePhase1Body
  dsimp only
  split_ifs
  · exact s0.exit
  · exact s0.exit
  · exact s1.markDone _
  · refine SoundFrom.setFw _ (SoundFrom.markDone _ (SoundFrom.backtrack _ _ _ _ _ ?_ ?_
      ((s1.setFw false).setOffsBtr _)))
    · simp [Backtracker.setOffs, ttPhase1RcOffs, hu, hlrc]
    · right; simp [Backtracker.setOffs, hidx, hrc]
  · refine SoundFrom.setFw _ (SoundFrom.backtrack _ _ _ _ _ ?_ ?_
      ((s1.setFw false).setOffsBtr _))
    · simp [Backtracker.setOffs, ttPhase1RcOffs, hu, hlrc]
    · right; simp [Backtracker.setOffs, hidx, hrc]

/-- Soundness of the phase-2 body in 2-mismatch mode: the source serves the read
reversed and the backtracker searches the mirror index. -/
theorem twoOrThreePhase2Body_sound (os : List (List Nat)) (st : St) (r : Read)
    (hfw : st.fw = true) (hidx : st.bt.ebwtFw = false) (hrc : r.patRc = revComp r.patFw)
    (hL : r.patFw.length < 2 ^ 32) :
    SoundFrom os r.patFw st
      (twoOrThreePhase2Body true (idealOracle os) st (presentRead true r)) := by
  have hu := u32_length r hL
  have hlrc : r.patRc.length = r.patFw.length := by rw [hrc, length_revComp]
  have s0 : SoundFrom os r.patFw st (st.setOffsBt (ttPhase2FwOffs true
      (presentRead true r).patFw.length)) := (SoundFrom.refl os r.patFw st).setOffsBt _
  have s1 := SoundFrom.backtrack (st.bt.setOffs (ttPhase2FwOffs true
      (presentRead true r).patFw.length)) true (presentRead true r).patFw
      (presentRead true r).qualFw Pam.none
    (by simp [Backtracker.setOffs, ttPhase2FwOffs, presentRead, hu])
    (Or.inl ⟨by simpa using hfw, by simp [Backtracker.setOffs, hidx, presentRead]⟩) s0
  unfold twoOrThreePhase2Body
  dsimp only
  split_ifs
  · exact SoundFrom.refl _ _ _
  · exact s1.markDone _
  · refine SoundFrom.setFw _ (SoundFrom.markDone _ (SoundFrom.backtrack _ _ _ _ _ ?_ ?_
      ((s1.setFw false).setOffsBt _)))
    · simp [Backtracker.setOffs, ttPhase2RcOffs, presentRead, hu, hlrc]
    · right; simp [Backtracker.setOffs, hidx, hrc, presentRead]
  · refine SoundFrom.setFw _ (SoundFrom.backtrack _ _ _ _ _ ?_ ?_
      ((s1.setFw false).setOffsBt _))
    · simp [Backtracker.setOffs, ttPhase2RcOffs, presentRead, hu, hlrc]
    · right; simp [Backtracker.setOffs, hidx, hrc, presentRead]

/-- Soundness of the phase-3 body in 2-mismatch mode. -/
theorem twoOrThreePhase3Body_sound (os : List (List Nat)) (st : St) (r : Read)
    (hfw : st.fw = true) (hidx : st.bt.ebwtFw = true) (hidh : st.hh.ebwtFw = true)
    (hrc : r.patRc = revComp r.patFw) (hL : r.patFw.length < 2 ^ 32) :
    SoundFrom os r.patFw st (twoOrThreePhase3Body true (idealOracle os) st r) := by
  have hu := u32_length r hL
  have hlrc : r.patRc.length = r.patFw.length := by rw [hrc, length_revComp]
  have s0 : SoundFrom os r.patFw st (st.setOffsBt (ttPhase3FwOffs true (u32 r.patFw.length))) :=
    (SoundFrom.refl os r.patFw st).setOffsBt _
  have s1 := SoundFrom.backtrack (st.bt.setOffs (ttPhase3FwOffs true (u32 r.patFw.length))) true
      r.patFw r.qualFw Pam.none
    (by simp [Backtracker.setOffs, ttPhase3FwOffs, hu])
    (Or.inl ⟨by simpa using hfw, by simp [Backtracker.setOffs, hidx]⟩) s0
  have s2 := SoundFrom.backtrack (st.hh.setOffs (ttPhase3HhFwOffs true (u32 r.patFw.length))) true
      r.patFw r.qualFw Pam.none
    (by simp [Backtracker.setOffs, ttPhase3HhFwOffs, hu])
    (Or.inl ⟨by simpa using hfw, by simp [Backtracker.setOffs, hidh]⟩)
    (s1.setOffsHh (ttPhase3HhFwOffs true (u32 r.patFw.length)))
  unfold twoOrThreePhase3Body
  dsimp only
  split_ifs
  · exact SoundFrom.refl _ _ _
  · exact s1
  · exact s2
  · refine SoundFrom.setFw _ (SoundFrom.backtrack _ _ _ _ _ ?_ ?_
      ((s2.setFw false).setOffsHh _))
    · simp [Backtracker.setOffs, ttPhase3HhRcOffs, hu, hlrc]
    · right; simp [Backtracker.setOffs, hidh, hrc]
theorem noneAdmitted_of_miss (os : List (List Nat)) (st : St) (bt : Backtracker) (qf : Bool)
    (q ql : List Nat)
    (h : (idealOracle os (st.call (SearchKind.backtrack bt none) bt.ebwtFw qf q ql)).hits = []) :
    NoneAdmitted os (if bt.ebwtFw then q else q.reverse) bt.ebwtFw
      (fun ds => bt.offs.admits ds && (!bt.halfAndHalf || bt.offs.bothHalves ds)) := by
  intro p hp
  have h1 : alignmentsWhere os (st.call (SearchKind.backtrack bt none) bt.ebwtFw qf q ql)
      (fun ds => bt.offs.admits ds && (!bt.halfAndHalf || bt.offs.bothHalves ds)) = [] := by
    have := h
    unfold idealOracle at this
    simp only [St.call] at this
    rw [pickHits_eq_nil] at this
    exact this
  have := alignmentsWhere_eq_nil os _ _ h1 p (by simpa [St.call, SearchCall.orientedQuery] using hp)
  simpa [St.call, SearchCall.orientedQuery] using this

/-- When the three searches of a strand admit no placement, the strand has no
occurrence with at most two mismatches. -/
theorem occurrences_nil (os : List (List Nat)) (q : List Nat) (p : Nat) (hp : p ≤ q.length)
    (oM oF oH : Offs)
    (hM : oM.unrevOff = p ∧ oM.oneRevOff = p)
    (hF : oF.unrevOff = q.length - p ∧ oF.oneRevOff = q.length - p)
    (hH : oH.unrevOff = 0 ∧ oH.oneRevOff = q.length - p ∧ oH.depth5 = q.length - p ∧
      oH.depth3 = q.length)
    (nM : NoneAdmitted os q false (fun ds => oM.admits ds))
    (nF : NoneAdmitted os q true (fun ds => oF.admits ds))
    (nH : NoneAdmitted os q true (fun ds => oH.admits ds && oH.bothHalves ds)) :
    occurrences os q 2 = [] := by
  unfold occurrences
  rw [List.filter_eq_nil_iff]
  intro pl hpl hle
  simp only [decide_eq_true_eq] at hle
  have hcov := strand_coverage q.length p hp _
    (fun i hi => mismatchPositions_lt (os.getD pl.1 []) q pl.2 i hi) hle oM oF oH hM hF hH
  have m1 := nM pl hpl
  have m2 := nF pl hpl
  have m3 := nH pl hpl
  dsimp only at m1 m2 m3
  rcases hcov with h | h | ⟨h1, h2⟩
  · rw [h] at m1; exact Bool.noConfusion m1
  · rw [h] at m2; exact Bool.noConfusion m2
  · rw [h1, h2] at m3; exact Bool.noConfusion m3
theorem hitSince_backtrack (orc : Oracle) (b : Backtracker) (m : Option PartialAlignment)
    (qf : Bool) (q ql : List Nat) (pam : Pam) (st : St) :
    hitSince st (st.backtrack orc b m qf q ql pam) = true ↔
      (orc (st.call (SearchKind.backtrack b m) b.ebwtFw qf q ql)).hits ≠ [] := by
  rw [hitSince_iff, St.backtrack_eq, St.search_numHits]
  constructor
  · intro h hnil
    rw [hnil] at h
    simp at h
  · intro h
    have := List.length_pos.mpr h
    omega

theorem hitSince_search (orc : Oracle) (c : SearchCall) (p : Bool) (pam : Pam) (st : St) :
    hitSince st (st.search orc c p pam) = true ↔ (orc c).hits ≠ [] := by
  rw [hitSince_iff, St.search_numHits]
  constructor
  · intro h hnil
    rw [hnil] at h
    simp at h
  · intro h
    have := List.length_pos.mpr h
    omega
theorem twoOrThreePhase1Body_exited (cfg : Config) (orc : Oracle) (st : St) (r : Read)
    (hlen : 4 ≤ r.patFw.length) :
    (twoOrThreePhase1Body cfg true orc st r).exited = st.exited := by
  have hl3 : ¬ (r.patFw.length < 3 ∧ true = true) := by omega
  have hl4 : ¬ r.patFw.length < 4 := by omega
  unfold twoOrThreePhase1Body
  dsimp only
  rw [if_neg hl3, if_neg hl4]
  split_ifs <;> simp

theorem twoOrThreePhase1Body_lastLen (cfg : Config) (two : Bool) (orc : Oracle) (st : St)
    (r : Read) : (twoOrThreePhase1Body cfg two orc st r).lastLen = st.lastLen := by
  unfold twoOrThreePhase1Body
  dsimp only
  split_ifs <;> simp

theorem twoOrThreePhase2Body_exited (two : Bool) (orc : Oracle) (st : St) (r : Read) :
    (twoOrThreePhase2Body two orc st r).exited = st.exited := by
  unfold twoOrThreePhase2Body
  dsimp only
  split_ifs <;> simp

theorem twoOrThreePhase2Body_lastLen (two : Bool) (orc : Oracle) (st : St) (r : Read) :
    (twoOrThreePhase2Body two orc st r).lastLen = st.lastLen := by
  unfold twoOrThreePhase2Body
  dsimp only
  split_ifs <;> simp

@[simp] theorem twoOrThreePhase1Init_exited (cfg : Config) (st : St) :
    (twoOrThreePhase1Init cfg st).exited = st.exited := rfl

@[simp] theorem twoOrThreePhase2Init_exited (cfg : Config) (st : St) :
    (twoOrThreePhase2Init cfg st).exited = st.exited := rfl

@[simp] theorem twoOrThreePhase3Init_exited (cfg : Config) (st : St) :
    (twoOrThreePhase3Init cfg st).exited = st.exited := rfl

@[simp] theorem twoOrThreePhase2Init_lastLen (cfg : Config) (st : St) :
    (twoOrThreePhase2Init cfg st).lastLen = st.lastLen := rfl

@[simp] theorem twoOrThreePhase3Init_lastLen (cfg : Config) (st : St) :
    (twoOrThreePhase3Init cfg st).lastLen = st.lastLen := rfl

@[simp] theorem twoOrThreePhase2Init_sink (cfg : Config) (st : St) :
    (twoOrThreePhase2Init cfg st).sink = st.sink := rfl

@[simp] theorem twoOrThreePhase3Init_sink (cfg : Config) (st : St) :
    (twoOrThreePhase3Init cfg st).sink = st.sink := rfl

@[simp] theorem twoOrThreePhase2Init_doneMask (cfg : Config) (st : St) :
    (twoOrThreePhase2Init cfg st).doneMask = st.doneMask := rfl

@[simp] theorem twoOrThreePhase3Init_doneMask (cfg : Config) (st : St) :
    (twoOrThreePhase3Init cfg st).doneMask = st.doneMask := rfl

@[simp] theorem twoOrThreePhase1Init_reverse (cfg : Config) :
    (twoOrThreePhase1Init cfg initSt).reverse = false := rfl

@[simp] theorem twoOrThreePhase2Init_reverse (cfg : Config) (st : St) :
    (twoOrThreePhase2Init cfg st).reverse = true := rfl

@[simp] theorem twoOrThreePhase3Init_reverse (cfg : Config) (st : St) :
    (twoOrThreePhase3Init cfg st).reverse = false := rfl
@[simp] theorem twoOrThreePhase1Init_fw (cfg : Config) (st : St) :
    (twoOrThreePhase1Init cfg st).fw = true := rfl

@[simp] theorem twoOrThreePhase2Init_fw (cfg : Config) (st : St) :
    (twoOrThreePhase2Init cfg st).fw = true := rfl

@[simp] theorem twoOrThreePhase3Init_fw (cfg : Config) (st : St) :
    (twoOrThreePhase3Init cfg st).fw = true := rfl

@[simp] theorem twoOrThreePhase1Init_btr (cfg : Config) (st : St) :
    (twoOrThreePhase1Init cfg st).btr = ttBacktracker cfg true cfg.seed false := rfl

@[simp] theorem twoOrThreePhase2Init_bt (cfg : Config) (st : St) :
    (twoOrThreePhase2Init cfg st).bt = ttBacktracker cfg false (cfg.seed + 1) false := rfl

@[simp] theorem twoOrThreePhase3Init_bt (cfg : Config) (st : St) :
    (twoOrThreePhase3Init cfg st).bt = ttBacktracker cfg true (cfg.seed + 3) false := rfl

@[simp] theorem twoOrThreePhase3Init_hh (cfg : Config) (st : St) :
    (twoOrThreePhase3Init cfg st).hh = ttBacktracker cfg true (cfg.seed + 5) true := rfl

@[simp] theorem twoOrThreePhase1Init_hits (cfg : Config) (st : St) :
    (twoOrThreePhase1Init cfg st).sink.hits = st.sink.hits := rfl

@[simp] theorem twoOrThreePhase1Init_doneMask (cfg : Config) (st : St) :
    (twoOrThreePhase1Init cfg st).doneMask = List.replicate (numQs cfg.qUpto) false := rfl

theorem testDone_replicate (n j : Nat) : testDone (List.replicate n false) j = false := by
  unfold testDone
  rw [List.getD_eq_getElem?_getD, List.getElem?_replicate]
  split_ifs <;> rfl
/-! ## Exact search: when the reverse complement is searched -/

/-- The loop invariant `lastHits == sink.numHits()` is kept by the body of
`exactSearchWorker`. -/
theorem exactSearchBody_sync (cfg : Config) (orc : Oracle) (st : St) (r : Read)
    (hsync : st.lastHits = st.sink.numHits) :
    (exactSearchBody cfg orc st r).lastHits = (exactSearchBody cfg orc st r).sink.numHits := by
  unfold exactSearchBody
  dsimp only
  split_ifs <;> simp_all

theorem exactSearch_sync (cfg : Config) (orc : Oracle) (reads : List Read) (st : St) :
    (exactSearch cfg orc reads st).lastHits = (exactSearch cfg orc reads st).sink.numHits := by
  unfold exactSearch
  exact readLoop_sync cfg _ (exactSearchBody_sync cfg orc) reads _ (by simp [exactSearchInit])

/-- C12: in exact mode (with the worker's invariant `lastHits == sink.numHits()`
at the top of the loop, which holds after any number of reads), the body
searches the forward read and then searches the reverse complement exactly when
`revcomp` is set and it is not the case that `oneHit` is set and the forward
search reported a hit; with `revcomp` off the forward search is the only
search. -/
theorem exact_rc_searched (cfg : Config) (orc : Oracle) (st : St) (r : Read)
    (hsync : st.lastHits = st.sink.numHits) :
    newCalls st (exactSearchBody cfg orc st r) =
        exactFwCall cfg st r ::
          (if cfg.revcomp = true ∧
              ¬ (cfg.oneHit = true ∧ (orc (exactFwCall cfg st r)).hits ≠ []) then
            [exactRcCall cfg st r]
          else []) ∧
      (cfg.revcomp = false → newCalls st (exactSearchBody cfg orc st r) = [exactFwCall cfg st r]) ∧
      (exactSearchBody cfg orc st r).lastHits = (exactSearchBody cfg orc st r).sink.numHits ∧
      ∀ (pre : List Read) (st0 : St),
        (exactSearch cfg orc pre st0).lastHits = (exactSearch cfg orc pre st0).sink.numHits := by
  have key : newCalls st (exactSearchBody cfg orc st r) =
      exactFwCall cfg st r ::
        (if cfg.revcomp = true ∧
            ¬ (cfg.oneHit = true ∧ (orc (exactFwCall cfg st r)).hits ≠ []) then
          [exactRcCall cfg st r]
        else []) := by
    unfold exactSearchBody exactFwCall exactRcCall newCalls
    by_cases hH : (orc (st.call (SearchKind.exact cfg.oneHit) true true r.patFw r.qualFw)).hits = []
    · simp only [hH, St.numHits_eq, St.search_numHits, St.search_lastHits, hsync, List.length_nil,
        Nat.add_zero, gt_iff_lt, Nat.lt_irrefl, decide_False, Bool.false_eq_true, if_false,
        false_and, ne_eq, not_true_eq_false, and_false, not_false_eq_true, and_true]
      by_cases hr : cfg.revcomp = true
      · simp [hr, St.call]
      · simp [hr]
    · have hpos := List.length_pos.mpr hH
      simp only [hH, St.numHits_eq, St.search_numHits, St.search_lastHits, hsync, gt_iff_lt,
        Nat.lt_add_right_iff_pos, hpos, decide_True, if_true, true_and, ne_eq, not_false_eq_true,
        and_true]
      by_cases ho : cfg.oneHit = true
      · simp [ho]
      · by_cases hr : cfg.revcomp = true
        · simp [hr, ho, St.call]
        · simp [hr, ho]
  refine ⟨key, ?_, exactSearchBody_sync cfg orc st r hsync, exactSearch_sync cfg orc⟩
  intro hr
  rw [key]
  simp [hr]

/-- Witness for C12: in `oneHit` mode a forward hit ends the read's iteration,
in all-hits mode the reverse complement is searched as well. -/
theorem exact_rc_searched_witness :
    (exactSearchInit initSt).lastHits = (exactSearchInit initSt).sink.numHits ∧
      newCalls (exactSearchInit initSt) (exactSearchBody oneHitCfg hitOracle (exactSearchInit initSt)
          (mkRead 0 [0, 1, 2, 3] [0, 1, 2, 3])) =
        [exactFwCall oneHitCfg (exactSearchInit initSt) (mkRead 0 [0, 1, 2, 3] [0, 1, 2, 3])] ∧
      newCalls (exactSearchInit initSt) (exactSearchBody allHitsCfg hitOracle (exactSearchInit initSt)
          (mkRead 0 [0, 1, 2, 3] [0, 1, 2, 3])) =
        [exactFwCall allHitsCfg (exactSearchInit initSt) (mkRead 0 [0, 1, 2, 3] [0, 1, 2, 3]),
          exactRcCall allHitsCfg (exactSearchInit initSt) (mkRead 0 [0, 1, 2, 3] [0, 1, 2, 3])] :=
  ⟨rfl,
    (exact_rc_searched oneHitCfg hitOracle (exactSearchInit initSt)
      (mkRead 0 [0, 1, 2, 3] [0, 1, 2, 3]) rfl).1,
    (exact_rc_searched allHitsCfg hitOracle (exactSearchInit initSt)
      (mkRead 0 [0, 1, 2, 3] [0, 1, 2, 3]) rfl).1⟩
/-! ## 1-mismatch phase 1: the done bit -/

theorem testDone_syncSet (m : List Bool) (p : Nat) : testDone (syncSet m p) p = true := by
  unfold testDone syncSet
  split_ifs with h
  · simp [List.getD_eq_getElem?_getD, List.getElem?_set, h]
  · have h2 : p < (m ++ List.replicate (max (m.length * 2) (p + 1) - m.length) false).length := by
      simp only [List.length_append, List.length_replicate]
      omega
    have h3 : p < m.length + (max (m.length * 2) (p + 1) - m.length) := by omega
    simp [List.getD_eq_getElem?_getD, List.getElem?_set, h3]

/-- C11 fails as stated: in all-hits mode, a read whose reverse complement and
forward strand both hit (read 0, every search reporting one exact hit) gets both
hits reported in phase 1 of the 1-mismatch search, and its done bit is still
clear at the end of the phase. -/
theorem allhits_done_counterexample :
    (mismatchSearchPhase1 allHitsCfg hitOracle [mkRead 0 [0, 1, 2, 3] [0, 1, 2, 3]]
        initSt).sink.hits = [⟨0, 0, 0, false, []⟩, ⟨0, 0, 0, true, []⟩] ∧
      testDone (mismatchSearchPhase1 allHitsCfg hitOracle [mkRead 0 [0, 1, 2, 3] [0, 1, 2, 3]]
        initSt).doneMask 0 = false := by
  constructor
  · set_option maxRecDepth 100000 in decide
  · set_option maxRecDepth 100000 in decide

/-- C11 as amended: in 1-mismatch phase 1 (with the loop invariant
`lastHits == sink.numHits()` and a read of at least 2 bases), in `oneHit` mode
every read for which a hit is reported during its iteration has its done bit set
at the end of the iteration; in all-hits mode the iteration leaves the bitmap as
it was, whether or not a hit is reported. -/
theorem hit_marks_done (cfg : Config) (orc : Oracle) (st : St) (r : Read)
    (hsync : st.lastHits = st.sink.numHits) (hlen : 2 ≤ r.patFw.length) :
    (cfg.oneHit = true → hitSince st (mismatchSearchPhase1Body cfg orc st r) = true →
        testDone (mismatchSearchPhase1Body cfg orc st r).doneMask r.patid = true) ∧
      (cfg.oneHit = false → (mismatchSearchPhase1Body cfg orc st r).doneMask = st.doneMask) := by
  have hlen' : ¬ r.patFw.length < 2 := by omega
  constructor
  · intro ho
    unfold mismatchSearchPhase1Body mismatchSearchPhase1Exact mismatchSearchPhase1Inexact hitSince
    simp only [hlen', if_false, ho, true_and, if_true]
    split_ifs <;> simp_all [testDone_syncSet]
  · intro ho
    unfold mismatchSearchPhase1Body mismatchSearchPhase1Exact mismatchSearchPhase1Inexact
    simp only [hlen', if_false, ho, Bool.false_eq_true, false_and, if_false]
    split_ifs <;> simp

/-- Witness for the amended C11: in `oneHit` mode the reverse-complement hit of
read 0 sets its done bit. -/
theorem hit_marks_done_witness :
    ((mismatchSearchPhase1Init oneHitCfg initSt).lastHits =
        (mismatchSearchPhase1Init oneHitCfg initSt).sink.numHits ∧
      2 ≤ (mkRead 0 [0, 1, 2, 3] [0, 1, 2, 3]).patFw.length) ∧
      testDone (mismatchSearchPhase1Body oneHitCfg hitOracle
        (mismatchSearchPhase1Init oneHitCfg initSt)
        (mkRead 0 [0, 1, 2, 3] [0, 1, 2, 3])).doneMask 0 = true :=
  ⟨⟨rfl, by decide⟩,
    (hit_marks_done oneHitCfg hitOracle (mismatchSearchPhase1Init oneHitCfg initSt)
      (mkRead 0 [0, 1, 2, 3] [0, 1, 2, 3]) rfl (by decide)).1 rfl (by decide)⟩
/-! ## 2/3-mismatch search: the read-length check -/

/-- The length check of the phase-1 body: in either mode the process exits
exactly when the read has fewer than 4 bases (or had exited before). -/
theorem twoOrThreePhase1Body_exits (cfg : Config) (two : Bool) (orc : Oracle) (st : St)
    (r : Read) :
    (twoOrThreePhase1Body cfg two orc st r).exited = (st.exited || decide (r.patFw.length < 4)) := by
  unfold twoOrThreePhase1Body
  dsimp only
  split_ifs with h1 h2 h3 h4
  · have : r.patFw.length < 4 := by omega
    simp [this]
  · simp [h2]
  · simp [h2]
  · simp [h2]
  · simp [h2]

/-- C14 at the failing input: in 2-mismatch mode (`two = true`) the read `ACG`
of length 3 makes the search exit before any index search, although it is not
shorter than the 3 bases named by the message of the 2-mismatch branch. -/
theorem two_mismatch_rejects_length3 :
    (twoOrThreeMismatchSearch oneHitCfg true hitOracle [mkRead 0 [0, 1, 2] [1, 2, 3]]
        initSt).exited = true ∧
      (twoOrThreeMismatchSearch oneHitCfg true hitOracle [mkRead 0 [0, 1, 2] [1, 2, 3]]
        initSt).trace = [] ∧
      (twoOrThreeMismatchSearch oneHitCfg false hitOracle [mkRead 0 [0, 1, 2] [1, 2, 3]]
        initSt).exited = true := by
  refine ⟨?_, ?_, ?_⟩
  · set_option maxRecDepth 100000 in decide
  · set_option maxRecDepth 100000 in decide
  · set_option maxRecDepth 100000 in decide
/-! ## The initial capacity of the completion bitmap -/

/-- C15 fails as stated: with the bound `-u 20000000` the bitmap of the
2/3-mismatch search starts with 20000000 bits, not with
`min(20000000, 16777216) = 16777216`. -/
theorem numQs_cap_counterexample :
    (twoOrThreePhase1Init ⟨true, true, 20000000, false, true, 999999, 0, false⟩
        initSt).doneMask.length = 20000000 ∧
      numQs 20000000 ≠ min 20000000 16777216 := by
  constructor
  · rw [twoOrThreePhase1Init_doneMask, List.length_replicate]
    rfl
  · decide

/-- C15 as amended: in the 1-mismatch, 2/3-mismatch and seeded searches the
completion bitmap starts with `numQs` bits, where `numQs` is the read bound
`qUpto` itself whenever a bound other than `0xffffffff` was supplied (however
large), and `16 * 1024 * 1024` when none was (`qUpto = 0xffffffff`); so it
equals `min(qUpto, 16777216)` exactly for bounds up to 16777216 and for the
default. -/
theorem numQs_capacity (cfg : Config) (seedLen qualCutoff seedMms : Int) (st : St) :
    (mismatchSearchPhase1Init cfg st).doneMask.length = numQs cfg.qUpto ∧
      (twoOrThreePhase1Init cfg st).doneMask.length = numQs cfg.qUpto ∧
      (seededPhase1Init cfg seedLen qualCutoff seedMms st).doneMask.length = numQs cfg.qUpto ∧
      (cfg.qUpto ≠ 0xffffffff → numQs cfg.qUpto = cfg.qUpto) ∧
      (cfg.qUpto = 0xffffffff → numQs cfg.qUpto = 16777216) ∧
      (numQs cfg.qUpto = min cfg.qUpto 16777216 ↔
        cfg.qUpto ≤ 16777216 ∨ cfg.qUpto = 0xffffffff) := by
  refine ⟨?_, ?_, ?_, ?_, ?_, ?_⟩
  · simp [mismatchSearchPhase1Init, St.allocDone]
  · rw [twoOrThreePhase1Init_doneMask, List.length_replicate]
  · simp [seededPhase1Init, St.allocDone]
  · intro h
    simp [numQs, h]
  · intro h
    simp [numQs, h]
  · unfold numQs
    split_ifs with h
    · simp [h]
    · constructor
      · intro h1
        left
        omega
      · intro h1
        rcases h1 with h1 | h1
        · omega
        · exact absurd h1 h
/-! ## Which index is resident when `driver` calls a search variant -/

@[simp] theorem St.loadFw_fwInMemory (st : St) : st.loadFw.fwInMemory = true := rfl

@[simp] theorem St.loadFw_bwInMemory (st : St) : st.loadFw.bwInMemory = st.bwInMemory := rfl

@[simp] theorem St.evictFw_fwInMemory (st : St) : st.evictFw.fwInMemory = false := rfl

@[simp] theorem St.evictFw_bwInMemory (st : St) : st.evictFw.bwInMemory = st.bwInMemory := rfl

@[simp] theorem St.switchToFwIndex_fwInMemory (st : St) : st.switchToFwIndex.fwInMemory = true :=
  rfl

@[simp] theorem St.switchToFwIndex_bwInMemory (st : St) :
    st.switchToFwIndex.bwInMemory = false := rfl

@[simp] theorem St.switchToBwIndex_fwInMemory (st : St) :
    st.switchToBwIndex.fwInMemory = false := rfl

@[simp] theorem St.switchToBwIndex_bwInMemory (st : St) : st.switchToBwIndex.bwInMemory = true :=
  rfl

/-- What `driverLoad` leaves resident: the forward index exactly when the mode
is not Maq-like; the mirror index is not touched. -/
theorem driverLoad_resident (o : Options) (haveOs : Bool) (st : St) :
    (driverLoad o haveOs st).fwInMemory = (if o.maqLike then
        (if o.sanityCheck ∧ haveOs then false else st.fwInMemory) else true) ∧
      (driverLoad o haveOs st).bwInMemory = st.bwInMemory := by
  unfold driverLoad
  dsimp only
  split_ifs <;> simp_all

/-- C18 fails as stated: with the default options (Maq-like mode, which runs the
seeded search) the forward index is not resident when `driver` calls
`seededQualCutoffSearch`, with sanity checking as without. -/
theorem seeded_entry_counterexample :
    (parseOptions []).map (fun o => (o.maqLike, (driverEntry o false).fwInMemory)) =
        some (true, false) ∧
      (parseOptions [Opt.sanity, Opt.orig false]).map
        (fun o => (o.maqLike, (driverEntry o true).fwInMemory)) = some (true, false) := by
  constructor <;> decide

/-- C18 as amended: at the point where `driver` calls `exactSearch`,
`mismatchSearch` or `twoOrThreeMismatchSearch` (the mode is not Maq-like) the
forward index is resident and the mirror index is not; at the point where it
calls `seededQualCutoffSearch` (Maq-like mode) neither index is resident, and
the forward index becomes resident at the entry of phase 1 of that search; all
of this with and without sanity checking. -/
theorem driver_entry_resident (o : Options) (haveOs : Bool) (cfg : Config)
    (seedLen qualCutoff seedMms : Int) :
    (o.maqLike = false → Resident true (driverEntry o haveOs)) ∧
      (o.maqLike = true → (driverEntry o haveOs).fwInMemory = false ∧
        (driverEntry o haveOs).bwInMemory = false) ∧
      Resident true (seededPhase1Init cfg seedLen qualCutoff seedMms (driverEntry o haveOs)) := by
  obtain ⟨h1, h2⟩ := driverLoad_resident o haveOs initSt
  unfold driverEntry Resident
  refine ⟨?_, ?_, ?_⟩
  · intro h
    rw [h1, h2]
    simp [h, initSt]
  · intro h
    rw [h1, h2]
    simp [h, initSt]
  · simp [seededPhase1Init]
/-! ## Option parsing: bounds -/

/-- C19 at the failing input: `-n 4` is accepted and leaves `seedMms = 4`, above
the documented range 0-3 and the `assert_leq(seedMms, 3)` of
`seededQualCutoffSearch`, while the sibling option `-v 4` is refused. -/
theorem seedmms_above_three_accepted :
    (parseOptions [Opt.seedmms 4]).map (fun o => (o.maqLike, o.seedMms)) = some (true, 4) ∧
      parseOptions [Opt.v 4] = none := by
  constructor <;> decide

/-- C20 at the failing input: for the argument `2147483648` and `lower = 0`,
`strtol` yields 2147483648, which passes the test `l < lower`, and the value
returned is `(int32_t)l = -2147483648`, below `lower`; so `--seed 2147483648` is
accepted with a negative seed. -/
theorem parseInt_below_lower :
    parseInt 0 2147483648 = some (-2147483648) ∧
      (parseOptions [Opt.seed 2147483648]).map Options.seed = some (-2147483648) := by
  constructor <;> decide
/-! ## Growth of the completion bitmap -/

theorem length_setDone (m : List Bool) (i : Nat) : (setDone m i).length = m.length := by
  simp [setDone]

theorem length_expandDone_ge (m : List Bool) (i : Nat) : m.length ≤ (expandDone m i).length := by
  unfold expandDone
  split_ifs
  · rw [length_growDone]; omega
  · exact Nat.le_refl _

theorem lt_length_expandDone (m : List Bool) (i : Nat) (h1 : 1 ≤ m.length) (hi : i ≤ m.length) :
    i < (expandDone m i).length := by
  unfold expandDone
  split_ifs with h
  · rw [length_growDone]; omega
  · omega

theorem expandDone_of_lt (m : List Bool) (i : Nat) (h : i < m.length) : expandDone m i = m := by
  unfold expandDone
  rw [if_neg (by omega)]

theorem readLoop_of_exited (cfg : Config) (body : St → Read → St) (reads : List Read) (st : St)
    (h : st.exited = true) : readLoop cfg body reads st = st := by
  cases reads with
  | nil => rfl
  | cons r rs =>
    unfold readLoop
    rw [if_pos h]

/-- The phase-1 body of the 2/3-mismatch search leaves the bitmap with the size
the growth step gave it. -/
theorem twoOrThreePhase1Body_length (cfg : Config) (two : Bool) (orc : Oracle) (st : St)
    (r : Read) :
    (twoOrThreePhase1Body cfg two orc st r).doneMask.length =
      (expandDone st.doneMask r.patid).length := by
  unfold twoOrThreePhase1Body
  dsimp only
  split_ifs <;> simp [length_setDone]

/-- The phase-1 body of the seeded search leaves the bitmap with the size the
growth step gave it. -/
theorem seededPhase1Body_length (cfg : Config) (seedLen seedMms : Int) (orc : Oracle) (st : St)
    (r : Read) :
    (seededPhase1Body cfg seedLen seedMms orc st r).doneMask.length =
      (expandDone st.doneMask r.patid).length := by
  unfold seededPhase1Body
  dsimp only
  split_ifs <;> simp [length_setDone]

/-- A read loop whose body leaves the bitmap at the size of its growth step, run
over reads with the ids `k, k+1, ...` all below the read bound, from a bitmap of
at least `k` (and at least one) bits: unless the process exits, the bitmap ends
with at least as many bits as reads were fetched. -/
theorem readLoop_size (cfg : Config) (body : St → Read → St)
    (hbody : ∀ st r, (body st r).doneMask.length = (expandDone st.doneMask r.patid).length)
    (reads : List Read) :
    ∀ (k : Nat) (st : St), reads.map Read.patid = List.range' k reads.length →
      (∀ r ∈ reads, r.patid < cfg.qUpto) → 1 ≤ st.doneMask.length → k ≤ st.doneMask.length →
      (readLoop cfg body reads st).exited = false →
      k + reads.length ≤ (readLoop cfg body reads st).doneMask.length ∧
        1 ≤ (readLoop cfg body reads st).doneMask.length := by
  induction reads with
  | nil =>
    intro k st _ _ h1 hk _
    exact ⟨by simpa [readLoop] using hk, by simpa [readLoop] using h1⟩
  | cons r rs ih =>
    intro k st hids hq h1 hk hfin
    simp only [List.map_cons, List.length_cons, List.range'_succ, List.cons.injEq] at hids
    obtain ⟨hr, hrs⟩ := hids
    have hqr : r.patid < cfg.qUpto := hq r (List.mem_cons_self _ _)
    unfold readLoop at hfin ⊢
    dsimp only at hfin ⊢
    split_ifs at hfin ⊢ with h2 h3 h4
    · simp [h2] at hfin
    · omega
    · simp at hfin
    · have hlen := hbody (st.getRead (presentRead st.reverse r)) (presentRead st.reverse r)
      simp only [St.getRead_doneMask, presentRead_patid] at hlen
      have hgt := lt_length_expandDone st.doneMask r.patid h1 (by omega)
      have := ih (k + 1) _ hrs (fun x hx => hq x (List.mem_cons_of_mem _ hx))
        (by rw [hlen]; omega) (by rw [hlen]; omega) hfin
      refine ⟨by simp only [List.length_cons]; omega, this.2⟩

/-- A read loop whose body never shrinks the bitmap never shrinks it. -/
theorem readLoop_length_le (cfg : Config) (body : St → Read → St)
    (hbody : ∀ st r, st.doneMask.length ≤ (body st r).doneMask.length) (reads : List Read) :
    ∀ st, st.doneMask.length ≤ (readLoop cfg body reads st).doneMask.length := by
  induction reads with
  | nil => intro st; exact Nat.le_refl _
  | cons r rs ih =>
    intro st
    unfold readLoop
    dsimp only
    split_ifs
    · exact Nat.le_refl _
    · exact Nat.le_refl _
    · exact Nat.le_refl _
    · exact Nat.le_trans (hbody (st.getRead (presentRead st.reverse r)) _) (ih _)

theorem denseIds_append (pre : List Read) (r : Read) (h : DenseIds (pre ++ [r])) :
    pre.map Read.patid = List.range' 0 pre.length ∧ r.patid = pre.length ∧
      ∀ x ∈ pre, x.patid < r.patid := by
  unfold DenseIds at h
  simp only [List.map_append, List.map_cons, List.map_nil, List.length_append, List.length_cons,
    List.length_nil, Nat.zero_add, List.range_succ] at h
  have h1 := List.append_inj h (by simp)
  have hr : r.patid = pre.length := by simpa using h1.2
  have hp : pre.map Read.patid = List.range pre.length := h1.1
  refine ⟨by rw [hp, List.range_eq_range'], hr, ?_⟩
  intro x hx
  have : x.patid ∈ pre.map Read.patid := List.mem_map_of_mem _ hx
  rw [hp, List.mem_range] at this
  omega

/-- The bitmap after any number of phase-1 reads from the entry of a phase-1
loop that allocated `n` bits, for a body that leaves the bitmap at the size of
its growth step. -/
theorem phase1_growth (cfg : Config) (body : St → Read → St)
    (hbody : ∀ st r, (body st r).doneMask.length = (expandDone st.doneMask r.patid).length)
    (st : St) (pre : List Read) (r : Read) (hq : r.patid < cfg.qUpto) :
    (DenseIds (pre ++ [r]) → 1 ≤ st.doneMask.length →
      (readLoop cfg body pre st).exited = false →
      r.patid < (expandDone (readLoop cfg body pre st).doneMask r.patid).length) ∧
    (cfg.qUpto ≤ st.doneMask.length →
      expandDone (readLoop cfg body pre st).doneMask r.patid =
        (readLoop cfg body pre st).doneMask) := by
  constructor
  · intro hd h1 hfin
    obtain ⟨hp, hr, hlt⟩ := denseIds_append pre r hd
    have := readLoop_size cfg body hbody pre 0 st hp (fun x hx => by have := hlt x hx; omega) h1
      (Nat.zero_le _) hfin
    exact lt_length_expandDone _ _ this.2 (by omega)
  · intro hn
    have := readLoop_length_le cfg body
      (fun s x => by rw [hbody]; exact length_expandDone_ge _ _) pre st
    exact expandDone_of_lt _ _ (by omega)

/-- C16: in phase 1 of the 2/3-mismatch and seeded searches, for a read that
gets past the fetch (`patid < qUpto`) after the reads `pre`: when the read ids
are dense from 0 in increasing order and the initial size `numQs` is at least 1,
then (unless the process has exited) the read's id is below the size of the
bitmap after the growth step, which doubles the size once when `patid >= size`;
and when a read bound was supplied (`qUpto != 0xffffffff`), the growth step
leaves the bitmap as it is, for any reads. -/
theorem growth_keeps_patid_in_range (cfg : Config) (two : Bool)
    (seedLen qualCutoff seedMms : Int) (orc : Oracle) (st0 : St) (pre : List Read) (r : Read)
    (hq : r.patid < cfg.qUpto) :
    (DenseIds (pre ++ [r]) → 1 ≤ numQs cfg.qUpto →
      ((readLoop cfg (twoOrThreePhase1Body cfg two orc) pre
          (twoOrThreePhase1Init cfg st0)).exited = false →
        r.patid < (expandDone (readLoop cfg (twoOrThreePhase1Body cfg two orc) pre
          (twoOrThreePhase1Init cfg st0)).doneMask r.patid).length) ∧
      ((readLoop cfg (seededPhase1Body cfg seedLen seedMms orc) pre
          (seededPhase1Init cfg seedLen qualCutoff seedMms st0)).exited = false →
        r.patid < (expandDone (readLoop cfg (seededPhase1Body cfg seedLen seedMms orc) pre
          (seededPhase1Init cfg seedLen qualCutoff seedMms st0)).doneMask r.patid).length)) ∧
    (∀ m : List Bool, r.patid ≥ m.length → (expandDone m r.patid).length = m.length * 2) ∧
    (cfg.qUpto ≠ 0xffffffff →
      expandDone (readLoop cfg (twoOrThreePhase1Body cfg two orc) pre
          (twoOrThreePhase1Init cfg st0)).doneMask r.patid =
        (readLoop cfg (twoOrThreePhase1Body cfg two orc) pre
          (twoOrThreePhase1Init cfg st0)).doneMask ∧
      expandDone (readLoop cfg (seededPhase1Body cfg seedLen seedMms orc) pre
          (seededPhase1Init cfg seedLen qualCutoff seedMms st0)).doneMask r.patid =
        (readLoop cfg (seededPhase1Body cfg seedLen seedMms orc) pre
          (seededPhase1Init cfg seedLen qualCutoff seedMms st0)).doneMask) := by
  have hA := phase1_growth cfg _ (twoOrThreePhase1Body_length cfg two orc)
    (twoOrThreePhase1Init cfg st0) pre r hq
  have hB := phase1_growth cfg _ (seededPhase1Body_length cfg seedLen seedMms orc)
    (seededPhase1Init cfg seedLen qualCutoff seedMms st0) pre r hq
  have hlA : (twoOrThreePhase1Init cfg st0).doneMask.length = numQs cfg.qUpto := by
    rw [twoOrThreePhase1Init_doneMask, List.length_replicate]
  have hlB : (seededPhase1Init cfg seedLen qualCutoff seedMms st0).doneMask.length =
      numQs cfg.qUpto := by
    simp [seededPhase1Init, St.allocDone]
  refine ⟨?_, ?_, ?_⟩
  · intro hd h1
    exact ⟨hA.1 hd (by rw [hlA]; exact h1), hB.1 hd (by rw [hlB]; exact h1)⟩
  · intro m hm
    unfold expandDone
    rw [if_pos hm, length_growDone]
  · intro hb
    have hn : numQs cfg.qUpto = cfg.qUpto := by simp [numQs, hb]
    exact ⟨hA.2 (by rw [hlA, hn]), hB.2 (by rw [hlB, hn])⟩

theorem firstReads_patid (n : Nat) : (firstReads n).map Read.patid = List.range n := by
  unfold firstReads
  rw [List.map_map]
  exact List.map_id _

theorem length_firstReads (n : Nat) : (firstReads n).length = n := by
  unfold firstReads
  rw [List.length_map, List.length_range]

theorem firstReads_dense (n : Nat) (fw rc : List Nat) :
    DenseIds (firstReads n ++ [mkRead n fw rc]) := by
  unfold DenseIds
  rw [List.map_append, firstReads_patid, List.length_append, length_firstReads]
  exact (List.range_succ n).symm

theorem mem_firstReads (n : Nat) (r : Read) (h : r ∈ firstReads n) :
    r.patid < n ∧ r.patFw.length = 4 := by
  unfold firstReads at h
  rw [List.mem_map] at h
  obtain ⟨i, hi, rfl⟩ := h
  exact ⟨List.mem_range.mp hi, rfl⟩

/-- A read loop without the same-length check, over reads of at least 4 bases,
with a body that exits only on a shorter read, does not exit. -/
theorem readLoop_live (cfg : Config) (body : St → Read → St)
    (hbody : ∀ st r, (body st r).exited = (st.exited || decide (r.patFw.length < 4)))
    (hq : cfg.qSameLen = false) (reads : List Read) (hlen : ∀ r ∈ reads, 4 ≤ r.patFw.length) :
    ∀ st, st.exited = false → (readLoop cfg body reads st).exited = false := by
  induction reads with
  | nil => intro st h; exact h
  | cons r rs ih =>
    intro st h
    unfold readLoop
    dsimp only
    rw [if_neg (by simp [h])]
    split_ifs with h1 h2
    · exact h
    · exact absurd h2.1 (by simp [hq])
    · apply ih (fun x hx => hlen x (List.mem_cons_of_mem _ hx))
      rw [hbody, St.getRead_exited, h, presentRead_length]
      have := hlen r (List.mem_cons_self _ _)
      simp only [Bool.false_or, decide_eq_false_iff_not]
      omega

/-- A read loop whose body leaves the bitmap at the size of its growth step,
over reads whose ids are all inside the bitmap, leaves the size as it is. -/
theorem readLoop_length_of_lt (cfg : Config) (body : St → Read → St)
    (hbody : ∀ st r, (body st r).doneMask.length = (expandDone st.doneMask r.patid).length)
    (reads : List Read) :
    ∀ st, (∀ r ∈ reads, r.patid < st.doneMask.length) →
      (readLoop cfg body reads st).doneMask.length = st.doneMask.length := by
  induction reads with
  | nil => intro st _; rfl
  | cons r rs ih =>
    intro st h
    unfold readLoop
    dsimp only
    split_ifs
    · rfl
    · rfl
    · rfl
    · have hr := h r (List.mem_cons_self _ _)
      have e : (body (st.getRead (presentRead st.reverse r)) (presentRead st.reverse r)
          ).doneMask.length = st.doneMask.length := by
        rw [hbody, St.getRead_doneMask, presentRead_patid, expandDone_of_lt _ _ hr]
      rw [ih _ (fun x hx => by rw [e]; exact h x (List.mem_cons_of_mem _ hx)), e]

/-- Witness for C16: without a read bound the bitmap starts with `16 * 1024 *
1024 = 16777216` bits.  After the reads `0, ..., 16777215` of phase 1 of the
2-mismatch search it still has 16777216 bits, so the read with the id 16777216
reaches the growth step with `patid >= size`; the one doubling leaves
33554432 bits, and the id is below the size. -/
theorem growth_keeps_patid_in_range_witness :
    (mkRead 16777216 [0, 1, 2, 3] [0, 1, 2, 3]).patid < unboundedCfg.qUpto ∧
      (DenseIds (firstReads 16777216 ++ [mkRead 16777216 [0, 1, 2, 3] [0, 1, 2, 3]]) ∧
        1 ≤ numQs unboundedCfg.qUpto ∧
        (readLoop unboundedCfg (twoOrThreePhase1Body unboundedCfg true hitOracle)
          (firstReads 16777216) (twoOrThreePhase1Init unboundedCfg initSt)).exited = false) ∧
      (mkRead 16777216 [0, 1, 2, 3] [0, 1, 2, 3]).patid ≥
        (readLoop unboundedCfg (twoOrThreePhase1Body unboundedCfg true hitOracle)
          (firstReads 16777216) (twoOrThreePhase1Init unboundedCfg initSt)).doneMask.length ∧
      (expandDone (readLoop unboundedCfg (twoOrThreePhase1Body unboundedCfg true hitOracle)
          (firstReads 16777216) (twoOrThreePhase1Init unboundedCfg initSt)).doneMask
          (mkRead 16777216 [0, 1, 2, 3] [0, 1, 2, 3]).patid).length = 33554432 ∧
      (mkRead 16777216 [0, 1, 2, 3] [0, 1, 2, 3]).patid <
        (expandDone (readLoop unboundedCfg (twoOrThreePhase1Body unboundedCfg true hitOracle)
          (firstReads 16777216) (twoOrThreePhase1Init unboundedCfg initSt)).doneMask
          (mkRead 16777216 [0, 1, 2, 3] [0, 1, 2, 3]).patid).length := by
  have hlive : (readLoop unboundedCfg (twoOrThreePhase1Body unboundedCfg true hitOracle)
      (firstReads 16777216) (twoOrThreePhase1Init unboundedCfg initSt)).exited = false :=
    readLoop_live unboundedCfg _ (twoOrThreePhase1Body_exits unboundedCfg true hitOracle) rfl
      (firstReads 16777216) (fun r hr => by rw [(mem_firstReads _ r hr).2]) _ rfl
  have hinit : (twoOrThreePhase1Init unboundedCfg initSt).doneMask.length = 16777216 := by
    rw [twoOrThreePhase1Init_doneMask, List.length_replicate]
    decide
  have hsize : (readLoop unboundedCfg (twoOrThreePhase1Body unboundedCfg true hitOracle)
      (firstReads 16777216) (twoOrThreePhase1Init unboundedCfg initSt)).doneMask.length =
      16777216 := by
    rw [readLoop_length_of_lt unboundedCfg _
      (twoOrThreePhase1Body_length unboundedCfg true hitOracle) (firstReads 16777216) _
      (fun r hr => by rw [hinit]; exact (mem_firstReads _ r hr).1), hinit]
  have hthm := growth_keeps_patid_in_range unboundedCfg true 28 7 2 hitOracle initSt
    (firstReads 16777216) (mkRead 16777216 [0, 1, 2, 3] [0, 1, 2, 3]) (by decide)
  refine ⟨by decide, ⟨firstReads_dense _ _ _, by decide, hlive⟩, ?_, ?_,
    (hthm.1 (firstReads_dense _ _ _) (by decide)).1 hlive⟩
  · rw [hsize]
    exact Nat.le_refl _
  · rw [hthm.2.1 _ (by rw [hsize]; exact Nat.le_refl _), hsize]
/-! ## Index residency and the index searched -/

theorem Continues.start (P : SearchCall → Prop) (st : St) : Continues P st st :=
  ⟨rfl, rfl, rfl, rfl, rfl, rfl, [], by simp, by simp⟩

theorem Continues.seq {P : SearchCall → Prop} {a b c : St} (h1 : Continues P a b)
    (h2 : Continues P b c) : Continues P a c := by
  obtain ⟨a1, a2, a3, a4, a5, a6, l1, t1, p1⟩ := h1
  obtain ⟨b1, b2, b3, b4, b5, b6, l2, t2, p2⟩ := h2
  refine ⟨b1.trans a1, b2.trans a2, b3.trans a3, b4.trans a4, b5.trans a5, b6.trans a6,
    l1 ++ l2, by rw [t2, t1, List.append_assoc], ?_⟩
  intro c hc
  rcases List.mem_append.mp hc with h | h
  · exact p1 c h
  · exact p2 c h

/-- A step that issues no search and keeps residency and the backtrackers'
indexes. -/
theorem Continues.step {P : SearchCall → Prop} {a b c : St} (h : Continues P a b)
    (h1 : c.fwInMemory = b.fwInMemory) (h2 : c.bwInMemory = b.bwInMemory)
    (h3 : c.btf.ebwtFw = b.btf.ebwtFw) (h4 : c.btr.ebwtFw = b.btr.ebwtFw)
    (h5 : c.bt.ebwtFw = b.bt.ebwtFw) (h6 : c.hh.ebwtFw = b.hh.ebwtFw)
    (h7 : c.trace = b.trace) : Continues P a c :=
  Continues.seq h ⟨h1, h2, h3, h4, h5, h6, [], by simp [h7], by simp⟩

theorem Continues.thenSetFw {P : SearchCall → Prop} {a b : St} (x : Bool) (h : Continues P a b) :
    Continues P a (b.setFw x) := h.step rfl rfl rfl rfl rfl rfl rfl

theorem Continues.thenGetRead {P : SearchCall → Prop} {a b : St} (rd : Read)
    (h : Continues P a b) : Continues P a (b.getRead rd) := h.step rfl rfl rfl rfl rfl rfl rfl

theorem Continues.thenExit {P : SearchCall → Prop} {a b : St} (h : Continues P a b) :
    Continues P a b.exit := h.step rfl rfl rfl rfl rfl rfl rfl

theorem Continues.thenMarkDone {P : SearchCall → Prop} {a b : St} (p : Nat)
    (h : Continues P a b) : Continues P a (b.markDone p) := h.step rfl rfl rfl rfl rfl rfl rfl

theorem Continues.thenSyncMarkDone {P : SearchCall → Prop} {a b : St} (p : Nat)
    (h : Continues P a b) : Continues P a (b.syncMarkDone p) :=
  h.step rfl rfl rfl rfl rfl rfl rfl

theorem Continues.thenExpand {P : SearchCall → Prop} {a b : St} (p : Nat)
    (h : Continues P a b) : Continues P a (b.expand p) := h.step rfl rfl rfl rfl rfl rfl rfl

theorem Continues.thenSyncLastHits {P : SearchCall → Prop} {a b : St} (h : Continues P a b) :
    Continues P a b.syncLastHits := h.step rfl rfl rfl rfl rfl rfl rfl

theorem Continues.thenRejectProvisionalHits {P : SearchCall → Prop} {a b : St}
    (h : Continues P a b) : Continues P a b.rejectProvisionalHits :=
  h.step rfl rfl rfl rfl rfl rfl rfl

theorem Continues.thenAcceptProvisionalHits {P : SearchCall → Prop} {a b : St}
    (h : Continues P a b) : Continues P a b.acceptProvisionalHits :=
  h.step rfl rfl rfl rfl rfl rfl rfl

theorem Continues.thenSetOffsBtf {P : SearchCall → Prop} {a b : St} (o : Offs)
    (h : Continues P a b) : Continues P a (b.setOffsBtf o) := h.step rfl rfl rfl rfl rfl rfl rfl

theorem Continues.thenSetOffsBtr {P : SearchCall → Prop} {a b : St} (o : Offs)
    (h : Continues P a b) : Continues P a (b.setOffsBtr o) := h.step rfl rfl rfl rfl rfl rfl rfl

theorem Continues.thenSetOffsBt {P : SearchCall → Prop} {a b : St} (o : Offs)
    (h : Continues P a b) : Continues P a (b.setOffsBt o) := h.step rfl rfl rfl rfl rfl rfl rfl

theorem Continues.thenSetOffsHh {P : SearchCall → Prop} {a b : St} (o : Offs)
    (h : Continues P a b) : Continues P a (b.setOffsHh o) := h.step rfl rfl rfl rfl rfl rfl rfl

theorem Continues.thenSetQlenBtf {P : SearchCall → Prop} {a b : St} (n : Nat)
    (h : Continues P a b) : Continues P a (b.setQlenBtf n) := h.step rfl rfl rfl rfl rfl rfl rfl

theorem Continues.thenSetQlenBtr {P : SearchCall → Prop} {a b : St} (n : Nat)
    (h : Continues P a b) : Continues P a (b.setQlenBtr n) := h.step rfl rfl rfl rfl rfl rfl rfl

/-- A search whose call satisfies `P`. -/
theorem Continues.thenSearch {P : SearchCall → Prop} {a b : St} (orc : Oracle) (c : SearchCall)
    (p : Bool) (pam : Pam) (hc : P c) (h : Continues P a b) :
    Continues P a (b.search orc c p pam) :=
  Continues.seq h ⟨rfl, rfl, rfl, rfl, rfl, rfl, [c], by simp, by simpa using hc⟩

/-- A backtracker run whose call satisfies `P`. -/
theorem Continues.thenBacktrack {P : SearchCall → Prop} {a b : St} (orc : Oracle)
    (bt : Backtracker) (muts : Option PartialAlignment) (qf : Bool) (q ql : List Nat) (pam : Pam)
    (hc : P (b.call (SearchKind.backtrack bt muts) bt.ebwtFw qf q ql))
    (h : Continues P a b) : Continues P a (b.backtrack orc bt muts qf q ql pam) :=
  Continues.thenSearch orc _ false pam hc h
theorem extendPartials_onIndex (x : Bool) (orc : Oracle) (b : Backtracker) (qf : Bool)
    (q ql : List Nat) (patid : Nat) (hb : b.ebwtFw = x) (pals : List PartialAlignment) :
    ∀ st, Continues (SearchCall.onIndex x) st (extendPartials orc b qf q ql patid pals st).1 := by
  induction pals with
  | nil => intro st; exact Continues.start _ _
  | cons pal pals ih =>
    intro st
    unfold extendPartials
    dsimp only
    split_ifs
    · exact Continues.thenMarkDone _ (Continues.thenBacktrack _ _ _ _ _ _ _
        (by simp [SearchCall.onIndex, St.call, hb]) (Continues.start _ _))
    · exact Continues.seq (Continues.thenBacktrack _ _ _ _ _ _ _
        (by simp [SearchCall.onIndex, St.call, hb]) (Continues.start _ _)) (ih _)

theorem mismatchSearchPhase1Body_onIndex (cfg : Config) (orc : Oracle) (st : St) (r : Read) :
    Continues (SearchCall.onIndex true) st (mismatchSearchPhase1Body cfg orc st r) := by
  unfold mismatchSearchPhase1Body mismatchSearchPhase1Exact mismatchSearchPhase1Inexact
  dsimp only
  split_ifs <;>
    repeat (with_reducible first
      | exact Continues.start _ _
      | apply Continues.thenSetFw
      | apply Continues.thenExit
      | apply Continues.thenMarkDone
      | apply Continues.thenSyncMarkDone
      | apply Continues.thenExpand
      | apply Continues.thenSyncLastHits
      | apply Continues.thenRejectProvisionalHits
      | apply Continues.thenAcceptProvisionalHits
      | apply Continues.thenSetOffsBtf
      | apply Continues.thenSetOffsBtr
      | apply Continues.thenSetOffsBt
      | apply Continues.thenSetOffsHh
      | apply Continues.thenSetQlenBtf
      | apply Continues.thenSetQlenBtr
      | refine Continues.thenSearch _ _ _ _
          (by simp [SearchCall.onIndex, St.call]) ?_)

theorem mismatchSearchPhase2Body_onIndex (cfg : Config) (orc : Oracle) (st : St) (r : Read) :
    Continues (SearchCall.onIndex false) st (mismatchSearchPhase2Body cfg orc st r) := by
  unfold mismatchSearchPhase2Body
  dsimp only
  split_ifs <;>
    repeat (with_reducible first
      | exact Continues.start _ _
      | apply Continues.thenSetFw
      | apply Continues.thenExit
      | apply Continues.thenMarkDone
      | apply Continues.thenSyncMarkDone
      | apply Continues.thenExpand
      | apply Continues.thenSyncLastHits
      | apply Continues.thenRejectProvisionalHits
      | apply Continues.thenAcceptProvisionalHits
      | apply Continues.thenSetOffsBtf
      | apply Continues.thenSetOffsBtr
      | apply Continues.thenSetOffsBt
      | apply Continues.thenSetOffsHh
      | apply Continues.thenSetQlenBtf
      | apply Continues.thenSetQlenBtr
      | refine Continues.thenSearch _ _ _ _
          (by simp [SearchCall.onIndex, St.call]) ?_)

theorem twoOrThreePhase1Body_onIndex (cfg : Config) (two : Bool) (orc : Oracle) (st : St) (r : Read) (hbtr : st.btr.ebwtFw = true) :
    Continues (SearchCall.onIndex true) st (twoOrThreePhase1Body cfg two orc st r) := by
  unfold twoOrThreePhase1Body
  dsimp only
  split_ifs <;>
    repeat (with_reducible first
      | exact Continues.start _ _
      | apply Continues.thenSetFw
      | apply Continues.thenExit
      | apply Continues.thenMarkDone
      | apply Continues.thenSyncMarkDone
      | apply Continues.thenExpand
      | apply Continues.thenSyncLastHits
      | apply Continues.thenRejectProvisionalHits
      | apply Continues.thenAcceptProvisionalHits
      | apply Continues.thenSetOffsBtf
      | apply Continues.thenSetOffsBtr
      | apply Continues.thenSetOffsBt
      | apply Continues.thenSetOffsHh
      | apply Continues.thenSetQlenBtf
      | apply Continues.thenSetQlenBtr
      | refine Continues.thenSearch _ _ _ _
          (by simp [SearchCall.onIndex, St.call]) ?_
      | refine Continues.thenBacktrack _ _ _ _ _ _ _
          (by simp [SearchCall.onIndex, St.call, Backtracker.setOffs, Backtracker.setQlen, hbtr])
          ?_)

theorem twoOrThreePhase2Body_onIndex (two : Bool) (orc : Oracle) (st : St) (r : Read) (hbt : st.bt.ebwtFw = false) :
    Continues (SearchCall.onIndex false) st (twoOrThreePhase2Body two orc st r) := by
  unfold twoOrThreePhase2Body
  dsimp only
  split_ifs <;>
    repeat (with_reducible first
      | exact Continues.start _ _
      | apply Continues.thenSetFw
      | apply Continues.thenExit
      | apply Continues.thenMarkDone
      | apply Continues.thenSyncMarkDone
      | apply Continues.thenExpand
      | apply Continues.thenSyncLastHits
      | apply Continues.thenRejectProvisionalHits
      | apply Continues.thenAcceptProvisionalHits
      | apply Continues.thenSetOffsBtf
      | apply Continues.thenSetOffsBtr
      | apply Continues.thenSetOffsBt
      | apply Continues.thenSetOffsHh
      | apply Continues.thenSetQlenBtf
      | apply Continues.thenSetQlenBtr
      | refine Continues.thenSearch _ _ _ _
          (by simp [SearchCall.onIndex, St.call]) ?_
      | refine Continues.thenBacktrack _ _ _ _ _ _ _
          (by simp [SearchCall.onIndex, St.call, Backtracker.setOffs, Backtracker.setQlen, hbt])
          ?_)

theorem twoOrThreePhase3Body_onIndex (two : Bool) (orc : Oracle) (st : St) (r : Read) (hbt : st.bt.ebwtFw = true) (hhh : st.hh.ebwtFw = true) :
    Continues (SearchCall.onIndex true) st (twoOrThreePhase3Body two orc st r) := by
  unfold twoOrThreePhase3Body
  dsimp only
  split_ifs <;>
    repeat (with_reducible first
      | exact Continues.start _ _
      | apply Continues.thenSetFw
      | apply Continues.thenExit
      | apply Continues.thenMarkDone
      | apply Continues.thenSyncMarkDone
      | apply Continues.thenExpand
      | apply Continues.thenSyncLastHits
      | apply Continues.thenRejectProvisionalHits
      | apply Continues.thenAcceptProvisionalHits
      | apply Continues.thenSetOffsBtf
      | apply Continues.thenSetOffsBtr
      | apply Continues.thenSetOffsBt
      | apply Continues.thenSetOffsHh
      | apply Continues.thenSetQlenBtf
      | apply Continues.thenSetQlenBtr
      | refine Continues.thenSearch _ _ _ _
          (by simp [SearchCall.onIndex, St.call]) ?_
      | refine Continues.thenBacktrack _ _ _ _ _ _ _
          (by simp [SearchCall.onIndex, St.call, Backtracker.setOffs, Backtracker.setQlen, hbt, hhh])
          ?_)

theorem seededPhase1Body_onIndex (cfg : Config) (seedLen seedMms : Int) (orc : Oracle) (st : St) (r : Read) (hbtf : st.btf.ebwtFw = true) (hbt : st.bt.ebwtFw = true) :
    Continues (SearchCall.onIndex true) st (seededPhase1Body cfg seedLen seedMms orc st r) := by
  unfold seededPhase1Body
  dsimp only
  split_ifs <;>
    repeat (with_reducible first
      | exact Continues.start _ _
      | apply Continues.thenSetFw
      | apply Continues.thenExit
      | apply Continues.thenMarkDone
      | apply Continues.thenSyncMarkDone
      | apply Continues.thenExpand
      | apply Continues.thenSyncLastHits
      | apply Continues.thenRejectProvisionalHits
      | apply Continues.thenAcceptProvisionalHits
      | apply Continues.thenSetOffsBtf
      | apply Continues.thenSetOffsBtr
      | apply Continues.thenSetOffsBt
      | apply Continues.thenSetOffsHh
      | apply Continues.thenSetQlenBtf
      | apply Continues.thenSetQlenBtr
      | refine Continues.thenSearch _ _ _ _
          (by simp [SearchCall.onIndex, St.call]) ?_
      | refine Continues.thenBacktrack _ _ _ _ _ _ _
          (by simp [SearchCall.onIndex, St.call, Backtracker.setOffs, Backtracker.setQlen, hbtf, hbt])
          ?_)

theorem seededPhase2Body_onIndex (seedLen seedMms : Int) (orc : Oracle) (st : St) (r : Read) (hbtf : st.btf.ebwtFw = false) (hbtr : st.btr.ebwtFw = false) :
    Continues (SearchCall.onIndex false) st (seededPhase2Body seedLen seedMms orc st r) := by
  unfold seededPhase2Body
  dsimp only
  split_ifs <;>
    repeat (with_reducible first
      | exact Continues.start _ _
      | apply Continues.thenSetFw
      | apply Continues.thenExit
      | apply Continues.thenMarkDone
      | apply Continues.thenSyncMarkDone
      | apply Continues.thenExpand
      | apply Continues.thenSyncLastHits
      | apply Continues.thenRejectProvisionalHits
      | apply Continues.thenAcceptProvisionalHits
      | apply Continues.thenSetOffsBtf
      | apply Continues.thenSetOffsBtr
      | apply Continues.thenSetOffsBt
      | apply Continues.thenSetOffsHh
      | apply Continues.thenSetQlenBtf
      | apply Continues.thenSetQlenBtr
      | refine Continues.thenSearch _ _ _ _
          (by simp [SearchCall.onIndex, St.call]) ?_
      | refine Continues.thenBacktrack _ _ _ _ _ _ _
          (by simp [SearchCall.onIndex, St.call, Backtracker.setOffs, Backtracker.setQlen, hbtf, hbtr])
          ?_)

theorem seededPhase3Extend_onIndex (seedLen : Int) (orc : Oracle) (st : St) (r : Read) (hbtr : st.btr.ebwtFw = true) :
    Continues (SearchCall.onIndex true) st (seededPhase3Extend seedLen orc st r).1 := by
  unfold seededPhase3Extend
  dsimp only
  split_ifs <;>
    repeat (with_reducible first
      | exact Continues.start _ _
      | apply Continues.thenSetFw
      | apply Continues.thenExit
      | apply Continues.thenMarkDone
      | apply Continues.thenSyncMarkDone
      | apply Continues.thenExpand
      | apply Continues.thenSyncLastHits
      | apply Continues.thenRejectProvisionalHits
      | apply Continues.thenAcceptProvisionalHits
      | apply Continues.thenSetOffsBtf
      | apply Continues.thenSetOffsBtr
      | apply Continues.thenSetOffsBt
      | apply Continues.thenSetOffsHh
      | apply Continues.thenSetQlenBtf
      | apply Continues.thenSetQlenBtr
      | refine Continues.thenSearch _ _ _ _
          (by simp [SearchCall.onIndex, St.call]) ?_
      | refine Continues.thenBacktrack _ _ _ _ _ _ _
          (by simp [SearchCall.onIndex, St.call, Backtracker.setOffs, Backtracker.setQlen, hbtr])
          ?_
      | refine Continues.seq ?_ (extendPartials_onIndex true _ _ _ _ _ _
          (by simp [Backtracker.setOffs, Backtracker.setQlen, hbtr]) _ _))

theorem seededPhase3Hh_onIndex (seedLen seedMms : Int) (orc : Oracle) (st : St) (r : Read) (hhh : st.hh.ebwtFw = true) :
    Continues (SearchCall.onIndex true) st (seededPhase3Hh seedLen seedMms orc st r).1 := by
  unfold seededPhase3Hh
  dsimp only
  split_ifs <;>
    repeat (with_reducible first
      | exact Continues.start _ _
      | apply Continues.thenSetFw
      | apply Continues.thenExit
      | apply Continues.thenMarkDone
      | apply Continues.thenSyncMarkDone
      | apply Continues.thenExpand
      | apply Continues.thenSyncLastHits
      | apply Continues.thenRejectProvisionalHits
      | apply Continues.thenAcceptProvisionalHits
      | apply Continues.thenSetOffsBtf
      | apply Continues.thenSetOffsBtr
      | apply Continues.thenSetOffsBt
      | apply Continues.thenSetOffsHh
      | apply Continues.thenSetQlenBtf
      | apply Continues.thenSetQlenBtr
      | refine Continues.thenSearch _ _ _ _
          (by simp [SearchCall.onIndex, St.call]) ?_
      | refine Continues.thenBacktrack _ _ _ _ _ _ _
          (by simp [SearchCall.onIndex, St.call, Backtracker.setOffs, Backtracker.setQlen, hhh])
          ?_)

theorem seededPhase3Seedlings_onIndex (seedLen seedMms : Int) (orc : Oracle) (st : St) (r : Read) (hbtf : st.btf.ebwtFw = true) :
    Continues (SearchCall.onIndex true) st (seededPhase3Seedlings seedLen seedMms orc st r) := by
  unfold seededPhase3Seedlings
  dsimp only
  split_ifs <;>
    repeat (with_reducible first
      | exact Continues.start _ _
      | apply Continues.thenSetFw
      | apply Continues.thenExit
      | apply Continues.thenMarkDone
      | apply Continues.thenSyncMarkDone
      | apply Continues.thenExpand
      | apply Continues.thenSyncLastHits
      | apply Continues.thenRejectProvisionalHits
      | apply Continues.thenAcceptProvisionalHits
      | apply Continues.thenSetOffsBtf
      | apply Continues.thenSetOffsBtr
      | apply Continues.thenSetOffsBt
      | apply Continues.thenSetOffsHh
      | apply Continues.thenSetQlenBtf
      | apply Continues.thenSetQlenBtr
      | refine Continues.thenSearch _ _ _ _
          (by simp [SearchCall.onIndex, St.call]) ?_
      | refine Continues.thenBacktrack _ _ _ _ _ _ _
          (by simp [SearchCall.onIndex, St.call, Backtracker.setOffs, Backtracker.setQlen, hbtf])
          ?_)

theorem seededPhase4Extend_onIndex (seedLen : Int) (orc : Oracle) (st : St) (r : Read) (hbtf : st.btf.ebwtFw = false) :
    Continues (SearchCall.onIndex false) st (seededPhase4Extend seedLen orc st r).1 := by
  unfold seededPhase4Extend
  dsimp only
  split_ifs <;>
    repeat (with_reducible first
      | exact Continues.start _ _
      | apply Continues.thenSetFw
      | apply Continues.thenExit
      | apply Continues.thenMarkDone
      | apply Continues.thenSyncMarkDone
      | apply Continues.thenExpand
      | apply Continues.thenSyncLastHits
      | apply Continues.thenRejectProvisionalHits
      | apply Continues.thenAcceptProvisionalHits
      | apply Continues.thenSetOffsBtf
      | apply Continues.thenSetOffsBtr
      | apply Continues.thenSetOffsBt
      | apply Continues.thenSetOffsHh
      | apply Continues.thenSetQlenBtf
      | apply Continues.thenSetQlenBtr
      | refine Continues.thenSearch _ _ _ _
          (by simp [SearchCall.onIndex, St.call]) ?_
      | refine Continues.thenBacktrack _ _ _ _ _ _ _
          (by simp [SearchCall.onIndex, St.call, Backtracker.setOffs, Backtracker.setQlen, hbtf])
          ?_
      | refine Continues.seq ?_ (extendPartials_onIndex false _ _ _ _ _ _
          (by simp [Backtracker.setOffs, Backtracker.setQlen, hbtf]) _ _))

theorem seededPhase4Hh_onIndex (seedLen seedMms : Int) (orc : Oracle) (st : St) (r : Read) (hhh : st.hh.ebwtFw = false) :
    Continues (SearchCall.onIndex false) st (seededPhase4Hh seedLen seedMms orc st r) := by
  unfold seededPhase4Hh
  dsimp only
  split_ifs <;>
    repeat (with_reducible first
      | exact Continues.start _ _
      | apply Continues.thenSetFw
      | apply Continues.thenExit
      | apply Continues.thenMarkDone
      | apply Continues.thenSyncMarkDone
      | apply Continues.thenExpand
      | apply Continues.thenSyncLastHits
      | apply Continues.thenRejectProvisionalHits
      | apply Continues.thenAcceptProvisionalHits
      | apply Continues.thenSetOffsBtf
      | apply Continues.thenSetOffsBtr
      | apply Continues.thenSetOffsBt
      | apply Continues.thenSetOffsHh
      | apply Continues.thenSetQlenBtf
      | apply Continues.thenSetQlenBtr
      | refine Continues.thenSearch _ _ _ _
          (by simp [SearchCall.onIndex, St.call]) ?_
      | refine Continues.thenBacktrack _ _ _ _ _ _ _
          (by simp [SearchCall.onIndex, St.call, Backtracker.setOffs, Backtracker.setQlen, hhh])
          ?_)

theorem seededPhase3Body_onIndex (seedLen seedMms : Int) (orc : Oracle) (st : St) (r : Read)
    (hbtf : st.btf.ebwtFw = true) (hbtr : st.btr.ebwtFw = true) (hhh : st.hh.ebwtFw = true) :
    Continues (SearchCall.onIndex true) st (seededPhase3Body seedLen seedMms orc st r) := by
  have e0 : Continues (SearchCall.onIndex true) st (st.setFw false) :=
    (Continues.start _ _).thenSetFw _
  have e1 := Continues.seq e0
    (seededPhase3Extend_onIndex seedLen orc (st.setFw false) r (by simpa using hbtr))
  have e2 := Continues.seq e1
    (seededPhase3Hh_onIndex seedLen seedMms orc _ r (by rw [e1.2.2.2.2.2.1]; exact hhh))
  have e3 := Continues.seq e2
    (seededPhase3Seedlings_onIndex seedLen seedMms orc _ r (by rw [e2.2.2.1]; exact hbtf))
  unfold seededPhase3Body
  dsimp only
  split_ifs
  · exact Continues.start _ _
  · exact e1
  · exact e2.thenMarkDone _
  · exact e3

theorem seededPhase4Body_onIndex (seedLen seedMms : Int) (orc : Oracle) (st : St) (r : Read)
    (hbtf : st.btf.ebwtFw = false) (hhh : st.hh.ebwtFw = false) :
    Continues (SearchCall.onIndex false) st (seededPhase4Body seedLen seedMms orc st r) := by
  have e0 : Continues (SearchCall.onIndex false) st (st.setFw true) :=
    (Continues.start _ _).thenSetFw _
  have e1 := Continues.seq e0
    (seededPhase4Extend_onIndex seedLen orc (st.setFw true) r (by simpa using hbtf))
  have e2 := Continues.seq e1
    (seededPhase4Hh_onIndex seedLen seedMms orc _ r (by rw [e1.2.2.2.2.2.1]; exact hhh))
  unfold seededPhase4Body
  dsimp only
  split_ifs
  · exact Continues.start _ _
  · exact e1
  · exact e2

/-- A read loop continues its start state when its body does, for an invariant
`I` that continuing states share. -/
theorem readLoop_continues (cfg : Config) (P : SearchCall → Prop) (I : St → Prop)
    (body : St → Read → St) (hI : ∀ a b, Continues P a b → I a → I b)
    (hbody : ∀ st r, I st → Continues P st (body st r)) (reads : List Read) :
    ∀ st, I st → Continues P st (readLoop cfg body reads st) := by
  induction reads with
  | nil => intro st _; exact Continues.start _ _
  | cons r rs ih =>
    intro st hst
    have hg : Continues P st (st.getRead (presentRead st.reverse r)) :=
      (Continues.start _ _).thenGetRead _
    have hgI := hI _ _ hg hst
    have hb := Continues.seq hg (hbody _ (presentRead st.reverse r) hgI)
    unfold readLoop
    dsimp only
    split_ifs
    · exact Continues.start _ _
    · exact Continues.start _ _
    · exact hg.thenExit
    · exact Continues.seq hb (ih _ (hI _ _ hb hst))

/-- From a phase entry state in which index `x` and only it is resident,
continuing states are in the phase. -/
theorem PhaseOn.of_continues {x : Bool} {a b : St} (hr : Resident x a)
    (h : Continues (SearchCall.onIndex x) a b) : PhaseOn x a b :=
  ⟨⟨h.1.trans hr.1, h.2.1.trans hr.2⟩, h.2.2.2.2.2.2⟩

/-- C17: from the state in which `driver` calls the 1-mismatch and 2/3-mismatch
searches (the mode is not Maq-like; the seeded search makes the forward index
resident itself, from any state), at every point of every phase of the 1-mismatch, 2/3-mismatch and seeded searches (after any reads
`pre` of the phase, from any state `st1` the previous phase left) exactly one
index is resident, the forward index in phases 1 and 3 and the mirror index in
phases 2 and 4, and every search of the phase is on that index.  The switch
between phases evicts one index before it loads the other, so that at most one
index is resident in between as well. -/
theorem one_index_resident (cfg : Config) (two : Bool) (seedLen qualCutoff seedMms : Int)
    (orc : Oracle) (pre : List Read) (o : Options) (haveOs : Bool) (ho : o.maqLike = false) :
    (PhaseOn true (mismatchSearchPhase1Init cfg (driverEntry o haveOs))
        (readLoop cfg (mismatchSearchPhase1Body cfg orc) pre
          (mismatchSearchPhase1Init cfg (driverEntry o haveOs))) ∧
      ∀ st1, PhaseOn false (mismatchSearchPhase2Init st1)
        (readLoop cfg (mismatchSearchPhase2Body cfg orc) pre (mismatchSearchPhase2Init st1))) ∧
    (PhaseOn true (twoOrThreePhase1Init cfg (driverEntry o haveOs))
        (readLoop cfg (twoOrThreePhase1Body cfg two orc) pre
          (twoOrThreePhase1Init cfg (driverEntry o haveOs))) ∧
      (∀ st1, PhaseOn false (twoOrThreePhase2Init cfg st1)
        (readLoop cfg (twoOrThreePhase2Body two orc) pre (twoOrThreePhase2Init cfg st1))) ∧
      ∀ st1, PhaseOn true (twoOrThreePhase3Init cfg st1)
        (readLoop cfg (twoOrThreePhase3Body two orc) pre (twoOrThreePhase3Init cfg st1))) ∧
    ((∀ st1, PhaseOn true (seededPhase1Init cfg seedLen qualCutoff seedMms st1)
        (readLoop cfg (seededPhase1Body cfg seedLen seedMms orc) pre
          (seededPhase1Init cfg seedLen qualCutoff seedMms st1))) ∧
      (∀ st1, PhaseOn false (seededPhase2Init cfg seedLen qualCutoff seedMms st1)
        (readLoop cfg (seededPhase2Body seedLen seedMms orc) pre
          (seededPhase2Init cfg seedLen qualCutoff seedMms st1))) ∧
      (∀ st1, PhaseOn true (seededPhase3Init cfg seedLen qualCutoff seedMms st1)
        (readLoop cfg (seededPhase3Body seedLen seedMms orc) pre
          (seededPhase3Init cfg seedLen qualCutoff seedMms st1))) ∧
      ∀ st1, PhaseOn false (seededPhase4Init cfg seedLen qualCutoff seedMms st1)
        (readLoop cfg (seededPhase4Body seedLen seedMms orc) pre
          (seededPhase4Init cfg seedLen qualCutoff seedMms st1))) ∧
    (∀ s : St, s.switchToBwIndex = (s.evictFw.loadBw).setReverse true ∧
      s.evictFw.fwInMemory = false ∧
      s.switchToFwIndex = (s.evictBw.loadFw).setReverse false ∧
      s.evictBw.bwInMemory = false) ∧
    ∀ (x : Bool) (s : St), Resident x s → ¬ (s.fwInMemory = true ∧ s.bwInMemory = true) := by
  have hentry : Resident true (driverEntry o haveOs) := by
    obtain ⟨h1, h2⟩ := driverLoad_resident o haveOs initSt
    unfold driverEntry Resident
    rw [h1, h2]
    simp [ho, initSt]
  refine ⟨⟨?_, ?_⟩, ⟨?_, ?_, ?_⟩, ⟨?_, ?_, ?_, ?_⟩, ?_, ?_⟩
  · exact PhaseOn.of_continues (by simpa [Resident, mismatchSearchPhase1Init] using hentry)
      (readLoop_continues cfg _ (fun _ => True) _ (fun _ _ _ _ => trivial)
        (fun s r _ => mismatchSearchPhase1Body_onIndex cfg orc s r) pre _ trivial)
  · intro st1
    exact PhaseOn.of_continues (by simp [Resident, mismatchSearchPhase2Init])
      (readLoop_continues cfg _ (fun _ => True) _ (fun _ _ _ _ => trivial)
        (fun s r _ => mismatchSearchPhase2Body_onIndex cfg orc s r) pre _ trivial)
  · exact PhaseOn.of_continues (by simpa [Resident, twoOrThreePhase1Init] using hentry)
      (readLoop_continues cfg _ (fun s => s.btr.ebwtFw = true) _
        (fun _ _ h ha => h.2.2.2.1.trans ha)
        (fun s r hs => twoOrThreePhase1Body_onIndex cfg two orc s r hs) pre _
        (by simp [twoOrThreePhase1Init, ttBacktracker]))
  · intro st1
    exact PhaseOn.of_continues (by simp [Resident, twoOrThreePhase2Init])
      (readLoop_continues cfg _ (fun s => s.bt.ebwtFw = false) _
        (fun _ _ h ha => h.2.2.2.2.1.trans ha)
        (fun s r hs => twoOrThreePhase2Body_onIndex two orc s r hs) pre _
        (by simp [twoOrThreePhase2Init, ttBacktracker]))
  · intro st1
    exact PhaseOn.of_continues (by simp [Resident, twoOrThreePhase3Init])
      (readLoop_continues cfg _ (fun s => s.bt.ebwtFw = true ∧ s.hh.ebwtFw = true) _
        (fun _ _ h ha => ⟨h.2.2.2.2.1.trans ha.1, h.2.2.2.2.2.1.trans ha.2⟩)
        (fun s r hs => twoOrThreePhase3Body_onIndex two orc s r hs.1 hs.2) pre _
        (by simp [twoOrThreePhase3Init, ttBacktracker]))
  · intro st1
    exact PhaseOn.of_continues (by simp [Resident, seededPhase1Init])
      (readLoop_continues cfg _ (fun s => s.btf.ebwtFw = true ∧ s.bt.ebwtFw = true) _
        (fun _ _ h ha => ⟨h.2.2.1.trans ha.1, h.2.2.2.2.1.trans ha.2⟩)
        (fun s r hs => seededPhase1Body_onIndex cfg seedLen seedMms orc s r hs.1 hs.2) pre _
        (by simp [seededPhase1Init, seededBacktracker]))
  · intro st1
    exact PhaseOn.of_continues (by simp [Resident, seededPhase2Init])
      (readLoop_continues cfg _ (fun s => s.btf.ebwtFw = false ∧ s.btr.ebwtFw = false) _
        (fun _ _ h ha => ⟨h.2.2.1.trans ha.1, h.2.2.2.1.trans ha.2⟩)
        (fun s r hs => seededPhase2Body_onIndex seedLen seedMms orc s r hs.1 hs.2) pre _
        (by simp [seededPhase2Init, seededBacktracker]))
  · intro st1
    exact PhaseOn.of_continues (by simp [Resident, seededPhase3Init])
      (readLoop_continues cfg _
        (fun s => s.btf.ebwtFw = true ∧ s.btr.ebwtFw = true ∧ s.hh.ebwtFw = true) _
        (fun _ _ h ha => ⟨h.2.2.1.trans ha.1, h.2.2.2.1.trans ha.2.1,
          h.2.2.2.2.2.1.trans ha.2.2⟩)
        (fun s r hs => seededPhase3Body_onIndex seedLen seedMms orc s r hs.1 hs.2.1 hs.2.2) pre _
        (by simp [seededPhase3Init, seededBacktracker]))
  · intro st1
    exact PhaseOn.of_continues (by simp [Resident, seededPhase4Init])
      (readLoop_continues cfg _ (fun s => s.btf.ebwtFw = false ∧ s.hh.ebwtFw = false) _
        (fun _ _ h ha => ⟨h.2.2.1.trans ha.1, h.2.2.2.2.2.1.trans ha.2⟩)
        (fun s r hs => seededPhase4Body_onIndex seedLen seedMms orc s r hs.1 hs.2) pre _
        (by simp [seededPhase4Init, seededBacktracker]))
  · intro s
    exact ⟨rfl, rfl, rfl, rfl⟩
  · intro x s hr h
    unfold Resident at hr
    rw [h.1, h.2] at hr
    cases x <;> simp at hr

/-- Witness for C17: the run `-v 1` (1-mismatch mode, no sanity checking), one
read in `oneHit` mode: during phase 1 the forward index is the resident one and
the one searched. -/
theorem one_index_resident_witness :
    ({ defaultOptions with maqLike := false, mismatches := 1 } : Options).maqLike = false ∧
      PhaseOn true
        (mismatchSearchPhase1Init oneHitCfg
          (driverEntry { defaultOptions with maqLike := false, mismatches := 1 } false))
        (readLoop oneHitCfg (mismatchSearchPhase1Body oneHitCfg hitOracle)
          [mkRead 0 [0, 1, 2, 3] [0, 1, 2, 3]]
          (mismatchSearchPhase1Init oneHitCfg
            (driverEntry { defaultOptions with maqLike := false, mismatches := 1 } false))) :=
  ⟨rfl,
    (one_index_resident oneHitCfg true 28 7 2 hitOracle [mkRead 0 [0, 1, 2, 3] [0, 1, 2, 3]]
      { defaultOptions with maqLike := false, mismatches := 1 } false rfl).1.1⟩
/-! ## The naive oracle: mismatch bits count from the 5' end -/

theorem mem_bitSet (d : List Nat) (x b : Nat) : b ∈ bitSet d x ↔ b ∈ d ∨ b = x := by
  unfold bitSet
  split_ifs with h
  · constructor
    · intro hb; exact Or.inl hb
    · intro hb
      rcases hb with hb | hb
      · exact hb
      · rw [hb]; exact h
  · simp

/-- Every bit the left extension sets records a mismatch between the reference
and the pattern at some round `j` of the loop. -/
theorem extendLeft_mem (o pat : List Nat) (pos ohlen plen : Nat) (f5 : Bool) :
    ∀ (k : Nat) (d0 d : List Nat), k ≤ ohlen →
      extendLeft o pat pos ohlen plen f5 k d0 = some d →
      ∀ b ∈ d, b ∈ d0 ∨ ∃ j, j < ohlen ∧
        o.getD (pos - j - 1) 0 ≠ pat.getD (ohlen - j - 1) 0 ∧
        b = if f5 then ohlen - j - 1 else plen - (ohlen - j - 1) - 1 := by
  intro k
  induction k with
  | zero =>
    intro d0 d _ h b hb
    simp only [extendLeft, Option.some.injEq] at h
    rw [← h] at hb
    exact Or.inl hb
  | succ k ih =>
    intro d0 d hk h b hb
    unfold extendLeft at h
    dsimp only at h
    by_cases h1 : d0.length ≤ 1
    · rw [if_pos h1] at h
      by_cases h2 : o.getD (pos - (ohlen - (k + 1)) - 1) 0 = 4
      · rw [if_pos h2] at h
        exact absurd h (by simp)
      · rw [if_neg h2] at h
        by_cases h3 : o.getD (pos - (ohlen - (k + 1)) - 1) 0 ≠
            pat.getD (ohlen - (ohlen - (k + 1)) - 1) 0
        · rw [if_pos h3] at h
          rcases ih _ _ (by omega) h b hb with h4 | h4
          · rcases (mem_bitSet _ _ _).mp h4 with h5 | h5
            · exact Or.inl h5
            · exact Or.inr ⟨ohlen - (k + 1), by omega, h3, h5⟩
          · exact Or.inr h4
        · rw [if_neg h3] at h
          exact ih _ _ (by omega) h b hb
    · rw [if_neg h1] at h
      simp only [Option.some.injEq] at h
      rw [← h] at hb
      exact Or.inl hb

theorem length_sanityHalf_le (pat : List Nat) (transpose : Bool) :
    (sanityHalf pat transpose).length ≤ pat.length := by
  unfold sanityHalf
  simp only [List.length_drop, List.length_take]
  omega
theorem sanityHitAt_bits (pat : List Nat) (patid : Nat) (fw allowExact transpose : Bool) (i : Nat)
    (o : List Nat) (pos : Nat) (h : Hit) (hp : pat.length < 2 ^ 32) (hol : o.length < 2 ^ 32)
    (hfit : pos + (sanityHalf pat transpose).length ≤ o.length)
    (hs : sanityHitAt pat patid fw allowExact transpose i o pos = some h) :
    h.refId = i ∧ ∀ b ∈ h.mms, ∃ p w, p < pat.length ∧ w + pat.length ≤ o.length ∧
      h.refOff = (if transpose then o.length - w - pat.length else w) ∧
      pat.getD p 0 ≠ o.getD (w + p) 0 ∧
      b = if ((!transpose) == fw) then p else pat.length - p - 1 := by
  have hh := length_sanityHalf_le pat transpose
  have e1 : u32 pat.length = pat.length := u32_of_lt hp
  have e2 : u32 (sanityHalf pat transpose).length = (sanityHalf pat transpose).length :=
    u32_of_lt (by omega)
  have e3 : u32OfInt ((pat.length : Int) - ((sanityHalf pat transpose).length : Nat)) =
      pat.length - (sanityHalf pat transpose).length := by
    unfold u32OfInt; omega
  unfold sanityHitAt at hs
  simp only [e1, e2, e3] at hs
  by_cases hany : (List.range (sanityHalf pat transpose).length).any
      (fun j => o.getD (j + pos) 0 == 4) = true
  · rw [if_pos hany] at hs
    exact absurd hs (by simp)
  · rw [if_neg hany] at hs
    by_cases hge : pos ≥ pat.length - (sanityHalf pat transpose).length
    · rw [if_pos hge] at hs
      cases hE : extendLeft o pat pos (pat.length - (sanityHalf pat transpose).length) pat.length
          ((!transpose) == fw) (pat.length - (sanityHalf pat transpose).length) [] with
      | none =>
        rw [hE] at hs
        exact absurd hs (by simp)
      | some diffs =>
        rw [hE] at hs
        dsimp only at hs
        have f0 : u32OfInt ((pos : Int) -
            ((pat.length - (sanityHalf pat transpose).length : Nat) : Int)) =
            pos - (pat.length - (sanityHalf pat transpose).length) := by
          unfold u32OfInt; omega
        have f1 : u32OfInt ((o.length : Int) -
            ((pos - (pat.length - (sanityHalf pat transpose).length) : Nat) : Int)) =
            o.length - (pos - (pat.length - (sanityHalf pat transpose).length)) := by
          unfold u32OfInt; omega
        have f2 : u32OfInt (((o.length - (pos - (pat.length -
            (sanityHalf pat transpose).length)) : Nat) : Int) - (pat.length : Int)) =
            o.length - (pos - (pat.length - (sanityHalf pat transpose).length)) - pat.length := by
          unfold u32OfInt; omega
        rw [f0, f1, f2] at hs
        by_cases hc : diffs.length = 0 ∧ allowExact = true ∨ diffs.length = 1
        · rw [if_pos hc] at hs
          split_ifs at hs with hg
          all_goals
            simp only [Option.some.injEq] at hs
            subst hs
            refine ⟨rfl, ?_⟩
            intro b hb
            rcases extendLeft_mem o pat pos _ pat.length _ _ [] diffs (Nat.le_refl _) hE b hb
              with h0 | ⟨j, hj, hne, hbj⟩
            · exact absurd h0 (by simp)
            · refine ⟨pat.length - (sanityHalf pat transpose).length - j - 1,
                pos - (pat.length - (sanityHalf pat transpose).length), by omega, by omega, ?_,
                ?_, hbj⟩
              · simp [*]
              · have hidx : pos - (pat.length - (sanityHalf pat transpose).length) +
                    (pat.length - (sanityHalf pat transpose).length - j - 1) = pos - j - 1 := by
                  omega
                rw [hidx]
                exact fun hx => hne hx.symm
        · rw [if_neg hc] at hs
          exact absurd hs (by simp)
    · rw [if_neg hge] at hs
      dsimp only at hs
      split_ifs at hs
      all_goals
        simp only [Option.some.injEq] at hs
        subst hs
        exact ⟨rfl, fun b hb => absurd hb (by simp)⟩

theorem mem_horspoolFind (o half : List Nat) (pos : Nat) (h : pos ∈ horspoolFind o half) :
    pos + half.length ≤ o.length := by
  unfold horspoolFind at h
  rw [List.mem_filter, List.mem_range] at h
  omega

theorem getD_reverse (l : List Nat) (q : Nat) (hq : q < l.length) :
    l.reverse.getD q 0 = l.getD (l.length - 1 - q) 0 := by
  rw [List.getD_eq_getElem?_getD, List.getD_eq_getElem?_getD, List.getElem?_reverse hq]

/-- C13: for every hit `findSanityHits` records and every bit set in its
bitmap, the bit is below the pattern length and there is a pattern position `p`
at which the pattern differs from the reference base the hit aligns with it,
such that the bit is `p` when the 5' end of the pattern is on the left (forward
read with `transpose` off, or reverse-complement read with `transpose` on) and
`plen - 1 - p` otherwise (pattern and references shorter than `2^32`).  For the
reversed read of `GATCGATCGATAGATC` against `AAAAGATCGATCGATCGATCAAAA` with
`transpose` on, `fw` true and `allowExact` off, the only hit recorded is
`(0, 4, +, {11})`. -/
theorem sanity_bits_five_prime (pat : List Nat) (patid : Nat) (fw allowExact transpose : Bool)
    (os : List (List Nat)) (hp : pat.length < 2 ^ 32) (ho : ∀ o ∈ os, o.length < 2 ^ 32) :
    (∀ h ∈ findSanityHits pat patid fw os allowExact transpose, ∀ b ∈ h.mms,
      b < pat.length ∧ ∃ p, p < pat.length ∧
        pat.getD p 0 ≠ alignedBase os h pat.length transpose p ∧
        b = if fw ≠ transpose then p else pat.length - 1 - p) ∧
    findSanityHits (dna5 "GATCGATCGATAGATC").reverse 0 true [dna5 "AAAAGATCGATCGATCGATCAAAA"]
      false true = [⟨0, 4, 0, true, [11]⟩] := by
  refine ⟨?_, by decide⟩
  intro h hh b hb
  unfold findSanityHits at hh
  rw [List.mem_flatMap] at hh
  obtain ⟨i, hi, hh⟩ := hh
  rw [List.mem_filterMap] at hh
  obtain ⟨pos, hpos, hs⟩ := hh
  rw [List.mem_range] at hi
  have hl : (os.getD i []).length < 2 ^ 32 := by
    rw [List.getD_eq_getElem?_getD, List.getElem?_eq_getElem hi]
    exact ho _ (List.getElem_mem _)
  have hol : (if transpose = true then (os.getD i []).reverse else os.getD i []).length =
      (os.getD i []).length := by
    split_ifs <;> simp
  have hfit := mem_horspoolFind _ _ _ hpos
  have hu : u32 pos = pos := u32_of_lt (by omega)
  rw [hu] at hs
  obtain ⟨hid, hbits⟩ := sanityHitAt_bits pat patid fw allowExact transpose i _ pos h hp
    (by rw [hol]; exact hl) hfit hs
  obtain ⟨p, w, hp1, hw, hoff, hne, hbp⟩ := hbits b hb
  rw [hol] at hw
  have hcond : (((!transpose) == fw) = true) ↔ fw ≠ transpose := by
    cases transpose <;> cases fw <;> simp
  refine ⟨?_, p, hp1, ?_, ?_⟩
  · rw [hbp]
    split_ifs <;> omega
  · unfold alignedBase
    rw [hid]
    cases transpose with
    | false =>
      simp only [Bool.false_eq_true, if_false] at hoff hne ⊢
      rw [hoff]
      exact hne
    | true =>
      simp only [if_true, List.length_reverse] at hoff hne ⊢
      rw [getD_reverse _ _ (by omega)] at hne
      have hidx : h.refOff + (pat.length - 1 - p) = (os.getD i []).length - 1 - (w + p) := by
        omega
      rw [hidx]
      exact hne
  · rw [hbp]
    by_cases hc : fw ≠ transpose
    · rw [if_pos (hcond.mpr hc), if_pos hc]
    · rw [if_neg (fun hx => hc (hcond.mp hx)), if_neg hc]
      omega

/-- Witness for C13: the recorded hit of the example and its bit 11. -/
theorem sanity_bits_five_prime_witness :
    ((dna5 "GATCGATCGATAGATC").reverse.length < 2 ^ 32 ∧
      ∀ o ∈ [dna5 "AAAAGATCGATCGATCGATCAAAA"], o.length < 2 ^ 32) ∧
      (11 < (dna5 "GATCGATCGATAGATC").reverse.length ∧
        ∃ p, p < (dna5 "GATCGATCGATAGATC").reverse.length ∧
          (dna5 "GATCGATCGATAGATC").reverse.getD p 0 ≠
            alignedBase [dna5 "AAAAGATCGATCGATCGATCAAAA"] ⟨0, 4, 0, true, [11]⟩
              (dna5 "GATCGATCGATAGATC").reverse.length true p ∧
          11 = if true ≠ true then p else (dna5 "GATCGATCGATAGATC").reverse.length - 1 - p) :=
  ⟨⟨by decide, by decide⟩,
    (sanity_bits_five_prime (dna5 "GATCGATCGATAGATC").reverse 0 true false true
      [dna5 "AAAAGATCGATCGATCGATCAAAA"] (by decide) (by decide)).1 ⟨0, 4, 0, true, [11]⟩
      (by decide) 11 (by decide)⟩
/-! ## At most one hit per read -/

theorem Grows.startG (st : St) : Grows st st :=
  ⟨rfl, [], by simp, by simp, fun h => ⟨by simp, h⟩⟩

theorem Grows.seqG {a b c : St} (h1 : Grows a b) (h2 : Grows b c) : Grows a c := by
  obtain ⟨p1, n1, e1, c1, q1⟩ := h1
  obtain ⟨p2, n2, e2, c2, q2⟩ := h2
  refine ⟨p2.trans p1, n1 ++ n2, by rw [e2, e1, List.append_assoc],
    by rw [c2, c1, List.length_append]; omega, ?_⟩
  intro hp
  obtain ⟨a1, a2⟩ := q1 hp
  obtain ⟨b1, b2⟩ := q2 (by rw [p1]; exact a2)
  rw [p1] at b1 b2
  refine ⟨?_, b2⟩
  intro h hh
  rcases List.mem_append.mp hh with h3 | h3
  · exact a1 h h3
  · exact b1 h h3

/-- A step that leaves the sink and the read id alone. -/
theorem Grows.stepG {a b c : St} (h : Grows a b) (h1 : c.sink = b.sink) (h2 : c.patId = b.patId) :
    Grows a c := by
  obtain ⟨p1, n1, e1, c1, q1⟩ := h
  exact ⟨h2.trans p1, n1, by rw [h1, e1], by rw [h1, c1], fun hp => by rw [h1]; exact q1 hp⟩

theorem Grows.thenSetFwG {a b : St} (x : Bool) (h : Grows a b) : Grows a (b.setFw x) :=
  h.stepG rfl rfl

theorem Grows.thenExitG {a b : St} (h : Grows a b) : Grows a b.exit := h.stepG rfl rfl

theorem Grows.thenMarkDoneG {a b : St} (p : Nat) (h : Grows a b) : Grows a (b.markDone p) :=
  h.stepG rfl rfl

theorem Grows.thenSyncMarkDoneG {a b : St} (p : Nat) (h : Grows a b) :
    Grows a (b.syncMarkDone p) := h.stepG rfl rfl

theorem Grows.thenExpandG {a b : St} (p : Nat) (h : Grows a b) : Grows a (b.expand p) :=
  h.stepG rfl rfl

theorem Grows.thenSyncLastHitsG {a b : St} (h : Grows a b) : Grows a b.syncLastHits :=
  h.stepG rfl rfl

theorem Grows.thenSetOffsBtfG {a b : St} (o : Offs) (h : Grows a b) : Grows a (b.setOffsBtf o) :=
  h.stepG rfl rfl

theorem Grows.thenSetOffsBtrG {a b : St} (o : Offs) (h : Grows a b) : Grows a (b.setOffsBtr o) :=
  h.stepG rfl rfl

theorem Grows.thenSetOffsBtG {a b : St} (o : Offs) (h : Grows a b) : Grows a (b.setOffsBt o) :=
  h.stepG rfl rfl

theorem Grows.thenSetOffsHhG {a b : St} (o : Offs) (h : Grows a b) : Grows a (b.setOffsHh o) :=
  h.stepG rfl rfl

theorem Grows.thenSetQlenBtfG {a b : St} (n : Nat) (h : Grows a b) : Grows a (b.setQlenBtf n) :=
  h.stepG rfl rfl

theorem Grows.thenSetQlenBtrG {a b : St} (n : Nat) (h : Grows a b) : Grows a (b.setQlenBtr n) :=
  h.stepG rfl rfl

theorem Grows.thenSearchG {a b : St} (orc : Oracle) (c : SearchCall) (p : Bool) (pam : Pam)
    (h : Grows a b) : Grows a (b.search orc c p pam) := by
  refine Grows.seqG h ⟨rfl, (orc c).hits.map b.stamp, rfl, by simp, ?_⟩
  intro hp
  refine ⟨by simp, ?_⟩
  rw [St.search_prov]
  split_ifs
  · intro x hx
    rcases List.mem_append.mp hx with h3 | h3
    · exact hp x h3
    · rw [List.mem_map] at h3
      obtain ⟨y, _, rfl⟩ := h3
      rfl
  · exact hp

theorem Grows.thenBacktrackG {a b : St} (orc : Oracle) (bt : Backtracker)
    (muts : Option PartialAlignment) (qf : Bool) (q ql : List Nat) (pam : Pam)
    (h : Grows a b) : Grows a (b.backtrack orc bt muts qf q ql pam) :=
  Grows.thenSearchG orc _ false pam h

theorem Grows.thenRejectProvisionalHitsG {a b : St} (h : Grows a b) :
    Grows a b.rejectProvisionalHits :=
  Grows.seqG h ⟨rfl, [], by simp, by simp, fun _ => ⟨by simp, by simp⟩⟩

theorem Grows.thenAcceptProvisionalHitsG {a b : St} (h : Grows a b) :
    Grows a b.acceptProvisionalHits :=
  Grows.seqG h ⟨rfl, b.sink.prov, by simp, by simp, fun hp => ⟨hp, by simp⟩⟩
theorem extendPartials_grows (orc : Oracle) (b : Backtracker) (qf : Bool) (q ql : List Nat)
    (patid : Nat) (pals : List PartialAlignment) :
    ∀ st, Grows st (extendPartials orc b qf q ql patid pals st).1 := by
  induction pals with
  | nil => intro st; exact Grows.startG _
  | cons pal pals ih =>
    intro st
    unfold extendPartials
    dsimp only
    split_ifs
    · exact Grows.thenMarkDoneG _ (Grows.thenBacktrackG _ _ _ _ _ _ _ (Grows.startG _))
    · exact Grows.seqG (Grows.thenBacktrackG _ _ _ _ _ _ _ (Grows.startG _)) (ih _)

theorem exactSearchBody_grows (cfg : Config) (orc : Oracle) (st : St) (r : Read) :
    Grows st (exactSearchBody cfg orc st r) := by
  unfold exactSearchBody
  dsimp only
  split_ifs <;>
    repeat (with_reducible first
      | exact Grows.startG _
      | apply Grows.thenSetFwG
      | apply Grows.thenExitG
      | apply Grows.thenMarkDoneG
      | apply Grows.thenSyncMarkDoneG
      | apply Grows.thenExpandG
      | apply Grows.thenSyncLastHitsG
      | apply Grows.thenRejectProvisionalHitsG
      | apply Grows.thenAcceptProvisionalHitsG
      | apply Grows.thenSetOffsBtfG
      | apply Grows.thenSetOffsBtrG
      | apply Grows.thenSetOffsBtG
      | apply Grows.thenSetOffsHhG
      | apply Grows.thenSetQlenBtfG
      | apply Grows.thenSetQlenBtrG
      | apply Grows.thenSearchG
      | apply Grows.thenBacktrackG)

theorem mismatchSearchPhase1Body_grows (cfg : Config) (orc : Oracle) (st : St) (r : Read) :
    Grows st (mismatchSearchPhase1Body cfg orc st r) := by
  unfold mismatchSearchPhase1Body mismatchSearchPhase1Exact mismatchSearchPhase1Inexact
  dsimp only
  split_ifs <;>
    repeat (with_reducible first
      | exact Grows.startG _
      | apply Grows.thenSetFwG
      | apply Grows.thenExitG
      | apply Grows.thenMarkDoneG
      | apply Grows.thenSyncMarkDoneG
      | apply Grows.thenExpandG
      | apply Grows.thenSyncLastHitsG
      | apply Grows.thenRejectProvisionalHitsG
      | apply Grows.thenAcceptProvisionalHitsG
      | apply Grows.thenSetOffsBtfG
      | apply Grows.thenSetOffsBtrG
      | apply Grows.thenSetOffsBtG
      | apply Grows.thenSetOffsHhG
      | apply Grows.thenSetQlenBtfG
      | apply Grows.thenSetQlenBtrG
      | apply Grows.thenSearchG
      | apply Grows.thenBacktrackG)

theorem mismatchSearchPhase2Body_grows (cfg : Config) (orc : Oracle) (st : St) (r : Read) :
    Grows st (mismatchSearchPhase2Body cfg orc st r) := by
  unfold mismatchSearchPhase2Body
  dsimp only
  split_ifs <;>
    repeat (with_reducible first
      | exact Grows.startG _
      | apply Grows.thenSetFwG
      | apply Grows.thenExitG
      | apply Grows.thenMarkDoneG
      | apply Grows.thenSyncMarkDoneG
      | apply Grows.thenExpandG
      | apply Grows.thenSyncLastHitsG
      | apply Grows.thenRejectProvisionalHitsG
      | apply Grows.thenAcceptProvisionalHitsG
      | apply Grows.thenSetOffsBtfG
      | apply Grows.thenSetOffsBtrG
      | apply Grows.thenSetOffsBtG
      | apply Grows.thenSetOffsHhG
      | apply Grows.thenSetQlenBtfG
      | apply Grows.thenSetQlenBtrG
      | apply Grows.thenSearchG
      | apply Grows.thenBacktrackG)

theorem twoOrThreePhase1Body_grows (cfg : Config) (two : Bool) (orc : Oracle) (st : St) (r : Read) :
    Grows st (twoOrThreePhase1Body cfg two orc st r) := by
  unfold twoOrThreePhase1Body
  dsimp only
  split_ifs <;>
    repeat (with_reducible first
      | exact Grows.startG _
      | apply Grows.thenSetFwG
      | apply Grows.thenExitG
      | apply Grows.thenMarkDoneG
      | apply Grows.thenSyncMarkDoneG
      | apply Grows.thenExpandG
      | apply Grows.thenSyncLastHitsG
      | apply Grows.thenRejectProvisionalHitsG
      | apply Grows.thenAcceptProvisionalHitsG
      | apply Grows.thenSetOffsBtfG
      | apply Grows.thenSetOffsBtrG
      | apply Grows.thenSetOffsBtG
      | apply Grows.thenSetOffsHhG
      | apply Grows.thenSetQlenBtfG
      | apply Grows.thenSetQlenBtrG
      | apply Grows.thenSearchG
      | apply Grows.thenBacktrackG)

theorem twoOrThreePhase2Body_grows (two : Bool) (orc : Oracle) (st : St) (r : Read) :
    Grows st (twoOrThreePhase2Body two orc st r) := by
  unfold twoOrThreePhase2Body
  dsimp only
  split_ifs <;>
    repeat (with_reducible first
      | exact Grows.startG _
      | apply Grows.thenSetFwG
      | apply Grows.thenExitG
      | apply Grows.thenMarkDoneG
      | apply Grows.thenSyncMarkDoneG
      | apply Grows.thenExpandG
      | apply Grows.thenSyncLastHitsG
      | apply Grows.thenRejectProvisionalHitsG
      | apply Grows.thenAcceptProvisionalHitsG
      | apply Grows.thenSetOffsBtfG
      | apply Grows.thenSetOffsBtrG
      | apply Grows.thenSetOffsBtG
      | apply Grows.thenSetOffsHhG
      | apply Grows.thenSetQlenBtfG
      | apply Grows.thenSetQlenBtrG
      | apply Grows.thenSearchG
      | apply Grows.thenBacktrackG)

theorem twoOrThreePhase3Body_grows (two : Bool) (orc : Oracle) (st : St) (r : Read) :
    Grows st (twoOrThreePhase3Body two orc st r) := by
  unfold twoOrThreePhase3Body
  dsimp only
  split_ifs <;>
    repeat (with_reducible first
      | exact Grows.startG _
      | apply Grows.thenSetFwG
      | apply Grows.thenExitG
      | apply Grows.thenMarkDoneG
      | apply Grows.thenSyncMarkDoneG
      | apply Grows.thenExpandG
      | apply Grows.thenSyncLastHitsG
      | apply Grows.thenRejectProvisionalHitsG
      | apply Grows.thenAcceptProvisionalHitsG
      | apply Grows.thenSetOffsBtfG
      | apply Grows.thenSetOffsBtrG
      | apply Grows.thenSetOffsBtG
      | apply Grows.thenSetOffsHhG
      | apply Grows.thenSetQlenBtfG
      | apply Grows.thenSetQlenBtrG
      | apply Grows.thenSearchG
      | apply Grows.thenBacktrackG)

theorem seededPhase1Body_grows (cfg : Config) (seedLen seedMms : Int) (orc : Oracle) (st : St) (r : Read) :
    Grows st (seededPhase1Body cfg seedLen seedMms orc st r) := by
  unfold seededPhase1Body
  dsimp only
  split_ifs <;>
    repeat (with_reducible first
      | exact Grows.startG _
      | apply Grows.thenSetFwG
      | apply Grows.thenExitG
      | apply Grows.thenMarkDoneG
      | apply Grows.thenSyncMarkDoneG
      | apply Grows.thenExpandG
      | apply Grows.thenSyncLastHitsG
      | apply Grows.thenRejectProvisionalHitsG
      | apply Grows.thenAcceptProvisionalHitsG
      | apply Grows.thenSetOffsBtfG
      | apply Grows.thenSetOffsBtrG
      | apply Grows.thenSetOffsBtG
      | apply Grows.thenSetOffsHhG
      | apply Grows.thenSetQlenBtfG
      | apply Grows.thenSetQlenBtrG
      | apply Grows.thenSearchG
      | apply Grows.thenBacktrackG)

theorem seededPhase2Body_grows (seedLen seedMms : Int) (orc : Oracle) (st : St) (r : Read) :
    Grows st (seededPhase2Body seedLen seedMms orc st r) := by
  unfold seededPhase2Body
  dsimp only
  split_ifs <;>
    repeat (with_reducible first
      | exact Grows.startG _
      | apply Grows.thenSetFwG
      | apply Grows.thenExitG
      | apply Grows.thenMarkDoneG
      | apply Grows.thenSyncMarkDoneG
      | apply Grows.thenExpandG
      | apply Grows.thenSyncLastHitsG
      | apply Grows.thenRejectProvisionalHitsG
      | apply Grows.thenAcceptProvisionalHitsG
      | apply Grows.thenSetOffsBtfG
      | apply Grows.thenSetOffsBtrG
      | apply Grows.thenSetOffsBtG
      | apply Grows.thenSetOffsHhG
      | apply Grows.thenSetQlenBtfG
      | apply Grows.thenSetQlenBtrG
      | apply Grows.thenSearchG
      | apply Grows.thenBacktrackG)

theorem seededPhase3Extend_grows (seedLen : Int) (orc : Oracle) (st : St) (r : Read) :
    Grows st (seededPhase3Extend seedLen orc st r).1 := by
  unfold seededPhase3Extend
  dsimp only
  split_ifs <;>
    repeat (with_reducible first
      | exact Grows.startG _
      | apply Grows.thenSetFwG
      | apply Grows.thenExitG
      | apply Grows.thenMarkDoneG
      | apply Grows.thenSyncMarkDoneG
      | apply Grows.thenExpandG
      | apply Grows.thenSyncLastHitsG
      | apply Grows.thenRejectProvisionalHitsG
      | apply Grows.thenAcceptProvisionalHitsG
      | apply Grows.thenSetOffsBtfG
      | apply Grows.thenSetOffsBtrG
      | apply Grows.thenSetOffsBtG
      | apply Grows.thenSetOffsHhG
      | apply Grows.thenSetQlenBtfG
      | apply Grows.thenSetQlenBtrG
      | apply Grows.thenSearchG
      | apply Grows.thenBacktrackG
      | refine Grows.seqG ?_ (extendPartials_grows _ _ _ _ _ _ _ _))

theorem seededPhase3Hh_grows (seedLen seedMms : Int) (orc : Oracle) (st : St) (r : Read) :
    Grows st (seededPhase3Hh seedLen seedMms orc st r).1 := by
  unfold seededPhase3Hh
  dsimp only
  split_ifs <;>
    repeat (with_reducible first
      | exact Grows.startG _
      | apply Grows.thenSetFwG
      | apply Grows.thenExitG
      | apply Grows.thenMarkDoneG
      | apply Grows.thenSyncMarkDoneG
      | apply Grows.thenExpandG
      | apply Grows.thenSyncLastHitsG
      | apply Grows.thenRejectProvisionalHitsG
      | apply Grows.thenAcceptProvisionalHitsG
      | apply Grows.thenSetOffsBtfG
      | apply Grows.thenSetOffsBtrG
      | apply Grows.thenSetOffsBtG
      | apply Grows.thenSetOffsHhG
      | apply Grows.thenSetQlenBtfG
      | apply Grows.thenSetQlenBtrG
      | apply Grows.thenSearchG
      | apply Grows.thenBacktrackG)

theorem seededPhase3Seedlings_grows (seedLen seedMms : Int) (orc : Oracle) (st : St) (r : Read) :
    Grows st (seededPhase3Seedlings seedLen seedMms orc st r) := by
  unfold seededPhase3Seedlings
  dsimp only
  split_ifs <;>
    repeat (with_reducible first
      | exact Grows.startG _
      | apply Grows.thenSetFwG
      | apply Grows.thenExitG
      | apply Grows.thenMarkDoneG
      | apply Grows.thenSyncMarkDoneG
      | apply Grows.thenExpandG
      | apply Grows.thenSyncLastHitsG
      | apply Grows.thenRejectProvisionalHitsG
      | apply Grows.thenAcceptProvisionalHitsG
      | apply Grows.thenSetOffsBtfG
      | apply Grows.thenSetOffsBtrG
      | apply Grows.thenSetOffsBtG
      | apply Grows.thenSetOffsHhG
      | apply Grows.thenSetQlenBtfG
      | apply Grows.thenSetQlenBtrG
      | apply Grows.thenSearchG
      | apply Grows.thenBacktrackG)

theorem seededPhase4Extend_grows (seedLen : Int) (orc : Oracle) (st : St) (r : Read) :
    Grows st (seededPhase4Extend seedLen orc st r).1 := by
  unfold seededPhase4Extend
  dsimp only
  split_ifs <;>
    repeat (with_reducible first
      | exact Grows.startG _
      | apply Grows.thenSetFwG
      | apply Grows.thenExitG
      | apply Grows.thenMarkDoneG
      | apply Grows.thenSyncMarkDoneG
      | apply Grows.thenExpandG
      | apply Grows.thenSyncLastHitsG
      | apply Grows.thenRejectProvisionalHitsG
      | apply Grows.thenAcceptProvisionalHitsG
      | apply Grows.thenSetOffsBtfG
      | apply Grows.thenSetOffsBtrG
      | apply Grows.thenSetOffsBtG
      | apply Grows.thenSetOffsHhG
      | apply Grows.thenSetQlenBtfG
      | apply Grows.thenSetQlenBtrG
      | apply Grows.thenSearchG
      | apply Grows.thenBacktrackG
      | refine Grows.seqG ?_ (extendPartials_grows _ _ _ _ _ _ _ _))

theorem seededPhase4Hh_grows (seedLen seedMms : Int) (orc : Oracle) (st : St) (r : Read) :
    Grows st (seededPhase4Hh seedLen seedMms orc st r) := by
  unfold seededPhase4Hh
  dsimp only
  split_ifs <;>
    repeat (with_reducible first
      | exact Grows.startG _
      | apply Grows.thenSetFwG
      | apply Grows.thenExitG
      | apply Grows.thenMarkDoneG
      | apply Grows.thenSyncMarkDoneG
      | apply Grows.thenExpandG
      | apply Grows.thenSyncLastHitsG
      | apply Grows.thenRejectProvisionalHitsG
      | apply Grows.thenAcceptProvisionalHitsG
      | apply Grows.thenSetOffsBtfG
      | apply Grows.thenSetOffsBtrG
      | apply Grows.thenSetOffsBtG
      | apply Grows.thenSetOffsHhG
      | apply Grows.thenSetQlenBtfG
      | apply Grows.thenSetQlenBtrG
      | apply Grows.thenSearchG
      | apply Grows.thenBacktrackG)

theorem seededPhase3Body_grows (seedLen seedMms : Int) (orc : Oracle) (st : St) (r : Read) :
    Grows st (seededPhase3Body seedLen seedMms orc st r) := by
  have e0 : Grows st (st.setFw false) := (Grows.startG _).thenSetFwG _
  have e1 := Grows.seqG e0 (seededPhase3Extend_grows seedLen orc (st.setFw false) r)
  have e2 := Grows.seqG e1 (seededPhase3Hh_grows seedLen seedMms orc _ r)
  have e3 := Grows.seqG e2 (seededPhase3Seedlings_grows seedLen seedMms orc _ r)
  unfold seededPhase3Body
  dsimp only
  split_ifs
  · exact Grows.startG _
  · exact e1
  · exact e2.thenMarkDoneG _
  · exact e3

theorem seededPhase4Body_grows (seedLen seedMms : Int) (orc : Oracle) (st : St) (r : Read) :
    Grows st (seededPhase4Body seedLen seedMms orc st r) := by
  have e0 : Grows st (st.setFw true) := (Grows.startG _).thenSetFwG _
  have e1 := Grows.seqG e0 (seededPhase4Extend_grows seedLen orc (st.setFw true) r)
  have e2 := Grows.seqG e1 (seededPhase4Hh_grows seedLen seedMms orc _ r)
  unfold seededPhase4Body
  dsimp only
  split_ifs
  · exact Grows.startG _
  · exact e1
  · exact e2
theorem OneHitOracle.hits_le {orc : Oracle} (h : OneHitOracle orc) (c : SearchCall) :
    (orc c).hits.length ≤ 1 := by
  have := (h c).1
  omega

theorem OneHitOracle.prov_le {orc : Oracle} (h : OneHitOracle orc) (c : SearchCall) :
    (orc c).prov.length ≤ 1 := by
  have := (h c).1
  omega

/-- The body of the exact search adds at most one hit in `oneHit` mode. -/
theorem exactSearchBody_atMostOne (cfg : Config) (orc : Oracle) (st : St) (r : Read)
    (hone : cfg.oneHit = true) (horc : OneHitOracle orc)
    (hsync : st.lastHits = st.sink.numHits) :
    (exactSearchBody cfg orc st r).sink.numHits ≤ st.sink.numHits + 1 := by
  have hle := horc.hits_le
  unfold exactSearchBody
  dsimp only
  split_ifs <;> simp_all

theorem twoOrThreePhase1Body_atMostOne (cfg : Config) (two : Bool) (orc : Oracle) (st : St)
    (r : Read) (horc : OneHitOracle orc) :
    (twoOrThreePhase1Body cfg two orc st r).sink.numHits ≤ st.sink.numHits + 1 ∧
      (st.sink.numHits < (twoOrThreePhase1Body cfg two orc st r).sink.numHits →
        r.patid < (expandDone st.doneMask r.patid).length →
        testDone (twoOrThreePhase1Body cfg two orc st r).doneMask r.patid = true) := by
  have hle := horc.hits_le
  unfold twoOrThreePhase1Body
  dsimp only
  split_ifs <;> simp_all [testDone_setDone]

theorem twoOrThreePhase2Body_atMostOne (two : Bool) (orc : Oracle) (st : St) (r : Read)
    (horc : OneHitOracle orc) :
    (twoOrThreePhase2Body two orc st r).sink.numHits ≤ st.sink.numHits + 1 ∧
      (st.sink.numHits < (twoOrThreePhase2Body two orc st r).sink.numHits →
        r.patid < st.doneMask.length →
        testDone (twoOrThreePhase2Body two orc st r).doneMask r.patid = true) := by
  have hle := horc.hits_le
  unfold twoOrThreePhase2Body
  dsimp only
  split_ifs <;> simp_all [testDone_setDone]

theorem twoOrThreePhase3Body_atMostOne (two : Bool) (orc : Oracle) (st : St) (r : Read)
    (horc : OneHitOracle orc) :
    (twoOrThreePhase3Body two orc st r).sink.numHits ≤ st.sink.numHits + 1 := by
  have hle := horc.hits_le
  unfold twoOrThreePhase3Body
  dsimp only
  split_ifs <;> simp_all

/-- The phase-1 body of the 1-mismatch search in `oneHit` mode, from a state
with `lastHits == sink.numHits()` and no provisional hit: at most one hit is
added, a hit sets the done bit, and the loop invariant holds again. -/
theorem mismatchSearchPhase1Body_atMostOne (cfg : Config) (orc : Oracle) (st : St) (r : Read)
    (hone : cfg.oneHit = true) (horc : OneHitOracle orc)
    (hsync : st.lastHits = st.sink.numHits) (hprov : st.sink.prov = []) :
    (mismatchSearchPhase1Body cfg orc st r).sink.numHits ≤ st.sink.numHits + 1 ∧
      (st.sink.numHits < (mismatchSearchPhase1Body cfg orc st r).sink.numHits →
        testDone (mismatchSearchPhase1Body cfg orc st r).doneMask r.patid = true) ∧
      (mismatchSearchPhase1Body cfg orc st r).sink.prov = [] := by
  have hle := horc.hits_le
  have hpl := horc.prov_le
  have hz : ∀ c, 0 < (orc c).hits.length → (orc c).prov = [] := by
    intro c hc
    have := (horc c).1
    exact List.length_eq_zero.mp (by omega)
  obtain ⟨oneHit, revcomp, qUpto, qSameLen, nsToNs, maxBts, seed, verbose⟩ := cfg
  dsimp only at hone
  subst hone
  unfold mismatchSearchPhase1Body mismatchSearchPhase1Exact mismatchSearchPhase1Inexact
  dsimp only
  split_ifs <;> simp_all [testDone_syncSet]

/-- The phase-2 body of the 1-mismatch search in `oneHit` mode adds at most one
hit (the counter `lastHits` is only read when `revcomp` is set, and is then kept
equal to the sink's counter). -/
theorem mismatchSearchPhase2Body_atMostOne (cfg : Config) (orc : Oracle) (st : St) (r : Read)
    (hone : cfg.oneHit = true) (horc : OneHitOracle orc)
    (hsync : cfg.revcomp = true → st.lastHits = st.sink.numHits) :
    (mismatchSearchPhase2Body cfg orc st r).sink.numHits ≤ st.sink.numHits + 1 ∧
      (cfg.revcomp = true → (mismatchSearchPhase2Body cfg orc st r).lastHits =
        (mismatchSearchPhase2Body cfg orc st r).sink.numHits) := by
  have hle := horc.hits_le
  obtain ⟨oneHit, revcomp, qUpto, qSameLen, nsToNs, maxBts, seed, verbose⟩ := cfg
  dsimp only at hone hsync ⊢
  subst hone
  unfold mismatchSearchPhase2Body
  dsimp only
  split_ifs <;> simp_all

theorem seededPhase1Body_atMostOne (cfg : Config) (seedLen seedMms : Int) (orc : Oracle)
    (st : St) (r : Read) (horc : OneHitOracle orc) :
    (seededPhase1Body cfg seedLen seedMms orc st r).sink.numHits ≤ st.sink.numHits + 1 ∧
      (st.sink.numHits < (seededPhase1Body cfg seedLen seedMms orc st r).sink.numHits →
        r.patid < (expandDone st.doneMask r.patid).length →
        testDone (seededPhase1Body cfg seedLen seedMms orc st r).doneMask r.patid = true) := by
  have hle := horc.hits_le
  unfold seededPhase1Body
  dsimp only
  split_ifs <;> simp_all [testDone_setDone]

/-- A backtracker run that collects seedlings reports no hit. -/
theorem OneHitOracle.seedling_hits {orc : Oracle} (h : OneHitOracle orc) (x : St)
    (b : Backtracker) (muts : Option PartialAlignment) (e qf : Bool) (q ql : List Nat)
    (hb : 0 < b.reportSeedlings) :
    (orc (x.call (SearchKind.backtrack b muts) e qf q ql)).hits = [] :=
  (h _).2 b muts rfl hb

theorem seededPhase2Body_atMostOne (seedLen seedMms : Int) (orc : Oracle) (st : St) (r : Read)
    (horc : OneHitOracle orc) (hm : 0 ≤ seedMms) (hrs : st.btr.reportSeedlings = seedMms) :
    (seededPhase2Body seedLen seedMms orc st r).sink.numHits ≤ st.sink.numHits + 1 ∧
      (st.sink.numHits < (seededPhase2Body seedLen seedMms orc st r).sink.numHits →
        r.patid < st.doneMask.length →
        testDone (seededPhase2Body seedLen seedMms orc st r).doneMask r.patid = true) := by
  have hle := horc.hits_le
  by_cases hz : seedMms = 0
  · unfold seededPhase2Body
    dsimp only
    split_ifs <;> simp_all [testDone_setDone]
  · have hpos : 0 < seedMms := by omega
    unfold seededPhase2Body
    dsimp only
    split_ifs <;>
      simp_all [testDone_setDone, horc.seedling_hits, Backtracker.setOffs, Backtracker.setQlen]

/-- The loop over the partial alignments of a read leaves after the first hit:
it adds at most one hit, returns `hit = true` exactly when it added one, keeps
the size of the bitmap, and a hit sets the done bit of a read in range. -/
theorem extendPartials_atMostOne (orc : Oracle) (b : Backtracker) (qf : Bool) (q ql : List Nat)
    (patid : Nat) (horc : OneHitOracle orc) (pals : List PartialAlignment) :
    ∀ st, st.sink.numHits ≤ (extendPartials orc b qf q ql patid pals st).1.sink.numHits ∧
      (extendPartials orc b qf q ql patid pals st).1.sink.numHits ≤ st.sink.numHits + 1 ∧
      ((extendPartials orc b qf q ql patid pals st).2 = true ↔
        st.sink.numHits < (extendPartials orc b qf q ql patid pals st).1.sink.numHits) ∧
      (extendPartials orc b qf q ql patid pals st).1.doneMask.length = st.doneMask.length ∧
      ((extendPartials orc b qf q ql patid pals st).2 = true → patid < st.doneMask.length →
        testDone (extendPartials orc b qf q ql patid pals st).1.doneMask patid = true) := by
  induction pals with
  | nil =>
    intro st
    simp [extendPartials]
  | cons pal pals ih =>
    intro st
    have hle := horc.hits_le (st.call (SearchKind.backtrack b (some pal)) b.ebwtFw qf q ql)
    have hn : (st.backtrack orc b (some pal) qf q ql Pam.none).sink.numHits =
        st.sink.numHits +
          (orc (st.call (SearchKind.backtrack b (some pal)) b.ebwtFw qf q ql)).hits.length := rfl
    have hd : (st.backtrack orc b (some pal) qf q ql Pam.none).doneMask = st.doneMask := rfl
    unfold extendPartials
    dsimp only
    by_cases h : hitSince st (st.backtrack orc b (some pal) qf q ql Pam.none) = true
    · rw [if_pos h]
      rw [hitSince_iff] at h
      refine ⟨?_, ?_, ?_, ?_, ?_⟩
      · simp only [St.markDone_sink]; omega
      · simp only [St.markDone_sink]; omega
      · simp only [St.markDone_sink, true_iff]; exact h
      · simp only [St.markDone_doneMask, length_setDone, hd]
      · intro _ hr
        simp only [St.markDone_doneMask, hd, testDone_setDone]
        simp [hr]
    · rw [if_neg h]
      rw [hitSince_iff] at h
      obtain ⟨i1, i2, i3, i4, i5⟩ := ih (st.backtrack orc b (some pal) qf q ql Pam.none)
      have he : (st.backtrack orc b (some pal) qf q ql Pam.none).sink.numHits =
          st.sink.numHits := by omega
      rw [he] at i1 i2 i3
      rw [hd] at i4 i5
      exact ⟨i1, i2, i3, i4, i5⟩

theorem seededPhase3Extend_atMostOne (seedLen : Int) (orc : Oracle) (st : St) (r : Read)
    (horc : OneHitOracle orc) :
    st.sink.numHits ≤ (seededPhase3Extend seedLen orc st r).1.sink.numHits ∧
      (seededPhase3Extend seedLen orc st r).1.sink.numHits ≤ st.sink.numHits + 1 ∧
      ((seededPhase3Extend seedLen orc st r).2 = true ↔
        st.sink.numHits < (seededPhase3Extend seedLen orc st r).1.sink.numHits) ∧
      (seededPhase3Extend seedLen orc st r).1.doneMask.length = st.doneMask.length ∧
      ((seededPhase3Extend seedLen orc st r).2 = true → r.patid < st.doneMask.length →
        testDone (seededPhase3Extend seedLen orc st r).1.doneMask r.patid = true) := by
  unfold seededPhase3Extend
  dsimp only
  split_ifs
  · simpa using extendPartials_atMostOne orc _ false r.patRc r.qualRc r.patid horc
      (getPartials st.pamRc r.patid)
      (st.setOffsBtr (seedOffsFull (minU32 (u32 r.patRc.length) (u32OfInt seedLen))))
  · simpa using extendPartials_atMostOne orc _ false r.patRc r.qualRc r.patid horc
      (getPartials st.pamRc r.patid) st
  · simp

theorem seededPhase4Extend_atMostOne (seedLen : Int) (orc : Oracle) (st : St) (r : Read)
    (horc : OneHitOracle orc) :
    st.sink.numHits ≤ (seededPhase4Extend seedLen orc st r).1.sink.numHits ∧
      (seededPhase4Extend seedLen orc st r).1.sink.numHits ≤ st.sink.numHits + 1 ∧
      ((seededPhase4Extend seedLen orc st r).2 = true ↔
        st.sink.numHits < (seededPhase4Extend seedLen orc st r).1.sink.numHits) ∧
      (seededPhase4Extend seedLen orc st r).1.doneMask.length = st.doneMask.length ∧
      ((seededPhase4Extend seedLen orc st r).2 = true → r.patid < st.doneMask.length →
        testDone (seededPhase4Extend seedLen orc st r).1.doneMask r.patid = true) := by
  unfold seededPhase4Extend
  dsimp only
  split_ifs
  · simpa using extendPartials_atMostOne orc _ true r.patFw r.qualFw r.patid horc
      (getPartials st.pamFw r.patid)
      (st.setOffsBtf (seedOffsFull (minU32 (u32 r.patFw.length) (u32OfInt seedLen))))
  · simpa using extendPartials_atMostOne orc _ true r.patFw r.qualFw r.patid horc
      (getPartials st.pamFw r.patid) st
  · simp

theorem seededPhase3Hh_atMostOne (seedLen seedMms : Int) (orc : Oracle) (st : St) (r : Read)
    (horc : OneHitOracle orc) :
    st.sink.numHits ≤ (seededPhase3Hh seedLen seedMms orc st r).1.sink.numHits ∧
      (seededPhase3Hh seedLen seedMms orc st r).1.sink.numHits ≤ st.sink.numHits + 1 ∧
      ((seededPhase3Hh seedLen seedMms orc st r).2 = true ↔
        st.sink.numHits < (seededPhase3Hh seedLen seedMms orc st r).1.sink.numHits) := by
  have hle := horc.hits_le
  unfold seededPhase3Hh
  dsimp only
  split_ifs <;> simp_all

theorem seededPhase3Seedlings_numHits (seedLen seedMms : Int) (orc : Oracle) (st : St)
    (r : Read) (horc : OneHitOracle orc) (hrs : 0 < st.btf.reportSeedlings) :
    (seededPhase3Seedlings seedLen seedMms orc st r).sink.numHits = st.sink.numHits := by
  unfold seededPhase3Seedlings
  dsimp only
  split_ifs <;>
    simp_all [horc.seedling_hits, Backtracker.setOffs, Backtracker.setQlen]

theorem seededPhase4Hh_atMostOne (seedLen seedMms : Int) (orc : Oracle) (st : St) (r : Read)
    (horc : OneHitOracle orc) :
    st.sink.numHits ≤ (seededPhase4Hh seedLen seedMms orc st r).sink.numHits ∧
      (seededPhase4Hh seedLen seedMms orc st r).sink.numHits ≤ st.sink.numHits + 1 ∧
      (st.sink.numHits < (seededPhase4Hh seedLen seedMms orc st r).sink.numHits →
        r.patid < st.doneMask.length →
        testDone (seededPhase4Hh seedLen seedMms orc st r).doneMask r.patid = true) := by
  have hle := horc.hits_le
  unfold seededPhase4Hh
  dsimp only
  split_ifs <;> simp_all [testDone_setDone]

theorem extendPartials_btf (orc : Oracle) (b : Backtracker) (qf : Bool) (q ql : List Nat)
    (patid : Nat) (pals : List PartialAlignment) :
    ∀ st, (extendPartials orc b qf q ql patid pals st).1.btf = st.btf := by
  induction pals with
  | nil => intro st; rfl
  | cons pal pals ih =>
    intro st
    unfold extendPartials
    dsimp only
    split_ifs
    · rfl
    · rw [ih]; rfl

theorem seededPhase3Extend_btf (seedLen : Int) (orc : Oracle) (st : St) (r : Read) :
    (seededPhase3Extend seedLen orc st r).1.btf = st.btf := by
  unfold seededPhase3Extend
  dsimp only
  split_ifs <;> simp [extendPartials_btf]

theorem seededPhase3Hh_btf (seedLen seedMms : Int) (orc : Oracle) (st : St) (r : Read) :
    (seededPhase3Hh seedLen seedMms orc st r).1.btf = st.btf := by
  unfold seededPhase3Hh
  dsimp only
  split_ifs <;> simp

theorem seededPhase3Seedlings_reportSeedlings (seedLen seedMms : Int) (orc : Oracle) (st : St)
    (r : Read) :
    (seededPhase3Seedlings seedLen seedMms orc st r).btf.reportSeedlings =
      st.btf.reportSeedlings := by
  unfold seededPhase3Seedlings
  dsimp only
  split_ifs <;> simp [Backtracker.setOffs, Backtracker.setQlen]

theorem seededPhase3Body_reportSeedlings (seedLen seedMms : Int) (orc : Oracle) (st : St)
    (r : Read) :
    (seededPhase3Body seedLen seedMms orc st r).btf.reportSeedlings =
      st.btf.reportSeedlings := by
  unfold seededPhase3Body
  dsimp only
  split_ifs
  · rfl
  · rw [seededPhase3Extend_btf]; rfl
  · rw [St.markDone_btf, seededPhase3Hh_btf, seededPhase3Extend_btf]; rfl
  · rw [seededPhase3Seedlings_reportSeedlings, seededPhase3Hh_btf, seededPhase3Extend_btf]; rfl

theorem seededPhase2Body_reportSeedlings (seedLen seedMms : Int) (orc : Oracle) (st : St)
    (r : Read) :
    (seededPhase2Body seedLen seedMms orc st r).btr.reportSeedlings =
      st.btr.reportSeedlings := by
  unfold seededPhase2Body
  dsimp only
  split_ifs <;> simp [Backtracker.setOffs, Backtracker.setQlen]

/-- The phase-3 body of the seeded search adds at most one hit, and a hit sets
the done bit of a read in range (the forward seedlings are collected by a search
that reports no hit). -/
theorem seededPhase3Body_atMostOne (seedLen seedMms : Int) (orc : Oracle) (st : St) (r : Read)
    (horc : OneHitOracle orc) (hrs : 0 < st.btf.reportSeedlings) :
    (seededPhase3Body seedLen seedMms orc st r).sink.numHits ≤ st.sink.numHits + 1 ∧
      (st.sink.numHits < (seededPhase3Body seedLen seedMms orc st r).sink.numHits →
        r.patid < st.doneMask.length →
        testDone (seededPhase3Body seedLen seedMms orc st r).doneMask r.patid = true) := by
  obtain ⟨e1, e2, e3, e4, e5⟩ := seededPhase3Extend_atMostOne seedLen orc (st.setFw false) r horc
  obtain ⟨h1, h2, h3⟩ := seededPhase3Hh_atMostOne seedLen seedMms orc
    (seededPhase3Extend seedLen orc (st.setFw false) r).1 r horc
  have hd := seededPhase3Hh_doneMask seedLen seedMms orc
    (seededPhase3Extend seedLen orc (st.setFw false) r).1 r
  have hs := seededPhase3Seedlings_numHits seedLen seedMms orc
    (seededPhase3Hh seedLen seedMms orc (seededPhase3Extend seedLen orc (st.setFw false) r).1 r).1
    r horc (by rw [seededPhase3Hh_btf, seededPhase3Extend_btf]; exact hrs)
  simp only [St.setFw_sink, St.setFw_doneMask] at e1 e2 e3 e4 e5
  unfold seededPhase3Body
  dsimp only
  split_ifs with c1 c2 c3
  · exact ⟨by omega, fun h => absurd h (by omega)⟩
  · exact ⟨e2, fun _ hr => e5 c2 hr⟩
  · have he : (seededPhase3Extend seedLen orc (st.setFw false) r).1.sink.numHits =
        st.sink.numHits := by
      have := mt e3.mpr c2
      omega
    refine ⟨by simp only [St.markDone_sink]; omega, fun _ hr => ?_⟩
    simp only [St.markDone_doneMask, testDone_setDone, hd]
    simp [e4, hr]
  · have he : (seededPhase3Extend seedLen orc (st.setFw false) r).1.sink.numHits =
        st.sink.numHits := by
      have := mt e3.mpr c2
      omega
    have hh : (seededPhase3Hh seedLen seedMms orc
        (seededPhase3Extend seedLen orc (st.setFw false) r).1 r).1.sink.numHits =
        st.sink.numHits := by
      have := mt h3.mpr c3
      omega
    rw [hs, hh]
    exact ⟨by omega, fun h => absurd h (by omega)⟩

/-- The phase-4 body of the seeded search adds at most one hit, and a hit sets
the done bit of a read in range. -/
theorem seededPhase4Body_atMostOne (seedLen seedMms : Int) (orc : Oracle) (st : St) (r : Read)
    (horc : OneHitOracle orc) :
    (seededPhase4Body seedLen seedMms orc st r).sink.numHits ≤ st.sink.numHits + 1 ∧
      (st.sink.numHits < (seededPhase4Body seedLen seedMms orc st r).sink.numHits →
        r.patid < st.doneMask.length →
        testDone (seededPhase4Body seedLen seedMms orc st r).doneMask r.patid = true) := by
  obtain ⟨e1, e2, e3, e4, e5⟩ := seededPhase4Extend_atMostOne seedLen orc (st.setFw true) r horc
  obtain ⟨h1, h2, h3⟩ := seededPhase4Hh_atMostOne seedLen seedMms orc
    (seededPhase4Extend seedLen orc (st.setFw true) r).1 r horc
  simp only [St.setFw_sink, St.setFw_doneMask] at e1 e2 e3 e4 e5
  unfold seededPhase4Body
  dsimp only
  split_ifs with c1 c2
  · exact ⟨by omega, fun h => absurd h (by omega)⟩
  · exact ⟨e2, fun _ hr => e5 c2 hr⟩
  · have he : (seededPhase4Extend seedLen orc (st.setFw true) r).1.sink.numHits =
        st.sink.numHits := by
      have := mt e3.mpr c2
      omega
    rw [he] at h1 h2 h3
    exact ⟨h2, fun hg hr => h3 hg (by rw [e4]; exact hr)⟩

/-- Within the iteration of a read, from a state without provisional hits: the
hit count of every other read stays, and the hit count of the read grows by what
the hit counter grew. -/
theorem Grows.count_hits {st st1 : St} (hg : Grows st st1) (hprov : st.sink.prov = []) :
    (∀ p, p ≠ st.patId → hitsOf st1 p = hitsOf st p) ∧
      hitsOf st1 st.patId + st.sink.numHits = hitsOf st st.patId + st1.sink.numHits := by
  obtain ⟨_, new, e1, e2, e3⟩ := hg
  have hid := (e3 (by rw [hprov]; simp)).1
  unfold hitsOf
  rw [e1]
  constructor
  · intro p hp
    rw [List.filter_append, List.length_append]
    have : new.filter (fun h => decide (h.patId = p)) = [] := by
      rw [List.filter_eq_nil_iff]
      intro h hh
      simp only [decide_eq_true_eq]
      rw [hid h hh]
      exact fun hx => hp hx.symm
    rw [this]
    simp
  · have : new.filter (fun h => decide (h.patId = st.patId)) = new := by
      rw [List.filter_eq_self]
      intro h hh
      simp only [decide_eq_true_eq]
      exact hid h hh
    rw [List.filter_append, List.length_append, this, e2]
    omega

/-- The read loop of a phase keeps the `oneHit` invariant.  `skipD m p` says
that the body skips read `p` when the bitmap is `m`; `marking` says that the
body sets the done bit of a read it reports a hit for; `PreL` is what the body
needs from the state, given the reads still to come. -/
theorem readLoop_oneHit (cfg : Config) (body : St → Read → St) (marking : Bool)
    (skipD : List Bool → Nat → Prop) (PreL : List Read → St → Prop)
    (hmono : ∀ m m1 p, MaskLe m m1 → skipD m p → skipD m1 p)
    (hget : ∀ reads st rd, PreL reads st → PreL reads (st.getRead rd))
    (hbody : ∀ r rs st rd, rd.patid = r.patid → r.patid < cfg.qUpto → st.patId = r.patid →
      PreL (r :: rs) st →
      st.sink.prov = [] ∧ Grows st (body st rd) ∧
        (body st rd).sink.numHits ≤ st.sink.numHits + 1 ∧
        (skipD st.doneMask r.patid → (body st rd).sink.numHits = st.sink.numHits) ∧
        (marking = true → st.sink.numHits < (body st rd).sink.numHits →
          testDone (body st rd).doneMask r.patid = true) ∧
        MaskLe st.doneMask (body st rd).doneMask ∧ PreL rs (body st rd)) :
    ∀ (reads : List Read) (st : St), (reads.map Read.patid).Nodup → PreL reads st →
      (∀ p, hitsOf st p ≤ 1) →
      (∀ p ∈ reads.map Read.patid, 1 ≤ hitsOf st p → skipD st.doneMask p) →
      (marking = true → ∀ p, 1 ≤ hitsOf st p → testDone st.doneMask p = true) →
      (∀ p, hitsOf (readLoop cfg body reads st) p ≤ 1) ∧
        (marking = true → ∀ p, 1 ≤ hitsOf (readLoop cfg body reads st) p →
          testDone (readLoop cfg body reads st).doneMask p = true) := by
  intro reads
  induction reads with
  | nil =>
    intro st _ _ hA _ hC
    exact ⟨hA, hC⟩
  | cons r rs ih =>
    intro st hnd hpre hA hB hC
    unfold readLoop
    dsimp only
    split_ifs with h1 h2 h3
    · exact ⟨hA, hC⟩
    · exact ⟨hA, hC⟩
    · exact ⟨hA, hC⟩
    · simp only [List.map_cons, List.nodup_cons] at hnd
      obtain ⟨hb0, hg, hle, hskip, hmark, hmask, hpre'⟩ :=
        hbody r rs (st.getRead (presentRead st.reverse r)) (presentRead st.reverse r)
          (presentRead_patid _ _) (by omega) (by simp) (hget _ _ _ hpre)
      obtain ⟨ho, hs⟩ := hg.count_hits hb0
      simp only [St.getRead_patId, presentRead_patid, St.getRead_sink, St.getRead_doneMask] at *
      have hsame : ∀ p, hitsOf (st.getRead (presentRead st.reverse r)) p = hitsOf st p :=
        fun _ => rfl
      rw [hsame] at hs
      have hA' : ∀ p, hitsOf (body (st.getRead (presentRead st.reverse r))
          (presentRead st.reverse r)) p ≤ 1 := by
        intro p
        by_cases hp : p = r.patid
        · subst hp
          by_cases hz : 1 ≤ hitsOf st r.patid
          · have := hskip (hB r.patid (by simp) hz)
            have := hA r.patid
            omega
          · omega
        · rw [ho p hp, hsame]
          exact hA p
      refine ih _ hnd.2 hpre' hA' ?_ ?_
      · intro p hp hz
        have hne : p ≠ r.patid := fun hx => hnd.1 (hx ▸ hp)
        rw [ho p hne, hsame] at hz
        exact hmono _ _ _ hmask (hB p (by simp [hp]) hz)
      · intro hm p hz
        by_cases hp : p = r.patid
        · subst hp
          by_cases hgrew : st.sink.numHits < (body (st.getRead (presentRead st.reverse r))
              (presentRead st.reverse r)).sink.numHits
          · exact hmark hm hgrew
          · exact hmask _ (hC hm _ (by omega))
        · rw [ho p hp, hsame] at hz
          exact hmask _ (hC hm _ hz)

theorem extendPartials_prov (orc : Oracle) (b : Backtracker) (qf : Bool) (q ql : List Nat)
    (patid : Nat) (pals : List PartialAlignment) :
    ∀ st, (extendPartials orc b qf q ql patid pals st).1.sink.prov = st.sink.prov := by
  induction pals with
  | nil => intro st; rfl
  | cons pal pals ih =>
    intro st
    unfold extendPartials
    dsimp only
    split_ifs
    · simp
    · rw [ih]; simp

theorem exactSearchBody_prov (cfg : Config) (orc : Oracle) (st : St) (r : Read) :
    (exactSearchBody cfg orc st r).sink.prov = st.sink.prov := by
  unfold exactSearchBody
  dsimp only
  split_ifs <;> simp

theorem mismatchSearchPhase2Body_prov (cfg : Config) (orc : Oracle) (st : St) (r : Read) :
    (mismatchSearchPhase2Body cfg orc st r).sink.prov = st.sink.prov := by
  unfold mismatchSearchPhase2Body
  dsimp only
  split_ifs <;> simp

theorem twoOrThreePhase1Body_prov (cfg : Config) (two : Bool) (orc : Oracle) (st : St) (r : Read) :
    (twoOrThreePhase1Body cfg two orc st r).sink.prov = st.sink.prov := by
  unfold twoOrThreePhase1Body
  dsimp only
  split_ifs <;> simp

theorem twoOrThreePhase2Body_prov (two : Bool) (orc : Oracle) (st : St) (r : Read) :
    (twoOrThreePhase2Body two orc st r).sink.prov = st.sink.prov := by
  unfold twoOrThreePhase2Body
  dsimp only
  split_ifs <;> simp

theorem twoOrThreePhase3Body_prov (two : Bool) (orc : Oracle) (st : St) (r : Read) :
    (twoOrThreePhase3Body two orc st r).sink.prov = st.sink.prov := by
  unfold twoOrThreePhase3Body
  dsimp only
  split_ifs <;> simp

theorem seededPhase1Body_prov (cfg : Config) (seedLen seedMms : Int) (orc : Oracle) (st : St) (r : Read) :
    (seededPhase1Body cfg seedLen seedMms orc st r).sink.prov = st.sink.prov := by
  unfold seededPhase1Body
  dsimp only
  split_ifs <;> simp

theorem seededPhase2Body_prov (seedLen seedMms : Int) (orc : Oracle) (st : St) (r : Read) :
    (seededPhase2Body seedLen seedMms orc st r).sink.prov = st.sink.prov := by
  unfold seededPhase2Body
  dsimp only
  split_ifs <;> simp

theorem seededPhase3Extend_prov (seedLen : Int) (orc : Oracle) (st : St) (r : Read) :
    (seededPhase3Extend seedLen orc st r).1.sink.prov = st.sink.prov := by
  unfold seededPhase3Extend
  dsimp only
  split_ifs <;> simp [extendPartials_prov]

theorem seededPhase3Hh_prov (seedLen seedMms : Int) (orc : Oracle) (st : St) (r : Read) :
    (seededPhase3Hh seedLen seedMms orc st r).1.sink.prov = st.sink.prov := by
  unfold seededPhase3Hh
  dsimp only
  split_ifs <;> simp

theorem seededPhase3Seedlings_prov (seedLen seedMms : Int) (orc : Oracle) (st : St) (r : Read) :
    (seededPhase3Seedlings seedLen seedMms orc st r).sink.prov = st.sink.prov := by
  unfold seededPhase3Seedlings
  dsimp only
  split_ifs <;> simp

theorem seededPhase4Extend_prov (seedLen : Int) (orc : Oracle) (st : St) (r : Read) :
    (seededPhase4Extend seedLen orc st r).1.sink.prov = st.sink.prov := by
  unfold seededPhase4Extend
  dsimp only
  split_ifs <;> simp [extendPartials_prov]

theorem seededPhase4Hh_prov (seedLen seedMms : Int) (orc : Oracle) (st : St) (r : Read) :
    (seededPhase4Hh seedLen seedMms orc st r).sink.prov = st.sink.prov := by
  unfold seededPhase4Hh
  dsimp only
  split_ifs <;> simp

theorem seededPhase3Body_prov (seedLen seedMms : Int) (orc : Oracle) (st : St) (r : Read) :
    (seededPhase3Body seedLen seedMms orc st r).sink.prov = st.sink.prov := by
  unfold seededPhase3Body
  dsimp only
  split_ifs <;>
    simp [seededPhase3Extend_prov, seededPhase3Hh_prov, seededPhase3Seedlings_prov]

theorem seededPhase4Body_prov (seedLen seedMms : Int) (orc : Oracle) (st : St) (r : Read) :
    (seededPhase4Body seedLen seedMms orc st r).sink.prov = st.sink.prov := by
  unfold seededPhase4Body
  dsimp only
  split_ifs <;> simp [seededPhase4Extend_prov, seededPhase4Hh_prov]

theorem exactSearchBody_size (cfg : Config) (orc : Oracle) (st : St) (r : Read) :
    (exactSearchBody cfg orc st r).doneMask.length = st.doneMask.length := by
  unfold exactSearchBody
  dsimp only
  split_ifs <;> simp [length_setDone]

theorem mismatchSearchPhase2Body_size (cfg : Config) (orc : Oracle) (st : St) (r : Read) :
    (mismatchSearchPhase2Body cfg orc st r).doneMask.length = st.doneMask.length := by
  unfold mismatchSearchPhase2Body
  dsimp only
  split_ifs <;> simp [length_setDone]

theorem twoOrThreePhase2Body_size (two : Bool) (orc : Oracle) (st : St) (r : Read) :
    (twoOrThreePhase2Body two orc st r).doneMask.length = st.doneMask.length := by
  unfold twoOrThreePhase2Body
  dsimp only
  split_ifs <;> simp [length_setDone]

theorem twoOrThreePhase3Body_size (two : Bool) (orc : Oracle) (st : St) (r : Read) :
    (twoOrThreePhase3Body two orc st r).doneMask.length = st.doneMask.length := by
  unfold twoOrThreePhase3Body
  dsimp only
  split_ifs <;> simp [length_setDone]

theorem seededPhase2Body_size (seedLen seedMms : Int) (orc : Oracle) (st : St) (r : Read) :
    (seededPhase2Body seedLen seedMms orc st r).doneMask.length = st.doneMask.length := by
  unfold seededPhase2Body
  dsimp only
  split_ifs <;> simp [length_setDone]

theorem seededPhase4Hh_size (seedLen seedMms : Int) (orc : Oracle) (st : St) (r : Read) :
    (seededPhase4Hh seedLen seedMms orc st r).doneMask.length = st.doneMask.length := by
  unfold seededPhase4Hh
  dsimp only
  split_ifs <;> simp [length_setDone]

theorem mismatchSearchPhase2Body_skip (cfg : Config) (orc : Oracle) (st : St) (r : Read)
    (h : testDone st.doneMask r.patid = true) : mismatchSearchPhase2Body cfg orc st r = st := by
  unfold mismatchSearchPhase2Body
  rw [if_pos h]

theorem twoOrThreePhase2Body_skip (two : Bool) (orc : Oracle) (st : St) (r : Read)
    (h : testDone st.doneMask r.patid = true) : twoOrThreePhase2Body two orc st r = st := by
  unfold twoOrThreePhase2Body
  rw [if_pos h]

theorem twoOrThreePhase3Body_skip (two : Bool) (orc : Oracle) (st : St) (r : Read)
    (h : testDone st.doneMask r.patid = true) : twoOrThreePhase3Body two orc st r = st := by
  unfold twoOrThreePhase3Body
  rw [if_pos h]

theorem seededPhase2Body_skip (seedLen seedMms : Int) (orc : Oracle) (st : St) (r : Read)
    (h : testDone st.doneMask r.patid = true) : seededPhase2Body seedLen seedMms orc st r = st := by
  unfold seededPhase2Body
  rw [if_pos h]

theorem seededPhase3Body_skip (seedLen seedMms : Int) (orc : Oracle) (st : St) (r : Read)
    (h : testDone st.doneMask r.patid = true) : seededPhase3Body seedLen seedMms orc st r = st := by
  unfold seededPhase3Body
  rw [if_pos h]

theorem seededPhase4Body_skip (seedLen seedMms : Int) (orc : Oracle) (st : St) (r : Read)
    (h : testDone st.doneMask r.patid = true) : seededPhase4Body seedLen seedMms orc st r = st := by
  unfold seededPhase4Body
  rw [if_pos h]

theorem maskLe_append (m l : List Bool) : MaskLe m (m ++ l) := by
  intro j h
  unfold testDone at h ⊢
  rw [List.getD_eq_getElem?_getD] at h ⊢
  by_cases hj : j < m.length
  · rw [List.getElem?_append_left hj]
    exact h
  · rw [List.getElem?_eq_none_iff.mpr (by omega)] at h
    simp at h

theorem syncSet_le (m : List Bool) (p : Nat) : MaskLe m (syncSet m p) := by
  unfold syncSet
  split_ifs
  · exact setDone_le m p
  · exact MaskLe.chain (maskLe_append m _) (setDone_le _ p)

theorem mismatchSearchPhase1Body_le (cfg : Config) (orc : Oracle) (st : St) (r : Read) :
    MaskLe st.doneMask (mismatchSearchPhase1Body cfg orc st r).doneMask := by
  have h0 := MaskLe.same st.doneMask
  have h1 := syncSet_le st.doneMask r.patid
  unfold mismatchSearchPhase1Body mismatchSearchPhase1Exact mismatchSearchPhase1Inexact
  dsimp only
  split_ifs <;> first | simpa using h0 | simpa using h1

theorem exactSearchBody_mask (cfg : Config) (orc : Oracle) (st : St) (r : Read) :
    (exactSearchBody cfg orc st r).doneMask = st.doneMask := by
  unfold exactSearchBody
  dsimp only
  split_ifs <;> simp

theorem mismatchSearchPhase2Body_mask (cfg : Config) (orc : Oracle) (st : St) (r : Read) :
    (mismatchSearchPhase2Body cfg orc st r).doneMask = st.doneMask := by
  unfold mismatchSearchPhase2Body
  dsimp only
  split_ifs <;> simp

theorem twoOrThreePhase3Body_mask (two : Bool) (orc : Oracle) (st : St) (r : Read) :
    (twoOrThreePhase3Body two orc st r).doneMask = st.doneMask := by
  unfold twoOrThreePhase3Body
  dsimp only
  split_ifs <;> simp

theorem seededPhase3Body_size (seedLen seedMms : Int) (orc : Oracle) (st : St) (r : Read)
    (horc : OneHitOracle orc) :
    (seededPhase3Body seedLen seedMms orc st r).doneMask.length = st.doneMask.length := by
  have e4 := (seededPhase3Extend_atMostOne seedLen orc (st.setFw false) r horc).2.2.2.1
  simp only [St.setFw_doneMask] at e4
  unfold seededPhase3Body
  dsimp only
  split_ifs
  · rfl
  · exact e4
  · rw [St.markDone_doneMask, length_setDone, seededPhase3Hh_doneMask, e4]
  · rw [seededPhase3Seedlings_doneMask, seededPhase3Hh_doneMask, e4]

theorem seededPhase4Body_size (seedLen seedMms : Int) (orc : Oracle) (st : St) (r : Read)
    (horc : OneHitOracle orc) :
    (seededPhase4Body seedLen seedMms orc st r).doneMask.length = st.doneMask.length := by
  have e4 := (seededPhase4Extend_atMostOne seedLen orc (st.setFw true) r horc).2.2.2.1
  simp only [St.setFw_doneMask] at e4
  unfold seededPhase4Body
  dsimp only
  split_ifs
  · rfl
  · exact e4
  · rw [seededPhase4Hh_size, e4]

/-- In a phase-1 loop over reads with the ids `k, k+1, ...`, from a bitmap of at
least `k` (and at least one) bits: unless the process exits, every read that
passes the fetch has its id below the final size of the bitmap. -/
theorem readLoop_inRange (cfg : Config) (body : St → Read → St)
    (hbody : ∀ st r, (body st r).doneMask.length = (expandDone st.doneMask r.patid).length)
    (reads : List Read) :
    ∀ (k : Nat) (st : St), reads.map Read.patid = List.range' k reads.length →
      1 ≤ st.doneMask.length → k ≤ st.doneMask.length →
      (readLoop cfg body reads st).exited = false →
      ∀ x ∈ reads, x.patid < cfg.qUpto →
        x.patid < (readLoop cfg body reads st).doneMask.length := by
  induction reads with
  | nil => intro k st _ _ _ _ x hx; exact absurd hx (by simp)
  | cons r rs ih =>
    intro k st hids h1 hk hfin x hx hxq
    simp only [List.map_cons, List.length_cons, List.range'_succ, List.cons.injEq] at hids
    obtain ⟨hr, hrs⟩ := hids
    have hge : ∀ y ∈ rs, k + 1 ≤ y.patid := by
      intro y hy
      have : y.patid ∈ rs.map Read.patid := List.mem_map_of_mem _ hy
      rw [hrs, List.mem_range'_1] at this
      exact this.1
    have hlen := hbody (st.getRead (presentRead st.reverse r)) (presentRead st.reverse r)
    simp only [St.getRead_doneMask, presentRead_patid] at hlen
    have hgt := lt_length_expandDone st.doneMask r.patid h1 (by omega)
    have hmono := readLoop_length_le cfg body
      (fun s y => by rw [hbody]; exact length_expandDone_ge _ _) rs
      (body (st.getRead (presentRead st.reverse r)) (presentRead st.reverse r))
    unfold readLoop at hfin ⊢
    dsimp only at hfin ⊢
    split_ifs at hfin ⊢ with h2 h3 h4
    · simp [h2] at hfin
    · rcases List.mem_cons.mp hx with hx1 | hx1
      · subst hx1; omega
      · have := hge x hx1; omega
    · simp at hfin
    · rcases List.mem_cons.mp hx with hx1 | hx1
      · subst hx1; omega
      · exact ih (k + 1) _ hrs (by rw [hlen]; omega) (by rw [hlen]; omega) hfin x hx1 hxq

theorem hitsOf_congr {st st1 : St} (h : st1.sink.hits = st.sink.hits) (p : Nat) :
    hitsOf st1 p = hitsOf st p := by
  unfold hitsOf
  rw [h]

theorem hitsOf_of_nil {st : St} (h : st.sink.hits = []) (p : Nat) : hitsOf st p = 0 := by
  unfold hitsOf
  rw [h]
  rfl

theorem denseIds_nodup {reads : List Read} (h : DenseIds reads) :
    (reads.map Read.patid).Nodup := by
  unfold DenseIds at h
  rw [h]
  exact List.nodup_range _

/-- A quantity that neither `GET_READ`, nor an exit, nor the body changes is the
same after the loop. -/
theorem readLoop_keeps {α : Type} (f : St → α) (cfg : Config) (body : St → Read → St)
    (hget : ∀ st rd, f (st.getRead rd) = f st) (hexit : ∀ st, f st.exit = f st)
    (hbody : ∀ st r, f (body st r) = f st) (reads : List Read) :
    ∀ st, f (readLoop cfg body reads st) = f st := by
  induction reads with
  | nil => intro st; rfl
  | cons r rs ih =>
    intro st
    unfold readLoop
    dsimp only
    split_ifs
    · rfl
    · rfl
    · rw [hexit, hget]
    · rw [ih, hbody, hget]

theorem readLoop_prov (cfg : Config) (body : St → Read → St)
    (hbody : ∀ st r, (body st r).sink.prov = st.sink.prov) (reads : List Read) (st : St) :
    (readLoop cfg body reads st).sink.prov = st.sink.prov :=
  readLoop_keeps (fun s => s.sink.prov) cfg body (fun _ _ => rfl) (fun _ => rfl) hbody reads st

theorem readLoop_length_eq (cfg : Config) (body : St → Read → St)
    (hbody : ∀ st r, (body st r).doneMask.length = st.doneMask.length) (reads : List Read)
    (st : St) : (readLoop cfg body reads st).doneMask.length = st.doneMask.length :=
  readLoop_keeps (fun s => s.doneMask.length) cfg body (fun _ _ => rfl) (fun _ => rfl) hbody
    reads st

theorem exactSearch_loop (cfg : Config) (orc : Oracle) (hone : cfg.oneHit = true)
    (horc : OneHitOracle orc) (reads : List Read) (st : St)
    (hnd : (reads.map Read.patid).Nodup) (hsync : st.lastHits = st.sink.numHits)
    (hprov : st.sink.prov = []) (h0 : ∀ p, hitsOf st p = 0) :
    ∀ p, hitsOf (readLoop cfg (exactSearchBody cfg orc) reads st) p ≤ 1 := by
  refine (readLoop_oneHit cfg (exactSearchBody cfg orc) false (fun _ _ => False)
    (fun _ s => s.lastHits = s.sink.numHits ∧ s.sink.prov = [])
    (fun _ _ _ _ h => h) (fun _ _ _ h => h) ?_ reads st hnd ⟨hsync, hprov⟩ ?_ ?_ ?_).1
  · intro r rs s rd _ _ _ hP
    refine ⟨hP.2, exactSearchBody_grows cfg orc s rd,
      exactSearchBody_atMostOne cfg orc s rd hone horc hP.1, False.elim,
      fun h => absurd h (by decide), ?_, exactSearchBody_sync cfg orc s rd hP.1, ?_⟩
    · rw [exactSearchBody_mask]; exact MaskLe.same _
    · rw [exactSearchBody_prov]; exact hP.2
  · intro p; rw [h0 p]; omega
  · intro p _ hp; rw [h0 p] at hp; omega
  · intro h; exact absurd h (by decide)

theorem mismatchSearchPhase1_loop (cfg : Config) (orc : Oracle) (hone : cfg.oneHit = true)
    (horc : OneHitOracle orc) (reads : List Read) (st : St)
    (hnd : (reads.map Read.patid).Nodup) (hsync : st.lastHits = st.sink.numHits)
    (hprov : st.sink.prov = []) (h0 : ∀ p, hitsOf st p = 0) :
    OneHitDone (readLoop cfg (mismatchSearchPhase1Body cfg orc) reads st) := by
  have h := readLoop_oneHit cfg (mismatchSearchPhase1Body cfg orc) true (fun _ _ => False)
    (fun _ s => s.lastHits = s.sink.numHits ∧ s.sink.prov = [])
    (fun _ _ _ _ h => h) (fun _ _ _ h => h) ?_ reads st hnd ⟨hsync, hprov⟩ ?_ ?_ ?_
  · exact fun p => ⟨h.1 p, h.2 rfl p⟩
  · intro r rs s rd hrd _ _ hP
    obtain ⟨a, b, c⟩ := mismatchSearchPhase1Body_atMostOne cfg orc s rd hone horc hP.1 hP.2
    exact ⟨hP.2, mismatchSearchPhase1Body_grows cfg orc s rd, a, False.elim,
      fun _ hg => hrd ▸ b hg, mismatchSearchPhase1Body_le cfg orc s rd,
      mismatchSearchPhase1Body_sync cfg orc s rd hP.1, c⟩
  · intro p; rw [h0 p]; omega
  · intro p _ hp; rw [h0 p] at hp; omega
  · intro _ p hp; rw [h0 p] at hp; omega

theorem mismatchSearchPhase2_loop (cfg : Config) (orc : Oracle) (hone : cfg.oneHit = true)
    (horc : OneHitOracle orc) (reads : List Read) (st : St)
    (hnd : (reads.map Read.patid).Nodup) (hsync : st.lastHits = st.sink.numHits)
    (hprov : st.sink.prov = []) (hd : OneHitDone st) :
    ∀ p, hitsOf (readLoop cfg (mismatchSearchPhase2Body cfg orc) reads st) p ≤ 1 := by
  refine (readLoop_oneHit cfg (mismatchSearchPhase2Body cfg orc) false
    (fun m p => testDone m p = true)
    (fun _ s => (cfg.revcomp = true → s.lastHits = s.sink.numHits) ∧ s.sink.prov = [])
    (fun _ _ p hm h => hm p h) (fun _ _ _ h => h) ?_ reads st hnd ⟨fun _ => hsync, hprov⟩
    (fun p => (hd p).1) (fun p _ => (hd p).2) ?_).1
  · intro r rs s rd hrd _ _ hP
    obtain ⟨a, b⟩ := mismatchSearchPhase2Body_atMostOne cfg orc s rd hone horc hP.1
    refine ⟨hP.2, mismatchSearchPhase2Body_grows cfg orc s rd, a, ?_,
      fun h => absurd h (by decide), ?_, b, ?_⟩
    · intro hs
      rw [mismatchSearchPhase2Body_skip cfg orc s rd (hrd ▸ hs)]
    · rw [mismatchSearchPhase2Body_mask]; exact MaskLe.same _
    · rw [mismatchSearchPhase2Body_prov]; exact hP.2
  · intro h; exact absurd h (by decide)

/-- The phase-1 loops that grow the bitmap (2/3-mismatch and seeded search):
when the bitmap has a bit for every id below `qUpto`, or the ids of the reads
run `0, 1, 2, ...` and the bitmap is not empty, at most one hit per read is
reported and a read with a hit is done. -/
theorem growingPhase1_loop (cfg : Config) (body : St → Read → St)
    (hgrows : ∀ st r, Grows st (body st r))
    (hprov : ∀ st r, (body st r).sink.prov = st.sink.prov)
    (hlen : ∀ st r, (body st r).doneMask.length = (expandDone st.doneMask r.patid).length)
    (hle : ∀ st r, MaskLe st.doneMask (body st r).doneMask)
    (hone : ∀ st r, (body st r).sink.numHits ≤ st.sink.numHits + 1 ∧
      (st.sink.numHits < (body st r).sink.numHits →
        r.patid < (expandDone st.doneMask r.patid).length →
        testDone (body st r).doneMask r.patid = true))
    (reads : List Read) (st : St) (hnd : (reads.map Read.patid).Nodup)
    (hcap : cfg.qUpto ≤ st.doneMask.length ∨ (DenseIds reads ∧ 1 ≤ st.doneMask.length))
    (hp0 : st.sink.prov = []) (h0 : ∀ p, hitsOf st p = 0) :
    OneHitDone (readLoop cfg body reads st) := by
  have h := readLoop_oneHit cfg body true (fun _ _ => False)
    (fun rs s => s.sink.prov = [] ∧ (cfg.qUpto ≤ s.doneMask.length ∨
      ∃ k, rs.map Read.patid = List.range' k rs.length ∧
        1 ≤ s.doneMask.length ∧ k ≤ s.doneMask.length))
    (fun _ _ _ _ h => h) (fun _ _ _ h => h) ?_ reads st hnd
    ⟨hp0, hcap.imp id (fun hd => ⟨0, by rw [← List.range_eq_range']; exact hd.1, hd.2,
      Nat.zero_le _⟩)⟩ ?_ ?_ ?_
  · exact fun p => ⟨h.1 p, h.2 rfl p⟩
  · intro r rs s rd hrd hq _ hP
    obtain ⟨hp, hk⟩ := hP
    have hge := length_expandDone_ge s.doneMask rd.patid
    have hin : rd.patid < (expandDone s.doneMask rd.patid).length := by
      rcases hk with hk | ⟨k, hids, h1, hkle⟩
      · omega
      · simp only [List.map_cons, List.length_cons, List.range'_succ, List.cons.injEq] at hids
        exact lt_length_expandDone _ _ h1 (by omega)
    refine ⟨hp, hgrows s rd, (hone s rd).1, False.elim,
      fun _ hg => hrd ▸ (hone s rd).2 hg hin, hle s rd, ?_, ?_⟩
    · show (body s rd).sink.prov = []
      rw [hprov]; exact hp
    · rcases hk with hk | ⟨k, hids, h1, hkle⟩
      · left
        show cfg.qUpto ≤ (body s rd).doneMask.length
        rw [hlen]; omega
      · right
        simp only [List.map_cons, List.length_cons, List.range'_succ, List.cons.injEq] at hids
        refine ⟨k + 1, hids.2, ?_⟩
        show 1 ≤ (body s rd).doneMask.length ∧ k + 1 ≤ (body s rd).doneMask.length
        rw [hlen]; omega
  · intro p; rw [h0 p]; omega
  · intro p _ hp; rw [h0 p] at hp; omega
  · intro _ p hp; rw [h0 p] at hp; omega

/-- After such a phase-1 loop that did not exit, the bitmap has a bit for every
read that passes the fetch. -/
theorem growingPhase1_inRange (cfg : Config) (body : St → Read → St)
    (hlen : ∀ st r, (body st r).doneMask.length = (expandDone st.doneMask r.patid).length)
    (reads : List Read) (st : St)
    (hcap : cfg.qUpto ≤ st.doneMask.length ∨ (DenseIds reads ∧ 1 ≤ st.doneMask.length))
    (hfin : (readLoop cfg body reads st).exited = false) :
    InRange cfg reads (readLoop cfg body reads st) := by
  rcases hcap with hcap | ⟨hd, h1⟩
  · intro r _ hrq
    have := readLoop_length_le cfg body
      (fun s y => by rw [hlen]; exact length_expandDone_ge _ _) reads st
    omega
  · exact readLoop_inRange cfg body hlen reads 0 st
      (by rw [← List.range_eq_range']; exact hd) h1 (Nat.zero_le _) hfin

/-- The later phases that mark reads done (phase 2 of the 2/3-mismatch search,
phases 2 to 4 of the seeded search): from a state between phases, with a
property `Q` of the state the body needs and keeps. -/
theorem markingPhase_loop (cfg : Config) (body : St → Read → St) (Q : St → Prop)
    (hQget : ∀ st rd, Q st → Q (st.getRead rd))
    (hQ : ∀ st r, Q st → Q (body st r))
    (hgrows : ∀ st r, Grows st (body st r))
    (hprov : ∀ st r, (body st r).sink.prov = st.sink.prov)
    (hlen : ∀ st r, (body st r).doneMask.length = st.doneMask.length)
    (hle : ∀ st r, MaskLe st.doneMask (body st r).doneMask)
    (hskip : ∀ st r, testDone st.doneMask r.patid = true → body st r = st)
    (hone : ∀ st r, Q st → (body st r).sink.numHits ≤ st.sink.numHits + 1 ∧
      (st.sink.numHits < (body st r).sink.numHits → r.patid < st.doneMask.length →
        testDone (body st r).doneMask r.patid = true))
    (reads : List Read) (st : St) (hnd : (reads.map Read.patid).Nodup) (hq : Q st)
    (hb : BetweenPhases cfg reads st) :
    BetweenPhases cfg reads (readLoop cfg body reads st) := by
  obtain ⟨hp0, hd, hin⟩ := hb
  have h := readLoop_oneHit cfg body true (fun m p => testDone m p = true)
    (fun rs s => s.sink.prov = [] ∧ Q s ∧ InRange cfg rs s)
    (fun _ _ p hm h => hm p h) (fun _ s rd h => ⟨h.1, hQget s rd h.2.1, h.2.2⟩) ?_ reads st hnd
    ⟨hp0, hq, hin⟩ (fun p => (hd p).1) (fun p _ => (hd p).2) (fun _ p => (hd p).2)
  · refine ⟨?_, fun p => ⟨h.1 p, h.2 rfl p⟩, ?_⟩
    · rw [readLoop_prov cfg body hprov]; exact hp0
    · intro r hr hrq
      rw [readLoop_length_eq cfg body hlen]
      exact hin r hr hrq
  · intro r rs s rd hrd hrq _ hP
    obtain ⟨hp, hqs, hir⟩ := hP
    refine ⟨hp, hgrows s rd, (hone s rd hqs).1, ?_, fun _ hg => ?_, hle s rd, ?_, hQ s rd hqs, ?_⟩
    · intro hs
      rw [hskip s rd (hrd ▸ hs)]
    · have := (hone s rd hqs).2 hg (hrd ▸ hir r (by simp) hrq)
      rw [hrd] at this
      exact this
    · rw [hprov]; exact hp
    · intro x hx hxq
      rw [hlen]
      exact hir x (List.mem_cons_of_mem _ hx) hxq

/-- The last phase of the 2/3-mismatch search, which reports without marking. -/
theorem twoOrThreePhase3_loop (cfg : Config) (two : Bool) (orc : Oracle)
    (horc : OneHitOracle orc) (reads : List Read) (st : St)
    (hnd : (reads.map Read.patid).Nodup) (hprov : st.sink.prov = []) (hd : OneHitDone st) :
    ∀ p, hitsOf (readLoop cfg (twoOrThreePhase3Body two orc) reads st) p ≤ 1 := by
  refine (readLoop_oneHit cfg (twoOrThreePhase3Body two orc) false
    (fun m p => testDone m p = true) (fun _ s => s.sink.prov = [])
    (fun _ _ p hm h => hm p h) (fun _ _ _ h => h) ?_ reads st hnd hprov
    (fun p => (hd p).1) (fun p _ => (hd p).2) ?_).1
  · intro r rs s rd hrd _ _ hP
    refine ⟨hP, twoOrThreePhase3Body_grows two orc s rd,
      twoOrThreePhase3Body_atMostOne two orc s rd horc, ?_,
      fun h => absurd h (by decide), ?_, ?_⟩
    · intro hs
      rw [twoOrThreePhase3Body_skip two orc s rd (hrd ▸ hs)]
    · rw [twoOrThreePhase3Body_mask]; exact MaskLe.same _
    · show (twoOrThreePhase3Body two orc s rd).sink.prov = []
      rw [twoOrThreePhase3Body_prov]; exact hP
  · intro h; exact absurd h (by decide)

theorem BetweenPhases.transfer {cfg : Config} {reads : List Read} {st st1 : St}
    (hs : st1.sink = st.sink) (hm : st1.doneMask = st.doneMask)
    (h : BetweenPhases cfg reads st) : BetweenPhases cfg reads st1 := by
  obtain ⟨h1, h2, h3⟩ := h
  refine ⟨by rw [hs]; exact h1, fun p => ?_, fun r hr hq => ?_⟩
  · rw [hitsOf_congr (congrArg Sink.hits hs), hm]
    exact h2 p
  · rw [hm]; exact h3 r hr hq

theorem OneHitDone.carry {st st1 : St} (hs : st1.sink.hits = st.sink.hits)
    (hm : st1.doneMask = st.doneMask) (h : OneHitDone st) : OneHitDone st1 := by
  intro p
  rw [hitsOf_congr hs, hm]
  exact h p

/-- The initial bitmap covers every id below `qUpto`, or has `16M` bits when
there is no limit. -/
theorem allocDone_cap (cfg : Config) (reads : List Read) (st : St)
    (hdense : cfg.qUpto = 0xffffffff → DenseIds reads) :
    cfg.qUpto ≤ (st.allocDone (numQs cfg.qUpto)).doneMask.length ∨
      (DenseIds reads ∧ 1 ≤ (st.allocDone (numQs cfg.qUpto)).doneMask.length) := by
  rw [St.allocDone_doneMask, List.length_replicate]
  unfold numQs
  by_cases h : cfg.qUpto = 0xffffffff
  · right
    rw [if_pos h]
    exact ⟨hdense h, by norm_num⟩
  · left
    rw [if_neg h]

theorem St.andThen_exited {st : St} {f : St → St} (h : st.exited = true) :
    st.andThen f = st := by
  unfold St.andThen
  rw [if_pos h]

theorem St.andThen_run {st : St} {f : St → St} (h : st.exited = false) :
    st.andThen f = f st := by
  unfold St.andThen
  rw [if_neg (by simp [h])]

theorem exactSearch_oneHit (cfg : Config) (orc : Oracle) (reads : List Read) (st : St)
    (hone : cfg.oneHit = true) (horc : OneHitOracle orc)
    (hnd : (reads.map Read.patid).Nodup) (hst : st.sink.hits = []) (p : Nat) :
    hitsOf (exactSearch cfg orc reads st) p ≤ 1 := by
  unfold exactSearch
  exact exactSearch_loop cfg orc hone horc reads _ hnd rfl rfl
    (fun q => @hitsOf_of_nil (exactSearchInit st) hst q) p

theorem mismatchSearch_oneHit (cfg : Config) (orc : Oracle) (reads : List Read) (st : St)
    (hone : cfg.oneHit = true) (horc : OneHitOracle orc)
    (hnd : (reads.map Read.patid).Nodup) (hst : st.sink.hits = []) (p : Nat) :
    hitsOf (mismatchSearch cfg orc reads st) p ≤ 1 := by
  have h1 : OneHitDone (mismatchSearchPhase1 cfg orc reads st) :=
    mismatchSearchPhase1_loop cfg orc hone horc reads _ hnd rfl rfl
      (fun q => @hitsOf_of_nil (mismatchSearchPhase1Init cfg st) hst q)
  unfold mismatchSearch St.andThen
  split_ifs
  · exact (h1 p).1
  · unfold mismatchSearchPhase2
    exact mismatchSearchPhase2_loop cfg orc hone horc reads _ hnd rfl rfl
      (@OneHitDone.carry _ (mismatchSearchPhase2Init _) rfl rfl h1) p

theorem twoOrThreePhase1_between (cfg : Config) (two : Bool) (orc : Oracle) (reads : List Read)
    (st : St) (horc : OneHitOracle orc) (hnd : (reads.map Read.patid).Nodup)
    (hdense : cfg.qUpto = 0xffffffff → DenseIds reads) (hst : st.sink.hits = []) :
    OneHitDone (twoOrThreePhase1 cfg two orc reads st) ∧
      ((twoOrThreePhase1 cfg two orc reads st).exited = false →
        BetweenPhases cfg reads (twoOrThreePhase1 cfg two orc reads st)) := by
  have hcap : cfg.qUpto ≤ (twoOrThreePhase1Init cfg st).doneMask.length ∨
      (DenseIds reads ∧ 1 ≤ (twoOrThreePhase1Init cfg st).doneMask.length) :=
    allocDone_cap cfg reads st hdense
  have h1 : OneHitDone (twoOrThreePhase1 cfg two orc reads st) :=
    growingPhase1_loop cfg _ (twoOrThreePhase1Body_grows cfg two orc)
      (twoOrThreePhase1Body_prov cfg two orc) (twoOrThreePhase1Body_length cfg two orc)
      (twoOrThreePhase1Body_le cfg two orc)
      (fun s r => twoOrThreePhase1Body_atMostOne cfg two orc s r horc) reads _ hnd hcap rfl
      (fun q => @hitsOf_of_nil (twoOrThreePhase1Init cfg st) hst q)
  refine ⟨h1, fun hfin => ⟨?_, h1, ?_⟩⟩
  · unfold twoOrThreePhase1
    rw [readLoop_prov cfg _ (twoOrThreePhase1Body_prov cfg two orc)]
    rfl
  · exact growingPhase1_inRange cfg _ (twoOrThreePhase1Body_length cfg two orc) reads _ hcap hfin

theorem twoOrThreePhase2_between (cfg : Config) (two : Bool) (orc : Oracle) (reads : List Read)
    (st : St) (horc : OneHitOracle orc) (hnd : (reads.map Read.patid).Nodup)
    (hb : BetweenPhases cfg reads st) :
    BetweenPhases cfg reads (twoOrThreePhase2 cfg two orc reads st) :=
  markingPhase_loop cfg _ (fun _ => True) (fun _ _ _ => trivial) (fun _ _ _ => trivial)
    (twoOrThreePhase2Body_grows two orc) (twoOrThreePhase2Body_prov two orc)
    (twoOrThreePhase2Body_size two orc) (twoOrThreePhase2Body_le two orc)
    (twoOrThreePhase2Body_skip two orc)
    (fun s r _ => twoOrThreePhase2Body_atMostOne two orc s r horc) reads _ hnd trivial
    (@BetweenPhases.transfer cfg reads _ (twoOrThreePhase2Init cfg st) rfl rfl hb)

theorem twoOrThree_oneHit (cfg : Config) (two : Bool) (orc : Oracle) (reads : List Read)
    (st : St) (horc : OneHitOracle orc) (hnd : (reads.map Read.patid).Nodup)
    (hdense : cfg.qUpto = 0xffffffff → DenseIds reads) (hst : st.sink.hits = []) (p : Nat) :
    hitsOf (twoOrThreeMismatchSearch cfg two orc reads st) p ≤ 1 := by
  obtain ⟨h1, h1b⟩ := twoOrThreePhase1_between cfg two orc reads st horc hnd hdense hst
  unfold twoOrThreeMismatchSearch
  by_cases e1 : (twoOrThreePhase1 cfg two orc reads st).exited = true
  · rw [St.andThen_exited e1, St.andThen_exited e1]
    exact (h1 p).1
  · have e1f : (twoOrThreePhase1 cfg two orc reads st).exited = false := by simpa using e1
    have h2 := twoOrThreePhase2_between cfg two orc reads _ horc hnd (h1b e1f)
    rw [St.andThen_run e1f]
    by_cases e2 : (twoOrThreePhase2 cfg two orc reads
        (twoOrThreePhase1 cfg two orc reads st)).exited = true
    · rw [St.andThen_exited e2]
      exact (h2.2.1 p).1
    · rw [St.andThen_run (by simpa using e2)]
      unfold twoOrThreePhase3
      exact twoOrThreePhase3_loop cfg two orc horc reads (twoOrThreePhase3Init cfg _) hnd h2.1
        (@OneHitDone.carry _ (twoOrThreePhase3Init cfg _) rfl rfl h2.2.1) p

theorem seededPhase1_between (cfg : Config) (seedLen qualCutoff seedMms : Int) (orc : Oracle)
    (reads : List Read) (st : St) (horc : OneHitOracle orc)
    (hnd : (reads.map Read.patid).Nodup)
    (hdense : cfg.qUpto = 0xffffffff → DenseIds reads) (hst : st.sink.hits = []) :
    OneHitDone (seededPhase1 cfg seedLen qualCutoff seedMms orc reads st) ∧
      ((seededPhase1 cfg seedLen qualCutoff seedMms orc reads st).exited = false →
        BetweenPhases cfg reads (seededPhase1 cfg seedLen qualCutoff seedMms orc reads st)) := by
  have hcap : cfg.qUpto ≤ (seededPhase1Init cfg seedLen qualCutoff seedMms st).doneMask.length ∨
      (DenseIds reads ∧
        1 ≤ (seededPhase1Init cfg seedLen qualCutoff seedMms st).doneMask.length) :=
    allocDone_cap cfg reads st hdense
  have h1 : OneHitDone (seededPhase1 cfg seedLen qualCutoff seedMms orc reads st) :=
    growingPhase1_loop cfg _ (seededPhase1Body_grows cfg seedLen seedMms orc)
      (seededPhase1Body_prov cfg seedLen seedMms orc)
      (seededPhase1Body_length cfg seedLen seedMms orc)
      (seededPhase1Body_le cfg seedLen seedMms orc)
      (fun s r => seededPhase1Body_atMostOne cfg seedLen seedMms orc s r horc) reads _ hnd hcap
      rfl (fun q => @hitsOf_of_nil (seededPhase1Init cfg seedLen qualCutoff seedMms st) hst q)
  refine ⟨h1, fun hfin => ⟨?_, h1, ?_⟩⟩
  · unfold seededPhase1
    rw [readLoop_prov cfg _ (seededPhase1Body_prov cfg seedLen seedMms orc)]
    rfl
  · exact growingPhase1_inRange cfg _ (seededPhase1Body_length cfg seedLen seedMms orc) reads _
      hcap hfin

theorem seededPhase2_between (cfg : Config) (seedLen qualCutoff seedMms : Int) (orc : Oracle)
    (reads : List Read) (st : St) (horc : OneHitOracle orc)
    (hnd : (reads.map Read.patid).Nodup) (hm : 0 ≤ seedMms)
    (hb : BetweenPhases cfg reads st) :
    BetweenPhases cfg reads (seededPhase2 cfg seedLen qualCutoff seedMms orc reads st) :=
  markingPhase_loop cfg _ (fun s => s.btr.reportSeedlings = seedMms) (fun _ _ h => h)
    (fun s r h => (seededPhase2Body_reportSeedlings seedLen seedMms orc s r).trans h)
    (seededPhase2Body_grows seedLen seedMms orc) (seededPhase2Body_prov seedLen seedMms orc)
    (seededPhase2Body_size seedLen seedMms orc) (seededPhase2Body_le seedLen seedMms orc)
    (seededPhase2Body_skip seedLen seedMms orc)
    (fun s r h => seededPhase2Body_atMostOne seedLen seedMms orc s r horc hm h) reads _ hnd rfl
    (@BetweenPhases.transfer cfg reads _ (seededPhase2Init cfg seedLen qualCutoff seedMms st) rfl rfl hb)

theorem seededPhase3_between (cfg : Config) (seedLen qualCutoff seedMms : Int) (orc : Oracle)
    (reads : List Read) (st : St) (horc : OneHitOracle orc)
    (hnd : (reads.map Read.patid).Nodup) (hm : 0 < seedMms)
    (hb : BetweenPhases cfg reads st) :
    BetweenPhases cfg reads (seededPhase3 cfg seedLen qualCutoff seedMms orc reads st) := by
  have h := markingPhase_loop cfg (seededPhase3Body seedLen seedMms orc)
    (fun s => 0 < s.btf.reportSeedlings) (fun _ _ h => h)
    (fun s r h => by
      show 0 < (seededPhase3Body seedLen seedMms orc s r).btf.reportSeedlings
      rw [seededPhase3Body_reportSeedlings]; exact h)
    (seededPhase3Body_grows seedLen seedMms orc) (seededPhase3Body_prov seedLen seedMms orc)
    (fun s r => seededPhase3Body_size seedLen seedMms orc s r horc)
    (seededPhase3Body_le seedLen seedMms orc)
    (seededPhase3Body_skip seedLen seedMms orc)
    (fun s r h => seededPhase3Body_atMostOne seedLen seedMms orc s r horc h) reads
    (seededPhase3Init cfg seedLen qualCutoff seedMms st) hnd hm
    (@BetweenPhases.transfer cfg reads _ (seededPhase3Init cfg seedLen qualCutoff seedMms st) rfl rfl hb)
  exact @BetweenPhases.transfer cfg reads _ (seededPhase3 cfg seedLen qualCutoff seedMms orc reads st) rfl rfl h

theorem seededPhase4_between (cfg : Config) (seedLen qualCutoff seedMms : Int) (orc : Oracle)
    (reads : List Read) (st : St) (horc : OneHitOracle orc)
    (hnd : (reads.map Read.patid).Nodup) (hb : BetweenPhases cfg reads st) :
    BetweenPhases cfg reads (seededPhase4 cfg seedLen qualCutoff seedMms orc reads st) := by
  have h := markingPhase_loop cfg (seededPhase4Body seedLen seedMms orc)
    (fun _ => True) (fun _ _ _ => trivial) (fun _ _ _ => trivial)
    (seededPhase4Body_grows seedLen seedMms orc) (seededPhase4Body_prov seedLen seedMms orc)
    (fun s r => seededPhase4Body_size seedLen seedMms orc s r horc)
    (seededPhase4Body_le seedLen seedMms orc)
    (seededPhase4Body_skip seedLen seedMms orc)
    (fun s r _ => seededPhase4Body_atMostOne seedLen seedMms orc s r horc) reads
    (seededPhase4Init cfg seedLen qualCutoff seedMms st) hnd trivial
    (@BetweenPhases.transfer cfg reads _ (seededPhase4Init cfg seedLen qualCutoff seedMms st) rfl rfl hb)
  exact @BetweenPhases.transfer cfg reads _ (seededPhase4 cfg seedLen qualCutoff seedMms orc reads st) rfl rfl h

theorem seeded_oneHit (cfg : Config) (seedLen qualCutoff seedMms : Int) (orc : Oracle)
    (reads : List Read) (st : St) (horc : OneHitOracle orc)
    (hnd : (reads.map Read.patid).Nodup)
    (hdense : cfg.qUpto = 0xffffffff → DenseIds reads) (hm : 0 ≤ seedMms)
    (hst : st.sink.hits = []) (p : Nat) :
    hitsOf (seededQualCutoffSearch cfg seedLen qualCutoff seedMms orc reads st) p ≤ 1 := by
  obtain ⟨h1, h1b⟩ :=
    seededPhase1_between cfg seedLen qualCutoff seedMms orc reads st horc hnd hdense hst
  have h12 : OneHitDone ((seededPhase1 cfg seedLen qualCutoff seedMms orc reads st).andThen
        (seededPhase2 cfg seedLen qualCutoff seedMms orc reads)) ∧
      (((seededPhase1 cfg seedLen qualCutoff seedMms orc reads st).andThen
        (seededPhase2 cfg seedLen qualCutoff seedMms orc reads)).exited = false →
        BetweenPhases cfg reads ((seededPhase1 cfg seedLen qualCutoff seedMms orc reads
          st).andThen (seededPhase2 cfg seedLen qualCutoff seedMms orc reads))) := by
    by_cases e1 : (seededPhase1 cfg seedLen qualCutoff seedMms orc reads st).exited = true
    · rw [St.andThen_exited e1]
      exact ⟨h1, h1b⟩
    · have e1f : (seededPhase1 cfg seedLen qualCutoff seedMms orc reads st).exited = false := by
        simpa using e1
      rw [St.andThen_run e1f]
      have h2 := seededPhase2_between cfg seedLen qualCutoff seedMms orc reads _ horc hnd hm
        (h1b e1f)
      exact ⟨h2.2.1, fun _ => h2⟩
  unfold seededQualCutoffSearch
  dsimp only
  split_ifs with hz
  · exact (h12.1 p).1
  · have hpos : 0 < seedMms := by omega
    by_cases e2 : ((seededPhase1 cfg seedLen qualCutoff seedMms orc reads st).andThen
        (seededPhase2 cfg seedLen qualCutoff seedMms orc reads)).exited = true
    · rw [St.andThen_exited e2, St.andThen_exited e2]
      exact (h12.1 p).1
    · have e2f : ((seededPhase1 cfg seedLen qualCutoff seedMms orc reads st).andThen
          (seededPhase2 cfg seedLen qualCutoff seedMms orc reads)).exited = false := by
        simpa using e2
      have h3 := seededPhase3_between cfg seedLen qualCutoff seedMms orc reads _ horc hnd hpos
        (h12.2 e2f)
      rw [St.andThen_run e2f]
      by_cases e3 : (seededPhase3 cfg seedLen qualCutoff seedMms orc reads
          ((seededPhase1 cfg seedLen qualCutoff seedMms orc reads st).andThen
            (seededPhase2 cfg seedLen qualCutoff seedMms orc reads))).exited = true
      · rw [St.andThen_exited e3]
        exact (h3.2.1 p).1
      · rw [St.andThen_run (by simpa using e3)]
        exact ((seededPhase4_between cfg seedLen qualCutoff seedMms orc reads _ horc hnd
          h3).2.1 p).1

theorem singleHitOracle_oneHit : OneHitOracle singleHitOracle := by
  intro c
  unfold singleHitOracle
  constructor
  · split
    · split_ifs <;> simp
    · simp
  · intro b muts hk hb
    rw [hk]
    simp [hb]

/-- The `oneHit` policy for `seedMms >= 0`: in `oneHit` mode, each of the four
search variants (`exactSearch`, `mismatchSearch`, `twoOrThreeMismatchSearch` in
either mode, `seededQualCutoffSearch`) run with one worker from a state with
nothing reported leaves at most one reported hit for every read id `p`, over all
its phases.  Assumed: every index search reports at most one alignment, as a hit
or as a provisional hit, and a backtracker run that collects seedlings reports
no hit (`OneHitOracle`); the read source serves each read id once per pass
(`Nodup`), and numbers the reads `0, 1, 2, ...` when no `-u` limit is set so
that the completion bitmap has to grow. -/
theorem one_hit_per_read (cfg : Config) (orc : Oracle) (reads : List Read) (st : St)
    (two : Bool) (seedLen qualCutoff seedMms : Int) (p : Nat)
    (hone : cfg.oneHit = true) (horc : OneHitOracle orc)
    (hnd : (reads.map Read.patid).Nodup)
    (hdense : cfg.qUpto = 0xffffffff → DenseIds reads)
    (hm : 0 ≤ seedMms) (hst : st.sink.hits = []) :
    hitsOf (exactSearch cfg orc reads st) p ≤ 1 ∧
      hitsOf (mismatchSearch cfg orc reads st) p ≤ 1 ∧
      hitsOf (twoOrThreeMismatchSearch cfg two orc reads st) p ≤ 1 ∧
      hitsOf (seededQualCutoffSearch cfg seedLen qualCutoff seedMms orc reads st) p ≤ 1 :=
  ⟨exactSearch_oneHit cfg orc reads st hone horc hnd hst p,
    mismatchSearch_oneHit cfg orc reads st hone horc hnd hst p,
    twoOrThree_oneHit cfg two orc reads st horc hnd hdense hst p,
    seeded_oneHit cfg seedLen qualCutoff seedMms orc reads st horc hnd hdense hm hst p⟩

set_option maxRecDepth 100000 in
/-- An instance of `one_hit_per_read`: two reads that occur once in the reference, in `oneHit`
mode with 2 seed mismatches; read 0 gets exactly one hit from the 1-mismatch
search and from the seeded search, and at most one from every variant. -/
theorem one_hit_per_read_witness :
    (oneHitCfg.oneHit = true ∧ OneHitOracle singleHitOracle ∧
      (twoReads.map Read.patid).Nodup ∧ (0 : Int) ≤ 2 ∧ initSt.sink.hits = []) ∧
      hitsOf (mismatchSearch oneHitCfg singleHitOracle twoReads initSt) 0 = 1 ∧
      hitsOf (seededQualCutoffSearch oneHitCfg 4 70 2 singleHitOracle twoReads initSt) 0 = 1 ∧
      (hitsOf (exactSearch oneHitCfg singleHitOracle twoReads initSt) 0 ≤ 1 ∧
        hitsOf (mismatchSearch oneHitCfg singleHitOracle twoReads initSt) 0 ≤ 1 ∧
        hitsOf (twoOrThreeMismatchSearch oneHitCfg true singleHitOracle twoReads initSt) 0 ≤ 1 ∧
        hitsOf (seededQualCutoffSearch oneHitCfg 4 70 2 singleHitOracle twoReads initSt) 0 ≤ 1) :=
  ⟨⟨rfl, singleHitOracle_oneHit, by decide, by decide, rfl⟩, by decide, by decide,
    one_hit_per_read oneHitCfg singleHitOracle twoReads initSt true 4 70 2 0 rfl
      singleHitOracle_oneHit (by decide) (fun h => absurd h (by decide)) (by decide) rfl⟩

theorem toInt32_of_lt (l : Int) (h0 : 0 ≤ l) (h1 : l < 2 ^ 31) : toInt32 l = l := by
  unfold toInt32
  omega

theorem parseInt_of_le (lower l : Int) (h0 : 0 ≤ l) (h : lower ≤ l) (h1 : l < 2 ^ 31) :
    parseInt lower l = some l := by
  unfold parseInt
  rw [if_neg (by omega), toInt32_of_lt l h0 h1]

/-- For an argument `e` of `-e` that an `int` can hold, the value stored is
`e / 10` rounded to the nearest integer, halves up. -/
theorem maqerr_rounds_in_range (o : Options) (e : Int) (h1 : 1 ≤ e) (h2 : e < 2 ^ 31) :
    parseOption o (Opt.maqerr e) = some { o with qualThresh := (e + 5) / 10 } := by
  have : Int.tdiv (e + 5) 10 = (e + 5) / 10 := Int.tdiv_eq_ediv (by omega) (by omega)
  simp only [parseOption, parseInt_of_le 1 e (by omega) h1 h2, Option.map_some', this]

/-- C21 at the failing input: for the argument `4294967296` of `-e`, which is at
least 1, `strtol` yields 4294967296, `parseInt` returns `(int32_t)l = 0` and
`int(0 / 10.0 + 0.5) = 0` is stored, whereas `floor((e + 5) / 10)` is
429496730; the documented default 70 does give the built-in default 7. -/
theorem maqerr_wraps_to_zero :
    (parseOptions [Opt.maqerr 4294967296]).map Options.qualThresh = some 0 ∧
      (4294967296 + 5) / 10 = (429496730 : Int) ∧
      (parseOptions [Opt.maqerr 70]).map Options.qualThresh = some 7 := by
  refine ⟨?_, ?_, ?_⟩ <;> decide

theorem parseOption_maxBts (o o1 : Options) (x : Opt) (h : parseOption o x = some o1) :
    o1.maxBts = ((lastMaxBts [x]).map toInt32).getD o.maxBts := by
  cases x
  case maxbts l =>
    cases l <;> simp only [parseOption, parseInt] at h <;> (try split_ifs at h) <;>
      simp only [Option.map_some', Option.map_none', Option.some.injEq, reduceCtorEq] at h <;>
      (subst h; rfl)
  case flag f =>
    simp only [parseOption, Option.some.injEq] at h
    subst h
    cases f <;> rfl
  case v l =>
    simp only [parseOption, parseInt] at h
    split_ifs at h
    simp only [Option.some.injEq, reduceCtorEq] at h
    split_ifs at h
    simp only [Option.some.injEq, reduceCtorEq] at h
    subst h
    rfl
  all_goals simp only [parseOption, parseInt] at h
  all_goals (try split_ifs at h)
  all_goals
    (try simp only [Option.map_some', Option.map_none', Option.some.injEq, reduceCtorEq] at h)
  all_goals (subst h; rfl)

theorem lastMaxBts_cons (x : Opt) (xs : List Opt) :
    lastMaxBts (x :: xs) = (lastMaxBts xs).orElse fun _ => lastMaxBts [x] := by
  cases x
  case maxbts l => cases l <;> simp [lastMaxBts]
  all_goals simp [lastMaxBts]

theorem parseOptionLoop_maxBts (opts : List Opt) :
    ∀ o0 o, parseOptionLoop opts o0 = some o →
      o.maxBts = ((lastMaxBts opts).map toInt32).getD o0.maxBts := by
  induction opts with
  | nil =>
    intro o0 o h
    simp only [parseOptionLoop, Option.some.injEq] at h
    subst h
    rfl
  | cons x xs ih =>
    intro o0 o h
    simp only [parseOptionLoop] at h
    cases h1 : parseOption o0 x with
    | none => rw [h1] at h; simp at h
    | some o1 =>
      rw [h1] at h
      have e1 := parseOption_maxBts o0 o1 x h1
      have e2 := ih o1 o h
      rw [lastMaxBts_cons x xs, e2, e1]
      cases lastMaxBts xs <;> rfl

/-- The value of `maxBts` after a successful `parseOptions`, where every
`--maxbts` argument is taken as the `int` that `parseInt` returns for it. -/
theorem parseOptions_maxBts (opts : List Opt) (o : Options) (h : parseOptions opts = some o) :
    (o.maqLike = false → o.maxBts = 999999) ∧
      (o.maqLike = true → o.maxBts = ((lastMaxBts opts).map toInt32).getD 100) := by
  unfold parseOptions at h
  cases h1 : parseOptionLoop opts defaultOptions with
  | none => rw [h1] at h; simp at h
  | some o1 =>
    rw [h1] at h
    have e := parseOptionLoop_maxBts opts defaultOptions o1 h1
    simp only at h
    by_cases hm : o1.maqLike = true
    · simp only [hm, if_true, not_true_eq_false, if_false, true_and] at h
      split_ifs at h
      simp only [Option.some.injEq] at h
      subst h
      exact ⟨fun hx => absurd hx (by simp), fun _ => e⟩
    · have hm1 : o1.maqLike = false := by simpa using hm
      simp [hm1] at h
      subst h
      exact ⟨fun _ => rfl, fun hx => absurd hx (by simp)⟩

/-- C22 at the failing input: in seeded mode the argument `4294967296` of
`--maxbts`, which is at least 1, is accepted and leaves `maxBts = 0`, not the
argument; outside of seeded mode the value is 999999 whatever was given, and
without a `--maxbts` option the seeded value is 100. -/
theorem maxbts_wraps_to_zero :
    (parseOptions [Opt.maxbts (some 4294967296)]).map (fun o => (o.maqLike, o.maxBts)) =
        some (true, 0) ∧
      (parseOptions [Opt.maxbts (some 5), Opt.v 1]).map (fun o => (o.maqLike, o.maxBts)) =
        some (false, 999999) ∧
      (parseOptions [Opt.maxbts (some 5), Opt.maxbts (some 7)]).map
        (fun o => (o.maqLike, o.maxBts)) = some (true, 7) ∧
      (parseOptions []).map (fun o => (o.maqLike, o.maxBts)) = some (true, 100) := by
  refine ⟨?_, ?_, ?_, ?_⟩ <;> decide

/-- In end-to-end mode with the N-matches-nothing policy the N limit handed to
a file or command-line pattern source is `min(maxNs, mismatches)`, which is at
most 0 in exact mode and is 0 there when the stored `maxNs` is not negative. -/
theorem driverMaxNs_endToEnd (o : Options) (hm : o.maqLike = false) (hn : o.nsToNs = true) :
    driverMaxNs o = min o.maxNs o.mismatches ∧
      (o.format ≠ Format.random → patsrcMaxNs o = some (min o.maxNs o.mismatches)) ∧
      (o.mismatches = 0 → driverMaxNs o ≤ 0 ∧ (0 ≤ o.maxNs → driverMaxNs o = 0)) := by
  have e : driverMaxNs o = min o.maxNs o.mismatches := by
    unfold driverMaxNs
    simp [hm, hn]
  refine ⟨e, ?_, ?_⟩
  · intro hf
    unfold patsrcMaxNs
    rw [e]
    cases hfm : o.format <;> simp_all
  · intro h0
    rw [e, h0]
    exact ⟨min_le_right _ _, fun h => min_eq_right h⟩

/-- C23 at the failing input: `-v 0 --maxns 2147483648` is accepted (the
argument is at least 0), `maxNs` becomes `(int32_t)2147483648 = -2147483648`,
and the N limit handed to the read source in exact mode is
`min(-2147483648, 0) = -2147483648`, not 0; with `--maxns 5` it is 0. -/
theorem maxns_limit_negative :
    (parseOptions [Opt.v 0, Opt.maxns 2147483648]).map
        (fun o => (o.maqLike, o.nsToNs, o.mismatches, patsrcMaxNs o)) =
        some (false, true, 0, some (-2147483648)) ∧
      (parseOptions [Opt.v 0, Opt.maxns 5]).map patsrcMaxNs = some (some 0) := by
  constructor <;> decide
/-! ## Phase 3 of the 2/3-mismatch search -/

/-- C27 fails as stated: for an undone read on which nothing is found, phase 3
of the 2-mismatch search runs three backtracking searches, and the first of
them, on the forward read with `bt`, is not a half-and-half search. -/
theorem phase3_plain_search_counterexample :
    testDone (twoOrThreePhase3Init oneHitCfg initSt).doneMask 0 = false ∧
      (newCalls (twoOrThreePhase3Init oneHitCfg initSt)
        (twoOrThreePhase3Body true silentOracle (twoOrThreePhase3Init oneHitCfg initSt)
          (mkRead 0 [0, 0, 0, 0, 0] [3, 3, 3, 3, 3]))).map
        (fun c => (c.queryFw, c.halfAndHalf)) =
        [(true, some false), (true, some true), (false, some true)] := by
  constructor
  · rfl
  · rfl

/-- C27 as amended: in phase 3 of the 2/3-mismatch search (where `bt` is a
plain backtracker and `bthh` a half-and-half one, as `twoOrThreePhase3Init`
constructs them and the body keeps them), there are three searches `c1`, `c2`,
`c3` for an undone read: a plain backtracking search on the forward read, a
half-and-half search on the forward read and a half-and-half search on the
reverse complement.  The searches run are exactly `c1` when `c1` reports a hit;
`c1`, `c2` when `c1` reports none and `c2` reports one; and `c1`, `c2`, `c3`
when neither `c1` nor `c2` reports a hit: each later search is run only when the
earlier ones reported no hit, and no other search is run. -/
theorem phase3_searches (cfg : Config) (two : Bool) (orc : Oracle) (st : St) (r : Read)
    (hd : testDone st.doneMask r.patid = false)
    (hbt : st.bt.halfAndHalf = false) (hhh : st.hh.halfAndHalf = true) :
    (∃ c1 c2 c3 : SearchCall,
      (c1.queryFw = true ∧ c1.query = r.patFw ∧ c1.halfAndHalf = some false) ∧
        (c2.queryFw = true ∧ c2.query = r.patFw ∧ c2.halfAndHalf = some true) ∧
        (c3.queryFw = false ∧ c3.query = r.patRc ∧ c3.halfAndHalf = some true) ∧
        newCalls st (twoOrThreePhase3Body two orc st r) =
          if (orc c1).hits ≠ [] then [c1]
          else if (orc c2).hits ≠ [] then [c1, c2]
          else [c1, c2, c3]) ∧
      (twoOrThreePhase3Body two orc st r).bt.halfAndHalf = false ∧
      (twoOrThreePhase3Body two orc st r).hh.halfAndHalf = true ∧
      ∀ st0, (twoOrThreePhase3Init cfg st0).bt.halfAndHalf = false ∧
        (twoOrThreePhase3Init cfg st0).hh.halfAndHalf = true := by
  refine ⟨?_, ?_, ?_, fun st0 => ⟨rfl, rfl⟩⟩
  · refine ⟨(st.setOffsBt (ttPhase3FwOffs two (u32 r.patFw.length))).call
        (SearchKind.backtrack (st.bt.setOffs (ttPhase3FwOffs two (u32 r.patFw.length))) none)
        st.bt.ebwtFw true r.patFw r.qualFw,
      (st.setOffsBt (ttPhase3FwOffs two (u32 r.patFw.length))).call
        (SearchKind.backtrack (st.hh.setOffs (ttPhase3HhFwOffs two (u32 r.patFw.length))) none)
        st.hh.ebwtFw true r.patFw r.qualFw,
      ((st.setOffsBt (ttPhase3FwOffs two (u32 r.patFw.length))).setFw false).call
        (SearchKind.backtrack (st.hh.setOffs (ttPhase3HhRcOffs two (u32 r.patFw.length))) none)
        st.hh.ebwtFw false r.patRc r.qualRc,
      ⟨rfl, rfl, by simp [SearchCall.halfAndHalf, St.call, Backtracker.setOffs, hbt]⟩,
      ⟨rfl, rfl, by simp [SearchCall.halfAndHalf, St.call, Backtracker.setOffs, hhh]⟩,
      ⟨rfl, rfl, by simp [SearchCall.halfAndHalf, St.call, Backtracker.setOffs, hhh]⟩, ?_⟩
    unfold twoOrThreePhase3Body
    simp only [hd, Bool.false_eq_true, if_false]
    split_ifs with h1 h2 h3 h4
    all_goals (try rw [hitSince_backtrack] at h1)
    all_goals (try rw [hitSince_backtrack] at h4)
    all_goals simp [newCalls, St.call, Backtracker.setOffs, St.backtrack, St.search,
      St.setOffsBt, St.setOffsHh, St.setFw] at *
    all_goals simp_all
  · unfold twoOrThreePhase3Body
    dsimp only
    split_ifs <;> simp [Backtracker.setOffs, hbt]
  · unfold twoOrThreePhase3Body
    dsimp only
    split_ifs <;> simp [Backtracker.setOffs, hhh]

/-- Witness for the amended C27: a read of length 5 on which nothing is found,
at the start of phase 3. -/
theorem phase3_searches_witness :
    (testDone (twoOrThreePhase3Init oneHitCfg initSt).doneMask 0 = false ∧
      (twoOrThreePhase3Init oneHitCfg initSt).bt.halfAndHalf = false ∧
      (twoOrThreePhase3Init oneHitCfg initSt).hh.halfAndHalf = true) ∧
      (twoOrThreePhase3Body true silentOracle (twoOrThreePhase3Init oneHitCfg initSt)
        (mkRead 0 [0, 0, 0, 0, 0] [3, 3, 3, 3, 3])).hh.halfAndHalf = true :=
  ⟨⟨rfl, rfl, rfl⟩,
    (phase3_searches oneHitCfg true silentOracle (twoOrThreePhase3Init oneHitCfg initSt)
      (mkRead 0 [0, 0, 0, 0, 0] [3, 3, 3, 3, 3]) rfl rfl rfl).2.2.1⟩
/-! ## The N pre-filter of seeded phase 1 -/

theorem nsDisqualified_iff (m : Int) (l : List Nat) :
    ∀ ns : Int, ns ≤ m →
      (nsDisqualified m l ns = true ↔ m < ns + ((l.filter fun b => b = 4).length : Int)) := by
  induction l with
  | nil =>
    intro ns h
    simp only [nsDisqualified, List.filter_nil, List.length_nil]
    constructor
    · intro hx; exact absurd hx (by simp)
    · intro hx; omega
  | cons b bs ih =>
    intro ns h
    unfold nsDisqualified
    by_cases hb : b = 4
    · rw [if_pos hb]
      have hf : ((b :: bs).filter fun b => b = 4).length = (bs.filter fun b => b = 4).length + 1 := by
        simp [List.filter_cons, hb]
      rw [hf]
      by_cases hgt : ns + 1 > m
      · rw [if_pos hgt]
        simp only [true_iff]
        push_cast
        omega
      · rw [if_neg hgt, ih (ns + 1) (by omega)]
        push_cast
        omega
    · rw [if_neg hb, ih ns h]
      have hf : ((b :: bs).filter fun b => b = 4).length = (bs.filter fun b => b = 4).length := by
        simp [List.filter_cons, hb]
      rw [hf]

theorem sizeOfInt_of_nonneg (i : Int) (h0 : 0 ≤ i) (h1 : i < 2 ^ 31) : sizeOfInt i = i.toNat := by
  unfold sizeOfInt
  rw [Int.emod_eq_of_lt h0 (by omega)]

/-- When the N pre-filter does not fire, the phase-1 body exits or issues a
search. -/
theorem seededPhase1Body_searches (cfg : Config) (seedLen seedMms : Int) (orc : Oracle) (st : St)
    (r : Read)
    (h : ¬ (cfg.nsToNs = true ∧ nsDisqualified seedMms
      (r.patFw.take (min r.patFw.length (sizeOfInt seedLen))) 0 = true)) :
    (seededPhase1Body cfg seedLen seedMms orc st r).exited = true ∨
      st.trace.length < (seededPhase1Body cfg seedLen seedMms orc st r).trace.length := by
  unfold seededPhase1Body
  dsimp only
  split_ifs <;> simp_all

/-- The N pre-filter for a seed length that is not negative: in the phase-1
body of the seeded search, run by a live process with
`seedMms >= 0` and a seed length that is a length (`0 <= seedLen`, an `int`):
under the N-matches-nothing policy the body only marks the read done (after the
growth step; no search is issued, the process does not exit) if and only if the
number of `N` bases among the first `min(length, seedLen)` forward bases is
greater than `seedMms`, and the bit is then set whenever the read id was within
reach of the growth step; under the N-to-A policy the body never does only
that. -/
theorem ns_prefilter (cfg : Config) (seedLen seedMms : Int) (orc : Oracle) (st : St) (r : Read)
    (hm : 0 ≤ seedMms) (hl0 : 0 ≤ seedLen) (hl1 : seedLen < 2 ^ 31)
    (hex : st.exited = false) :
    (cfg.nsToNs = true →
      ((seedMms < (countNs r.patFw (min r.patFw.length seedLen.toNat) : Int) ↔
          seededPhase1Body cfg seedLen seedMms orc st r = (st.expand r.patid).markDone r.patid) ∧
        (seedMms < (countNs r.patFw (min r.patFw.length seedLen.toNat) : Int) →
          newCalls st (seededPhase1Body cfg seedLen seedMms orc st r) = [] ∧
          (seededPhase1Body cfg seedLen seedMms orc st r).exited = false ∧
          (1 ≤ st.doneMask.length → r.patid ≤ st.doneMask.length →
            testDone (seededPhase1Body cfg seedLen seedMms orc st r).doneMask r.patid = true)))) ∧
      (cfg.nsToNs = false →
        seededPhase1Body cfg seedLen seedMms orc st r ≠ (st.expand r.patid).markDone r.patid) := by
  have hne : ∀ (h : ¬ (cfg.nsToNs = true ∧ nsDisqualified seedMms
      (r.patFw.take (min r.patFw.length (sizeOfInt seedLen))) 0 = true)),
      seededPhase1Body cfg seedLen seedMms orc st r ≠ (st.expand r.patid).markDone r.patid := by
    intro h heq
    rcases seededPhase1Body_searches cfg seedLen seedMms orc st r h with h1 | h1
    · rw [heq] at h1
      simp [hex] at h1
    · rw [heq] at h1
      simp at h1
  have hcount := nsDisqualified_iff seedMms
    (r.patFw.take (min r.patFw.length (sizeOfInt seedLen))) 0 hm
  rw [sizeOfInt_of_nonneg seedLen hl0 hl1] at hcount hne
  have hc : ((countNs r.patFw (min r.patFw.length seedLen.toNat) : Nat) : Int) =
      (((r.patFw.take (min r.patFw.length seedLen.toNat)).filter fun b => b = 4).length : Int) := rfl
  have hfire : seedMms < (countNs r.patFw (min r.patFw.length seedLen.toNat) : Int) →
      cfg.nsToNs = true →
      seededPhase1Body cfg seedLen seedMms orc st r = (st.expand r.patid).markDone r.patid := by
    intro hlt hns
    have hd : nsDisqualified seedMms
        (r.patFw.take (min r.patFw.length seedLen.toNat)) 0 = true := by
      rw [hcount]; rw [hc] at hlt; omega
    have hpos : 0 < ((r.patFw.take (min r.patFw.length seedLen.toNat)).filter
        fun b => b = 4).length := by
      rw [hc] at hlt; omega
    have hlen : ((r.patFw.take (min r.patFw.length seedLen.toNat)).filter
        fun b => b = 4).length ≤ r.patFw.length :=
      (List.length_filter_le _ _).trans (List.length_take_le' _ _)
    unfold seededPhase1Body
    dsimp only
    rw [sizeOfInt_of_nonneg seedLen hl0 hl1]
    rw [hc] at hlt
    rw [if_neg (by omega), if_neg (by omega), if_neg (by omega), if_pos ⟨hns, hd⟩]
  refine ⟨fun hns => ⟨⟨fun hlt => hfire hlt hns, fun heq => ?_⟩, fun hlt => ?_⟩, fun hns => ?_⟩
  · by_contra hlt
    refine hne (fun hx => hlt ?_) heq
    have := hcount.mp hx.2
    rw [hc]; omega
  · rw [hfire hlt hns]
    refine ⟨by simp [newCalls], by simp [hex], fun h1 hk => ?_⟩
    rw [St.markDone_doneMask, St.expand_doneMask, testDone_setDone]
    rw [if_pos ⟨rfl, lt_length_expandDone _ _ h1 hk⟩]
  · exact hne (fun hx => by rw [hns] at hx; exact absurd hx.1 (by simp))

/-- An instance of `ns_prefilter`: with `seedMms = 1` and seed length 4, the read `NNGT` (two
`N`s in the seed) is marked done without a search. -/
theorem ns_prefilter_witness :
    ((0 : Int) ≤ 1 ∧ (0 : Int) ≤ 4 ∧ (4 : Int) < 2 ^ 31 ∧
      (initSt.allocDone 8).exited = false ∧ oneHitCfg.nsToNs = true ∧
      (1 : Int) < (countNs (mkRead 0 [4, 4, 2, 3] [0, 1, 4, 4]).patFw
        (min (mkRead 0 [4, 4, 2, 3] [0, 1, 4, 4]).patFw.length (4 : Int).toNat) : Int)) ∧
      newCalls (initSt.allocDone 8) (seededPhase1Body oneHitCfg 4 1 silentOracle
        (initSt.allocDone 8) (mkRead 0 [4, 4, 2, 3] [0, 1, 4, 4])) = [] ∧
      testDone (seededPhase1Body oneHitCfg 4 1 silentOracle (initSt.allocDone 8)
        (mkRead 0 [4, 4, 2, 3] [0, 1, 4, 4])).doneMask 0 = true :=
  ⟨⟨by decide, by decide, by decide, rfl, rfl, by decide⟩,
    ((ns_prefilter oneHitCfg 4 1 silentOracle (initSt.allocDone 8)
      (mkRead 0 [4, 4, 2, 3] [0, 1, 4, 4]) (by decide) (by decide) (by decide) rfl).1 rfl).2
        (by decide) |>.1,
    (((ns_prefilter oneHitCfg 4 1 silentOracle (initSt.allocDone 8)
      (mkRead 0 [4, 4, 2, 3] [0, 1, 4, 4]) (by decide) (by decide) (by decide) rfl).1 rfl).2
        (by decide)).2.2 (by decide) (by decide)⟩

theorem extendPartials_fw (orc : Oracle) (b : Backtracker) (qf : Bool) (q ql : List Nat)
    (patid : Nat) (pals : List PartialAlignment) :
    ∀ st, (extendPartials orc b qf q ql patid pals st).1.fw = st.fw := by
  induction pals with
  | nil => intro st; rfl
  | cons pal pals ih =>
    intro st
    unfold extendPartials
    dsimp only
    split_ifs
    · simp
    · rw [ih]; simp

theorem extendPartials_strand (orc : Oracle) (b : Backtracker) (qf : Bool) (q ql : List Nat)
    (patid : Nat) (pals : List PartialAlignment) :
    ∀ st, st.fw = qf →
      Continues SearchCall.strandAgrees st (extendPartials orc b qf q ql patid pals st).1 := by
  induction pals with
  | nil => intro st _; exact Continues.start _ _
  | cons pal pals ih =>
    intro st hfw
    unfold extendPartials
    dsimp only
    split_ifs
    · exact Continues.thenMarkDone _ (Continues.thenBacktrack _ _ _ _ _ _ _
        (by simp [SearchCall.strandAgrees, St.call, hfw]) (Continues.start _ _))
    · exact Continues.seq (Continues.thenBacktrack _ _ _ _ _ _ _
        (by simp [SearchCall.strandAgrees, St.call, hfw]) (Continues.start _ _))
        (ih _ (by simpa using hfw))

theorem exactSearchBody_strand (cfg : Config) (orc : Oracle) (st : St) (r : Read) (hfw : st.fw = true) :
    Continues SearchCall.strandAgrees st (exactSearchBody cfg orc st r) := by
  unfold exactSearchBody
  dsimp only
  split_ifs <;>
    repeat (with_reducible first
      | exact Continues.start _ _
      | apply Continues.thenSetFw
      | apply Continues.thenExit
      | apply Continues.thenMarkDone
      | apply Continues.thenSyncMarkDone
      | apply Continues.thenExpand
      | apply Continues.thenSyncLastHits
      | apply Continues.thenRejectProvisionalHits
      | apply Continues.thenAcceptProvisionalHits
      | apply Continues.thenSetOffsBtf
      | apply Continues.thenSetOffsBtr
      | apply Continues.thenSetOffsBt
      | apply Continues.thenSetOffsHh
      | apply Continues.thenSetQlenBtf
      | apply Continues.thenSetQlenBtr
      | refine Continues.thenSearch _ _ _ _
          (by simp [SearchCall.strandAgrees, St.call, hfw]) ?_)

theorem exactSearchBody_fw (cfg : Config) (orc : Oracle) (st : St) (r : Read) (hfw : st.fw = true) :
    (exactSearchBody cfg orc st r).fw = true := by
  unfold exactSearchBody
  dsimp only
  split_ifs <;> simp [hfw]

theorem mismatchSearchPhase1Body_strand (cfg : Config) (orc : Oracle) (st : St) (r : Read) (hfw : st.fw = false) :
    Continues SearchCall.strandAgrees st (mismatchSearchPhase1Body cfg orc st r) := by
  unfold mismatchSearchPhase1Body mismatchSearchPhase1Exact mismatchSearchPhase1Inexact
  dsimp only
  split_ifs <;>
    repeat (with_reducible first
      | exact Continues.start _ _
      | apply Continues.thenSetFw
      | apply Continues.thenExit
      | apply Continues.thenMarkDone
      | apply Continues.thenSyncMarkDone
      | apply Continues.thenExpand
      | apply Continues.thenSyncLastHits
      | apply Continues.thenRejectProvisionalHits
      | apply Continues.thenAcceptProvisionalHits
      | apply Continues.thenSetOffsBtf
      | apply Continues.thenSetOffsBtr
      | apply Continues.thenSetOffsBt
      | apply Continues.thenSetOffsHh
      | apply Continues.thenSetQlenBtf
      | apply Continues.thenSetQlenBtr
      | refine Continues.thenSearch _ _ _ _
          (by simp [SearchCall.strandAgrees, St.call, hfw]) ?_)

theorem mismatchSearchPhase1Body_fw (cfg : Config) (orc : Oracle) (st : St) (r : Read) (hfw : st.fw = false) :
    (mismatchSearchPhase1Body cfg orc st r).fw = false := by
  unfold mismatchSearchPhase1Body mismatchSearchPhase1Exact mismatchSearchPhase1Inexact
  dsimp only
  split_ifs <;> simp [hfw]

theorem mismatchSearchPhase2Body_strand (cfg : Config) (orc : Oracle) (st : St) (r : Read) (hfw : st.fw = true) :
    Continues SearchCall.strandAgrees st (mismatchSearchPhase2Body cfg orc st r) := by
  unfold mismatchSearchPhase2Body
  dsimp only
  split_ifs <;>
    repeat (with_reducible first
      | exact Continues.start _ _
      | apply Continues.thenSetFw
      | apply Continues.thenExit
      | apply Continues.thenMarkDone
      | apply Continues.thenSyncMarkDone
      | apply Continues.thenExpand
      | apply Continues.thenSyncLastHits
      | apply Continues.thenRejectProvisionalHits
      | apply Continues.thenAcceptProvisionalHits
      | apply Continues.thenSetOffsBtf
      | apply Continues.thenSetOffsBtr
      | apply Continues.thenSetOffsBt
      | apply Continues.thenSetOffsHh
      | apply Continues.thenSetQlenBtf
      | apply Continues.thenSetQlenBtr
      | refine Continues.thenSearch _ _ _ _
          (by simp [SearchCall.strandAgrees, St.call, hfw]) ?_)

theorem mismatchSearchPhase2Body_fw (cfg : Config) (orc : Oracle) (st : St) (r : Read) (hfw : st.fw = true) :
    (mismatchSearchPhase2Body cfg orc st r).fw = true := by
  unfold mismatchSearchPhase2Body
  dsimp only
  split_ifs <;> simp [hfw]

theorem twoOrThreePhase1Body_strand (cfg : Config) (two : Bool) (orc : Oracle) (st : St) (r : Read) (hfw : st.fw = true) :
    Continues SearchCall.strandAgrees st (twoOrThreePhase1Body cfg two orc st r) := by
  unfold twoOrThreePhase1Body
  dsimp only
  split_ifs <;>
    repeat (with_reducible first
      | exact Continues.start _ _
      | apply Continues.thenSetFw
      | apply Continues.thenExit
      | apply Continues.thenMarkDone
      | apply Continues.thenSyncMarkDone
      | apply Continues.thenExpand
      | apply Continues.thenSyncLastHits
      | apply Continues.thenRejectProvisionalHits
      | apply Continues.thenAcceptProvisionalHits
      | apply Continues.thenSetOffsBtf
      | apply Continues.thenSetOffsBtr
      | apply Continues.thenSetOffsBt
      | apply Continues.thenSetOffsHh
      | apply Continues.thenSetQlenBtf
      | apply Continues.thenSetQlenBtr
      | refine Continues.thenSearch _ _ _ _
          (by simp [SearchCall.strandAgrees, St.call, hfw]) ?_
      | refine Continues.thenBacktrack _ _ _ _ _ _ _
          (by simp [SearchCall.strandAgrees, St.call, hfw]) ?_)

theorem twoOrThreePhase1Body_fw (cfg : Config) (two : Bool) (orc : Oracle) (st : St) (r : Read) (hfw : st.fw = true) :
    (twoOrThreePhase1Body cfg two orc st r).fw = true := by
  unfold twoOrThreePhase1Body
  dsimp only
  split_ifs <;> simp [hfw]

theorem twoOrThreePhase2Body_strand (two : Bool) (orc : Oracle) (st : St) (r : Read) (hfw : st.fw = true) :
    Continues SearchCall.strandAgrees st (twoOrThreePhase2Body two orc st r) := by
  unfold twoOrThreePhase2Body
  dsimp only
  split_ifs <;>
    repeat (with_reducible first
      | exact Continues.start _ _
      | apply Continues.thenSetFw
      | apply Continues.thenExit
      | apply Continues.thenMarkDone
      | apply Continues.thenSyncMarkDone
      | apply Continues.thenExpand
      | apply Continues.thenSyncLastHits
      | apply Continues.thenRejectProvisionalHits
      | apply Continues.thenAcceptProvisionalHits
      | apply Continues.thenSetOffsBtf
      | apply Continues.thenSetOffsBtr
      | apply Continues.thenSetOffsBt
      | apply Continues.thenSetOffsHh
      | apply Continues.thenSetQlenBtf
      | apply Continues.thenSetQlenBtr
      | refine Continues.thenBacktrack _ _ _ _ _ _ _
          (by simp [SearchCall.strandAgrees, St.call, hfw]) ?_)

theorem twoOrThreePhase2Body_fw (two : Bool) (orc : Oracle) (st : St) (r : Read) (hfw : st.fw = true) :
    (twoOrThreePhase2Body two orc st r).fw = true := by
  unfold twoOrThreePhase2Body
  dsimp only
  split_ifs <;> simp [hfw]

theorem twoOrThreePhase3Body_strand (two : Bool) (orc : Oracle) (st : St) (r : Read) (hfw : st.fw = true) :
    Continues SearchCall.strandAgrees st (twoOrThreePhase3Body two orc st r) := by
  unfold twoOrThreePhase3Body
  dsimp only
  split_ifs <;>
    repeat (with_reducible first
      | exact Continues.start _ _
      | apply Continues.thenSetFw
      | apply Continues.thenExit
      | apply Continues.thenMarkDone
      | apply Continues.thenSyncMarkDone
      | apply Continues.thenExpand
      | apply Continues.thenSyncLastHits
      | apply Continues.thenRejectProvisionalHits
      | apply Continues.thenAcceptProvisionalHits
      | apply Continues.thenSetOffsBtf
      | apply Continues.thenSetOffsBtr
      | apply Continues.thenSetOffsBt
      | apply Continues.thenSetOffsHh
      | apply Continues.thenSetQlenBtf
      | apply Continues.thenSetQlenBtr
      | refine Continues.thenBacktrack _ _ _ _ _ _ _
          (by simp [SearchCall.strandAgrees, St.call, hfw]) ?_)

theorem twoOrThreePhase3Body_fw (two : Bool) (orc : Oracle) (st : St) (r : Read) (hfw : st.fw = true) :
    (twoOrThreePhase3Body two orc st r).fw = true := by
  unfold twoOrThreePhase3Body
  dsimp only
  split_ifs <;> simp [hfw]

theorem seededPhase1Body_strand (cfg : Config) (seedLen seedMms : Int) (orc : Oracle) (st : St) (r : Read) (hfw : st.fw = true) :
    Continues SearchCall.strandAgrees st (seededPhase1Body cfg seedLen seedMms orc st r) := by
  unfold seededPhase1Body
  dsimp only
  split_ifs <;>
    repeat (with_reducible first
      | exact Continues.start _ _
      | apply Continues.thenSetFw
      | apply Continues.thenExit
      | apply Continues.thenMarkDone
      | apply Continues.thenSyncMarkDone
      | apply Continues.thenExpand
      | apply Continues.thenSyncLastHits
      | apply Continues.thenRejectProvisionalHits
      | apply Continues.thenAcceptProvisionalHits
      | apply Continues.thenSetOffsBtf
      | apply Continues.thenSetOffsBtr
      | apply Continues.thenSetOffsBt
      | apply Continues.thenSetOffsHh
      | apply Continues.thenSetQlenBtf
      | apply Continues.thenSetQlenBtr
      | refine Continues.thenBacktrack _ _ _ _ _ _ _
          (by simp [SearchCall.strandAgrees, St.call, hfw]) ?_)

theorem seededPhase1Body_fw (cfg : Config) (seedLen seedMms : Int) (orc : Oracle) (st : St) (r : Read) (hfw : st.fw = true) :
    (seededPhase1Body cfg seedLen seedMms orc st r).fw = true := by
  unfold seededPhase1Body
  dsimp only
  split_ifs <;> simp [hfw]

theorem seededPhase2Body_strand (seedLen seedMms : Int) (orc : Oracle) (st : St) (r : Read) :
    Continues SearchCall.strandAgrees st (seededPhase2Body seedLen seedMms orc st r) := by
  unfold seededPhase2Body
  dsimp only
  split_ifs <;>
    repeat (with_reducible first
      | exact Continues.start _ _
      | apply Continues.thenSetFw
      | apply Continues.thenExit
      | apply Continues.thenMarkDone
      | apply Continues.thenSyncMarkDone
      | apply Continues.thenExpand
      | apply Continues.thenSyncLastHits
      | apply Continues.thenRejectProvisionalHits
      | apply Continues.thenAcceptProvisionalHits
      | apply Continues.thenSetOffsBtf
      | apply Continues.thenSetOffsBtr
      | apply Continues.thenSetOffsBt
      | apply Continues.thenSetOffsHh
      | apply Continues.thenSetQlenBtf
      | apply Continues.thenSetQlenBtr
      | refine Continues.thenBacktrack _ _ _ _ _ _ _
          (by simp [SearchCall.strandAgrees, St.call, true_and]) ?_)

theorem seededPhase3Extend_strand (seedLen : Int) (orc : Oracle) (st : St) (r : Read) (hfw : st.fw = false) :
    Continues SearchCall.strandAgrees st (seededPhase3Extend seedLen orc st r).1 := by
  unfold seededPhase3Extend
  dsimp only
  split_ifs <;>
    repeat (with_reducible first
      | exact Continues.start _ _
      | apply Continues.thenSetFw
      | apply Continues.thenExit
      | apply Continues.thenMarkDone
      | apply Continues.thenSyncMarkDone
      | apply Continues.thenExpand
      | apply Continues.thenSyncLastHits
      | apply Continues.thenRejectProvisionalHits
      | apply Continues.thenAcceptProvisionalHits
      | apply Continues.thenSetOffsBtf
      | apply Continues.thenSetOffsBtr
      | apply Continues.thenSetOffsBt
      | apply Continues.thenSetOffsHh
      | apply Continues.thenSetQlenBtf
      | apply Continues.thenSetQlenBtr
      | refine Continues.seq ?_ (extendPartials_strand _ _ _ _ _ _ _ _ (by simp [hfw])))


theorem seededPhase3Extend_fw (seedLen : Int) (orc : Oracle) (st : St) (r : Read) :
    (seededPhase3Extend seedLen orc st r).1.fw = st.fw := by
  unfold seededPhase3Extend
  dsimp only
  split_ifs <;> simp [extendPartials_fw]

theorem seededPhase3Hh_strand (seedLen seedMms : Int) (orc : Oracle) (st : St) (r : Read) (hfw : st.fw = false) :
    Continues SearchCall.strandAgrees st (seededPhase3Hh seedLen seedMms orc st r).1 := by
  unfold seededPhase3Hh
  dsimp only
  split_ifs <;>
    repeat (with_reducible first
      | exact Continues.start _ _
      | apply Continues.thenSetFw
      | apply Continues.thenExit
      | apply Continues.thenMarkDone
      | apply Continues.thenSyncMarkDone
      | apply Continues.thenExpand
      | apply Continues.thenSyncLastHits
      | apply Continues.thenRejectProvisionalHits
      | apply Continues.thenAcceptProvisionalHits
      | apply Continues.thenSetOffsBtf
      | apply Continues.thenSetOffsBtr
      | apply Continues.thenSetOffsBt
      | apply Continues.thenSetOffsHh
      | apply Continues.thenSetQlenBtf
      | apply Continues.thenSetQlenBtr
      | refine Continues.thenBacktrack _ _ _ _ _ _ _
          (by simp [SearchCall.strandAgrees, St.call, hfw]) ?_)

theorem seededPhase3Hh_fw (seedLen seedMms : Int) (orc : Oracle) (st : St) (r : Read) (hfw : st.fw = false) :
    (seededPhase3Hh seedLen seedMms orc st r).1.fw = false := by
  unfold seededPhase3Hh
  dsimp only
  split_ifs <;> simp [hfw]

theorem seededPhase3Seedlings_strand (seedLen seedMms : Int) (orc : Oracle) (st : St) (r : Read) :
    Continues SearchCall.strandAgrees st (seededPhase3Seedlings seedLen seedMms orc st r) := by
  unfold seededPhase3Seedlings
  dsimp only
  split_ifs <;>
    repeat (with_reducible first
      | exact Continues.start _ _
      | apply Continues.thenSetFw
      | apply Continues.thenExit
      | apply Continues.thenMarkDone
      | apply Continues.thenSyncMarkDone
      | apply Continues.thenExpand
      | apply Continues.thenSyncLastHits
      | apply Continues.thenRejectProvisionalHits
      | apply Continues.thenAcceptProvisionalHits
      | apply Continues.thenSetOffsBtf
      | apply Continues.thenSetOffsBtr
      | apply Continues.thenSetOffsBt
      | apply Continues.thenSetOffsHh
      | apply Continues.thenSetQlenBtf
      | apply Continues.thenSetQlenBtr
      | refine Continues.thenBacktrack _ _ _ _ _ _ _
          (by simp [SearchCall.strandAgrees, St.call, true_and]) ?_)

theorem seededPhase4Extend_strand (seedLen : Int) (orc : Oracle) (st : St) (r : Read) (hfw : st.fw = true) :
    Continues SearchCall.strandAgrees st (seededPhase4Extend seedLen orc st r).1 := by
  unfold seededPhase4Extend
  dsimp only
  split_ifs <;>
    repeat (with_reducible first
      | exact Continues.start _ _
      | apply Continues.thenSetFw
      | apply Continues.thenExit
      | apply Continues.thenMarkDone
      | apply Continues.thenSyncMarkDone
      | apply Continues.thenExpand
      | apply Continues.thenSyncLastHits
      | apply Continues.thenRejectProvisionalHits
      | apply Continues.thenAcceptProvisionalHits
      | apply Continues.thenSetOffsBtf
      | apply Continues.thenSetOffsBtr
      | apply Continues.thenSetOffsBt
      | apply Continues.thenSetOffsHh
      | apply Continues.thenSetQlenBtf
      | apply Continues.thenSetQlenBtr
      | refine Continues.seq ?_ (extendPartials_strand _ _ _ _ _ _ _ _ (by simp [hfw])))


theorem seededPhase4Extend_fw (seedLen : Int) (orc : Oracle) (st : St) (r : Read) :
    (seededPhase4Extend seedLen orc st r).1.fw = st.fw := by
  unfold seededPhase4Extend
  dsimp only
  split_ifs <;> simp [extendPartials_fw]

theorem seededPhase4Hh_strand (seedLen seedMms : Int) (orc : Oracle) (st : St) (r : Read) (hfw : st.fw = true) :
    Continues SearchCall.strandAgrees st (seededPhase4Hh seedLen seedMms orc st r) := by
  unfold seededPhase4Hh
  dsimp only
  split_ifs <;>
    repeat (with_reducible first
      | exact Continues.start _ _
      | apply Continues.thenSetFw
      | apply Continues.thenExit
      | apply Continues.thenMarkDone
      | apply Continues.thenSyncMarkDone
      | apply Continues.thenExpand
      | apply Continues.thenSyncLastHits
      | apply Continues.thenRejectProvisionalHits
      | apply Continues.thenAcceptProvisionalHits
      | apply Continues.thenSetOffsBtf
      | apply Continues.thenSetOffsBtr
      | apply Continues.thenSetOffsBt
      | apply Continues.thenSetOffsHh
      | apply Continues.thenSetQlenBtf
      | apply Continues.thenSetQlenBtr
      | refine Continues.thenBacktrack _ _ _ _ _ _ _
          (by simp [SearchCall.strandAgrees, St.call, hfw]) ?_)


theorem seededPhase3Body_strand (seedLen seedMms : Int) (orc : Oracle) (st : St) (r : Read) :
    Continues SearchCall.strandAgrees st (seededPhase3Body seedLen seedMms orc st r) := by
  have e0 : Continues SearchCall.strandAgrees st (st.setFw false) :=
    (Continues.start _ _).thenSetFw _
  have e1 := Continues.seq e0 (seededPhase3Extend_strand seedLen orc (st.setFw false) r rfl)
  have e2 := Continues.seq e1 (seededPhase3Hh_strand seedLen seedMms orc _ r
    (by rw [seededPhase3Extend_fw]; rfl))
  have e3 := Continues.seq e2 (seededPhase3Seedlings_strand seedLen seedMms orc _ r)
  unfold seededPhase3Body
  dsimp only
  split_ifs
  · exact Continues.start _ _
  · exact e1
  · exact e2.thenMarkDone _
  · exact e3

theorem seededPhase4Body_strand (seedLen seedMms : Int) (orc : Oracle) (st : St) (r : Read) :
    Continues SearchCall.strandAgrees st (seededPhase4Body seedLen seedMms orc st r) := by
  have e0 : Continues SearchCall.strandAgrees st (st.setFw true) :=
    (Continues.start _ _).thenSetFw _
  have e1 := Continues.seq e0 (seededPhase4Extend_strand seedLen orc (st.setFw true) r rfl)
  have e2 := Continues.seq e1 (seededPhase4Hh_strand seedLen seedMms orc _ r
    (by rw [seededPhase4Extend_fw]; rfl))
  unfold seededPhase4Body
  dsimp only
  split_ifs
  · exact Continues.start _ _
  · exact e1
  · exact e2

/-- A read loop keeps an invariant `I` of the state and issues only searches
that satisfy `P`, when its body does so on every read satisfying `W`. -/
theorem readLoop_invariant (cfg : Config) (P : SearchCall → Prop) (I : St → Prop)
    (W : Read → Prop) (body : St → Read → St)
    (hget : ∀ st rd, I st → I (st.getRead rd)) (hexit : ∀ st, I st → I st.exit)
    (hW : ∀ b r, W r → W (presentRead b r))
    (hbody : ∀ st r, W r → I st → Continues P st (body st r) ∧ I (body st r))
    (reads : List Read) :
    ∀ st, (∀ r ∈ reads, W r) → I st →
      Continues P st (readLoop cfg body reads st) ∧ I (readLoop cfg body reads st) := by
  induction reads with
  | nil => intro st _ hst; exact ⟨Continues.start _ _, hst⟩
  | cons r rs ih =>
    intro st hw hst
    have hg : Continues P st (st.getRead (presentRead st.reverse r)) :=
      (Continues.start _ _).thenGetRead _
    have hgI := hget st (presentRead st.reverse r) hst
    have hb := hbody _ (presentRead st.reverse r) (hW _ _ (hw r (by simp))) hgI
    unfold readLoop
    dsimp only
    split_ifs
    · exact ⟨Continues.start _ _, hst⟩
    · exact ⟨Continues.start _ _, hst⟩
    · exact ⟨hg.thenExit, hexit _ hgI⟩
    · have h2 := ih _ (fun x hx => hw x (List.mem_cons_of_mem _ hx)) hb.2
      exact ⟨Continues.seq (Continues.seq hg hb.1) h2.1, h2.2⟩

theorem CallsFrom.nil (P : SearchCall → Prop) (st : St) : CallsFrom P st st :=
  ⟨[], by simp, by simp⟩

theorem CallsFrom.append {P : SearchCall → Prop} {a b c : St} (h1 : CallsFrom P a b)
    (h2 : CallsFrom P b c) : CallsFrom P a c := by
  obtain ⟨l1, t1, p1⟩ := h1
  obtain ⟨l2, t2, p2⟩ := h2
  refine ⟨l1 ++ l2, by rw [t2, t1, List.append_assoc], ?_⟩
  intro x hx
  rcases List.mem_append.mp hx with h | h
  · exact p1 x h
  · exact p2 x h

theorem CallsFrom.ofTrace {P : SearchCall → Prop} {a c b d : St} (ha : c.trace = a.trace)
    (hb : d.trace = b.trace) (h : CallsFrom P c b) : CallsFrom P a d := by
  obtain ⟨l, t, p⟩ := h
  exact ⟨l, by rw [hb, t, ha], p⟩

theorem CallsFrom.andThen {P : SearchCall → Prop} {a b : St} (f : St → St)
    (h1 : CallsFrom P a b) (h2 : CallsFrom P b (f b)) : CallsFrom P a (b.andThen f) := by
  unfold St.andThen
  split_ifs
  · exact h1
  · exact h1.append h2

/-- The read loop of a phase whose body keeps the strand flag at `x` between
reads. -/
theorem readLoop_strand (cfg : Config) (x : Bool) (body : St → Read → St)
    (hbody : ∀ st r, st.fw = x →
      Continues SearchCall.strandAgrees st (body st r) ∧ (body st r).fw = x)
    (reads : List Read) (st : St) (hst : st.fw = x) :
    CallsFrom SearchCall.strandAgrees st (readLoop cfg body reads st) :=
  (readLoop_invariant cfg _ (fun s => s.fw = x) (fun _ => True) body (fun _ _ h => h)
    (fun _ h => h) (fun _ _ _ => trivial) (fun s r _ h => hbody s r h) reads st
    (fun _ _ => trivial) hst).1.2.2.2.2.2.2

/-- The read loop of a phase whose body sets the strand flag itself. -/
theorem readLoop_strand_free (cfg : Config) (body : St → Read → St)
    (hbody : ∀ st r, Continues SearchCall.strandAgrees st (body st r))
    (reads : List Read) (st : St) :
    CallsFrom SearchCall.strandAgrees st (readLoop cfg body reads st) :=
  (readLoop_invariant cfg _ (fun _ => True) (fun _ => True) body (fun _ _ _ => trivial)
    (fun _ _ => trivial) (fun _ _ _ => trivial) (fun s r _ _ => ⟨hbody s r, trivial⟩) reads st
    (fun _ _ => trivial) trivial).1.2.2.2.2.2.2

/-- C28: in each of the four search variants, run with one worker from any
state on any sequence of reads and with any outcomes of the searches, every
index search issued is called with the strand flag of the shared parameters
equal to "the query is the forward read": `params.fw` is true at a search of
the forward read and false at a search of the reverse complement. -/
theorem strand_flag_agrees (cfg : Config) (two : Bool) (seedLen qualCutoff seedMms : Int)
    (orc : Oracle) (reads : List Read) (st : St) :
    CallsFrom SearchCall.strandAgrees st (exactSearch cfg orc reads st) ∧
      CallsFrom SearchCall.strandAgrees st (mismatchSearch cfg orc reads st) ∧
      CallsFrom SearchCall.strandAgrees st (twoOrThreeMismatchSearch cfg two orc reads st) ∧
      CallsFrom SearchCall.strandAgrees st
        (seededQualCutoffSearch cfg seedLen qualCutoff seedMms orc reads st) := by
  have hmm2 : ∀ s, CallsFrom SearchCall.strandAgrees s (mismatchSearchPhase2 cfg orc reads s) :=
    fun s => CallsFrom.ofTrace (c := mismatchSearchPhase2Init s) rfl rfl
      (readLoop_strand cfg true _ (fun y r h => ⟨mismatchSearchPhase2Body_strand cfg orc y r h,
        mismatchSearchPhase2Body_fw cfg orc y r h⟩) reads _ rfl)
  have htt2 : ∀ s, CallsFrom SearchCall.strandAgrees s (twoOrThreePhase2 cfg two orc reads s) :=
    fun s => CallsFrom.ofTrace (c := twoOrThreePhase2Init cfg s) rfl rfl
      (readLoop_strand cfg true _ (fun y r h => ⟨twoOrThreePhase2Body_strand two orc y r h,
        twoOrThreePhase2Body_fw two orc y r h⟩) reads _ rfl)
  have htt3 : ∀ s, CallsFrom SearchCall.strandAgrees s (twoOrThreePhase3 cfg two orc reads s) :=
    fun s => CallsFrom.ofTrace (c := twoOrThreePhase3Init cfg s) rfl rfl
      (readLoop_strand cfg true _ (fun y r h => ⟨twoOrThreePhase3Body_strand two orc y r h,
        twoOrThreePhase3Body_fw two orc y r h⟩) reads _ rfl)
  have hsd2 : ∀ s, CallsFrom SearchCall.strandAgrees s
      (seededPhase2 cfg seedLen qualCutoff seedMms orc reads s) :=
    fun s => CallsFrom.ofTrace (c := seededPhase2Init cfg seedLen qualCutoff seedMms s) rfl rfl
      (readLoop_strand_free cfg _ (seededPhase2Body_strand seedLen seedMms orc) reads _)
  have hsd3 : ∀ s, CallsFrom SearchCall.strandAgrees s
      (seededPhase3 cfg seedLen qualCutoff seedMms orc reads s) :=
    fun s => CallsFrom.ofTrace (c := seededPhase3Init cfg seedLen qualCutoff seedMms s) rfl rfl
      (readLoop_strand_free cfg _ (seededPhase3Body_strand seedLen seedMms orc) reads _)
  have hsd4 : ∀ s, CallsFrom SearchCall.strandAgrees s
      (seededPhase4 cfg seedLen qualCutoff seedMms orc reads s) :=
    fun s => CallsFrom.ofTrace (c := seededPhase4Init cfg seedLen qualCutoff seedMms s) rfl rfl
      (readLoop_strand_free cfg _ (seededPhase4Body_strand seedLen seedMms orc) reads _)
  refine ⟨?_, ?_, ?_, ?_⟩
  · exact CallsFrom.ofTrace (c := exactSearchInit st) rfl rfl
      (readLoop_strand cfg true _ (fun y r h => ⟨exactSearchBody_strand cfg orc y r h,
        exactSearchBody_fw cfg orc y r h⟩) reads _ rfl)
  · refine CallsFrom.andThen _ ?_ (hmm2 _)
    exact CallsFrom.ofTrace (c := mismatchSearchPhase1Init cfg st) rfl rfl
      (readLoop_strand cfg false _ (fun y r h => ⟨mismatchSearchPhase1Body_strand cfg orc y r h,
        mismatchSearchPhase1Body_fw cfg orc y r h⟩) reads _ rfl)
  · refine CallsFrom.andThen _ (CallsFrom.andThen _ ?_ (htt2 _)) (htt3 _)
    exact CallsFrom.ofTrace (c := twoOrThreePhase1Init cfg st) rfl rfl
      (readLoop_strand cfg true _ (fun y r h => ⟨twoOrThreePhase1Body_strand cfg two orc y r h,
        twoOrThreePhase1Body_fw cfg two orc y r h⟩) reads _ rfl)
  · have h12 : CallsFrom SearchCall.strandAgrees st
        ((seededPhase1 cfg seedLen qualCutoff seedMms orc reads st).andThen
          (seededPhase2 cfg seedLen qualCutoff seedMms orc reads)) := by
      refine CallsFrom.andThen _ ?_ (hsd2 _)
      exact CallsFrom.ofTrace (c := seededPhase1Init cfg seedLen qualCutoff seedMms st) rfl rfl
        (readLoop_strand cfg true _ (fun y r h =>
          ⟨seededPhase1Body_strand cfg seedLen seedMms orc y r h,
            seededPhase1Body_fw cfg seedLen seedMms orc y r h⟩) reads _ rfl)
    unfold seededQualCutoffSearch
    dsimp only
    split_ifs
    · exact h12
    · exact CallsFrom.andThen _ (CallsFrom.andThen _ h12 (hsd3 _)) (hsd4 _)
/-! ## Thresholds of the seeded search -/

theorem minU32_of_not_lt (p s : Nat) (hs : s < 2 ^ 32) (h : ¬ minU32 p s < s) :
    minU32 p s = s := by
  unfold minU32 at h ⊢
  rw [u32_of_lt hs] at h ⊢
  omega

@[simp] theorem minU32_u32 (p s : Nat) : minU32 (u32 p) s = minU32 p s := by
  unfold minU32
  rw [u32_idem]

theorem extendPartials_btr (orc : Oracle) (b : Backtracker) (qf : Bool) (q ql : List Nat)
    (patid : Nat) (pals : List PartialAlignment) :
    ∀ st, (extendPartials orc b qf q ql patid pals st).1.btr = st.btr := by
  induction pals with
  | nil => intro st; rfl
  | cons pal pals ih =>
    intro st
    unfold extendPartials
    dsimp only
    split_ifs
    · simp
    · rw [ih]; simp

theorem extendPartials_hh (orc : Oracle) (b : Backtracker) (qf : Bool) (q ql : List Nat)
    (patid : Nat) (pals : List PartialAlignment) :
    ∀ st, (extendPartials orc b qf q ql patid pals st).1.hh = st.hh := by
  induction pals with
  | nil => intro st; rfl
  | cons pal pals ih =>
    intro st
    unfold extendPartials
    dsimp only
    split_ifs
    · simp
    · rw [ih]; simp

theorem extendPartials_thresholds (P : SearchCall → Prop) (orc : Oracle) (b : Backtracker)
    (qf : Bool) (q ql : List Nat) (patid : Nat)
    (hb : ∀ (x : St) (pal : PartialAlignment),
      P (x.call (SearchKind.backtrack b (some pal)) b.ebwtFw qf q ql))
    (pals : List PartialAlignment) :
    ∀ st, Continues P st (extendPartials orc b qf q ql patid pals st).1 := by
  induction pals with
  | nil => intro st; exact Continues.start _ _
  | cons pal pals ih =>
    intro st
    unfold extendPartials
    dsimp only
    split_ifs
    · exact Continues.thenMarkDone _ (Continues.thenBacktrack _ _ _ _ _ _ _ (hb _ _)
        (Continues.start _ _))
    · exact Continues.seq (Continues.thenBacktrack _ _ _ _ _ _ _ (hb _ _)
        (Continues.start _ _)) (ih _)


theorem seededPhase1Body_thresholds (cfg : Config) (seedLen seedMms : Int) (orc : Oracle) (st : St) (r : Read)
    (hwf : r.patRc.length = r.patFw.length)
    (hbt : st.bt.offs = seedOffs5 seedMms (u32OfInt seedLen)) :
    Continues (SeededThresholds 1 seedLen seedMms) st (seededPhase1Body cfg seedLen seedMms orc st r) := by
  unfold seededPhase1Body
  dsimp only
  by_cases hq : minU32 r.patFw.length (u32OfInt seedLen) < u32OfInt seedLen
  · simp only [hq, if_true]
    split_ifs <;>
      repeat (with_reducible first
        | exact Continues.start _ _
        | apply Continues.thenSetFw
        | apply Continues.thenExit
        | apply Continues.thenMarkDone
        | apply Continues.thenExpand
        | apply Continues.thenSetOffsBtf
        | apply Continues.thenSetOffsBtr
        | apply Continues.thenSetOffsBt
        | apply Continues.thenSetOffsHh
        | apply Continues.thenSetQlenBtf
        | apply Continues.thenSetQlenBtr
        | refine Continues.thenBacktrack _ _ _ _ _ _ _
            (by simp [SeededThresholds, SearchCall.offs, SearchCall.extending, St.call,
              seededFormula, thresholdArg, Backtracker.setOffs, Backtracker.setQlen, hwf, hbt]) ?_)
  · have heq := minU32_of_not_lt _ _ (u32OfInt_lt seedLen) hq
    try simp only [minU32_u32, hwf] at heq
    simp only [hq, if_false]
    split_ifs <;>
      repeat (with_reducible first
        | exact Continues.start _ _
        | apply Continues.thenSetFw
        | apply Continues.thenExit
        | apply Continues.thenMarkDone
        | apply Continues.thenExpand
        | apply Continues.thenSetOffsBtf
        | apply Continues.thenSetOffsBtr
        | apply Continues.thenSetOffsBt
        | apply Continues.thenSetOffsHh
        | apply Continues.thenSetQlenBtf
        | apply Continues.thenSetQlenBtr
        | refine Continues.thenBacktrack _ _ _ _ _ _ _
            (by simp [SeededThresholds, SearchCall.offs, SearchCall.extending, St.call,
              seededFormula, thresholdArg, Backtracker.setOffs, Backtracker.setQlen, hwf, hbt, heq]) ?_)

theorem seededPhase2Body_thresholds (seedLen seedMms : Int) (orc : Oracle) (st : St) (r : Read)
    (hwf : r.patRc.length = r.patFw.length)
    (hbtf : st.btf.offs = seedOffs5 seedMms (u32OfInt seedLen))
    (hbtr : st.btr.offs = seedOffs3 seedMms (u32OfInt seedLen)) :
    Continues (SeededThresholds 2 seedLen seedMms) st (seededPhase2Body seedLen seedMms orc st r) := by
  unfold seededPhase2Body
  dsimp only
  by_cases hq : minU32 r.patFw.length (u32OfInt seedLen) < u32OfInt seedLen
  · simp only [hq, if_true]
    split_ifs <;>
      repeat (with_reducible first
        | exact Continues.start _ _
        | apply Continues.thenSetFw
        | apply Continues.thenExit
        | apply Continues.thenMarkDone
        | apply Continues.thenExpand
        | apply Continues.thenSetOffsBtf
        | apply Continues.thenSetOffsBtr
        | apply Continues.thenSetOffsBt
        | apply Continues.thenSetOffsHh
        | apply Continues.thenSetQlenBtf
        | apply Continues.thenSetQlenBtr
        | refine Continues.thenBacktrack _ _ _ _ _ _ _
            (by simp [SeededThresholds, SearchCall.offs, SearchCall.extending, St.call,
              seededFormula, thresholdArg, Backtracker.setOffs, Backtracker.setQlen, hwf, hbtf, hbtr]) ?_)
  · have heq := minU32_of_not_lt _ _ (u32OfInt_lt seedLen) hq
    try simp only [minU32_u32, hwf] at heq
    simp only [hq, if_false]
    split_ifs <;>
      repeat (with_reducible first
        | exact Continues.start _ _
        | apply Continues.thenSetFw
        | apply Continues.thenExit
        | apply Continues.thenMarkDone
        | apply Continues.thenExpand
        | apply Continues.thenSetOffsBtf
        | apply Continues.thenSetOffsBtr
        | apply Continues.thenSetOffsBt
        | apply Continues.thenSetOffsHh
        | apply Continues.thenSetQlenBtf
        | apply Continues.thenSetQlenBtr
        | refine Continues.thenBacktrack _ _ _ _ _ _ _
            (by simp [SeededThresholds, SearchCall.offs, SearchCall.extending, St.call,
              seededFormula, thresholdArg, Backtracker.setOffs, Backtracker.setQlen, hwf, hbtf, hbtr, heq]) ?_)

theorem seededPhase3Extend_thresholds (seedLen seedMms : Int) (orc : Oracle) (st : St) (r : Read)
    (hwf : r.patRc.length = r.patFw.length)
    (hbtr : st.btr.offs = seedOffsFull (u32OfInt seedLen)) :
    Continues (SeededThresholds 3 seedLen seedMms) st (seededPhase3Extend seedLen orc st r).1 := by
  unfold seededPhase3Extend
  dsimp only
  by_cases hq : minU32 (u32 r.patRc.length) (u32OfInt seedLen) < u32OfInt seedLen
  · simp only [hq, if_true]
    split_ifs <;>
      repeat (with_reducible first
        | exact Continues.start _ _
        | apply Continues.thenSetFw
        | apply Continues.thenExit
        | apply Continues.thenMarkDone
        | apply Continues.thenExpand
        | apply Continues.thenSetOffsBtf
        | apply Continues.thenSetOffsBtr
        | apply Continues.thenSetOffsBt
        | apply Continues.thenSetOffsHh
        | apply Continues.thenSetQlenBtf
        | apply Continues.thenSetQlenBtr
        | refine Continues.thenBacktrack _ _ _ _ _ _ _
            (by simp [SeededThresholds, SearchCall.offs, SearchCall.extending, St.call,
              seededFormula, thresholdArg, Backtracker.setOffs, Backtracker.setQlen, hwf, hbtr]) ?_
        | refine Continues.seq ?_ (extendPartials_thresholds _ _ _ _ _ _ _
            (by intro x pal; simp [SeededThresholds, SearchCall.offs, SearchCall.extending,
              St.call, seededFormula, thresholdArg, Backtracker.setOffs, Backtracker.setQlen,
              hwf, hbtr]) _ _))
  · have heq := minU32_of_not_lt _ _ (u32OfInt_lt seedLen) hq
    try simp only [minU32_u32, hwf] at heq
    simp only [hq, if_false]
    split_ifs <;>
      repeat (with_reducible first
        | exact Continues.start _ _
        | apply Continues.thenSetFw
        | apply Continues.thenExit
        | apply Continues.thenMarkDone
        | apply Continues.thenExpand
        | apply Continues.thenSetOffsBtf
        | apply Continues.thenSetOffsBtr
        | apply Continues.thenSetOffsBt
        | apply Continues.thenSetOffsHh
        | apply Continues.thenSetQlenBtf
        | apply Continues.thenSetQlenBtr
        | refine Continues.thenBacktrack _ _ _ _ _ _ _
            (by simp [SeededThresholds, SearchCall.offs, SearchCall.extending, St.call,
              seededFormula, thresholdArg, Backtracker.setOffs, Backtracker.setQlen, hwf, hbtr, heq]) ?_
        | refine Continues.seq ?_ (extendPartials_thresholds _ _ _ _ _ _ _
            (by intro x pal; simp [SeededThresholds, SearchCall.offs, SearchCall.extending,
              St.call, seededFormula, thresholdArg, Backtracker.setOffs, Backtracker.setQlen,
              hwf, hbtr, heq]) _ _))

theorem seededPhase3Hh_thresholds (seedLen seedMms : Int) (orc : Oracle) (st : St) (r : Read)
    (hwf : r.patRc.length = r.patFw.length)
    (hhh : st.hh.offs = seedOffsHh seedMms (u32OfInt seedLen)) :
    Continues (SeededThresholds 3 seedLen seedMms) st (seededPhase3Hh seedLen seedMms orc st r).1 := by
  unfold seededPhase3Hh
  dsimp only
  by_cases hq : minU32 (u32 r.patRc.length) (u32OfInt seedLen) < u32OfInt seedLen
  · simp only [hq, if_true]
    split_ifs <;>
      repeat (with_reducible first
        | exact Continues.start _ _
        | apply Continues.thenSetFw
        | apply Continues.thenExit
        | apply Continues.thenMarkDone
        | apply Continues.thenExpand
        | apply Continues.thenSetOffsBtf
        | apply Continues.thenSetOffsBtr
        | apply Continues.thenSetOffsBt
        | apply Continues.thenSetOffsHh
        | apply Continues.thenSetQlenBtf
        | apply Continues.thenSetQlenBtr
        | refine Continues.thenBacktrack _ _ _ _ _ _ _
            (by simp [SeededThresholds, SearchCall.offs, SearchCall.extending, St.call,
              seededFormula, thresholdArg, Backtracker.setOffs, Backtracker.setQlen, hwf, hhh]) ?_)
  · have heq := minU32_of_not_lt _ _ (u32OfInt_lt seedLen) hq
    try simp only [minU32_u32, hwf] at heq
    simp only [hq, if_false]
    split_ifs <;>
      repeat (with_reducible first
        | exact Continues.start _ _
        | apply Continues.thenSetFw
        | apply Continues.thenExit
        | apply Continues.thenMarkDone
        | apply Continues.thenExpand
        | apply Continues.thenSetOffsBtf
        | apply Continues.thenSetOffsBtr
        | apply Continues.thenSetOffsBt
        | apply Continues.thenSetOffsHh
        | apply Continues.thenSetQlenBtf
        | apply Continues.thenSetQlenBtr
        | refine Continues.thenBacktrack _ _ _ _ _ _ _
            (by simp [SeededThresholds, SearchCall.offs, SearchCall.extending, St.call,
              seededFormula, thresholdArg, Backtracker.setOffs, Backtracker.setQlen, hwf, hhh, heq]) ?_)

theorem seededPhase3Seedlings_thresholds (seedLen seedMms : Int) (orc : Oracle) (st : St) (r : Read)
    (hwf : r.patRc.length = r.patFw.length)
    (hbtf : st.btf.offs = seedOffs3 seedMms (u32OfInt seedLen)) :
    Continues (SeededThresholds 3 seedLen seedMms) st (seededPhase3Seedlings seedLen seedMms orc st r) := by
  unfold seededPhase3Seedlings
  dsimp only
  by_cases hq : minU32 (u32 r.patRc.length) (u32OfInt seedLen) < u32OfInt seedLen
  · simp only [hq, if_true]
    repeat (with_reducible first
        | exact Continues.start _ _
        | apply Continues.thenSetFw
        | apply Continues.thenExit
        | apply Continues.thenMarkDone
        | apply Continues.thenExpand
        | apply Continues.thenSetOffsBtf
        | apply Continues.thenSetOffsBtr
        | apply Continues.thenSetOffsBt
        | apply Continues.thenSetOffsHh
        | apply Continues.thenSetQlenBtf
        | apply Continues.thenSetQlenBtr
        | refine Continues.thenBacktrack _ _ _ _ _ _ _
            (by simp [SeededThresholds, SearchCall.offs, SearchCall.extending, St.call,
              seededFormula, thresholdArg, Backtracker.setOffs, Backtracker.setQlen, hwf, hbtf]) ?_)
  · have heq := minU32_of_not_lt _ _ (u32OfInt_lt seedLen) hq
    try simp only [minU32_u32, hwf] at heq
    simp only [hq, if_false]
    repeat (with_reducible first
        | exact Continues.start _ _
        | apply Continues.thenSetFw
        | apply Continues.thenExit
        | apply Continues.thenMarkDone
        | apply Continues.thenExpand
        | apply Continues.thenSetOffsBtf
        | apply Continues.thenSetOffsBtr
        | apply Continues.thenSetOffsBt
        | apply Continues.thenSetOffsHh
        | apply Continues.thenSetQlenBtf
        | apply Continues.thenSetQlenBtr
        | refine Continues.thenBacktrack _ _ _ _ _ _ _
            (by simp [SeededThresholds, SearchCall.offs, SearchCall.extending, St.call,
              seededFormula, thresholdArg, Backtracker.setOffs, Backtracker.setQlen, hwf, hbtf, heq]) ?_)

theorem seededPhase4Extend_thresholds (seedLen seedMms : Int) (orc : Oracle) (st : St) (r : Read)
    (hbtf : st.btf.offs = seedOffsFull (u32OfInt seedLen)) :
    Continues (SeededThresholds 4 seedLen seedMms) st (seededPhase4Extend seedLen orc st r).1 := by
  unfold seededPhase4Extend
  dsimp only
  by_cases hq : minU32 (u32 r.patFw.length) (u32OfInt seedLen) < u32OfInt seedLen
  · simp only [hq, if_true]
    split_ifs <;>
      repeat (with_reducible first
        | exact Continues.start _ _
        | apply Continues.thenSetFw
        | apply Continues.thenExit
        | apply Continues.thenMarkDone
        | apply Continues.thenExpand
        | apply Continues.thenSetOffsBtf
        | apply Continues.thenSetOffsBtr
        | apply Continues.thenSetOffsBt
        | apply Continues.thenSetOffsHh
        | apply Continues.thenSetQlenBtf
        | apply Continues.thenSetQlenBtr
        | refine Continues.thenBacktrack _ _ _ _ _ _ _
            (by simp [SeededThresholds, SearchCall.offs, SearchCall.extending, St.call,
              seededFormula, thresholdArg, Backtracker.setOffs, Backtracker.setQlen, hbtf]) ?_
        | refine Continues.seq ?_ (extendPartials_thresholds _ _ _ _ _ _ _
            (by intro x pal; simp [SeededThresholds, SearchCall.offs, SearchCall.extending,
              St.call, seededFormula, thresholdArg, Backtracker.setOffs, Backtracker.setQlen,
              hbtf]) _ _))
  · have heq := minU32_of_not_lt _ _ (u32OfInt_lt seedLen) hq
    try simp only [minU32_u32] at heq
    simp only [hq, if_false]
    split_ifs <;>
      repeat (with_reducible first
        | exact Continues.start _ _
        | apply Continues.thenSetFw
        | apply Continues.thenExit
        | apply Continues.thenMarkDone
        | apply Continues.thenExpand
        | apply Continues.thenSetOffsBtf
        | apply Continues.thenSetOffsBtr
        | apply Continues.thenSetOffsBt
        | apply Continues.thenSetOffsHh
        | apply Continues.thenSetQlenBtf
        | apply Continues.thenSetQlenBtr
        | refine Continues.thenBacktrack _ _ _ _ _ _ _
            (by simp [SeededThresholds, SearchCall.offs, SearchCall.extending, St.call,
              seededFormula, thresholdArg, Backtracker.setOffs, Backtracker.setQlen, hbtf, heq]) ?_
        | refine Continues.seq ?_ (extendPartials_thresholds _ _ _ _ _ _ _
            (by intro x pal; simp [SeededThresholds, SearchCall.offs, SearchCall.extending,
              St.call, seededFormula, thresholdArg, Backtracker.setOffs, Backtracker.setQlen,
              hbtf, heq]) _ _))

theorem seededPhase4Hh_thresholds (seedLen seedMms : Int) (orc : Oracle) (st : St) (r : Read)
    (hhh : st.hh.offs = seedOffsHh seedMms (u32OfInt seedLen)) :
    Continues (SeededThresholds 4 seedLen seedMms) st (seededPhase4Hh seedLen seedMms orc st r) := by
  unfold seededPhase4Hh
  dsimp only
  by_cases hq : minU32 (u32 r.patFw.length) (u32OfInt seedLen) < u32OfInt seedLen
  · simp only [hq, if_true]
    split_ifs <;>
      repeat (with_reducible first
        | exact Continues.start _ _
        | apply Continues.thenSetFw
        | apply Continues.thenExit
        | apply Continues.thenMarkDone
        | apply Continues.thenExpand
        | apply Continues.thenSetOffsBtf
        | apply Continues.thenSetOffsBtr
        | apply Continues.thenSetOffsBt
        | apply Continues.thenSetOffsHh
        | apply Continues.thenSetQlenBtf
        | apply Continues.thenSetQlenBtr
        | refine Continues.thenBacktrack _ _ _ _ _ _ _
            (by simp [SeededThresholds, SearchCall.offs, SearchCall.extending, St.call,
              seededFormula, thresholdArg, Backtracker.setOffs, Backtracker.setQlen, hhh]) ?_)
  · have heq := minU32_of_not_lt _ _ (u32OfInt_lt seedLen) hq
    try simp only [minU32_u32] at heq
    simp only [hq, if_false]
    split_ifs <;>
      repeat (with_reducible first
        | exact Continues.start _ _
        | apply Continues.thenSetFw
        | apply Continues.thenExit
        | apply Continues.thenMarkDone
        | apply Continues.thenExpand
        | apply Continues.thenSetOffsBtf
        | apply Continues.thenSetOffsBtr
        | apply Continues.thenSetOffsBt
        | apply Continues.thenSetOffsHh
        | apply Continues.thenSetQlenBtf
        | apply Continues.thenSetQlenBtr
        | refine Continues.thenBacktrack _ _ _ _ _ _ _
            (by simp [SeededThresholds, SearchCall.offs, SearchCall.extending, St.call,
              seededFormula, thresholdArg, Backtracker.setOffs, Backtracker.setQlen, hhh, heq]) ?_)

theorem seededPhase1Body_rest (cfg : Config) (seedLen seedMms : Int) (orc : Oracle) (st : St)
    (r : Read) (hbt : st.bt.offs = seedOffs5 seedMms (u32OfInt seedLen)) :
    (seededPhase1Body cfg seedLen seedMms orc st r).bt.offs =
      seedOffs5 seedMms (u32OfInt seedLen) := by
  unfold seededPhase1Body
  dsimp only
  split_ifs <;> simp [Backtracker.setOffs, hbt]

theorem seededPhase2Body_rest (seedLen seedMms : Int) (orc : Oracle) (st : St) (r : Read)
    (hbtf : st.btf.offs = seedOffs5 seedMms (u32OfInt seedLen))
    (hbtr : st.btr.offs = seedOffs3 seedMms (u32OfInt seedLen)) :
    (seededPhase2Body seedLen seedMms orc st r).btf.offs =
        seedOffs5 seedMms (u32OfInt seedLen) ∧
      (seededPhase2Body seedLen seedMms orc st r).btr.offs =
        seedOffs3 seedMms (u32OfInt seedLen) := by
  unfold seededPhase2Body
  dsimp only
  split_ifs <;> simp [Backtracker.setOffs, Backtracker.setQlen, hbtf, hbtr]

theorem seededPhase3Extend_rest (seedLen : Int) (orc : Oracle) (st : St) (r : Read)
    (hbtr : st.btr.offs = seedOffsFull (u32OfInt seedLen)) :
    (seededPhase3Extend seedLen orc st r).1.btf = st.btf ∧
      (seededPhase3Extend seedLen orc st r).1.btr.offs = seedOffsFull (u32OfInt seedLen) ∧
      (seededPhase3Extend seedLen orc st r).1.hh = st.hh := by
  unfold seededPhase3Extend
  dsimp only
  split_ifs <;>
    simp [Backtracker.setOffs, hbtr, extendPartials_btf, extendPartials_btr, extendPartials_hh]

theorem seededPhase3Hh_rest (seedLen seedMms : Int) (orc : Oracle) (st : St) (r : Read)
    (hhh : st.hh.offs = seedOffsHh seedMms (u32OfInt seedLen)) :
    (seededPhase3Hh seedLen seedMms orc st r).1.btf = st.btf ∧
      (seededPhase3Hh seedLen seedMms orc st r).1.btr = st.btr ∧
      (seededPhase3Hh seedLen seedMms orc st r).1.hh.offs =
        seedOffsHh seedMms (u32OfInt seedLen) := by
  unfold seededPhase3Hh
  dsimp only
  split_ifs <;> simp [Backtracker.setOffs, hhh]

theorem seededPhase3Seedlings_rest (seedLen seedMms : Int) (orc : Oracle) (st : St) (r : Read)
    (hbtf : st.btf.offs = seedOffs3 seedMms (u32OfInt seedLen)) :
    (seededPhase3Seedlings seedLen seedMms orc st r).btf.offs =
        seedOffs3 seedMms (u32OfInt seedLen) ∧
      (seededPhase3Seedlings seedLen seedMms orc st r).btr = st.btr ∧
      (seededPhase3Seedlings seedLen seedMms orc st r).hh = st.hh := by
  unfold seededPhase3Seedlings
  dsimp only
  split_ifs <;> simp [Backtracker.setOffs, Backtracker.setQlen, hbtf]

theorem seededPhase4Extend_rest (seedLen : Int) (orc : Oracle) (st : St) (r : Read)
    (hbtf : st.btf.offs = seedOffsFull (u32OfInt seedLen)) :
    (seededPhase4Extend seedLen orc st r).1.btf.offs = seedOffsFull (u32OfInt seedLen) ∧
      (seededPhase4Extend seedLen orc st r).1.hh = st.hh := by
  unfold seededPhase4Extend
  dsimp only
  split_ifs <;> simp [Backtracker.setOffs, hbtf, extendPartials_btf, extendPartials_hh]

theorem seededPhase4Hh_rest (seedLen seedMms : Int) (orc : Oracle) (st : St) (r : Read)
    (hhh : st.hh.offs = seedOffsHh seedMms (u32OfInt seedLen)) :
    (seededPhase4Hh seedLen seedMms orc st r).btf = st.btf ∧
      (seededPhase4Hh seedLen seedMms orc st r).hh.offs =
        seedOffsHh seedMms (u32OfInt seedLen) := by
  unfold seededPhase4Hh
  dsimp only
  split_ifs <;> simp [Backtracker.setOffs, hhh]

/-- The phase-3 body of the seeded search runs every search with the
thresholds of its backtracker at `qs`, and leaves the backtrackers at rest. -/
theorem seededPhase3Body_thresholds (seedLen seedMms : Int) (orc : Oracle) (st : St) (r : Read)
    (hwf : r.patRc.length = r.patFw.length)
    (hbtf : st.btf.offs = seedOffs3 seedMms (u32OfInt seedLen))
    (hbtr : st.btr.offs = seedOffsFull (u32OfInt seedLen))
    (hhh : st.hh.offs = seedOffsHh seedMms (u32OfInt seedLen)) :
    Continues (SeededThresholds 3 seedLen seedMms) st (seededPhase3Body seedLen seedMms orc st r) ∧
      (seededPhase3Body seedLen seedMms orc st r).btf.offs =
        seedOffs3 seedMms (u32OfInt seedLen) ∧
      (seededPhase3Body seedLen seedMms orc st r).btr.offs = seedOffsFull (u32OfInt seedLen) ∧
      (seededPhase3Body seedLen seedMms orc st r).hh.offs =
        seedOffsHh seedMms (u32OfInt seedLen) := by
  have e0 : Continues (SeededThresholds 3 seedLen seedMms) st (st.setFw false) :=
    (Continues.start _ _).thenSetFw _
  have r1 := seededPhase3Extend_rest seedLen orc (st.setFw false) r hbtr
  have e1 := Continues.seq e0
    (seededPhase3Extend_thresholds seedLen seedMms orc (st.setFw false) r hwf hbtr)
  have hhh1 : (seededPhase3Extend seedLen orc (st.setFw false) r).1.hh.offs =
      seedOffsHh seedMms (u32OfInt seedLen) := by rw [r1.2.2]; exact hhh
  have r2 := seededPhase3Hh_rest seedLen seedMms orc _ r hhh1
  have e2 := Continues.seq e1 (seededPhase3Hh_thresholds seedLen seedMms orc _ r hwf hhh1)
  have hbtf2 : (seededPhase3Hh seedLen seedMms orc
      (seededPhase3Extend seedLen orc (st.setFw false) r).1 r).1.btf.offs =
      seedOffs3 seedMms (u32OfInt seedLen) := by rw [r2.1, r1.1]; exact hbtf
  have r3 := seededPhase3Seedlings_rest seedLen seedMms orc _ r hbtf2
  have e3 := Continues.seq e2 (seededPhase3Seedlings_thresholds seedLen seedMms orc _ r hwf hbtf2)
  unfold seededPhase3Body
  dsimp only
  split_ifs
  · exact ⟨Continues.start _ _, hbtf, hbtr, hhh⟩
  · exact ⟨e1, by rw [r1.1]; exact hbtf, r1.2.1, hhh1⟩
  · exact ⟨e2.thenMarkDone _, hbtf2, by
      rw [St.markDone_btr, r2.2.1]; exact r1.2.1, r2.2.2⟩
  · exact ⟨e3, r3.1, by rw [r3.2.1, r2.2.1]; exact r1.2.1, by rw [r3.2.2]; exact r2.2.2⟩

/-- The phase-4 body of the seeded search runs every search with the
thresholds of its backtracker at `qs`, and leaves the backtrackers at rest. -/
theorem seededPhase4Body_thresholds (seedLen seedMms : Int) (orc : Oracle) (st : St) (r : Read)
    (hbtf : st.btf.offs = seedOffsFull (u32OfInt seedLen))
    (hhh : st.hh.offs = seedOffsHh seedMms (u32OfInt seedLen)) :
    Continues (SeededThresholds 4 seedLen seedMms) st (seededPhase4Body seedLen seedMms orc st r) ∧
      (seededPhase4Body seedLen seedMms orc st r).btf.offs = seedOffsFull (u32OfInt seedLen) ∧
      (seededPhase4Body seedLen seedMms orc st r).hh.offs =
        seedOffsHh seedMms (u32OfInt seedLen) := by
  have e0 : Continues (SeededThresholds 4 seedLen seedMms) st (st.setFw true) :=
    (Continues.start _ _).thenSetFw _
  have r1 := seededPhase4Extend_rest seedLen orc (st.setFw true) r hbtf
  have e1 := Continues.seq e0
    (seededPhase4Extend_thresholds seedLen seedMms orc (st.setFw true) r hbtf)
  have hhh1 : (seededPhase4Extend seedLen orc (st.setFw true) r).1.hh.offs =
      seedOffsHh seedMms (u32OfInt seedLen) := by rw [r1.2]; exact hhh
  have r2 := seededPhase4Hh_rest seedLen seedMms orc _ r hhh1
  have e2 := Continues.seq e1 (seededPhase4Hh_thresholds seedLen seedMms orc _ r hhh1)
  unfold seededPhase4Body
  dsimp only
  split_ifs
  · exact ⟨Continues.start _ _, hbtf, hhh⟩
  · exact ⟨e1, r1.1, hhh1⟩
  · exact ⟨e2, by rw [r2.1]; exact r1.1, r2.2⟩

theorem presentRead_wellFormed (b : Bool) (r : Read) (h : r.WellFormed) :
    (presentRead b r).WellFormed := by
  unfold Read.WellFormed at h ⊢
  unfold presentRead
  split_ifs <;> simp [h]

/-- C30 fails as stated: with seed length 28, the exact search that opens
phase 1 for a read of 30 bases runs with all four thresholds at 30 (the length
of the read), not at `qs = min(30, 28) = 28`; the search of the reverse
complement that follows runs with the thresholds of `bt` at 28. -/
theorem exact_search_thresholds_counterexample :
    (newCalls (seededPhase1Init oneHitCfg 28 7 2 initSt)
        (seededPhase1Body oneHitCfg 28 2 silentOracle (seededPhase1Init oneHitCfg 28 7 2 initSt)
          (mkRead 0 (List.replicate 30 0) (List.replicate 30 3)))).map
        (fun c => (c.queryFw, c.offs)) =
        [(true, some (seedOffsFull 30)), (false, some (seedOffs5 2 28))] ∧
      minU32 30 (u32OfInt 28) = 28 ∧ seedOffsFull 30 ≠ seedOffsFull 28 := by
  refine ⟨?_, ?_, ?_⟩
  · rfl
  · decide
  · decide

/-- C30 as amended: in every phase of the seeded search, from the state the
phase starts in after any earlier phase and for any sequence of reads whose two
strands have the same length, every search runs with the thresholds of its
backtracker (`seededFormula`) evaluated at `qs = min(read length, seedLen)`,
whatever the lengths of the reads processed before; the one exception is the
exact search of the forward read that opens phase 1, whose thresholds are all
set to the length of the read.  After the loop (hence between any two reads)
the backtrackers hold their thresholds at the full seed length again: every
override is undone, also when a seedling extension hits and leaves its loop
early. -/
theorem thresholds_at_qs (cfg : Config) (seedLen qualCutoff seedMms : Int) (orc : Oracle)
    (reads : List Read) (hwf : ∀ r ∈ reads, r.WellFormed) :
    (∀ st1, CallsFrom (SeededThresholds 1 seedLen seedMms)
          (seededPhase1Init cfg seedLen qualCutoff seedMms st1)
          (readLoop cfg (seededPhase1Body cfg seedLen seedMms orc) reads
            (seededPhase1Init cfg seedLen qualCutoff seedMms st1)) ∧
        AtRest 1 seedLen seedMms (readLoop cfg (seededPhase1Body cfg seedLen seedMms orc) reads
          (seededPhase1Init cfg seedLen qualCutoff seedMms st1))) ∧
      (∀ st1, CallsFrom (SeededThresholds 2 seedLen seedMms)
          (seededPhase2Init cfg seedLen qualCutoff seedMms st1)
          (readLoop cfg (seededPhase2Body seedLen seedMms orc) reads
            (seededPhase2Init cfg seedLen qualCutoff seedMms st1)) ∧
        AtRest 2 seedLen seedMms (readLoop cfg (seededPhase2Body seedLen seedMms orc) reads
          (seededPhase2Init cfg seedLen qualCutoff seedMms st1))) ∧
      (∀ st1, CallsFrom (SeededThresholds 3 seedLen seedMms)
          (seededPhase3Init cfg seedLen qualCutoff seedMms st1)
          (readLoop cfg (seededPhase3Body seedLen seedMms orc) reads
            (seededPhase3Init cfg seedLen qualCutoff seedMms st1)) ∧
        AtRest 3 seedLen seedMms (readLoop cfg (seededPhase3Body seedLen seedMms orc) reads
          (seededPhase3Init cfg seedLen qualCutoff seedMms st1))) ∧
      ∀ st1, CallsFrom (SeededThresholds 4 seedLen seedMms)
          (seededPhase4Init cfg seedLen qualCutoff seedMms st1)
          (readLoop cfg (seededPhase4Body seedLen seedMms orc) reads
            (seededPhase4Init cfg seedLen qualCutoff seedMms st1)) ∧
        AtRest 4 seedLen seedMms (readLoop cfg (seededPhase4Body seedLen seedMms orc) reads
          (seededPhase4Init cfg seedLen qualCutoff seedMms st1)) := by
  refine ⟨fun st1 => ?_, fun st1 => ?_, fun st1 => ?_, fun st1 => ?_⟩
  · have h := readLoop_invariant cfg (SeededThresholds 1 seedLen seedMms)
      (fun s => s.bt.offs = seedOffs5 seedMms (u32OfInt seedLen)) Read.WellFormed
      (seededPhase1Body cfg seedLen seedMms orc) (fun _ _ h => h) (fun _ h => h)
      presentRead_wellFormed
      (fun s r hw hi => ⟨seededPhase1Body_thresholds cfg seedLen seedMms orc s r hw hi,
        seededPhase1Body_rest cfg seedLen seedMms orc s r hi⟩) reads
      (seededPhase1Init cfg seedLen qualCutoff seedMms st1) hwf rfl
    exact ⟨h.1.2.2.2.2.2.2, by simpa [AtRest] using h.2⟩
  · have h := readLoop_invariant cfg (SeededThresholds 2 seedLen seedMms)
      (fun s => s.btf.offs = seedOffs5 seedMms (u32OfInt seedLen) ∧
        s.btr.offs = seedOffs3 seedMms (u32OfInt seedLen)) Read.WellFormed
      (seededPhase2Body seedLen seedMms orc) (fun _ _ h => h) (fun _ h => h)
      presentRead_wellFormed
      (fun s r hw hi => ⟨seededPhase2Body_thresholds seedLen seedMms orc s r hw hi.1 hi.2,
        seededPhase2Body_rest seedLen seedMms orc s r hi.1 hi.2⟩) reads
      (seededPhase2Init cfg seedLen qualCutoff seedMms st1) hwf ⟨rfl, rfl⟩
    exact ⟨h.1.2.2.2.2.2.2, by simpa [AtRest] using h.2⟩
  · have h := readLoop_invariant cfg (SeededThresholds 3 seedLen seedMms)
      (fun s => s.btf.offs = seedOffs3 seedMms (u32OfInt seedLen) ∧
        s.btr.offs = seedOffsFull (u32OfInt seedLen) ∧
        s.hh.offs = seedOffsHh seedMms (u32OfInt seedLen)) Read.WellFormed
      (seededPhase3Body seedLen seedMms orc) (fun _ _ h => h) (fun _ h => h)
      presentRead_wellFormed
      (fun s r hw hi => seededPhase3Body_thresholds seedLen seedMms orc s r hw hi.1 hi.2.1 hi.2.2)
      reads (seededPhase3Init cfg seedLen qualCutoff seedMms st1) hwf ⟨rfl, rfl, rfl⟩
    exact ⟨h.1.2.2.2.2.2.2, by simpa [AtRest] using h.2⟩
  · have h := readLoop_invariant cfg (SeededThresholds 4 seedLen seedMms)
      (fun s => s.btf.offs = seedOffsFull (u32OfInt seedLen) ∧
        s.hh.offs = seedOffsHh seedMms (u32OfInt seedLen)) Read.WellFormed
      (seededPhase4Body seedLen seedMms orc) (fun _ _ h => h) (fun _ h => h)
      presentRead_wellFormed
      (fun s r _ hi => seededPhase4Body_thresholds seedLen seedMms orc s r hi.1 hi.2)
      reads (seededPhase4Init cfg seedLen qualCutoff seedMms st1) hwf ⟨rfl, rfl⟩
    exact ⟨h.1.2.2.2.2.2.2, by simpa [AtRest] using h.2⟩

set_option maxRecDepth 100000 in
/-- Witness for the amended C30: with seed length 28, a read of 30 bases
followed by a read of 20 bases, nothing found: in phase 1 the second read's
reverse complement is searched with the thresholds of `bt` at 20, and the
backtrackers are at rest afterwards. -/
theorem thresholds_at_qs_witness :
    (∀ r ∈ [mkRead 0 (List.replicate 30 0) (List.replicate 30 3),
        mkRead 1 (List.replicate 20 0) (List.replicate 20 3)], r.WellFormed) ∧
      (newCalls (seededPhase1Init oneHitCfg 28 7 2 initSt)
        (readLoop oneHitCfg (seededPhase1Body oneHitCfg 28 2 silentOracle)
          [mkRead 0 (List.replicate 30 0) (List.replicate 30 3),
            mkRead 1 (List.replicate 20 0) (List.replicate 20 3)]
          (seededPhase1Init oneHitCfg 28 7 2 initSt))).map (fun c => (c.queryFw, c.offs)) =
        [(true, some (seedOffsFull 30)), (false, some (seedOffs5 2 28)),
          (true, some (seedOffsFull 20)), (false, some (seedOffs5 2 20))] ∧
      AtRest 1 28 2 (readLoop oneHitCfg (seededPhase1Body oneHitCfg 28 2 silentOracle)
        [mkRead 0 (List.replicate 30 0) (List.replicate 30 3),
          mkRead 1 (List.replicate 20 0) (List.replicate 20 3)]
        (seededPhase1Init oneHitCfg 28 7 2 initSt)) :=
  ⟨by decide, by decide,
    ((thresholds_at_qs oneHitCfg 28 7 2 silentOracle
      [mkRead 0 (List.replicate 30 0) (List.replicate 30 3),
        mkRead 1 (List.replicate 20 0) (List.replicate 20 3)] (by decide)).1 initSt).2⟩
/-! ## Monotone thresholds at every search -/

theorem ttPhase1RcOffs_monotone (two : Bool) (plen : Nat) :
    (ttPhase1RcOffs two plen).Monotone := by
  have h5 := s5Of_le (u32_lt plen)
  cases two <;> simp [ttPhase1RcOffs, Offs.Monotone, h5]

theorem ttPhase2FwOffs_monotone (two : Bool) (plen : Nat) :
    (ttPhase2FwOffs two plen).Monotone := by
  have h5 := s5Of_le (u32_lt plen)
  cases two <;> simp [ttPhase2FwOffs, Offs.Monotone, h5]

theorem ttPhase2RcOffs_monotone (two : Bool) (plen : Nat) :
    (ttPhase2RcOffs two plen).Monotone := by
  have h3 := s3Of_le (u32_lt plen)
  cases two <;> simp [ttPhase2RcOffs, Offs.Monotone, h3]

theorem ttPhase3FwOffs_monotone (two : Bool) (plen : Nat) :
    (ttPhase3FwOffs two plen).Monotone := by
  have h3 := s3Of_le (u32_lt plen)
  cases two <;> simp [ttPhase3FwOffs, Offs.Monotone, h3]

theorem ttPhase3HhFwOffs_monotone (two : Bool) (plen : Nat) :
    (ttPhase3HhFwOffs two plen).Monotone := by
  have h3 := s3Of_le (u32_lt plen)
  cases two <;> simp [ttPhase3HhFwOffs, Offs.Monotone, h3]

theorem ttPhase3HhRcOffs_monotone (two : Bool) (plen : Nat) :
    (ttPhase3HhRcOffs two plen).Monotone := by
  have h5 := s5Of_le (u32_lt plen)
  cases two <;> simp [ttPhase3HhRcOffs, Offs.Monotone, h5]

theorem seedOffs5_mono_min (seedMms : Int) (a b : Nat) :
    (seedOffs5 seedMms (minU32 a b)).Monotone := seedOffs5_monotone _ (minU32_lt a b)

theorem seedOffs3_mono_min (seedMms : Int) (a b : Nat) :
    (seedOffs3 seedMms (minU32 a b)).Monotone := seedOffs3_monotone _ (minU32_lt a b)

theorem seedOffsHh_mono_min (seedMms : Int) (a b : Nat) :
    (seedOffsHh seedMms (minU32 a b)).Monotone := seedOffsHh_monotone _ (minU32_lt a b)

theorem seedOffs5_mono_int (seedMms i : Int) :
    (seedOffs5 seedMms (u32OfInt i)).Monotone := seedOffs5_monotone _ (u32OfInt_lt i)

theorem seedOffs3_mono_int (seedMms i : Int) :
    (seedOffs3 seedMms (u32OfInt i)).Monotone := seedOffs3_monotone _ (u32OfInt_lt i)

theorem seedOffsHh_mono_int (seedMms i : Int) :
    (seedOffsHh seedMms (u32OfInt i)).Monotone := seedOffsHh_monotone _ (u32OfInt_lt i)

theorem extendPartials_mono (orc : Oracle) (b : Backtracker) (qf : Bool) (q ql : List Nat)
    (patid : Nat) (hb : b.offs.Monotone) (pals : List PartialAlignment) :
    ∀ st, Continues SearchCall.MonotoneOffs st (extendPartials orc b qf q ql patid pals st).1 := by
  induction pals with
  | nil => intro st; exact Continues.start _ _
  | cons pal pals ih =>
    intro st
    unfold extendPartials
    dsimp only
    split_ifs
    · exact Continues.thenMarkDone _ (Continues.thenBacktrack _ _ _ _ _ _ _
        (by simpa [SearchCall.MonotoneOffs, SearchCall.offs, St.call] using hb)
        (Continues.start _ _))
    · exact Continues.seq (Continues.thenBacktrack _ _ _ _ _ _ _
        (by simpa [SearchCall.MonotoneOffs, SearchCall.offs, St.call] using hb)
        (Continues.start _ _)) (ih _)

theorem twoOrThreePhase1Body_mono (cfg : Config) (two : Bool) (orc : Oracle) (st : St) (r : Read) :
    Continues SearchCall.MonotoneOffs st (twoOrThreePhase1Body cfg two orc st r) := by
  unfold twoOrThreePhase1Body
  dsimp only
  split_ifs <;>
    repeat (with_reducible first
      | exact Continues.start _ _
      | apply Continues.thenSetFw
      | apply Continues.thenExit
      | apply Continues.thenMarkDone
      | apply Continues.thenExpand
      | apply Continues.thenSetOffsBtf
      | apply Continues.thenSetOffsBtr
      | apply Continues.thenSetOffsBt
      | apply Continues.thenSetOffsHh
      | apply Continues.thenSetQlenBtf
      | apply Continues.thenSetQlenBtr
      | refine Continues.thenSearch _ _ _ _
          (by simp [SearchCall.MonotoneOffs, SearchCall.offs, St.call]) ?_
      | refine Continues.thenBacktrack _ _ _ _ _ _ _
          (by simp [SearchCall.MonotoneOffs, SearchCall.offs, St.call, Backtracker.setOffs,
            Backtracker.setQlen, ttPhase1RcOffs_monotone, ttPhase2FwOffs_monotone, ttPhase2RcOffs_monotone, ttPhase3FwOffs_monotone, ttPhase3HhFwOffs_monotone, ttPhase3HhRcOffs_monotone, seedOffs5_mono_min, seedOffs3_mono_min, seedOffsHh_mono_min, seedOffs5_mono_int, seedOffs3_mono_int, seedOffsHh_mono_int, seedOffsFull_monotone, true_and]) ?_)

theorem twoOrThreePhase2Body_mono (two : Bool) (orc : Oracle) (st : St) (r : Read) :
    Continues SearchCall.MonotoneOffs st (twoOrThreePhase2Body two orc st r) := by
  unfold twoOrThreePhase2Body
  dsimp only
  split_ifs <;>
    repeat (with_reducible first
      | exact Continues.start _ _
      | apply Continues.thenSetFw
      | apply Continues.thenExit
      | apply Continues.thenMarkDone
      | apply Continues.thenExpand
      | apply Continues.thenSetOffsBtf
      | apply Continues.thenSetOffsBtr
      | apply Continues.thenSetOffsBt
      | apply Continues.thenSetOffsHh
      | apply Continues.thenSetQlenBtf
      | apply Continues.thenSetQlenBtr
      | refine Continues.thenSearch _ _ _ _
          (by simp [SearchCall.MonotoneOffs, SearchCall.offs, St.call]) ?_
      | refine Continues.thenBacktrack _ _ _ _ _ _ _
          (by simp [SearchCall.MonotoneOffs, SearchCall.offs, St.call, Backtracker.setOffs,
            Backtracker.setQlen, ttPhase1RcOffs_monotone, ttPhase2FwOffs_monotone, ttPhase2RcOffs_monotone, ttPhase3FwOffs_monotone, ttPhase3HhFwOffs_monotone, ttPhase3HhRcOffs_monotone, seedOffs5_mono_min, seedOffs3_mono_min, seedOffsHh_mono_min, seedOffs5_mono_int, seedOffs3_mono_int, seedOffsHh_mono_int, seedOffsFull_monotone, true_and]) ?_)

theorem twoOrThreePhase3Body_mono (two : Bool) (orc : Oracle) (st : St) (r : Read) :
    Continues SearchCall.MonotoneOffs st (twoOrThreePhase3Body two orc st r) := by
  unfold twoOrThreePhase3Body
  dsimp only
  split_ifs <;>
    repeat (with_reducible first
      | exact Continues.start _ _
      | apply Continues.thenSetFw
      | apply Continues.thenExit
      | apply Continues.thenMarkDone
      | apply Continues.thenExpand
      | apply Continues.thenSetOffsBtf
      | apply Continues.thenSetOffsBtr
      | apply Continues.thenSetOffsBt
      | apply Continues.thenSetOffsHh
      | apply Continues.thenSetQlenBtf
      | apply Continues.thenSetQlenBtr
      | refine Continues.thenSearch _ _ _ _
          (by simp [SearchCall.MonotoneOffs, SearchCall.offs, St.call]) ?_
      | refine Continues.thenBacktrack _ _ _ _ _ _ _
          (by simp [SearchCall.MonotoneOffs, SearchCall.offs, St.call, Backtracker.setOffs,
            Backtracker.setQlen, ttPhase1RcOffs_monotone, ttPhase2FwOffs_monotone, ttPhase2RcOffs_monotone, ttPhase3FwOffs_monotone, ttPhase3HhFwOffs_monotone, ttPhase3HhRcOffs_monotone, seedOffs5_mono_min, seedOffs3_mono_min, seedOffsHh_mono_min, seedOffs5_mono_int, seedOffs3_mono_int, seedOffsHh_mono_int, seedOffsFull_monotone, true_and]) ?_)

theorem seededPhase1Body_mono (cfg : Config) (seedLen seedMms : Int) (orc : Oracle) (st : St) (r : Read)
    (hbt : st.bt.offs = seedOffs5 seedMms (u32OfInt seedLen)) :
    Continues SearchCall.MonotoneOffs st (seededPhase1Body cfg seedLen seedMms orc st r) := by
  unfold seededPhase1Body
  dsimp only
  split_ifs <;>
    repeat (with_reducible first
      | exact Continues.start _ _
      | apply Continues.thenSetFw
      | apply Continues.thenExit
      | apply Continues.thenMarkDone
      | apply Continues.thenExpand
      | apply Continues.thenSetOffsBtf
      | apply Continues.thenSetOffsBtr
      | apply Continues.thenSetOffsBt
      | apply Continues.thenSetOffsHh
      | apply Continues.thenSetQlenBtf
      | apply Continues.thenSetQlenBtr
      | refine Continues.thenSearch _ _ _ _
          (by simp [SearchCall.MonotoneOffs, SearchCall.offs, St.call]) ?_
      | refine Continues.thenBacktrack _ _ _ _ _ _ _
          (by simp [SearchCall.MonotoneOffs, SearchCall.offs, St.call, Backtracker.setOffs,
            Backtracker.setQlen, ttPhase1RcOffs_monotone, ttPhase2FwOffs_monotone, ttPhase2RcOffs_monotone, ttPhase3FwOffs_monotone, ttPhase3HhFwOffs_monotone, ttPhase3HhRcOffs_monotone, seedOffs5_mono_min, seedOffs3_mono_min, seedOffsHh_mono_min, seedOffs5_mono_int, seedOffs3_mono_int, seedOffsHh_mono_int, seedOffsFull_monotone, hbt]) ?_)

theorem seededPhase2Body_mono (seedLen seedMms : Int) (orc : Oracle) (st : St) (r : Read)
    (hbtf : st.btf.offs = seedOffs5 seedMms (u32OfInt seedLen))
    (hbtr : st.btr.offs = seedOffs3 seedMms (u32OfInt seedLen)) :
    Continues SearchCall.MonotoneOffs st (seededPhase2Body seedLen seedMms orc st r) := by
  unfold seededPhase2Body
  dsimp only
  split_ifs <;>
    repeat (with_reducible first
      | exact Continues.start _ _
      | apply Continues.thenSetFw
      | apply Continues.thenExit
      | apply Continues.thenMarkDone
      | apply Continues.thenExpand
      | apply Continues.thenSetOffsBtf
      | apply Continues.thenSetOffsBtr
      | apply Continues.thenSetOffsBt
      | apply Continues.thenSetOffsHh
      | apply Continues.thenSetQlenBtf
      | apply Continues.thenSetQlenBtr
      | refine Continues.thenSearch _ _ _ _
          (by simp [SearchCall.MonotoneOffs, SearchCall.offs, St.call]) ?_
      | refine Continues.thenBacktrack _ _ _ _ _ _ _
          (by simp [SearchCall.MonotoneOffs, SearchCall.offs, St.call, Backtracker.setOffs,
            Backtracker.setQlen, ttPhase1RcOffs_monotone, ttPhase2FwOffs_monotone, ttPhase2RcOffs_monotone, ttPhase3FwOffs_monotone, ttPhase3HhFwOffs_monotone, ttPhase3HhRcOffs_monotone, seedOffs5_mono_min, seedOffs3_mono_min, seedOffsHh_mono_min, seedOffs5_mono_int, seedOffs3_mono_int, seedOffsHh_mono_int, seedOffsFull_monotone, hbtf, hbtr]) ?_)

theorem seededPhase3Extend_mono (seedLen : Int) (orc : Oracle) (st : St) (r : Read)
    (hbtr : st.btr.offs = seedOffsFull (u32OfInt seedLen)) :
    Continues SearchCall.MonotoneOffs st (seededPhase3Extend seedLen orc st r).1 := by
  unfold seededPhase3Extend
  dsimp only
  split_ifs <;>
    repeat (with_reducible first
      | exact Continues.start _ _
      | apply Continues.thenSetFw
      | apply Continues.thenExit
      | apply Continues.thenMarkDone
      | apply Continues.thenExpand
      | apply Continues.thenSetOffsBtf
      | apply Continues.thenSetOffsBtr
      | apply Continues.thenSetOffsBt
      | apply Continues.thenSetOffsHh
      | apply Continues.thenSetQlenBtf
      | apply Continues.thenSetQlenBtr
      | refine Continues.thenSearch _ _ _ _
          (by simp [SearchCall.MonotoneOffs, SearchCall.offs, St.call]) ?_
      | refine Continues.thenBacktrack _ _ _ _ _ _ _
          (by simp [SearchCall.MonotoneOffs, SearchCall.offs, St.call, Backtracker.setOffs,
            Backtracker.setQlen, ttPhase1RcOffs_monotone, ttPhase2FwOffs_monotone, ttPhase2RcOffs_monotone, ttPhase3FwOffs_monotone, ttPhase3HhFwOffs_monotone, ttPhase3HhRcOffs_monotone, seedOffs5_mono_min, seedOffs3_mono_min, seedOffsHh_mono_min, seedOffs5_mono_int, seedOffs3_mono_int, seedOffsHh_mono_int, seedOffsFull_monotone, hbtr]) ?_
      | refine Continues.seq ?_ (extendPartials_mono _ _ _ _ _ _
          (by simp [Backtracker.setOffs, ttPhase1RcOffs_monotone, ttPhase2FwOffs_monotone, ttPhase2RcOffs_monotone, ttPhase3FwOffs_monotone, ttPhase3HhFwOffs_monotone, ttPhase3HhRcOffs_monotone, seedOffs5_mono_min, seedOffs3_mono_min, seedOffsHh_mono_min, seedOffs5_mono_int, seedOffs3_mono_int, seedOffsHh_mono_int, seedOffsFull_monotone, hbtr]) _ _))

theorem seededPhase3Hh_mono (seedLen seedMms : Int) (orc : Oracle) (st : St) (r : Read)
    (hhh : st.hh.offs = seedOffsHh seedMms (u32OfInt seedLen)) :
    Continues SearchCall.MonotoneOffs st (seededPhase3Hh seedLen seedMms orc st r).1 := by
  unfold seededPhase3Hh
  dsimp only
  split_ifs <;>
    repeat (with_reducible first
      | exact Continues.start _ _
      | apply Continues.thenSetFw
      | apply Continues.thenExit
      | apply Continues.thenMarkDone
      | apply Continues.thenExpand
      | apply Continues.thenSetOffsBtf
      | apply Continues.thenSetOffsBtr
      | apply Continues.thenSetOffsBt
      | apply Continues.thenSetOffsHh
      | apply Continues.thenSetQlenBtf
      | apply Continues.thenSetQlenBtr
      | refine Continues.thenSearch _ _ _ _
          (by simp [SearchCall.MonotoneOffs, SearchCall.offs, St.call]) ?_
      | refine Continues.thenBacktrack _ _ _ _ _ _ _
          (by simp [SearchCall.MonotoneOffs, SearchCall.offs, St.call, Backtracker.setOffs,
            Backtracker.setQlen, ttPhase1RcOffs_monotone, ttPhase2FwOffs_monotone, ttPhase2RcOffs_monotone, ttPhase3FwOffs_monotone, ttPhase3HhFwOffs_monotone, ttPhase3HhRcOffs_monotone, seedOffs5_mono_min, seedOffs3_mono_min, seedOffsHh_mono_min, seedOffs5_mono_int, seedOffs3_mono_int, seedOffsHh_mono_int, seedOffsFull_monotone, hhh]) ?_)

theorem seededPhase3Seedlings_mono (seedLen seedMms : Int) (orc : Oracle) (st : St) (r : Read)
    (hbtf : st.btf.offs = seedOffs3 seedMms (u32OfInt seedLen)) :
    Continues SearchCall.MonotoneOffs st (seededPhase3Seedlings seedLen seedMms orc st r) := by
  unfold seededPhase3Seedlings
  dsimp only
  split_ifs <;>
    repeat (with_reducible first
      | exact Continues.start _ _
      | apply Continues.thenSetFw
      | apply Continues.thenExit
      | apply Continues.thenMarkDone
      | apply Continues.thenExpand
      | apply Continues.thenSetOffsBtf
      | apply Continues.thenSetOffsBtr
      | apply Continues.thenSetOffsBt
      | apply Continues.thenSetOffsHh
      | apply Continues.thenSetQlenBtf
      | apply Continues.thenSetQlenBtr
      | refine Continues.thenSearch _ _ _ _
          (by simp [SearchCall.MonotoneOffs, SearchCall.offs, St.call]) ?_
      | refine Continues.thenBacktrack _ _ _ _ _ _ _
          (by simp [SearchCall.MonotoneOffs, SearchCall.offs, St.call, Backtracker.setOffs,
            Backtracker.setQlen, ttPhase1RcOffs_monotone, ttPhase2FwOffs_monotone, ttPhase2RcOffs_monotone, ttPhase3FwOffs_monotone, ttPhase3HhFwOffs_monotone, ttPhase3HhRcOffs_monotone, seedOffs5_mono_min, seedOffs3_mono_min, seedOffsHh_mono_min, seedOffs5_mono_int, seedOffs3_mono_int, seedOffsHh_mono_int, seedOffsFull_monotone, hbtf]) ?_)

theorem seededPhase4Extend_mono (seedLen : Int) (orc : Oracle) (st : St) (r : Read)
    (hbtf : st.btf.offs = seedOffsFull (u32OfInt seedLen)) :
    Continues SearchCall.MonotoneOffs st (seededPhase4Extend seedLen orc st r).1 := by
  unfold seededPhase4Extend
  dsimp only
  split_ifs <;>
    repeat (with_reducible first
      | exact Continues.start _ _
      | apply Continues.thenSetFw
      | apply Continues.thenExit
      | apply Continues.thenMarkDone
      | apply Continues.thenExpand
      | apply Continues.thenSetOffsBtf
      | apply Continues.thenSetOffsBtr
      | apply Continues.thenSetOffsBt
      | apply Continues.thenSetOffsHh
      | apply Continues.thenSetQlenBtf
      | apply Continues.thenSetQlenBtr
      | refine Continues.thenSearch _ _ _ _
          (by simp [SearchCall.MonotoneOffs, SearchCall.offs, St.call]) ?_
      | refine Continues.thenBacktrack _ _ _ _ _ _ _
          (by simp [SearchCall.MonotoneOffs, SearchCall.offs, St.call, Backtracker.setOffs,
            Backtracker.setQlen, ttPhase1RcOffs_monotone, ttPhase2FwOffs_monotone, ttPhase2RcOffs_monotone, ttPhase3FwOffs_monotone, ttPhase3HhFwOffs_monotone, ttPhase3HhRcOffs_monotone, seedOffs5_mono_min, seedOffs3_mono_min, seedOffsHh_mono_min, seedOffs5_mono_int, seedOffs3_mono_int, seedOffsHh_mono_int, seedOffsFull_monotone, hbtf]) ?_
      | refine Continues.seq ?_ (extendPartials_mono _ _ _ _ _ _
          (by simp [Backtracker.setOffs, ttPhase1RcOffs_monotone, ttPhase2FwOffs_monotone, ttPhase2RcOffs_monotone, ttPhase3FwOffs_monotone, ttPhase3HhFwOffs_monotone, ttPhase3HhRcOffs_monotone, seedOffs5_mono_min, seedOffs3_mono_min, seedOffsHh_mono_min, seedOffs5_mono_int, seedOffs3_mono_int, seedOffsHh_mono_int, seedOffsFull_monotone, hbtf]) _ _))

theorem seededPhase4Hh_mono (seedLen seedMms : Int) (orc : Oracle) (st : St) (r : Read)
    (hhh : st.hh.offs = seedOffsHh seedMms (u32OfInt seedLen)) :
    Continues SearchCall.MonotoneOffs st (seededPhase4Hh seedLen seedMms orc st r) := by
  unfold seededPhase4Hh
  dsimp only
  split_ifs <;>
    repeat (with_reducible first
      | exact Continues.start _ _
      | apply Continues.thenSetFw
      | apply Continues.thenExit
      | apply Continues.thenMarkDone
      | apply Continues.thenExpand
      | apply Continues.thenSetOffsBtf
      | apply Continues.thenSetOffsBtr
      | apply Continues.thenSetOffsBt
      | apply Continues.thenSetOffsHh
      | apply Continues.thenSetQlenBtf
      | apply Continues.thenSetQlenBtr
      | refine Continues.thenSearch _ _ _ _
          (by simp [SearchCall.MonotoneOffs, SearchCall.offs, St.call]) ?_
      | refine Continues.thenBacktrack _ _ _ _ _ _ _
          (by simp [SearchCall.MonotoneOffs, SearchCall.offs, St.call, Backtracker.setOffs,
            Backtracker.setQlen, ttPhase1RcOffs_monotone, ttPhase2FwOffs_monotone, ttPhase2RcOffs_monotone, ttPhase3FwOffs_monotone, ttPhase3HhFwOffs_monotone, ttPhase3HhRcOffs_monotone, seedOffs5_mono_min, seedOffs3_mono_min, seedOffsHh_mono_min, seedOffs5_mono_int, seedOffs3_mono_int, seedOffsHh_mono_int, seedOffsFull_monotone, hhh]) ?_)

theorem seededPhase3Body_mono (seedLen seedMms : Int) (orc : Oracle) (st : St) (r : Read)
    (hbtf : st.btf.offs = seedOffs3 seedMms (u32OfInt seedLen))
    (hbtr : st.btr.offs = seedOffsFull (u32OfInt seedLen))
    (hhh : st.hh.offs = seedOffsHh seedMms (u32OfInt seedLen)) :
    Continues SearchCall.MonotoneOffs st (seededPhase3Body seedLen seedMms orc st r) ∧
      (seededPhase3Body seedLen seedMms orc st r).btf.offs =
        seedOffs3 seedMms (u32OfInt seedLen) ∧
      (seededPhase3Body seedLen seedMms orc st r).btr.offs = seedOffsFull (u32OfInt seedLen) ∧
      (seededPhase3Body seedLen seedMms orc st r).hh.offs =
        seedOffsHh seedMms (u32OfInt seedLen) := by
  have e0 : Continues SearchCall.MonotoneOffs st (st.setFw false) :=
    (Continues.start _ _).thenSetFw _
  have r1 := seededPhase3Extend_rest seedLen orc (st.setFw false) r hbtr
  have e1 := Continues.seq e0 (seededPhase3Extend_mono seedLen orc (st.setFw false) r hbtr)
  have hhh1 : (seededPhase3Extend seedLen orc (st.setFw false) r).1.hh.offs =
      seedOffsHh seedMms (u32OfInt seedLen) := by rw [r1.2.2]; exact hhh
  have r2 := seededPhase3Hh_rest seedLen seedMms orc _ r hhh1
  have e2 := Continues.seq e1 (seededPhase3Hh_mono seedLen seedMms orc _ r hhh1)
  have hbtf2 : (seededPhase3Hh seedLen seedMms orc
      (seededPhase3Extend seedLen orc (st.setFw false) r).1 r).1.btf.offs =
      seedOffs3 seedMms (u32OfInt seedLen) := by rw [r2.1, r1.1]; exact hbtf
  have r3 := seededPhase3Seedlings_rest seedLen seedMms orc _ r hbtf2
  have e3 := Continues.seq e2 (seededPhase3Seedlings_mono seedLen seedMms orc _ r hbtf2)
  unfold seededPhase3Body
  dsimp only
  split_ifs
  · exact ⟨Continues.start _ _, hbtf, hbtr, hhh⟩
  · exact ⟨e1, by rw [r1.1]; exact hbtf, r1.2.1, hhh1⟩
  · exact ⟨e2.thenMarkDone _, hbtf2, by
      rw [St.markDone_btr, r2.2.1]; exact r1.2.1, r2.2.2⟩
  · exact ⟨e3, r3.1, by rw [r3.2.1, r2.2.1]; exact r1.2.1, by rw [r3.2.2]; exact r2.2.2⟩

theorem seededPhase4Body_mono (seedLen seedMms : Int) (orc : Oracle) (st : St) (r : Read)
    (hbtf : st.btf.offs = seedOffsFull (u32OfInt seedLen))
    (hhh : st.hh.offs = seedOffsHh seedMms (u32OfInt seedLen)) :
    Continues SearchCall.MonotoneOffs st (seededPhase4Body seedLen seedMms orc st r) ∧
      (seededPhase4Body seedLen seedMms orc st r).btf.offs = seedOffsFull (u32OfInt seedLen) ∧
      (seededPhase4Body seedLen seedMms orc st r).hh.offs =
        seedOffsHh seedMms (u32OfInt seedLen) := by
  have e0 : Continues SearchCall.MonotoneOffs st (st.setFw true) :=
    (Continues.start _ _).thenSetFw _
  have r1 := seededPhase4Extend_rest seedLen orc (st.setFw true) r hbtf
  have e1 := Continues.seq e0 (seededPhase4Extend_mono seedLen orc (st.setFw true) r hbtf)
  have hhh1 : (seededPhase4Extend seedLen orc (st.setFw true) r).1.hh.offs =
      seedOffsHh seedMms (u32OfInt seedLen) := by rw [r1.2]; exact hhh
  have r2 := seededPhase4Hh_rest seedLen seedMms orc _ r hhh1
  have e2 := Continues.seq e1 (seededPhase4Hh_mono seedLen seedMms orc _ r hhh1)
  unfold seededPhase4Body
  dsimp only
  split_ifs
  · exact ⟨Continues.start _ _, hbtf, hhh⟩
  · exact ⟨e1, r1.1, hhh1⟩
  · exact ⟨e2, by rw [r2.1]; exact r1.1, r2.2⟩

/-- The read loop of a phase whose body issues only searches satisfying `P`
while it keeps the invariant `I`. -/
theorem readLoop_calls (cfg : Config) (P : SearchCall → Prop) (I : St → Prop)
    (body : St → Read → St)
    (hget : ∀ st rd, I st → I (st.getRead rd)) (hexit : ∀ st, I st → I st.exit)
    (hbody : ∀ st r, I st → Continues P st (body st r) ∧ I (body st r))
    (reads : List Read) (st : St) (hst : I st) :
    CallsFrom P st (readLoop cfg body reads st) ∧ I (readLoop cfg body reads st) :=
  let h := readLoop_invariant cfg P I (fun _ => True) body hget hexit (fun _ _ _ => trivial)
    (fun s r _ hi => hbody s r hi) reads st (fun _ _ => trivial) hst
  ⟨h.1.2.2.2.2.2.2, h.2⟩

/-- C7: every quadruple `(unrevOff, 1revOff, 2revOff, 3revOff)` the 2/3-mismatch
search and the seeded search pass to a backtracker, and every quadruple the
`ASSERT_NO_HITS` macros pass to the naive oracle, is monotone.  Run with one
worker from any state, on any reads, with any outcomes of the searches, for any
`seedLen`, either value of `two` and any integer `seedMms`: every search either
driver issues runs with monotone thresholds, be they the ones a `setOffs` call
has just set for the read or the ones the backtracker holds from its
construction (to which the override for a short read is restored); every
backtracker a phase constructs is constructed with monotone thresholds; and the
quadruple of the macros is monotone whatever `seedMms` and `s` are in scope
where they are expanded. -/
theorem thresholds_monotone (cfg : Config) (two : Bool) (seedLen qualCutoff seedMms : Int)
    (orc : Oracle) (reads : List Read) (st : St) :
    CallsFrom SearchCall.MonotoneOffs st (twoOrThreeMismatchSearch cfg two orc reads st) ∧
      CallsFrom SearchCall.MonotoneOffs st
        (seededQualCutoffSearch cfg seedLen qualCutoff seedMms orc reads st) ∧
      ((twoOrThreePhase1Init cfg st).btr.offs.Monotone ∧
        (twoOrThreePhase2Init cfg st).bt.offs.Monotone ∧
        (twoOrThreePhase3Init cfg st).bt.offs.Monotone ∧
        (twoOrThreePhase3Init cfg st).hh.offs.Monotone) ∧
      ((seededPhase1Init cfg seedLen qualCutoff seedMms st).btf.offs.Monotone ∧
        (seededPhase1Init cfg seedLen qualCutoff seedMms st).bt.offs.Monotone ∧
        (seededPhase2Init cfg seedLen qualCutoff seedMms st).btf.offs.Monotone ∧
        (seededPhase2Init cfg seedLen qualCutoff seedMms st).btr.offs.Monotone ∧
        (seededPhase3Init cfg seedLen qualCutoff seedMms st).btf.offs.Monotone ∧
        (seededPhase3Init cfg seedLen qualCutoff seedMms st).btr.offs.Monotone ∧
        (seededPhase3Init cfg seedLen qualCutoff seedMms st).hh.offs.Monotone ∧
        (seededPhase4Init cfg seedLen qualCutoff seedMms st).btf.offs.Monotone ∧
        (seededPhase4Init cfg seedLen qualCutoff seedMms st).hh.offs.Monotone) ∧
      ∀ (m : Int) (s : Nat), (assertNoHitsOffs m s).Monotone := by
  have htt1 : ∀ s, CallsFrom SearchCall.MonotoneOffs s (twoOrThreePhase1 cfg two orc reads s) :=
    fun s => CallsFrom.ofTrace (c := twoOrThreePhase1Init cfg s) rfl rfl
      (readLoop_calls cfg _ (fun _ => True) _ (fun _ _ _ => trivial) (fun _ _ => trivial)
        (fun y r _ => ⟨twoOrThreePhase1Body_mono cfg two orc y r, trivial⟩) reads _ trivial).1
  have htt2 : ∀ s, CallsFrom SearchCall.MonotoneOffs s (twoOrThreePhase2 cfg two orc reads s) :=
    fun s => CallsFrom.ofTrace (c := twoOrThreePhase2Init cfg s) rfl rfl
      (readLoop_calls cfg _ (fun _ => True) _ (fun _ _ _ => trivial) (fun _ _ => trivial)
        (fun y r _ => ⟨twoOrThreePhase2Body_mono two orc y r, trivial⟩) reads _ trivial).1
  have htt3 : ∀ s, CallsFrom SearchCall.MonotoneOffs s (twoOrThreePhase3 cfg two orc reads s) :=
    fun s => CallsFrom.ofTrace (c := twoOrThreePhase3Init cfg s) rfl rfl
      (readLoop_calls cfg _ (fun _ => True) _ (fun _ _ _ => trivial) (fun _ _ => trivial)
        (fun y r _ => ⟨twoOrThreePhase3Body_mono two orc y r, trivial⟩) reads _ trivial).1
  have hsd1 : ∀ s, CallsFrom SearchCall.MonotoneOffs s
      (seededPhase1 cfg seedLen qualCutoff seedMms orc reads s) :=
    fun s => CallsFrom.ofTrace (c := seededPhase1Init cfg seedLen qualCutoff seedMms s) rfl rfl
      (readLoop_calls cfg _ (fun x => x.bt.offs = seedOffs5 seedMms (u32OfInt seedLen)) _
        (fun _ _ h => h) (fun _ h => h)
        (fun y r h => ⟨seededPhase1Body_mono cfg seedLen seedMms orc y r h,
          seededPhase1Body_rest cfg seedLen seedMms orc y r h⟩) reads _ rfl).1
  have hsd2 : ∀ s, CallsFrom SearchCall.MonotoneOffs s
      (seededPhase2 cfg seedLen qualCutoff seedMms orc reads s) :=
    fun s => CallsFrom.ofTrace (c := seededPhase2Init cfg seedLen qualCutoff seedMms s) rfl rfl
      (readLoop_calls cfg _ (fun x => x.btf.offs = seedOffs5 seedMms (u32OfInt seedLen) ∧
          x.btr.offs = seedOffs3 seedMms (u32OfInt seedLen)) _
        (fun _ _ h => h) (fun _ h => h)
        (fun y r h => ⟨seededPhase2Body_mono seedLen seedMms orc y r h.1 h.2,
          seededPhase2Body_rest seedLen seedMms orc y r h.1 h.2⟩) reads _ ⟨rfl, rfl⟩).1
  have hsd3 : ∀ s, CallsFrom SearchCall.MonotoneOffs s
      (seededPhase3 cfg seedLen qualCutoff seedMms orc reads s) :=
    fun s => CallsFrom.ofTrace (c := seededPhase3Init cfg seedLen qualCutoff seedMms s) rfl rfl
      (readLoop_calls cfg _ (fun x => x.btf.offs = seedOffs3 seedMms (u32OfInt seedLen) ∧
          x.btr.offs = seedOffsFull (u32OfInt seedLen) ∧
          x.hh.offs = seedOffsHh seedMms (u32OfInt seedLen)) _
        (fun _ _ h => h) (fun _ h => h)
        (fun y r h => seededPhase3Body_mono seedLen seedMms orc y r h.1 h.2.1 h.2.2) reads _
        ⟨rfl, rfl, rfl⟩).1
  have hsd4 : ∀ s, CallsFrom SearchCall.MonotoneOffs s
      (seededPhase4 cfg seedLen qualCutoff seedMms orc reads s) :=
    fun s => CallsFrom.ofTrace (c := seededPhase4Init cfg seedLen qualCutoff seedMms s) rfl rfl
      (readLoop_calls cfg _ (fun x => x.btf.offs = seedOffsFull (u32OfInt seedLen) ∧
          x.hh.offs = seedOffsHh seedMms (u32OfInt seedLen)) _
        (fun _ _ h => h) (fun _ h => h)
        (fun y r h => seededPhase4Body_mono seedLen seedMms orc y r h.1 h.2) reads _
        ⟨rfl, rfl⟩).1
  refine ⟨?_, ?_, ⟨zeroOffs_monotone, zeroOffs_monotone, zeroOffs_monotone, zeroOffs_monotone⟩,
    ⟨zeroOffs_monotone, seedOffs5_mono_int _ _, seedOffs5_mono_int _ _, seedOffs3_mono_int _ _,
      seedOffs3_mono_int _ _, seedOffsFull_monotone _, seedOffsHh_mono_int _ _,
      seedOffsFull_monotone _, seedOffsHh_mono_int _ _⟩,
    assertNoHitsOffs_monotone⟩
  · exact CallsFrom.andThen _ (CallsFrom.andThen _ (htt1 _) (htt2 _)) (htt3 _)
  · have h12 := CallsFrom.andThen _ (hsd1 st) (hsd2 _)
    unfold seededQualCutoffSearch
    dsimp only
    split_ifs
    · exact h12
    · exact CallsFrom.andThen _ (CallsFrom.andThen _ h12 (hsd3 _)) (hsd4 _)
/-! ## The unrevisitable prefix of every seed search -/

/-- A read loop over reads that are all fetched: an invariant `I` of the state
holds at the end, every read has a hit or satisfies `Q`, and reads that had a hit
keep it. -/
theorem readLoop_perRead (cfg : Config) (body : St → Read → St) (I : St → Prop)
    (Q : Read → Prop) (reads : List Read)
    (hstep : ∀ st r, r ∈ reads → I st →
      st.exited = false ∧ r.patid < cfg.qUpto ∧
        ¬ (cfg.qSameLen = true ∧ (presentRead st.reverse r).patFw.length ≠
          (st.getRead (presentRead st.reverse r)).lastLen) ∧
        I (body (st.getRead (presentRead st.reverse r)) (presentRead st.reverse r)) ∧
        ((body (st.getRead (presentRead st.reverse r)) (presentRead st.reverse r)).Found r.patid ∨
          Q r) ∧
        ∀ p, st.Found p →
          (body (st.getRead (presentRead st.reverse r)) (presentRead st.reverse r)).Found p) :
    ∀ rs : List Read, (∀ r ∈ rs, r ∈ reads) → ∀ st, I st →
      I (readLoop cfg body rs st) ∧
        (∀ r ∈ rs, (readLoop cfg body rs st).Found r.patid ∨ Q r) ∧
        ∀ p, st.Found p → (readLoop cfg body rs st).Found p := by
  intro rs
  induction rs with
  | nil =>
    intro _ st hst
    rw [readLoop]
    exact ⟨hst, by simp, fun _ h => h⟩
  | cons r rs ih =>
    intro hsub st hst
    obtain ⟨hex, hq, hsame, hI, hQ, hmono⟩ := hstep st r (hsub r (by simp)) hst
    have hnq : ¬ r.patid ≥ cfg.qUpto := by omega
    have e : readLoop cfg body (r :: rs) st = readLoop cfg body rs
        (body (st.getRead (presentRead st.reverse r)) (presentRead st.reverse r)) := by
      rw [readLoop]
      simp only [hex, Bool.false_eq_true, if_false, hnq, hsame]
    rw [e]
    obtain ⟨i1, i2, i3⟩ := ih (fun x hx => hsub x (List.mem_cons_of_mem _ hx)) _ hI
    refine ⟨i1, ?_, fun p hp => i3 p (hmono p hp)⟩
    intro x hx
    rcases List.mem_cons.mp hx with rfl | hx
    · rcases hQ with h | h
      · exact Or.inl (i3 _ h)
      · exact Or.inr h
    · exact i2 x hx

/-- The `qSameLen` test of `GET_READ` passes on reads that all have one length
when the flag is set. -/
theorem TtInv.sameLen {os : List (List Nat)} {reads : List Read} {C : Read → Prop} {st : St}
    (cfg : Config) (hinv : TtInv os reads C st) {r : Read} (hr : r ∈ reads)
    (hL : r.patFw.length < 2 ^ 32)
    (hsame : cfg.qSameLen = true → ∀ a ∈ reads, ∀ b ∈ reads, a.patFw.length = b.patFw.length) :
    ¬ (cfg.qSameLen = true ∧ (presentRead st.reverse r).patFw.length ≠
      (st.getRead (presentRead st.reverse r)).lastLen) := by
  rintro ⟨hq, hne⟩
  apply hne
  rw [St.getRead_lastLen, presentRead_length]
  by_cases hz : st.lastLen = 0
  · rw [if_pos hz, u32_of_lt hL]
  · rw [if_neg hz]
    rcases hinv.2.2.2.1 with h0 | ⟨x, hx, h1⟩
    · exact absurd h0 hz
    · rw [h1]
      exact hsame hq r hr x hx

/-- One iteration of a 2-mismatch read loop keeps `TtInv`: the body only adds
hits of the read it serves, each an occurrence of that read, and sets a bit only
with a hit. -/
theorem TtInv.iteration {os : List (List Nat)} {reads : List Read} {C : Read → Prop} {st st1 : St}
    {r rd : Read} (hr : r ∈ reads) (hinv : TtInv os reads C st)
    (hid : rd.patid = r.patid) (hrdlen : rd.patFw.length = r.patFw.length)
    (hL : r.patFw.length < 2 ^ 32)
    (hg : Grows (st.getRead rd) st1) (hs : SoundFrom os r.patFw (st.getRead rd) st1)
    (hex : st1.exited = (st.getRead rd).exited)
    (hprov : st1.sink.prov = (st.getRead rd).sink.prov)
    (hfw : st1.fw = true) (hll : st1.lastLen = (st.getRead rd).lastLen)
    (hdone : ∀ j, testDone st1.doneMask j = true →
      testDone (st.getRead rd).doneMask j = true ∨
        (j = r.patid ∧ hitSince (st.getRead rd) st1 = true)) :
    TtInv os reads C st1 ∧ (∀ p, st.Found p → st1.Found p) ∧
      (hitSince (st.getRead rd) st1 = true → st1.Found r.patid) := by
  obtain ⟨i1, i2, _, i4, i5, i6, i7⟩ := hinv
  obtain ⟨_, new, e1, e2, e3⟩ := hg
  have hprov0 : ∀ h ∈ (st.getRead rd).sink.prov, h.patId = (st.getRead rd).patId := by
    intro h hh
    have hh2 : h ∈ st.sink.prov := hh
    rw [i2] at hh2
    simp at hh2
  have hnew : ∀ h ∈ new, h.patId = r.patid := fun h hh => ((e3 hprov0).1 h hh).trans hid
  have e1a : st1.sink.hits = st.sink.hits ++ new := e1
  have e2a : st1.sink.numHits = st.sink.numHits + new.length := e2
  have mono : ∀ p, st.Found p → st1.Found p := by
    rintro p ⟨h, hh, hp⟩
    exact ⟨h, by rw [e1a]; exact List.mem_append_left _ hh, hp⟩
  have hit : hitSince (st.getRead rd) st1 = true → st1.Found r.patid := by
    intro hh
    rw [hitSince_iff] at hh
    have hh2 : st.sink.numHits < st1.sink.numHits := hh
    have hne : new ≠ [] := by
      intro hn
      rw [hn] at e2a
      simp only [List.length_nil, Nat.add_zero] at e2a
      omega
    obtain ⟨h, hh3⟩ := List.exists_mem_of_ne_nil new hne
    exact ⟨h, by rw [e1a]; exact List.mem_append_right _ hh3, hnew h hh3⟩
  refine ⟨⟨?_, ?_, hfw, ?_, ?_, ?_, ?_⟩, mono, hit⟩
  · rw [hex]; exact i1
  · rw [hprov]; exact i2
  · rw [hll, St.getRead_lastLen]
    by_cases hz : st.lastLen = 0
    · rw [if_pos hz, hrdlen, u32_of_lt hL]
      exact Or.inr ⟨r, hr, rfl⟩
    · rw [if_neg hz]; exact i4
  · intro h hh
    have hh0 := hh
    rw [e1a, List.mem_append] at hh
    rcases hh with hh | hh
    · exact i5 h hh
    · rcases hs h hh0 with h0 | h0
      · exact i5 h h0
      · exact ⟨r, hr, hnew h hh, h0⟩
  · intro j hj
    rcases hdone j hj with h0 | ⟨rfl, h0⟩
    · exact mono j (i6 j h0)
    · exact hit h0
  · intro x hx
    rcases i7 x hx with h | h
    · exact Or.inl (mono _ h)
    · exact Or.inr h

/-- The invariant `TtInv` moves to a state with the same sink, bitmap, `lastLen`
and exit flag, whose parameters name the forward strand. -/
theorem TtInv.moveTo {os : List (List Nat)} {reads : List Read} {C : Read → Prop}
    {st st1 : St} (hinv : TtInv os reads C st) (h1 : st1.exited = st.exited)
    (h2 : st1.sink = st.sink) (h3 : st1.fw = true) (h4 : st1.lastLen = st.lastLen)
    (h5 : st1.doneMask = st.doneMask) : TtInv os reads C st1 := by
  obtain ⟨i1, i2, _, i4, i5, i6, i7⟩ := hinv
  refine ⟨h1.trans i1, by rw [h2]; exact i2, h3, by rw [h4]; exact i4, by rw [h2]; exact i5,
    ?_, ?_⟩
  · intro p hp
    rw [h5] at hp
    obtain ⟨h, hh, e⟩ := i6 p hp
    exact ⟨h, by rw [h2]; exact hh, e⟩
  · intro x hx
    rcases i7 x hx with ⟨h, hh, e⟩ | hc
    · exact Or.inl ⟨h, by rw [h2]; exact hh, e⟩
    · exact Or.inr hc

/-- The condition a read has a hit or satisfies can be replaced by one that
holds for every read without a hit. -/
theorem TtInv.carryOver {os : List (List Nat)} {reads : List Read} {C D : Read → Prop}
    {st : St} (hinv : TtInv os reads C st) (h : ∀ r ∈ reads, st.Found r.patid ∨ D r) :
    TtInv os reads D st :=
  ⟨hinv.1, hinv.2.1, hinv.2.2.1, hinv.2.2.2.1, hinv.2.2.2.2.1, hinv.2.2.2.2.2.1, h⟩

/-! ### The three bodies -/

theorem twoOrThreePhase1Body_flags (cfg : Config) (two : Bool) (orc : Oracle) (st : St)
    (r : Read) :
    (twoOrThreePhase1Body cfg two orc st r).btr.ebwtFw = st.btr.ebwtFw ∧
      (twoOrThreePhase1Body cfg two orc st r).btr.halfAndHalf = st.btr.halfAndHalf ∧
      (twoOrThreePhase1Body cfg two orc st r).reverse = st.reverse := by
  unfold twoOrThreePhase1Body
  dsimp only
  split_ifs <;> simp [Backtracker.setOffs]

theorem twoOrThreePhase2Body_flags (two : Bool) (orc : Oracle) (st : St) (r : Read) :
    (twoOrThreePhase2Body two orc st r).bt.ebwtFw = st.bt.ebwtFw ∧
      (twoOrThreePhase2Body two orc st r).bt.halfAndHalf = st.bt.halfAndHalf ∧
      (twoOrThreePhase2Body two orc st r).reverse = st.reverse := by
  unfold twoOrThreePhase2Body
  dsimp only
  split_ifs <;> simp [Backtracker.setOffs]

theorem twoOrThreePhase3Body_flags (two : Bool) (orc : Oracle) (st : St) (r : Read) :
    (twoOrThreePhase3Body two orc st r).bt.ebwtFw = st.bt.ebwtFw ∧
      (twoOrThreePhase3Body two orc st r).bt.halfAndHalf = st.bt.halfAndHalf ∧
      (twoOrThreePhase3Body two orc st r).hh.ebwtFw = st.hh.ebwtFw ∧
      (twoOrThreePhase3Body two orc st r).hh.halfAndHalf = st.hh.halfAndHalf ∧
      (twoOrThreePhase3Body two orc st r).reverse = st.reverse := by
  unfold twoOrThreePhase3Body
  dsimp only
  split_ifs <;> simp [Backtracker.setOffs]

theorem twoOrThreePhase3Body_exited (two : Bool) (orc : Oracle) (st : St) (r : Read) :
    (twoOrThreePhase3Body two orc st r).exited = st.exited := by
  unfold twoOrThreePhase3Body
  dsimp only
  split_ifs <;> simp

theorem twoOrThreePhase3Body_lastLen (two : Bool) (orc : Oracle) (st : St) (r : Read) :
    (twoOrThreePhase3Body two orc st r).lastLen = st.lastLen := by
  unfold twoOrThreePhase3Body
  dsimp only
  split_ifs <;> simp

/-- A bit set by the phase-1 body is that of the read served, set after a
hit. -/
theorem twoOrThreePhase1Body_marks (cfg : Config) (two : Bool) (orc : Oracle) (st : St)
    (r : Read) (j : Nat)
    (h : testDone (twoOrThreePhase1Body cfg two orc st r).doneMask j = true) :
    testDone st.doneMask j = true ∨
      (j = r.patid ∧ hitSince st (twoOrThreePhase1Body cfg two orc st r) = true) := by
  unfold twoOrThreePhase1Body at h ⊢
  dsimp only at h ⊢
  split_ifs at h ⊢ with h1 h2 h3 h4
  · left; simpa [testDone_expandDone] using h
  · left; simpa [testDone_expandDone] using h
  · simp only [St.markDone, testDone_setDone] at h
    split_ifs at h with hj
    · right
      refine ⟨hj.1.symm, ?_⟩
      simp only [hitSince_iff] at h3 ⊢
      simpa using h3
    · left; simpa [testDone_expandDone] using h
  · simp only [St.setFw, St.markDone, testDone_setDone] at h
    split_ifs at h with hj
    · right
      refine ⟨hj.1.symm, ?_⟩
      simp only [hitSince_iff] at h4 ⊢
      simp at h4 ⊢
      omega
    · left; simpa [testDone_expandDone] using h
  · left; simpa [testDone_expandDone] using h

/-- A bit set by the phase-2 body is that of the read served, set after a
hit. -/
theorem twoOrThreePhase2Body_marks (two : Bool) (orc : Oracle) (st : St) (r : Read) (j : Nat)
    (h : testDone (twoOrThreePhase2Body two orc st r).doneMask j = true) :
    testDone st.doneMask j = true ∨
      (j = r.patid ∧ hitSince st (twoOrThreePhase2Body two orc st r) = true) := by
  unfold twoOrThreePhase2Body at h ⊢
  dsimp only at h ⊢
  split_ifs at h ⊢ with h1 h2 h3
  · left; exact h
  · simp only [St.markDone, testDone_setDone] at h
    split_ifs at h with hj
    · right
      refine ⟨hj.1.symm, ?_⟩
      simp only [hitSince_iff] at h2 ⊢
      simpa using h2
    · left; simpa using h
  · simp only [St.setFw, St.markDone, testDone_setDone] at h
    split_ifs at h with hj
    · right
      refine ⟨hj.1.symm, ?_⟩
      simp only [hitSince_iff] at h3 ⊢
      simp at h3 ⊢
      omega
    · left; simpa using h
  · left; simpa using h

/-- Phase 1 on a read of at least 4 bases: a hit is reported, or the backtracker
run on the reverse complement admitted no placement. -/
theorem twoOrThreePhase1Body_outcome (cfg : Config) (os : List (List Nat)) (st : St) (r : Read)
    (hidx : st.btr.ebwtFw = true) (hhh : st.btr.halfAndHalf = false)
    (hlen : 4 ≤ r.patFw.length) :
    hitSince st (twoOrThreePhase1Body cfg true (idealOracle os) st r) = true ∨ TtMiss1 os r := by
  have hl3 : ¬ (r.patFw.length < 3 ∧ true = true) := by omega
  have hl4 : ¬ r.patFw.length < 4 := by omega
  unfold twoOrThreePhase1Body
  dsimp only
  rw [if_neg hl3, if_neg hl4]
  split_ifs with h1 h2
  · left
    simp only [hitSince_iff] at h1 ⊢
    simpa using h1
  · left
    simp only [hitSince_iff] at h2 ⊢
    simp at h2 ⊢
    omega
  · right
    simp only [hitSince_backtrack, ne_eq, not_not] at h2
    have n2 := noneAdmitted_of_miss os _ _ _ _ _ h2
    unfold TtMiss1
    simpa [Backtracker.setOffs, hidx, hhh] using n2

/-- Phase 2 on a read not yet done: a hit is reported, or both backtracker runs
admitted no placement. -/
theorem twoOrThreePhase2Body_outcome (os : List (List Nat)) (st : St) (r : Read)
    (hidx : st.bt.ebwtFw = false) (hhh : st.bt.halfAndHalf = false)
    (hd : testDone st.doneMask r.patid = false) :
    hitSince st (twoOrThreePhase2Body true (idealOracle os) st (presentRead true r)) = true ∨
      TtMiss2 os r := by
  unfold twoOrThreePhase2Body
  simp only [presentRead_patid, hd, Bool.false_eq_true, if_false]
  split_ifs with h1 h2
  · left
    simp only [hitSince_iff] at h1 ⊢
    simpa using h1
  · left
    simp only [hitSince_iff] at h2 ⊢
    simp at h2 ⊢
    omega
  · right
    simp only [hitSince_backtrack, ne_eq, not_not] at h1 h2
    have n1 := noneAdmitted_of_miss os _ _ _ _ _ h1
    have n2 := noneAdmitted_of_miss os _ _ _ _ _ h2
    unfold TtMiss2
    constructor
    · simpa [Backtracker.setOffs, hidx, hhh, presentRead] using n1
    · simpa [Backtracker.setOffs, hidx, hhh, presentRead] using n2

/-- Phase 3 on a read not yet done: a hit is reported, or the three backtracker
runs admitted no placement. -/
theorem twoOrThreePhase3Body_outcome (os : List (List Nat)) (st : St) (r : Read)
    (hidx : st.bt.ebwtFw = true) (hhh : st.bt.halfAndHalf = false)
    (hidh : st.hh.ebwtFw = true) (hhhh : st.hh.halfAndHalf = true)
    (hd : testDone st.doneMask r.patid = false) :
    hitSince st (twoOrThreePhase3Body true (idealOracle os) st r) = true ∨ TtMiss3 os r := by
  by_cases hlast : hitSince st (twoOrThreePhase3Body true (idealOracle os) st r) = true
  · exact Or.inl hlast
  · right
    unfold twoOrThreePhase3Body at hlast
    simp only [hd, Bool.false_eq_true, if_false] at hlast
    split_ifs at hlast with h1 h2
    · exfalso
      apply hlast
      simp only [hitSince_iff] at h1 ⊢
      simpa using h1
    · exfalso
      apply hlast
      simp only [hitSince_iff] at h2 ⊢
      simp at h2 ⊢
      omega
    · simp only [hitSince_backtrack, ne_eq, not_not] at h1 h2
      have h3 : (idealOracle os
          ((((st.setOffsBt (ttPhase3FwOffs true (u32 r.patFw.length))).backtrack (idealOracle os)
            (st.setOffsBt (ttPhase3FwOffs true (u32 r.patFw.length))).bt none true r.patFw
            r.qualFw Pam.none).setOffsHh (ttPhase3HhFwOffs true (u32 r.patFw.length))).backtrack
            (idealOracle os)
            (((st.setOffsBt (ttPhase3FwOffs true (u32 r.patFw.length))).backtrack
              (idealOracle os) (st.setOffsBt (ttPhase3FwOffs true (u32 r.patFw.length))).bt none
              true r.patFw r.qualFw Pam.none).setOffsHh
              (ttPhase3HhFwOffs true (u32 r.patFw.length))).hh none true r.patFw r.qualFw
            Pam.none |>.setFw false |>.setOffsHh (ttPhase3HhRcOffs true (u32 r.patFw.length))
            |>.call (SearchKind.backtrack
              ((st.hh.setOffs (ttPhase3HhRcOffs true (u32 r.patFw.length)))) none)
              (st.hh.setOffs (ttPhase3HhRcOffs true (u32 r.patFw.length))).ebwtFw false r.patRc
              r.qualRc)).hits = [] := by
        by_contra hne
        apply hlast
        simp only [hitSince_iff]
        have hpos := List.length_pos.mpr hne
        simp [Backtracker.setOffs] at hpos ⊢
        omega
      have n1 := noneAdmitted_of_miss os _ _ _ _ _ h1
      have n2 := noneAdmitted_of_miss os _ _ _ _ _ h2
      have n3 := noneAdmitted_of_miss os _ _ _ _ _ h3
      unfold TtMiss3
      refine ⟨?_, ?_, ?_⟩
      · simpa [Backtracker.setOffs, hidx, hhh] using n1
      · simpa [Backtracker.setOffs, hidh, hhhh] using n2
      · simpa [Backtracker.setOffs, hidh, hhhh] using n3

/-! ### The three read loops -/

/-- Phase 1 over all reads: the invariant holds at the end, and every read has a
hit or its phase-1 backtracker run admitted no placement. -/
theorem twoOrThreePhase1_perRead (cfg : Config) (os : List (List Nat)) (reads : List Read)
    (hq : ∀ r ∈ reads, r.patid < cfg.qUpto)
    (hlen : ∀ r ∈ reads, 4 ≤ r.patFw.length ∧ r.patFw.length < 2 ^ 32)
    (hrc : ∀ r ∈ reads, r.patRc = revComp r.patFw)
    (hsame : cfg.qSameLen = true → ∀ a ∈ reads, ∀ b ∈ reads, a.patFw.length = b.patFw.length)
    (C : Read → Prop) (st : St)
    (hI : TtInv os reads C st ∧ st.btr.ebwtFw = true ∧ st.btr.halfAndHalf = false ∧
      st.reverse = false) :
    TtInv os reads C (readLoop cfg (twoOrThreePhase1Body cfg true (idealOracle os)) reads st) ∧
      ∀ r ∈ reads,
        (readLoop cfg (twoOrThreePhase1Body cfg true (idealOracle os)) reads st).Found r.patid ∨
          TtMiss1 os r := by
  have key := readLoop_perRead cfg (twoOrThreePhase1Body cfg true (idealOracle os))
    (fun s => TtInv os reads C s ∧ s.btr.ebwtFw = true ∧ s.btr.halfAndHalf = false ∧
      s.reverse = false) (TtMiss1 os) reads ?_ reads (fun _ h => h) st hI
  · exact ⟨key.1.1, key.2.1⟩
  · rintro s r hr ⟨hinv, f1, f2, f3⟩
    have hL := (hlen r hr).2
    have hs := TtInv.sameLen cfg hinv hr hL hsame
    rw [f3, presentRead_false] at hs
    rw [f3, presentRead_false]
    have step := TtInv.iteration hr hinv rfl rfl hL
      (twoOrThreePhase1Body_grows cfg true (idealOracle os) (s.getRead r) r)
      (twoOrThreePhase1Body_sound cfg os (s.getRead r) r hinv.2.2.1 f1 (hrc r hr) hL)
      (twoOrThreePhase1Body_exited cfg (idealOracle os) (s.getRead r) r (hlen r hr).1)
      (twoOrThreePhase1Body_prov cfg true (idealOracle os) (s.getRead r) r)
      (twoOrThreePhase1Body_fw cfg true (idealOracle os) (s.getRead r) r hinv.2.2.1)
      (twoOrThreePhase1Body_lastLen cfg true (idealOracle os) (s.getRead r) r)
      (fun j hj => twoOrThreePhase1Body_marks cfg true (idealOracle os) (s.getRead r) r j hj)
    have flags := twoOrThreePhase1Body_flags cfg true (idealOracle os) (s.getRead r) r
    refine ⟨hinv.1, hq r hr, hs,
      ⟨step.1, flags.1.trans f1, flags.2.1.trans f2, flags.2.2.trans f3⟩, ?_, step.2.1⟩
    rcases twoOrThreePhase1Body_outcome cfg os (s.getRead r) r f1 f2 (hlen r hr).1 with h | h
    · exact Or.inl (step.2.2 h)
    · exact Or.inr h

/-- Phase 2 over all reads: the invariant holds at the end, and every read has a
hit or its two phase-2 backtracker runs admitted no placement. -/
theorem twoOrThreePhase2_perRead (cfg : Config) (os : List (List Nat)) (reads : List Read)
    (hq : ∀ r ∈ reads, r.patid < cfg.qUpto)
    (hlen : ∀ r ∈ reads, 4 ≤ r.patFw.length ∧ r.patFw.length < 2 ^ 32)
    (hrc : ∀ r ∈ reads, r.patRc = revComp r.patFw)
    (hsame : cfg.qSameLen = true → ∀ a ∈ reads, ∀ b ∈ reads, a.patFw.length = b.patFw.length)
    (C : Read → Prop) (st : St)
    (hI : TtInv os reads C st ∧ st.bt.ebwtFw = false ∧ st.bt.halfAndHalf = false ∧
      st.reverse = true) :
    TtInv os reads C (readLoop cfg (twoOrThreePhase2Body true (idealOracle os)) reads st) ∧
      ∀ r ∈ reads,
        (readLoop cfg (twoOrThreePhase2Body true (idealOracle os)) reads st).Found r.patid ∨
          TtMiss2 os r := by
  have key := readLoop_perRead cfg (twoOrThreePhase2Body true (idealOracle os))
    (fun s => TtInv os reads C s ∧ s.bt.ebwtFw = false ∧ s.bt.halfAndHalf = false ∧
      s.reverse = true) (TtMiss2 os) reads ?_ reads (fun _ h => h) st hI
  · exact ⟨key.1.1, key.2.1⟩
  · rintro s r hr ⟨hinv, f1, f2, f3⟩
    have hL := (hlen r hr).2
    have hs := TtInv.sameLen cfg hinv hr hL hsame
    rw [f3] at hs
    rw [f3]
    have step := TtInv.iteration hr hinv (presentRead_patid true r) (presentRead_length true r) hL
      (twoOrThreePhase2Body_grows true (idealOracle os) (s.getRead (presentRead true r))
        (presentRead true r))
      (twoOrThreePhase2Body_sound os (s.getRead (presentRead true r)) r hinv.2.2.1 f1
        (hrc r hr) hL)
      (twoOrThreePhase2Body_exited true (idealOracle os) (s.getRead (presentRead true r))
        (presentRead true r))
      (twoOrThreePhase2Body_prov true (idealOracle os) (s.getRead (presentRead true r))
        (presentRead true r))
      (twoOrThreePhase2Body_fw true (idealOracle os) (s.getRead (presentRead true r))
        (presentRead true r) hinv.2.2.1)
      (twoOrThreePhase2Body_lastLen true (idealOracle os) (s.getRead (presentRead true r))
        (presentRead true r))
      (fun j hj => by
        have := twoOrThreePhase2Body_marks true (idealOracle os)
          (s.getRead (presentRead true r)) (presentRead true r) j hj
        rwa [presentRead_patid] at this)
    have flags := twoOrThreePhase2Body_flags true (idealOracle os)
      (s.getRead (presentRead true r)) (presentRead true r)
    refine ⟨hinv.1, hq r hr, hs,
      ⟨step.1, flags.1.trans f1, flags.2.1.trans f2, flags.2.2.trans f3⟩, ?_, step.2.1⟩
    by_cases hd : testDone s.doneMask r.patid = true
    · exact Or.inl (step.2.1 _ (hinv.2.2.2.2.2.1 _ hd))
    · rcases twoOrThreePhase2Body_outcome os (s.getRead (presentRead true r)) r f1 f2
        (by simpa using hd) with h | h
      · exact Or.inl (step.2.2 h)
      · exact Or.inr h

/-- Phase 3 over all reads: the invariant holds at the end, and every read has a
hit or its three phase-3 backtracker runs admitted no placement. -/
theorem twoOrThreePhase3_perRead (cfg : Config) (os : List (List Nat)) (reads : List Read)
    (hq : ∀ r ∈ reads, r.patid < cfg.qUpto)
    (hlen : ∀ r ∈ reads, 4 ≤ r.patFw.length ∧ r.patFw.length < 2 ^ 32)
    (hrc : ∀ r ∈ reads, r.patRc = revComp r.patFw)
    (hsame : cfg.qSameLen = true → ∀ a ∈ reads, ∀ b ∈ reads, a.patFw.length = b.patFw.length)
    (C : Read → Prop) (st : St)
    (hI : TtInv os reads C st ∧ st.bt.ebwtFw = true ∧ st.bt.halfAndHalf = false ∧
      st.hh.ebwtFw = true ∧ st.hh.halfAndHalf = true ∧ st.reverse = false) :
    TtInv os reads C (readLoop cfg (twoOrThreePhase3Body true (idealOracle os)) reads st) ∧
      ∀ r ∈ reads,
        (readLoop cfg (twoOrThreePhase3Body true (idealOracle os)) reads st).Found r.patid ∨
          TtMiss3 os r := by
  have key := readLoop_perRead cfg (twoOrThreePhase3Body true (idealOracle os))
    (fun s => TtInv os reads C s ∧ s.bt.ebwtFw = true ∧ s.bt.halfAndHalf = false ∧
      s.hh.ebwtFw = true ∧ s.hh.halfAndHalf = true ∧ s.reverse = false) (TtMiss3 os) reads ?_
    reads (fun _ h => h) st hI
  · exact ⟨key.1.1, key.2.1⟩
  · rintro s r hr ⟨hinv, f1, f2, f3, f4, f5⟩
    have hL := (hlen r hr).2
    have hs := TtInv.sameLen cfg hinv hr hL hsame
    rw [f5, presentRead_false] at hs
    rw [f5, presentRead_false]
    have step := TtInv.iteration hr hinv rfl rfl hL
      (twoOrThreePhase3Body_grows true (idealOracle os) (s.getRead r) r)
      (twoOrThreePhase3Body_sound os (s.getRead r) r hinv.2.2.1 f1 f3 (hrc r hr) hL)
      (twoOrThreePhase3Body_exited true (idealOracle os) (s.getRead r) r)
      (twoOrThreePhase3Body_prov true (idealOracle os) (s.getRead r) r)
      (twoOrThreePhase3Body_fw true (idealOracle os) (s.getRead r) r hinv.2.2.1)
      (twoOrThreePhase3Body_lastLen true (idealOracle os) (s.getRead r) r)
      (fun j hj => by
        rw [twoOrThreePhase3Body_mask] at hj
        exact Or.inl hj)
    have flags := twoOrThreePhase3Body_flags true (idealOracle os) (s.getRead r) r
    refine ⟨hinv.1, hq r hr, hs,
      ⟨step.1, flags.1.trans f1, flags.2.1.trans f2, flags.2.2.1.trans f3,
        flags.2.2.2.1.trans f4, flags.2.2.2.2.trans f5⟩, ?_, step.2.1⟩
    by_cases hd : testDone s.doneMask r.patid = true
    · exact Or.inl (step.2.1 _ (hinv.2.2.2.2.2.1 _ hd))
    · rcases twoOrThreePhase3Body_outcome os (s.getRead r) r f1 f2 f3 f4
        (by simpa using hd) with h | h
      · exact Or.inl (step.2.2 h)
      · exact Or.inr h

/-- When none of the six backtracker runs of the 2-mismatch search admits a
placement, the read has no occurrence with at most two mismatches on either
strand. -/
theorem refHits_nil_of_miss (os : List (List Nat)) (r : Read)
    (hrc : r.patRc = revComp r.patFw) (hL : r.patFw.length < 2 ^ 32)
    (m1 : TtMiss1 os r) (m2 : TtMiss2 os r) (m3 : TtMiss3 os r) :
    refHits os r.patFw 2 = [] := by
  have hu := u32_of_lt hL
  have hlrc : r.patRc.length = r.patFw.length := by rw [hrc, length_revComp]
  have h5 := s5Of_eq hL
  have h3 := s3Of_eq hL
  obtain ⟨f2, r2⟩ := m2
  obtain ⟨f3, fh, rh⟩ := m3
  have ofw : occurrences os r.patFw 2 = [] := by
    apply occurrences_nil os r.patFw ((r.patFw.length + 1) / 2) (by omega)
      (ttPhase2FwOffs true r.patFw.length) (ttPhase3FwOffs true (u32 r.patFw.length))
      (ttPhase3HhFwOffs true (u32 r.patFw.length)) _ _ _ f2 f3 fh
    · simp [ttPhase2FwOffs, hu, h5]
    · simp only [ttPhase3FwOffs, hu, h3]; constructor <;> omega
    · simp only [ttPhase3HhFwOffs, hu, h3, if_true]; refine ⟨trivial, ?_, ?_, trivial⟩ <;> omega
  have orc1 : occurrences os (revComp r.patFw) 2 = [] := by
    rw [← hrc]
    apply occurrences_nil os r.patRc (r.patFw.length / 2) (by omega)
      (ttPhase2RcOffs true r.patFw.length) (ttPhase1RcOffs true r.patFw.length)
      (ttPhase3HhRcOffs true (u32 r.patFw.length)) _ _ _ r2 m1 rh
    · simp [ttPhase2RcOffs, hu, h3]
    · simp only [ttPhase1RcOffs, hu, h5, hlrc]; constructor <;> omega
    · simp only [ttPhase3HhRcOffs, hu, h5, hlrc, if_true]; refine ⟨trivial, ?_, ?_, trivial⟩ <;> omega
  unfold refHits
  rw [ofw, orc1]
  rfl

/-- The 2-mismatch search over any reads that are all fetched, against ideal
searches: every reported hit is an occurrence of the read whose id it carries,
and every read has a hit or no backtracker run on it admitted a placement. -/
theorem twoOrThreeMismatchSearch_perRead (cfg : Config) (os : List (List Nat))
    (reads : List Read)
    (hq : ∀ r ∈ reads, r.patid < cfg.qUpto)
    (hlen : ∀ r ∈ reads, 4 ≤ r.patFw.length ∧ r.patFw.length < 2 ^ 32)
    (hrc : ∀ r ∈ reads, r.patRc = revComp r.patFw)
    (hsame : cfg.qSameLen = true → ∀ a ∈ reads, ∀ b ∈ reads, a.patFw.length = b.patFw.length) :
    (∀ h ∈ (twoOrThreeMismatchSearch cfg true (idealOracle os) reads initSt).sink.hits,
        ∃ r ∈ reads, h.patId = r.patid ∧ h.place ∈ refHits os r.patFw 2) ∧
      ∀ r ∈ reads,
        (twoOrThreeMismatchSearch cfg true (idealOracle os) reads initSt).Found r.patid ∨
          (TtMiss1 os r ∧ TtMiss2 os r ∧ TtMiss3 os r) := by
  have i0 : TtInv os reads (fun _ => True) (twoOrThreePhase1Init cfg initSt) := by
    refine ⟨rfl, rfl, rfl, Or.inl rfl, ?_, ?_, fun _ _ => Or.inr trivial⟩
    · intro h hh
      rw [twoOrThreePhase1Init_hits] at hh
      simp [initSt] at hh
    · intro p hp
      rw [twoOrThreePhase1Init_doneMask, testDone_replicate] at hp
      exact Bool.noConfusion hp
  obtain ⟨a1, b1⟩ := twoOrThreePhase1_perRead cfg os reads hq hlen hrc hsame (fun _ => True)
    (twoOrThreePhase1Init cfg initSt) ⟨i0, rfl, rfl, rfl⟩
  have e1 : twoOrThreePhase1 cfg true (idealOracle os) reads initSt =
      readLoop cfg (twoOrThreePhase1Body cfg true (idealOracle os)) reads
        (twoOrThreePhase1Init cfg initSt) := rfl
  rw [← e1] at a1 b1
  generalize twoOrThreePhase1 cfg true (idealOracle os) reads initSt = s1 at a1 b1 e1
  have i1 : TtInv os reads (TtMiss1 os) (twoOrThreePhase2Init cfg s1) :=
    (a1.carryOver b1).moveTo rfl rfl rfl rfl rfl
  obtain ⟨a2, b2⟩ := twoOrThreePhase2_perRead cfg os reads hq hlen hrc hsame (TtMiss1 os)
    (twoOrThreePhase2Init cfg s1) ⟨i1, rfl, rfl, rfl⟩
  have e2 : twoOrThreePhase2 cfg true (idealOracle os) reads s1 =
      readLoop cfg (twoOrThreePhase2Body true (idealOracle os)) reads
        (twoOrThreePhase2Init cfg s1) := rfl
  rw [← e2] at a2 b2
  generalize twoOrThreePhase2 cfg true (idealOracle os) reads s1 = s2 at a2 b2 e2
  have c2 : ∀ r ∈ reads, s2.Found r.patid ∨ (TtMiss1 os r ∧ TtMiss2 os r) := by
    intro r hr
    rcases a2.2.2.2.2.2.2 r hr with h | h
    · exact Or.inl h
    · rcases b2 r hr with h2 | h2
      · exact Or.inl h2
      · exact Or.inr ⟨h, h2⟩
  have i2 : TtInv os reads (fun r => TtMiss1 os r ∧ TtMiss2 os r) (twoOrThreePhase3Init cfg s2) :=
    (a2.carryOver c2).moveTo rfl rfl rfl rfl rfl
  obtain ⟨a3, b3⟩ := twoOrThreePhase3_perRead cfg os reads hq hlen hrc hsame
    (fun r => TtMiss1 os r ∧ TtMiss2 os r) (twoOrThreePhase3Init cfg s2)
    ⟨i2, rfl, rfl, rfl, rfl, rfl⟩
  have e3 : twoOrThreePhase3 cfg true (idealOracle os) reads s2 =
      readLoop cfg (twoOrThreePhase3Body true (idealOracle os)) reads
        (twoOrThreePhase3Init cfg s2) := rfl
  rw [← e3] at a3 b3
  have efin : twoOrThreeMismatchSearch cfg true (idealOracle os) reads initSt =
      twoOrThreePhase3 cfg true (idealOracle os) reads s2 := by
    have e1a : twoOrThreePhase1 cfg true (idealOracle os) reads initSt = s1 := e1.symm
    have e2a : twoOrThreePhase2 cfg true (idealOracle os) reads s1 = s2 := e2.symm
    unfold twoOrThreeMismatchSearch
    rw [e1a, St.andThen_run a1.1, e2a, St.andThen_run a2.1]
  rw [efin]
  refine ⟨a3.2.2.2.2.1, ?_⟩
  intro r hr
  rcases a3.2.2.2.2.2.2 r hr with h | h
  · exact Or.inl h
  · rcases b3 r hr with h3 | h3
    · exact Or.inl h3
    · exact Or.inr ⟨h.1, h.2, h3⟩

/-- C1 fails as stated: reference `AAAAC`, the single read `AAAA`, 2-mismatch
mode with all-hits and ideal index searches.  `H(R, 2)` holds two places, offset
0 (exact) and offset 1 (one mismatch), but only the exact hit is emitted: the
exact hit of phase 1 marks the read done and nothing else is searched. -/
theorem allhits_counterexample :
    ttEmitted allHitsCfg true [[0, 0, 0, 0, 1]] [mkRead 0 [0, 0, 0, 0] [3, 3, 3, 3]] 0 =
        [(0, 0, true)] ∧
      refHits [[0, 0, 0, 0, 1]] [0, 0, 0, 0] 2 = [(0, 0, true), (0, 1, true)] ∧
      ¬ (∀ x, x ∈ ttEmitted allHitsCfg true [[0, 0, 0, 0, 1]]
            [mkRead 0 [0, 0, 0, 0] [3, 3, 3, 3]] 0 ↔
          x ∈ refHits [[0, 0, 0, 0, 1]] [0, 0, 0, 0] 2) := by
  have h1 : ttEmitted allHitsCfg true [[0, 0, 0, 0, 1]] [mkRead 0 [0, 0, 0, 0] [3, 3, 3, 3]] 0 =
      [(0, 0, true)] := by
    set_option maxRecDepth 100000 in decide
  have h2 : refHits [[0, 0, 0, 0, 1]] [0, 0, 0, 0] 2 = [(0, 0, true), (0, 1, true)] := by
    decide
  refine ⟨h1, h2, ?_⟩
  rw [h1, h2]
  intro h
  have := (h (0, 1, true)).mpr (by simp)
  simp at this

/-- C1 as amended: in 2-mismatch end-to-end mode (with all-hits as without), run
from process start over any reads that have distinct ids and are all fetched
(ids below `qUpto`, at least 4 bases, of one length when `qSameLen` is set),
with ideal index searches: every emitted hit carries the id of one of the reads,
and for every read `R`, every hit `twoOrThreeMismatchSearch` emits for `R` lies
in `H(R, 2)`, and at least one hit is emitted for `R` whenever `H(R, 2)` is not
empty. -/
theorem two_mismatch_emitted (cfg : Config) (os : List (List Nat)) (reads : List Read)
    (hids : (reads.map Read.patid).Nodup)
    (hq : ∀ r ∈ reads, r.patid < cfg.qUpto)
    (hlen : ∀ r ∈ reads, 4 ≤ r.patFw.length ∧ r.patFw.length < 2 ^ 32)
    (hrc : ∀ r ∈ reads, r.patRc = revComp r.patFw)
    (hsame : cfg.qSameLen = true → ∀ a ∈ reads, ∀ b ∈ reads, a.patFw.length = b.patFw.length) :
    (∀ h ∈ (twoOrThreeMismatchSearch cfg true (idealOracle os) reads initSt).sink.hits,
        ∃ r ∈ reads, h.patId = r.patid) ∧
      ∀ r ∈ reads,
        (∀ x ∈ ttEmitted cfg true os reads r.patid, x ∈ refHits os r.patFw 2) ∧
          (refHits os r.patFw 2 ≠ [] → ttEmitted cfg true os reads r.patid ≠ []) := by
  obtain ⟨hs, hc⟩ := twoOrThreeMismatchSearch_perRead cfg os reads hq hlen hrc hsame
  refine ⟨?_, ?_⟩
  · intro h hh
    obtain ⟨r, hr, e, -⟩ := hs h hh
    exact ⟨r, hr, e⟩
  · intro r hr
    constructor
    · intro x hx
      unfold ttEmitted at hx
      rw [List.mem_map] at hx
      obtain ⟨h, hh, rfl⟩ := hx
      rw [List.mem_filter] at hh
      obtain ⟨hmem, hp⟩ := hh
      have hp1 : h.patId = r.patid := of_decide_eq_true hp
      obtain ⟨r2, hr2, e, hpl⟩ := hs h hmem
      have e2 : r2 = r := List.inj_on_of_nodup_map hids hr2 hr (e.symm.trans hp1)
      rw [e2] at hpl
      exact hpl
    · intro hne hnil
      rcases hc r hr with ⟨h, hh, e⟩ | ⟨m1, m2, m3⟩
      · unfold ttEmitted at hnil
        rw [List.map_eq_nil_iff, List.filter_eq_nil_iff] at hnil
        exact hnil h hh (decide_eq_true e)
      · exact hne (refHits_nil_of_miss os r (hrc r hr) (hlen r hr).2 m1 m2 m3)

/-- Witness for the amended C1: reference `AAAAC` and the reads `AAAA`, `AACC`
and `CCCC` in all-hits mode.  The first read is answered by the exact search of
phase 1, the second by a backtracker run of phase 2, and the third, which has no
occurrence with at most two mismatches, by none of the searches of the three
phases. -/
theorem two_mismatch_emitted_witness :
    ((threeReads.map Read.patid).Nodup ∧
      (∀ r ∈ threeReads, r.patid < allHitsCfg.qUpto) ∧
      (∀ r ∈ threeReads, 4 ≤ r.patFw.length ∧ r.patFw.length < 2 ^ 32) ∧
      (∀ r ∈ threeReads, r.patRc = revComp r.patFw) ∧
      (allHitsCfg.qSameLen = true →
        ∀ a ∈ threeReads, ∀ b ∈ threeReads, a.patFw.length = b.patFw.length)) ∧
      ((List.range 3).map (ttEmitted allHitsCfg true [[0, 0, 0, 0, 1]] threeReads) =
        [[(0, 0, true)], [(0, 0, true)], []]) ∧
      (threeReads.map (fun r => refHits [[0, 0, 0, 0, 1]] r.patFw 2) =
        [[(0, 0, true), (0, 1, true)], [(0, 0, true), (0, 1, true)], []]) ∧
      ((twoOrThreeMismatchSearch allHitsCfg true (idealOracle [[0, 0, 0, 0, 1]]) threeReads
          initSt).trace.map (fun c => (c.patid, c.ebwtFw, c.queryFw)) =
        [(0, true, true), (1, true, true), (1, true, false), (2, true, true),
          (2, true, false), (1, false, true), (2, false, true), (2, false, false),
          (2, true, true), (2, true, true), (2, true, false)]) ∧
      ((∀ h ∈ (twoOrThreeMismatchSearch allHitsCfg true (idealOracle [[0, 0, 0, 0, 1]])
            threeReads initSt).sink.hits, ∃ r ∈ threeReads, h.patId = r.patid) ∧
        ∀ r ∈ threeReads,
          (∀ x ∈ ttEmitted allHitsCfg true [[0, 0, 0, 0, 1]] threeReads r.patid,
            x ∈ refHits [[0, 0, 0, 0, 1]] r.patFw 2) ∧
          (refHits [[0, 0, 0, 0, 1]] r.patFw 2 ≠ [] →
            ttEmitted allHitsCfg true [[0, 0, 0, 0, 1]] threeReads r.patid ≠ [])) :=
  ⟨⟨by decide, by decide, by decide, by decide, by decide⟩,
    by set_option maxRecDepth 100000 in decide,
    by decide,
    by set_option maxRecDepth 100000 in decide,
    two_mismatch_emitted allHitsCfg [[0, 0, 0, 0, 1]] threeReads (by decide) (by decide)
      (by decide) (by decide) (by decide)⟩
/-! ## The naive oracle characterised (`transpose` off) -/

theorem leftDiffs_succ (pat o : List Nat) (off k : Nat) :
    leftDiffs pat o off (k + 1) =
      leftDiffs pat o off k ++ (if pat.getD k 0 ≠ o.getD (off + k) 0 then [k] else []) := by
  unfold leftDiffs
  rw [List.range_succ, List.filter_append]
  congr 1
  by_cases h : pat.getD k 0 ≠ o.getD (off + k) 0
  · rw [if_pos h, List.filter_cons_of_pos (by simpa using h), List.filter_nil]
  · rw [if_neg h, List.filter_cons_of_neg (by simpa using h), List.filter_nil]

theorem extendLeft_of_two (o pat : List Nat) (pos ohlen plen : Nat) (f5 : Bool) (k : Nat)
    (d0 : List Nat) (h : ¬ d0.length ≤ 1) :
    extendLeft o pat pos ohlen plen f5 k d0 = some d0 := by
  cases k with
  | zero => rfl
  | succ k =>
    unfold extendLeft
    dsimp only
    rw [if_neg h]

theorem extendLeft_spec (o pat : List Nat) (pos ohlen plen : Nat) (f5 : Bool)
    (hpos : ohlen ≤ pos) (hpl : ohlen ≤ plen) :
    ∀ (k : Nat) (d0 d : List Nat), k ≤ ohlen → d0.length ≤ 1 →
      (∀ b ∈ d0, ∃ p, k ≤ p ∧ p < ohlen ∧ b = if f5 then p else plen - p - 1) →
      (extendLeft o pat pos ohlen plen f5 k d0 = some d ∧ d.length ≤ 1 ↔
        (∀ p, p < k → o.getD (pos - ohlen + p) 0 ≠ 4) ∧ d.length ≤ 1 ∧
          d = d0 ++ (leftDiffs pat o (pos - ohlen) k).reverse.map
            (fun p => if f5 then p else plen - p - 1)) := by
  intro k
  induction k with
  | zero =>
    intro d0 d _ _ _
    simp only [extendLeft, leftDiffs, List.range_zero, List.filter_nil, List.reverse_nil,
      List.map_nil, List.append_nil, Option.some.injEq]
    constructor
    · rintro ⟨rfl, h⟩
      exact ⟨fun p hp => absurd hp (by omega), h, rfl⟩
    · rintro ⟨_, h, rfl⟩
      exact ⟨rfl, h⟩
  | succ k ih =>
    intro d0 d hk hd0 hmem
    have i1 : pos - (ohlen - (k + 1)) - 1 = pos - ohlen + k := by omega
    have i2 : ohlen - (ohlen - (k + 1)) - 1 = k := by omega
    unfold extendLeft
    dsimp only
    rw [if_pos hd0, i1, i2, leftDiffs_succ]
    by_cases hN : o.getD (pos - ohlen + k) 0 = 4
    · rw [if_pos hN]
      constructor
      · rintro ⟨h, _⟩
        exact absurd h (by simp)
      · rintro ⟨h, _⟩
        exact absurd hN (h k (by omega))
    · rw [if_neg hN]
      have hall : (∀ p, p < k + 1 → o.getD (pos - ohlen + p) 0 ≠ 4) ↔
          ∀ p, p < k → o.getD (pos - ohlen + p) 0 ≠ 4 := by
        constructor
        · intro h p hp; exact h p (by omega)
        · intro h p hp
          by_cases hpk : p = k
          · subst hpk; exact hN
          · exact h p (by omega)
      rw [hall]
      by_cases hne : o.getD (pos - ohlen + k) 0 ≠ pat.getD k 0
      · have hne' : pat.getD k 0 ≠ o.getD (pos - ohlen + k) 0 := fun hx => hne hx.symm
        rw [if_pos hne, if_pos hne']
        have hnot : (if f5 then k else plen - k - 1) ∉ d0 := by
          intro hin
          obtain ⟨p, hp1, hp2, hp3⟩ := hmem _ hin
          split_ifs at hp3 <;> omega
        have hbs : bitSet d0 (if f5 then k else plen - k - 1) =
            d0 ++ [if f5 then k else plen - k - 1] := by
          unfold bitSet
          rw [if_neg hnot]
        rw [hbs]
        simp only [List.reverse_append, List.reverse_cons, List.reverse_nil, List.nil_append,
          List.singleton_append, List.map_cons]
        cases d0 with
        | nil =>
          have := ih [if f5 then k else plen - k - 1] d (by omega) (by simp)
            (by
              intro b hb
              simp only [List.mem_singleton] at hb
              exact ⟨k, Nat.le_refl _, by omega, hb⟩)
          simpa using this
        | cons x xs =>
          have hxs : xs = [] := by
            cases xs with
            | nil => rfl
            | cons y ys => simp at hd0
          subst hxs
          rw [extendLeft_of_two _ _ _ _ _ _ _ _ (by simp)]
          constructor
          · rintro ⟨h, hl⟩
            simp only [Option.some.injEq] at h
            subst h
            simp at hl
          · rintro ⟨_, hl, h⟩
            subst h
            simp at hl
      · have hne' : ¬ pat.getD k 0 ≠ o.getD (pos - ohlen + k) 0 := fun hx => hne (fun hy => hx hy.symm)
        rw [if_neg hne, if_neg hne', List.append_nil]
        exact ih d0 d (by omega) hd0 (fun b hb => by
          obtain ⟨p, hp1, hp2, hp3⟩ := hmem b hb
          exact ⟨p, by omega, hp2, hp3⟩)

theorem sanityHalf_false (pat : List Nat) (hp : pat.length < 2 ^ 32 - 1) :
    sanityHalf pat false = pat.drop ((pat.length + 1) / 2) := by
  unfold sanityHalf
  have e1 : u32 pat.length = pat.length := u32_of_lt (by omega)
  have e2 : u32 (pat.length + 1) = pat.length + 1 := u32_of_lt (by omega)
  simp only [e1, Bool.false_eq_true, if_false, e2, List.take_length, Nat.shiftRight_one]

theorem reverse_of_length_le_one {α : Type} (l : List α) (h : l.length ≤ 1) : l.reverse = l := by
  cases l with
  | nil => rfl
  | cons x xs =>
    cases xs with
    | nil => rfl
    | cons y ys => simp at h

theorem sanityHitAt_spec (pat : List Nat) (patid : Nat) (fw allowExact : Bool) (i : Nat)
    (o : List Nat) (pos : Nat) (h : Hit) (hp : pat.length < 2 ^ 32 - 1)
    (hol : o.length < 2 ^ 32 - 1)
    (hfit : pos + (pat.length - (pat.length + 1) / 2) ≤ o.length) :
    sanityHitAt pat patid fw allowExact false i o pos = some h ↔
      (pat.length + 1) / 2 ≤ pos ∧
        (∀ p, p < pat.length → o.getD (pos - (pat.length + 1) / 2 + p) 0 ≠ 4) ∧
        ((leftMismatches pat o (pos - (pat.length + 1) / 2)).length = 1 ∨
          ((leftMismatches pat o (pos - (pat.length + 1) / 2)).length = 0 ∧
            allowExact = true)) ∧
        h = ⟨i, pos - (pat.length + 1) / 2, patid, fw,
          (leftMismatches pat o (pos - (pat.length + 1) / 2)).map (fivePrimeBit fw pat.length)⟩ := by
  have hhalf := sanityHalf_false pat hp
  have hhl : (sanityHalf pat false).length = pat.length - (pat.length + 1) / 2 := by
    rw [hhalf, List.length_drop]
  have e1 : u32 pat.length = pat.length := u32_of_lt (by omega)
  have e2 : u32 (pat.length - (pat.length + 1) / 2) = pat.length - (pat.length + 1) / 2 :=
    u32_of_lt (by omega)
  have e3 : u32OfInt ((pat.length : Int) - ((pat.length - (pat.length + 1) / 2 : Nat) : Int)) =
      (pat.length + 1) / 2 := by
    unfold u32OfInt; omega
  have e4 : ((true == fw) : Bool) = fw := by cases fw <;> rfl
  have e5 : ((0xffffffff : Int) - (pat.length : Int)) % 2 ^ 64 = 0xffffffff - (pat.length : Int) :=
    Int.emod_eq_of_lt (by omega) (by omega)
  have hspec := extendLeft_spec o pat pos ((pat.length + 1) / 2) pat.length fw
  unfold sanityHitAt
  simp only [hhl, e1, e2, e3, Bool.not_false, e4, Bool.false_eq_true, if_false, e5]
  by_cases hany : (List.range (pat.length - (pat.length + 1) / 2)).any
      (fun j => o.getD (j + pos) 0 == 4) = true
  · rw [if_pos hany]
    simp only [reduceCtorEq, false_iff, not_and]
    intro hge hN
    rw [List.any_eq_true] at hany
    obtain ⟨j, hj, hj4⟩ := hany
    rw [List.mem_range] at hj
    have := hN ((pat.length + 1) / 2 + j) (by omega)
    have hidx : pos - (pat.length + 1) / 2 + ((pat.length + 1) / 2 + j) = j + pos := by omega
    rw [hidx] at this
    exact absurd (by simpa using hj4) this
  · rw [if_neg hany]
    have hseed : ∀ p, (pat.length + 1) / 2 ≤ p → p < pat.length → (pat.length + 1) / 2 ≤ pos →
        o.getD (pos - (pat.length + 1) / 2 + p) 0 ≠ 4 := by
      intro p hp1 hp2 hge h4
      apply hany
      rw [List.any_eq_true]
      refine ⟨p - (pat.length + 1) / 2, by rw [List.mem_range]; omega, ?_⟩
      have hidx : p - (pat.length + 1) / 2 + pos = pos - (pat.length + 1) / 2 + p := by omega
      rw [hidx]
      simpa using h4
    by_cases hge : pos ≥ (pat.length + 1) / 2
    · rw [if_pos hge]
      have hsp := fun d => hspec hge (by omega) ((pat.length + 1) / 2) [] d (Nat.le_refl _)
        (by simp) (by simp)
      have f0 : u32OfInt ((pos : Int) - (((pat.length + 1) / 2 : Nat) : Int)) =
          pos - (pat.length + 1) / 2 := by
        unfold u32OfInt; omega
      have hguard : ((pos - (pat.length + 1) / 2 : Nat) : Int) <
          0xffffffff - (pat.length : Int) := by omega
      have hleft : (∀ p, p < pat.length → o.getD (pos - (pat.length + 1) / 2 + p) 0 ≠ 4) ↔
          ∀ p, p < (pat.length + 1) / 2 → o.getD (pos - (pat.length + 1) / 2 + p) 0 ≠ 4 := by
        constructor
        · intro hx p hp1; exact hx p (by omega)
        · intro hx p hp1
          by_cases hpl : p < (pat.length + 1) / 2
          · exact hx p hpl
          · exact hseed p (by omega) hp1 hge
      rw [hleft]
      have hfb : (fun p => if fw = true then p else pat.length - p - 1) =
          fivePrimeBit fw pat.length := by
        funext p; rfl
      cases hE : extendLeft o pat pos ((pat.length + 1) / 2) pat.length fw
          ((pat.length + 1) / 2) [] with
      | none =>
        simp only [reduceCtorEq, false_iff, not_and]
        intro _ hN hlen
        have hd := (hsp ((leftDiffs pat o (pos - (pat.length + 1) / 2)
          ((pat.length + 1) / 2)).reverse.map
            (fun p => if fw = true then p else pat.length - p - 1))).mpr
          ⟨hN, by
            simp only [List.length_map, List.length_reverse]
            unfold leftMismatches at hlen
            omega, by simp⟩
        rw [hE] at hd
        exact absurd hd.1 (by simp)
      | some diffs =>
        dsimp only
        rw [f0]
        by_cases hc : diffs.length = 0 ∧ allowExact = true ∨ diffs.length = 1
        · rw [if_pos hc, if_pos hguard]
          have hdl : diffs.length ≤ 1 := by omega
          obtain ⟨hN, _, hdiffs⟩ := (hsp diffs).mp ⟨hE, hdl⟩
          simp only [List.nil_append] at hdiffs
          have hML : (leftDiffs pat o (pos - (pat.length + 1) / 2)
              ((pat.length + 1) / 2)).length = diffs.length := by
            rw [hdiffs]; simp
          rw [reverse_of_length_le_one _ (by omega), hfb] at hdiffs
          unfold leftMismatches
          constructor
          · intro hx
            simp only [Option.some.injEq] at hx
            refine ⟨hge, hN, ?_, ?_⟩
            · rcases hc with ⟨h0, ha⟩ | h1
              · exact Or.inr ⟨by omega, ha⟩
              · exact Or.inl (by omega)
            · rw [← hx, hdiffs]
          · rintro ⟨_, _, _, hx⟩
            rw [hx, hdiffs]
        · rw [if_neg hc]
          simp only [reduceCtorEq, false_iff, not_and]
          intro _ hN hlen
          unfold leftMismatches at hlen
          have hd := (hsp ((leftDiffs pat o (pos - (pat.length + 1) / 2)
            ((pat.length + 1) / 2)).reverse.map
              (fun p => if fw = true then p else pat.length - p - 1))).mpr
            ⟨hN, by
              simp only [List.length_map, List.length_reverse]
              omega, by simp⟩
          rw [hE] at hd
          have hdd := hd.1
          simp only [Option.some.injEq] at hdd
          exfalso
          apply hc
          rw [hdd]
          simp only [List.length_map, List.length_reverse]
          rcases hlen with h1 | ⟨h0, ha⟩
          · exact Or.inr h1
          · exact Or.inl ⟨h0, ha⟩
    · rw [if_neg hge]
      dsimp only
      have hng : ¬ ((u32OfInt ((pos : Int) - (((pat.length + 1) / 2 : Nat) : Int)) : Nat) : Int) <
          0xffffffff - (pat.length : Int) := by
        unfold u32OfInt; omega
      rw [if_neg hng]
      constructor
      · intro hx
        split_ifs at hx
      · rintro ⟨hx, _⟩
        exact absurd hx hge

theorem mem_horspoolFind_iff (o half : List Nat) (pos : Nat) :
    pos ∈ horspoolFind o half ↔
      pos + half.length ≤ o.length ∧ (o.drop pos).take half.length = half := by
  unfold horspoolFind
  rw [List.mem_filter, List.mem_range, decide_eq_true_eq]
  constructor
  · rintro ⟨h1, h2⟩; exact ⟨by omega, h2⟩
  · rintro ⟨h1, h2⟩; exact ⟨by omega, h2⟩

theorem take_drop_eq_iff (o l : List Nat) (pos : Nat) (hfit : pos + l.length ≤ o.length) :
    (o.drop pos).take l.length = l ↔ ∀ j, j < l.length → l.getD j 0 = o.getD (pos + j) 0 := by
  constructor
  · intro h j hj
    rw [List.getD_eq_getElem?_getD, List.getD_eq_getElem?_getD]
    conv_lhs => rw [← h]
    rw [List.getElem?_take_of_lt hj, List.getElem?_drop]
  · intro h
    apply List.ext_getElem?
    intro j
    by_cases hj : j < l.length
    · rw [List.getElem?_take_of_lt hj, List.getElem?_drop]
      have := h j hj
      have hpj : pos + j < o.length := by omega
      rw [List.getD_eq_getElem?_getD, List.getD_eq_getElem?_getD,
        List.getElem?_eq_getElem hpj, List.getElem?_eq_getElem hj] at this
      simp only [Option.getD_some] at this
      rw [List.getElem?_eq_getElem hpj, List.getElem?_eq_getElem hj, this]
    · rw [List.getElem?_eq_none_iff.mpr (by simp; omega), List.getElem?_eq_none_iff.mpr (by omega)]

theorem nodup_filterMap_on {α β : Type} (f : α → Option β) (l : List α) (hl : l.Nodup)
    (h : ∀ a ∈ l, ∀ c ∈ l, ∀ b, f a = some b → f c = some b → a = c) :
    (l.filterMap f).Nodup := by
  induction l with
  | nil => simp
  | cons x xs ih =>
    rw [List.nodup_cons] at hl
    have ih1 := ih hl.2 (fun a ha c hc b => h a (List.mem_cons_of_mem _ ha) c
      (List.mem_cons_of_mem _ hc) b)
    cases hx : f x with
    | none => rw [List.filterMap_cons_none hx]; exact ih1
    | some b =>
      rw [List.filterMap_cons_some hx, List.nodup_cons]
      refine ⟨?_, ih1⟩
      intro hb
      rw [List.mem_filterMap] at hb
      obtain ⟨c, hc, hfc⟩ := hb
      have := h x (List.mem_cons_self _ _) c (List.mem_cons_of_mem _ hc) b hx hfc
      rw [this] at hl
      exact hl.1 hc

theorem getD_lt_of_mem (os : List (List Nat)) (i : Nat) (hi : i < os.length)
    (hos : ∀ o ∈ os, o.length < 2 ^ 32 - 1) : (os.getD i []).length < 2 ^ 32 - 1 := by
  rw [List.getD_eq_getElem?_getD, List.getElem?_eq_getElem hi]
  exact hos _ (List.getElem_mem _)

theorem mem_findSanityHits (pat : List Nat) (patid : Nat) (fw allowExact : Bool)
    (os : List (List Nat)) (hp : pat.length < 2 ^ 32 - 1)
    (hos : ∀ o ∈ os, o.length < 2 ^ 32 - 1) (h : Hit) :
    h ∈ findSanityHits pat patid fw os allowExact false ↔
      h.refId < os.length ∧ h.patId = patid ∧ h.fw = fw ∧
        SanityMatch pat (os.getD h.refId []) allowExact h.refOff ∧
        h.mms = (leftMismatches pat (os.getD h.refId []) h.refOff).map
          (fivePrimeBit fw pat.length) := by
  have hhalf := sanityHalf_false pat hp
  have hc : (pat.length + 1) / 2 ≤ pat.length := by omega
  have hhl : (sanityHalf pat false).length = pat.length - (pat.length + 1) / 2 := by
    rw [hhalf, List.length_drop]
  have hget : ∀ j, (pat.drop ((pat.length + 1) / 2)).getD j 0 =
      pat.getD ((pat.length + 1) / 2 + j) 0 := by
    intro j
    rw [List.getD_eq_getElem?_getD, List.getD_eq_getElem?_getD, List.getElem?_drop]
  unfold findSanityHits
  simp only [Bool.false_eq_true, if_false]
  rw [List.mem_flatMap]
  constructor
  · rintro ⟨i, hi, hh⟩
    rw [List.mem_range] at hi
    rw [List.mem_filterMap] at hh
    obtain ⟨pos, hpos, hs⟩ := hh
    have hol := getD_lt_of_mem os i hi hos
    rw [mem_horspoolFind_iff] at hpos
    obtain ⟨hfit, heq⟩ := hpos
    have hu : u32 pos = pos := u32_of_lt (by omega)
    rw [hu] at hs
    rw [hhl] at hfit
    rw [sanityHitAt_spec pat patid fw allowExact i _ pos h hp hol hfit] at hs
    obtain ⟨hge, hn, hcnt, rfl⟩ := hs
    refine ⟨hi, rfl, rfl, ⟨by simp only; omega, hn, ?_, hcnt⟩, rfl⟩
    intro p hp1 hp2
    have hfit2 : pos + (sanityHalf pat false).length ≤ (os.getD i []).length := by
      rw [hhl]; exact hfit
    have := (take_drop_eq_iff _ _ pos hfit2).mp heq (p - (pat.length + 1) / 2)
      (by rw [hhl]; omega)
    rw [hhalf, hget] at this
    have e1 : (pat.length + 1) / 2 + (p - (pat.length + 1) / 2) = p := by omega
    have e2 : pos + (p - (pat.length + 1) / 2) = pos - (pat.length + 1) / 2 + p := by omega
    rw [e1, e2] at this
    exact this
  · rintro ⟨hi, hpid, hfw, ⟨hfit, hn, hright, hcnt⟩, hmms⟩
    have hol := getD_lt_of_mem os _ hi hos
    refine ⟨h.refId, List.mem_range.mpr hi, ?_⟩
    rw [List.mem_filterMap]
    refine ⟨h.refOff + (pat.length + 1) / 2, ?_, ?_⟩
    · rw [mem_horspoolFind_iff]
      have hfit2 : h.refOff + (pat.length + 1) / 2 + (sanityHalf pat false).length ≤
          (os.getD h.refId []).length := by
        rw [hhl]; omega
      refine ⟨hfit2, ?_⟩
      rw [take_drop_eq_iff _ _ _ hfit2]
      intro j hj
      rw [hhl] at hj
      rw [hhalf, hget, hright _ (by omega) (by omega)]
      congr 1
      omega
    · have hu : u32 (h.refOff + (pat.length + 1) / 2) = h.refOff + (pat.length + 1) / 2 :=
        u32_of_lt (by omega)
      rw [hu, sanityHitAt_spec pat patid fw allowExact h.refId _ _ h hp hol (by omega)]
      have e : h.refOff + (pat.length + 1) / 2 - (pat.length + 1) / 2 = h.refOff := by omega
      rw [e]
      refine ⟨by omega, hn, hcnt, ?_⟩
      cases h
      simp only at hpid hfw hmms
      rw [hpid, hfw, hmms]

theorem nodup_findSanityHits (pat : List Nat) (patid : Nat) (fw allowExact : Bool)
    (os : List (List Nat)) (hp : pat.length < 2 ^ 32 - 1)
    (hos : ∀ o ∈ os, o.length < 2 ^ 32 - 1) :
    (findSanityHits pat patid fw os allowExact false).Nodup := by
  have hhl : (sanityHalf pat false).length = pat.length - (pat.length + 1) / 2 := by
    rw [sanityHalf_false pat hp, List.length_drop]
  have key : ∀ i, i < os.length → ∀ pos, pos ∈ horspoolFind (os.getD i []) (sanityHalf pat false) →
      ∀ h, sanityHitAt pat patid fw allowExact false i (os.getD i []) (u32 pos) = some h →
        h.refId = i ∧ (pat.length + 1) / 2 ≤ pos ∧ h.refOff = pos - (pat.length + 1) / 2 := by
    intro i hi pos hpos h hs
    have hol := getD_lt_of_mem os i hi hos
    rw [mem_horspoolFind_iff, hhl] at hpos
    have hu : u32 pos = pos := u32_of_lt (by omega)
    rw [hu, sanityHitAt_spec pat patid fw allowExact i _ pos h hp hol hpos.1] at hs
    obtain ⟨hge, -, -, rfl⟩ := hs
    exact ⟨rfl, hge, rfl⟩
  unfold findSanityHits
  simp only [Bool.false_eq_true, if_false]
  rw [List.nodup_flatMap]
  constructor
  · intro i hi
    rw [List.mem_range] at hi
    apply nodup_filterMap_on
    · exact List.Nodup.filter _ (List.nodup_range _)
    · intro a ha c hc b hab hcb
      have h1 := key i hi a ha b hab
      have h2 := key i hi c hc b hcb
      omega
  · refine List.Pairwise.imp_of_mem ?_ (List.nodup_range os.length)
    intro a b ha hb hab
    rw [List.mem_range] at ha hb
    show List.Disjoint _ _
    intro h h1 h2
    rw [List.mem_filterMap] at h1 h2
    obtain ⟨p1, hp1, hs1⟩ := h1
    obtain ⟨p2, hp2, hs2⟩ := h2
    have k1 := key a ha p1 hp1 h hs1
    have k2 := key b hb p2 hp2 h hs2
    exact hab (k1.1.symm.trans k2.1)

theorem sanity_hits_fit_untransposed (pat : List Nat) (patid : Nat) (fw allowExact : Bool)
    (os : List (List Nat)) (hp : pat.length < 2 ^ 32 - 1)
    (hos : ∀ o ∈ os, o.length < 2 ^ 32 - 1) :
    ∀ h ∈ findSanityHits pat patid fw os allowExact false,
      h.refOff + pat.length ≤ (os.getD h.refId []).length :=
  fun h hh => ((mem_findSanityHits pat patid fw allowExact os hp hos h).mp hh).2.2.2.1.1

theorem mem_leftMismatches_of_match (pat o : List Nat) (allowExact : Bool) (off p : Nat)
    (hm : SanityMatch pat o allowExact off) :
    p ∈ leftMismatches pat o off ↔ p < pat.length ∧ pat.getD p 0 ≠ o.getD (off + p) 0 := by
  unfold leftMismatches leftDiffs
  rw [List.mem_filter, List.mem_range, decide_eq_true_eq]
  constructor
  · rintro ⟨h1, h2⟩
    exact ⟨by omega, h2⟩
  · rintro ⟨h1, h2⟩
    refine ⟨?_, h2⟩
    by_contra hge
    exact h2 (hm.2.2.1 p (by omega) h1)

/-- Claim C26: with `transpose` off, a pattern shorter than `2^32 - 1` (every
`plen ≤ max_read_bp` is) and references shorter than `2^32 - 1`,
`findSanityHits` records a hit at `(i, off)` if and only if `i` is a reference
and the pattern matches there in the sense of `SanityMatch` (it fits, the window
holds no `N`, the right `floor(plen/2)` bases agree, the left `ceil(plen/2)`
bases differ in exactly one position, or in none when `allowExact` is set);
every recorded hit carries the read's id and strand, and its bitmap holds
exactly the bits of the positions where pattern and window differ, counted from
the 5' end; and no `(i, off)` is recorded twice. -/
theorem sanity_hits_characterised (pat : List Nat) (patid : Nat) (fw allowExact : Bool)
    (os : List (List Nat)) (hp : pat.length < 2 ^ 32 - 1)
    (hos : ∀ o ∈ os, o.length < 2 ^ 32 - 1) :
    (∀ i off, (∃ h ∈ findSanityHits pat patid fw os allowExact false,
        h.refId = i ∧ h.refOff = off) ↔
      i < os.length ∧ SanityMatch pat (os.getD i []) allowExact off) ∧
    (∀ h ∈ findSanityHits pat patid fw os allowExact false,
      h.patId = patid ∧ h.fw = fw ∧
        h.mms = (leftMismatches pat (os.getD h.refId []) h.refOff).map
          (fivePrimeBit fw pat.length) ∧
        ∀ b, b ∈ h.mms ↔ ∃ p, p < pat.length ∧
          pat.getD p 0 ≠ (os.getD h.refId []).getD (h.refOff + p) 0 ∧
          b = fivePrimeBit fw pat.length p) ∧
    ((findSanityHits pat patid fw os allowExact false).map
      fun h => (h.refId, h.refOff)).Nodup := by
  refine ⟨?_, ?_, ?_⟩
  · intro i off
    constructor
    · rintro ⟨h, hh, rfl, rfl⟩
      have := (mem_findSanityHits pat patid fw allowExact os hp hos h).mp hh
      exact ⟨this.1, this.2.2.2.1⟩
    · rintro ⟨hi, hm⟩
      exact ⟨⟨i, off, patid, fw,
        (leftMismatches pat (os.getD i []) off).map (fivePrimeBit fw pat.length)⟩,
        (mem_findSanityHits pat patid fw allowExact os hp hos _).mpr ⟨hi, rfl, rfl, hm, rfl⟩,
        rfl, rfl⟩
  · intro h hh
    obtain ⟨-, h1, h2, hm, h3⟩ := (mem_findSanityHits pat patid fw allowExact os hp hos h).mp hh
    refine ⟨h1, h2, h3, ?_⟩
    intro b
    rw [h3, List.mem_map]
    constructor
    · rintro ⟨p, hp1, rfl⟩
      rw [mem_leftMismatches_of_match pat _ allowExact _ p hm] at hp1
      exact ⟨p, hp1.1, hp1.2, rfl⟩
    · rintro ⟨p, hp1, hp2, rfl⟩
      exact ⟨p, (mem_leftMismatches_of_match pat _ allowExact _ p hm).mpr ⟨hp1, hp2⟩, rfl⟩
  · refine List.Nodup.map_on ?_ (nodup_findSanityHits pat patid fw allowExact os hp hos)
    intro x hx y hy hxy
    obtain ⟨-, x1, x2, -, x3⟩ := (mem_findSanityHits pat patid fw allowExact os hp hos x).mp hx
    obtain ⟨-, y1, y2, -, y3⟩ := (mem_findSanityHits pat patid fw allowExact os hp hos y).mp hy
    simp only [Prod.mk.injEq] at hxy
    cases x
    cases y
    simp only at hxy x1 x2 x3 y1 y2 y3
    obtain ⟨rfl, rfl⟩ := hxy
    rw [x1, x2, x3, y1, y2, y3]

/-- Witness for C26: `GATTACAT` against `CCGCTTACATCC` matches at offset 2 with
the one difference at position 1, and that is the one hit recorded. -/
theorem sanity_hits_characterised_witness :
    ((dna5 "GATTACAT").length < 2 ^ 32 - 1 ∧
      ∀ o ∈ [dna5 "CCGCTTACATCC"], o.length < 2 ^ 32 - 1) ∧
      ((∃ h ∈ findSanityHits (dna5 "GATTACAT") 0 true [dna5 "CCGCTTACATCC"] false false,
          h.refId = 0 ∧ h.refOff = 2) ↔
        0 < [dna5 "CCGCTTACATCC"].length ∧
          SanityMatch (dna5 "GATTACAT") ([dna5 "CCGCTTACATCC"].getD 0 []) false 2) ∧
      findSanityHits (dna5 "GATTACAT") 0 true [dna5 "CCGCTTACATCC"] false false =
        [⟨0, 2, 0, true, [1]⟩] :=
  ⟨⟨by decide, by decide⟩,
    (sanity_hits_characterised (dna5 "GATTACAT") 0 true false [dna5 "CCGCTTACATCC"]
      (by decide) (by decide)).1 0 2, by decide⟩

/-- C24 fails as stated, for `allowExact` and `transpose` both set.  For the
pattern `ACGT` and the one reference `AATG` the seed `GT` occurs at position 0
of the reversed reference, left of which there is no room for the other half; no
extension is made, the empty bitmap passes as an exact hit, and the two 32-bit
wrap-arounds of the offset computation cancel, so that the guard
`off < 0xffffffff - length(pat)` lets the hit `(0, 2)` through: it ends at 6 in
a reference of length 4.  With `allowExact` off the same call records nothing. -/
theorem sanity_hit_off_end :
    findSanityHits (dna5 "ACGT") 0 true [dna5 "AATG"] true true = [⟨0, 2, 0, true, []⟩] ∧
      ¬ (2 + (dna5 "ACGT").length ≤ ([dna5 "AATG"].getD 0 []).length) ∧
      findSanityHits (dna5 "ACGT") 0 true [dna5 "AATG"] false true = [] := by
  decide

theorem sanityHitAt_count (pat : List Nat) (patid : Nat) (fw allowExact transpose : Bool)
    (i : Nat) (o : List Nat) (pos : Nat) (h : Hit)
    (hs : sanityHitAt pat patid fw allowExact transpose i o pos = some h) :
    (h.mms.length = 0 ∧ allowExact = true) ∨ h.mms.length = 1 := by
  unfold sanityHitAt at hs
  dsimp only at hs
  by_cases hany : (List.range (sanityHalf pat transpose).length).any
      (fun j => o.getD (j + pos) 0 == 4) = true
  · rw [if_pos hany] at hs
    exact absurd hs (by simp)
  · rw [if_neg hany] at hs
    generalize (if pos ≥ u32OfInt ((u32 pat.length : Int) - (u32 (sanityHalf pat transpose).length : Nat))
      then extendLeft o pat pos
        (u32OfInt ((u32 pat.length : Int) - (u32 (sanityHalf pat transpose).length : Nat)))
        (u32 pat.length) ((!transpose) == fw)
        (u32OfInt ((u32 pat.length : Int) - (u32 (sanityHalf pat transpose).length : Nat))) []
      else some []) = e at hs
    cases e with
    | none => exact absurd hs (by simp)
    | some diffs =>
      dsimp only at hs
      by_cases hc : diffs.length = 0 ∧ allowExact = true ∨ diffs.length = 1
      · rw [if_pos hc] at hs
        split_ifs at hs
        all_goals
          simp only [Option.some.injEq] at hs
          subst hs
          exact hc
      · rw [if_neg hc] at hs
        exact absurd hs (by simp)

/-- C24 as amended: for a pattern and references shorter than `2^32 - 1` and
every combination of the flags other than `allowExact` and `transpose` both set
(the callers of `findSanityHits` pass `allowExact` without `transpose` in the
first phase of the 1-mismatch search and `transpose` without `allowExact` in the
second), every hit that `findSanityHits` records names one of the references and
lies entirely inside it: `off + length(pat) <= length(os[i])`. -/
theorem sanity_hits_inside (pat : List Nat) (patid : Nat) (fw allowExact transpose : Bool)
    (os : List (List Nat)) (hp : pat.length < 2 ^ 32 - 1)
    (hos : ∀ o ∈ os, o.length < 2 ^ 32 - 1)
    (hflags : ¬ (allowExact = true ∧ transpose = true)) :
    ∀ h ∈ findSanityHits pat patid fw os allowExact transpose,
      h.refId < os.length ∧ h.refOff + pat.length ≤ (os.getD h.refId []).length := by
  intro h hh
  cases transpose with
  | false =>
    have := (mem_findSanityHits pat patid fw allowExact os hp hos h).mp hh
    exact ⟨this.1, this.2.2.2.1.1⟩
  | true =>
    have hae : allowExact = false := by
      cases allowExact
      · rfl
      · exact absurd ⟨rfl, rfl⟩ hflags
    subst hae
    unfold findSanityHits at hh
    rw [List.mem_flatMap] at hh
    obtain ⟨i, hi, hh⟩ := hh
    rw [List.mem_filterMap] at hh
    obtain ⟨pos, hpos, hs⟩ := hh
    rw [List.mem_range] at hi
    simp only [if_true] at hpos hs
    have hl := getD_lt_of_mem os i hi hos
    have hfit := mem_horspoolFind _ _ _ hpos
    rw [List.length_reverse] at hfit
    have hu : u32 pos = pos := u32_of_lt (by omega)
    rw [hu] at hs
    have hcnt := sanityHitAt_count pat patid fw false true i _ pos h hs
    obtain ⟨hid, hbits⟩ := sanityHitAt_bits pat patid fw false true i _ pos h (by omega)
      (by rw [List.length_reverse]; omega) (by rw [List.length_reverse]; exact hfit) hs
    have hne : h.mms ≠ [] := by
      rcases hcnt with ⟨-, hx⟩ | h1
      · exact absurd hx (by simp)
      · intro hnil
        rw [hnil] at h1
        simp at h1
    obtain ⟨b, hb⟩ := List.exists_mem_of_ne_nil _ hne
    obtain ⟨p, w, -, hw, hoff, -, -⟩ := hbits b hb
    rw [List.length_reverse] at hw hoff
    simp only [if_true] at hoff
    rw [hid]
    exact ⟨hi, by omega⟩

/-- Witness for the amended C24: the two calls the 1-mismatch search makes, on
the example of C13 and its reversed read. -/
theorem sanity_hits_inside_witness :
    ((dna5 "GATCGATCGATAGATC").reverse.length < 2 ^ 32 - 1 ∧
      (∀ o ∈ [dna5 "AAAAGATCGATCGATCGATCAAAA"], o.length < 2 ^ 32 - 1) ∧
      ¬ (false = true ∧ true = true)) ∧
      ((⟨0, 4, 0, true, [11]⟩ : Hit) ∈
        findSanityHits (dna5 "GATCGATCGATAGATC").reverse 0 true
          [dna5 "AAAAGATCGATCGATCGATCAAAA"] false true) ∧
      ((⟨0, 4, 0, true, [11]⟩ : Hit).refId < [dna5 "AAAAGATCGATCGATCGATCAAAA"].length ∧
        (⟨0, 4, 0, true, [11]⟩ : Hit).refOff + (dna5 "GATCGATCGATAGATC").reverse.length ≤
          ([dna5 "AAAAGATCGATCGATCGATCAAAA"].getD (⟨0, 4, 0, true, [11]⟩ : Hit).refId
            []).length) :=
  ⟨⟨by decide, by decide, by decide⟩, by decide,
    sanity_hits_inside (dna5 "GATCGATCGATAGATC").reverse 0 true false true
      [dna5 "AAAAGATCGATCGATCGATCAAAA"] (by decide) (by decide) (by decide) _ (by decide)⟩

theorem liveThreads_append (a b : List ThreadCall) (live : List Nat) :
    liveThreads (a ++ b) live = liveThreads b (liveThreads a live) := by
  induction a generalizing live with
  | nil => rfl
  | cons c cs ih => cases c <;> exact ih _

theorem liveThreads_creates (k : Nat) (as live : List Nat) :
    liveThreads (as.map fun a => ThreadCall.create k a) live = live ++ as := by
  induction as generalizing live with
  | nil => simp [liveThreads]
  | cons a as ih => simp only [List.map_cons, liveThreads, ih, List.append_assoc,
      List.singleton_append]

theorem liveThreads_joins (k : Nat) (as live : List Nat) :
    liveThreads (as.map fun a => ThreadCall.join k a) (as ++ live) = live := by
  induction as with
  | nil => simp [liveThreads]
  | cons a as ih =>
    simp only [List.map_cons, liveThreads, List.cons_append, List.erase_cons_head, ih]

/-- The block of a phase written over the list of thread numbers. -/
theorem phaseThreads_eq (pthreads : Bool) (nthreads : Int) (k : Nat) :
    phaseThreads pthreads nthreads k =
      ((if pthreads then (List.range (nthreads - 1).toNat).map (fun i => i + 1) else []).map
          fun a => ThreadCall.create k a) ++
        [ThreadCall.call k 0] ++
        ((if pthreads then (List.range (nthreads - 1).toNat).map (fun i => i + 1) else []).map
          fun a => ThreadCall.join k a) := by
  unfold phaseThreads
  cases pthreads <;> simp [List.map_map, Function.comp_def]

theorem liveThreads_phaseThreads (pthreads : Bool) (nthreads : Int) (k : Nat) :
    liveThreads (phaseThreads pthreads nthreads k) [] = [] := by
  rw [phaseThreads_eq, liveThreads_append, liveThreads_append, liveThreads_creates]
  simp only [List.nil_append, liveThreads]
  have := liveThreads_joins k
    (if pthreads then (List.range (nthreads - 1).toNat).map (fun i => i + 1) else []) []
  rw [List.append_nil] at this
  exact this

theorem filterMap_some_succ (l : List Nat) :
    l.filterMap (fun x => some (x + 1)) = l.map fun i => i + 1 := by
  induction l with
  | nil => rfl
  | cons a as ih => simp only [List.filterMap_cons, ih, List.map_cons]

theorem spawnedWorkers_phaseThreads (pthreads : Bool) (nthreads : Int) (j k : Nat) :
    spawnedWorkers (phaseThreads pthreads nthreads j) k =
      if j = k ∧ pthreads = true then (List.range (nthreads - 1).toNat).map (fun i => i + 1)
      else [] := by
  unfold spawnedWorkers phaseThreads
  cases pthreads
  · simp
  · by_cases h : j = k
    · simp [h, List.filterMap_append, List.filterMap_map, Function.comp_def,
        filterMap_some_succ]
    · simp [h, List.filterMap_append, List.filterMap_map, Function.comp_def]

theorem phaseWorkers_phaseThreads (pthreads : Bool) (nthreads : Int) (j k : Nat) :
    phaseWorkers (phaseThreads pthreads nthreads j) k =
      if j = k then spawnedWorkers (phaseThreads pthreads nthreads j) k ++ [0] else [] := by
  rw [spawnedWorkers_phaseThreads]
  unfold phaseWorkers phaseThreads
  cases pthreads
  · by_cases h : j = k
    · simp [h]
    · simp [h]
  · by_cases h : j = k
    · simp [h, List.filterMap_append, List.filterMap_map, Function.comp_def,
        filterMap_some_succ]
    · simp [h, List.filterMap_append, List.filterMap_map, Function.comp_def]

theorem phase_of_mem_phaseThreads (pthreads : Bool) (nthreads : Int) (k : Nat) :
    ∀ c ∈ phaseThreads pthreads nthreads k, c.phase = k := by
  intro c hc
  unfold phaseThreads at hc
  cases pthreads
  · simp at hc
    subst hc
    rfl
  · simp at hc
    rcases hc with ⟨i, _, rfl⟩ | rfl | ⟨i, _, rfl⟩ <;> rfl

theorem callsThrough_of_le (cs : List ThreadCall) (k : Nat) (h : ∀ c ∈ cs, c.phase ≤ k) :
    callsThrough cs k = cs := by
  unfold callsThrough
  rw [List.takeWhile_eq_self_iff]
  intro c hc
  exact decide_eq_true (h c hc)

theorem callsThrough_append (a b : List ThreadCall) (k : Nat) (ha : ∀ c ∈ a, c.phase ≤ k)
    (hb : ∀ c, b.head? = some c → k < c.phase) : callsThrough (a ++ b) k = a := by
  unfold callsThrough
  rw [List.takeWhile_append_of_pos (fun c hc => decide_eq_true (ha c hc))]
  cases b with
  | nil => simp
  | cons c cs =>
    have := hb c rfl
    rw [List.takeWhile_cons_of_neg (by simpa using this), List.append_nil]

theorem head_phaseThreads (pthreads : Bool) (nthreads : Int) (k : Nat) (c : ThreadCall)
    (h : (phaseThreads pthreads nthreads k).head? = some c) : c.phase = k :=
  phase_of_mem_phaseThreads pthreads nthreads k c (List.mem_of_mem_head? h)

theorem workerPool_phaseThreads (nthreads : Int) (k : Nat) (h : 1 ≤ nthreads) :
    WorkerPool (phaseThreads true nthreads k) nthreads.toNat k := by
  have e : (nthreads - 1).toNat = nthreads.toNat - 1 := by omega
  refine ⟨?_, ?_, ?_, ?_⟩
  · rw [spawnedWorkers_phaseThreads, if_pos ⟨rfl, rfl⟩, e]
  · rw [phaseWorkers_phaseThreads, if_pos rfl]
  · rw [phaseWorkers_phaseThreads, if_pos rfl, spawnedWorkers_phaseThreads, if_pos ⟨rfl, rfl⟩]
    simp only [List.length_append, List.length_map, List.length_range, List.length_singleton]
    omega
  · rw [callsThrough_of_le _ _ (fun c hc =>
      le_of_eq (phase_of_mem_phaseThreads true nthreads k c hc))]
    exact liveThreads_phaseThreads true nthreads k

theorem spawnedWorkers_append (a b : List ThreadCall) (k : Nat) :
    spawnedWorkers (a ++ b) k = spawnedWorkers a k ++ spawnedWorkers b k := by
  unfold spawnedWorkers
  rw [List.filterMap_append]

theorem phaseWorkers_append (a b : List ThreadCall) (k : Nat) :
    phaseWorkers (a ++ b) k = phaseWorkers a k ++ phaseWorkers b k := by
  unfold phaseWorkers
  rw [List.filterMap_append]

theorem phaseThreads_false (nthreads : Int) (k : Nat) :
    phaseThreads false nthreads k = [ThreadCall.call k 0] := by
  simp [phaseThreads]

theorem workerPool_mismatch (nthreads : Int) (h : 1 ≤ nthreads) :
    WorkerPool (phaseThreads true nthreads 1 ++ phaseThreads true nthreads 2) nthreads.toNat 1 ∧
      WorkerPool (phaseThreads true nthreads 1 ++ phaseThreads true nthreads 2)
        nthreads.toNat 2 := by
  have e : (nthreads - 1).toNat = nthreads.toNat - 1 := by omega
  have h12 : ¬ ((1 : Nat) = 2) := by decide
  have h21 : ¬ ((2 : Nat) = 1) := by decide
  constructor
  · refine ⟨?_, ?_, ?_, ?_⟩
    · rw [spawnedWorkers_append, spawnedWorkers_phaseThreads, spawnedWorkers_phaseThreads,
        if_pos ⟨rfl, rfl⟩, if_neg (fun hx => h21 hx.1), List.append_nil, e]
    · rw [phaseWorkers_append, phaseWorkers_phaseThreads, phaseWorkers_phaseThreads,
        spawnedWorkers_append, if_pos rfl, if_neg h21, List.append_nil,
        spawnedWorkers_phaseThreads true nthreads 2 1, if_neg (fun hx => h21 hx.1),
        List.append_nil]
    · rw [phaseWorkers_append, phaseWorkers_phaseThreads, phaseWorkers_phaseThreads,
        if_pos rfl, if_neg h21, List.append_nil, spawnedWorkers_phaseThreads,
        if_pos ⟨rfl, rfl⟩]
      simp only [List.length_append, List.length_map, List.length_range, List.length_singleton]
      omega
    · rw [callsThrough_append _ _ 1
        (fun c hc => le_of_eq (phase_of_mem_phaseThreads true nthreads 1 c hc))
        (fun c hc => by rw [head_phaseThreads true nthreads 2 c hc]; decide)]
      exact liveThreads_phaseThreads true nthreads 1
  · refine ⟨?_, ?_, ?_, ?_⟩
    · rw [spawnedWorkers_append, spawnedWorkers_phaseThreads, spawnedWorkers_phaseThreads,
        if_neg (fun hx => h12 hx.1), if_pos ⟨rfl, rfl⟩, List.nil_append, e]
    · rw [phaseWorkers_append, phaseWorkers_phaseThreads, phaseWorkers_phaseThreads,
        spawnedWorkers_append, if_pos rfl, if_neg h12, List.nil_append,
        spawnedWorkers_phaseThreads true nthreads 1 2, if_neg (fun hx => h12 hx.1),
        List.nil_append]
    · rw [phaseWorkers_append, phaseWorkers_phaseThreads, phaseWorkers_phaseThreads,
        if_pos rfl, if_neg h12, List.nil_append, spawnedWorkers_phaseThreads,
        if_pos ⟨rfl, rfl⟩]
      simp only [List.length_append, List.length_map, List.length_range, List.length_singleton]
      omega
    · rw [callsThrough_of_le _ _ (fun c hc => by
        rcases List.mem_append.mp hc with h1 | h2
        · rw [phase_of_mem_phaseThreads true nthreads 1 c h1]; decide
        · rw [phase_of_mem_phaseThreads true nthreads 2 c h2]),
        liveThreads_append, liveThreads_phaseThreads]
      exact liveThreads_phaseThreads true nthreads 2

/-- In a build with `BOWTIE_PTHREADS` and for `nthreads >= 1`, the one phase of
`exactSearch` and each of the two phases of `mismatchSearch` has its reads
processed by `nthreads` workers, `nthreads - 1` created threads and the calling
thread as worker 0, every created thread being joined before the next phase
starts. -/
theorem workerPool_siblings (nthreads : Int) (h : 1 ≤ nthreads) :
    (∃ cs, exactSearchThreads true nthreads = some cs ∧ WorkerPool cs nthreads.toNat 1) ∧
      ∃ cs, mismatchSearchThreads true nthreads = some cs ∧
        WorkerPool cs nthreads.toNat 1 ∧ WorkerPool cs nthreads.toNat 2 := by
  have ha : threadArrayAllocated true nthreads = true := by
    simp only [threadArrayAllocated, Bool.not_true, Bool.false_or, decide_eq_true_eq]
    omega
  refine ⟨⟨_, by rw [exactSearchThreads, if_pos ha], workerPool_phaseThreads nthreads 1 h⟩,
    ⟨_, by rw [mismatchSearchThreads, if_pos ha], workerPool_mismatch nthreads h⟩⟩

/-- C25 at the failing input: run with `-p 4` in a build with `BOWTIE_PTHREADS`,
`twoOrThreeMismatchSearch` (`-v 2`) and `seededQualCutoffSearch` (the default
mode) create no thread: the calling thread alone runs the read loop of each
phase, so a phase has one worker and not four.  The sibling searches
`exactSearch` and `mismatchSearch` do create three threads per phase and join
them before the next phase. -/
theorem single_worker_counterexample :
    (parseOptions [Opt.threads 4, Opt.v 2]).map Options.nthreads = some 4 ∧
      twoOrThreeMismatchSearchThreads true 4 =
        [ThreadCall.loop 1, ThreadCall.loop 2, ThreadCall.loop 3] ∧
      spawnedWorkers (twoOrThreeMismatchSearchThreads true 4) 1 = [] ∧
      phaseWorkers (twoOrThreeMismatchSearchThreads true 4) 1 = [0] ∧
      ¬ WorkerPool (twoOrThreeMismatchSearchThreads true 4) 4 1 ∧
      spawnedWorkers (seededQualCutoffSearchThreads true 4 2) 1 = [] ∧
      phaseWorkers (seededQualCutoffSearchThreads true 4 2) 1 = [0] ∧
      ¬ WorkerPool (seededQualCutoffSearchThreads true 4 2) 4 1 ∧
      exactSearchThreads true 4 =
        some [ThreadCall.create 1 1, ThreadCall.create 1 2, ThreadCall.create 1 3,
          ThreadCall.call 1 0, ThreadCall.join 1 1, ThreadCall.join 1 2, ThreadCall.join 1 3] ∧
      (mismatchSearchThreads true 4).map (fun cs => phaseWorkers cs 2) = some [1, 2, 3, 0] := by
  decide
end Bowtie
